import Mathlib

/-!
# BTCUSD dashboard: indicator library and prediction synthesizer

A shallow embedding of the analytical functions of `script.js` and
`ai-helpers.js`, followed by the properties established about them.

Number model.  A finite JavaScript number is a rational (`ℚ`).  The definitions
come in two layers.  The exact layer computes without rounding; it carries the
properties that do not depend on the rounding of IEEE doubles (comparisons,
integer scores, array shapes, bounds that rounding preserves).  The
double-precision layer (names ending in `_fl`) repeats the functions whose
stated properties do depend on it and rounds the result of every arithmetic
operation with `roundDouble`, the rounding to the nearest double; overflow,
subnormal numbers and the sign of zero are not represented.  Where the source can
produce or compare a non-finite value the embedding uses `JSNum`
(finite, `+Infinity`, `-Infinity`, `NaN`; `undefined` behaves as `NaN` in every
numeric context that occurs).  Array slots that hold `undefined` are `none`.
Periods are natural numbers; every caller passes a positive literal
(9, 12, 14, 20, 21, 26, ...), and the statements below assume `1 ≤ period`.

Environment.  The built-ins whose values are not rational computations are
parameters: `random : ℕ → ℚ` gives the successive draws of `Math.random`,
`toFixed : JSNum → ℕ → String` is the number formatting, and `sqrt : ℚ → ℚ` is
`Math.sqrt` on finite non-negative numbers.  The global `currentTimeframe` is a
parameter as well, and a thrown exception is the result `none`.
-/

namespace BTCUSD

/-! ## Numbers -/

/-- A JavaScript number: a finite value, one of the two infinities, or `NaN`. -/
inductive JSNum where
  | fin (q : ℚ)
  | posInf
  | negInf
  | nan
  deriving DecidableEq

namespace JSNum

/-- The JavaScript comparison `x < y`: false as soon as one side is `NaN`. -/
def lt : JSNum → JSNum → Bool
  | fin a, fin b => decide (a < b)
  | fin _, posInf => true
  | negInf, fin _ => true
  | negInf, posInf => true
  | _, _ => false

/-- The JavaScript comparison `x > y`. -/
def gt (x y : JSNum) : Bool := lt y x

/-- The JavaScript subtraction `x - y`. -/
def sub : JSNum → JSNum → JSNum
  | fin a, fin b => fin (a - b)
  | fin _, posInf => negInf
  | fin _, negInf => posInf
  | posInf, fin _ => posInf
  | posInf, negInf => posInf
  | negInf, fin _ => negInf
  | negInf, posInf => negInf
  | _, _ => nan

/-- The JavaScript division `x / y` (a zero divisor is taken as `+0`). -/
def div : JSNum → JSNum → JSNum
  | fin a, fin b =>
      if b = 0 then (if 0 < a then posInf else if a < 0 then negInf else nan)
      else fin (a / b)
  | fin _, posInf => fin 0
  | fin _, negInf => fin 0
  | posInf, fin b => if b < 0 then negInf else posInf
  | negInf, fin b => if b < 0 then posInf else negInf
  | _, _ => nan

/-- The JavaScript multiplication `x * y`. -/
def mul : JSNum → JSNum → JSNum
  | fin a, fin b => fin (a * b)
  | fin a, posInf => if 0 < a then posInf else if a < 0 then negInf else nan
  | fin a, negInf => if 0 < a then negInf else if a < 0 then posInf else nan
  | posInf, fin b => if 0 < b then posInf else if b < 0 then negInf else nan
  | negInf, fin b => if 0 < b then negInf else if b < 0 then posInf else nan
  | posInf, posInf => posInf
  | posInf, negInf => negInf
  | negInf, posInf => negInf
  | negInf, negInf => posInf
  | _, _ => nan

/-- The JavaScript addition `x + y`. -/
def add : JSNum → JSNum → JSNum
  | fin a, fin b => fin (a + b)
  | fin _, posInf => posInf
  | fin _, negInf => negInf
  | posInf, fin _ => posInf
  | posInf, posInf => posInf
  | negInf, fin _ => negInf
  | negInf, negInf => negInf
  | _, _ => nan

/-- The call `Math.abs(x)`. -/
def abs : JSNum → JSNum
  | fin a => fin |a|
  | posInf => posInf
  | negInf => posInf
  | nan => nan

/-- The call `Math.min(x, y)`: `NaN` as soon as one argument is `NaN`. -/
def min : JSNum → JSNum → JSNum
  | nan, _ => nan
  | _, nan => nan
  | negInf, _ => negInf
  | _, negInf => negInf
  | posInf, y => y
  | x, posInf => x
  | fin a, fin b => fin (Min.min a b)

/-- The call `Math.max(x, y)`: `NaN` as soon as one argument is `NaN`. -/
def max : JSNum → JSNum → JSNum
  | nan, _ => nan
  | _, nan => nan
  | posInf, _ => posInf
  | _, posInf => posInf
  | negInf, y => y
  | x, negInf => x
  | fin a, fin b => fin (Max.max a b)

/-- The unary minus `-x`. -/
def neg : JSNum → JSNum
  | fin a => fin (-a)
  | posInf => negInf
  | negInf => posInf
  | nan => nan

/-- The expression `x || y` for a number `x`: `0` and `NaN` are falsy. -/
def orElse : JSNum → JSNum → JSNum
  | fin a, y => if a = 0 then y else fin a
  | nan, y => y
  | x, _ => x

end JSNum

/-! ## Data model -/

/-- One OHLCV candle; `volume` is optional in the feed. -/
structure Candle where
  time : Int
  open_ : ℚ
  high : ℚ
  low : ℚ
  close : ℚ
  volume : Option ℚ

/-- The labels `'bullish'`, `'bearish'`, `'neutral'`. -/
inductive TrendLabel where
  | bullish
  | bearish
  | neutral
  deriving DecidableEq

/-- The labels `'uptrend'`, `'downtrend'`, `'neutral'` of the market structure. -/
inductive StructureTrend where
  | uptrend
  | downtrend
  | neutral
  deriving DecidableEq

/-- Result record of `calculateMACD`. -/
structure MACD where
  value : JSNum
  signal : TrendLabel

/-- Result record of `calculateStochRSI`. -/
structure StochRSI where
  k : JSNum
  d : JSNum

/-- Result record of `calculateBollingerBands`. -/
structure BBands where
  upper : JSNum
  middle : JSNum
  lower : JSNum

/-- The record returned by `calculateAdvancedIndicators`. -/
structure Indicators where
  ema9 : JSNum
  ema21 : JSNum
  ema50 : JSNum
  ema100 : JSNum
  ema200 : JSNum
  sma20 : JSNum
  sma50 : JSNum
  sma200 : JSNum
  rsi : JSNum
  rsi7 : JSNum
  macd : MACD
  stochRSI : StochRSI
  atr : JSNum
  bbands : BBands
  volumeRatio : JSNum
  volatility : JSNum
  volatility50 : JSNum
  support : JSNum
  resistance : JSNum
  momentum : JSNum
  roc : JSNum

/-- The strength labels `'high'`, `'very high'`, `'extreme'` of a pattern record. -/
inductive PatternStrength where
  | high
  | veryHigh
  | extreme
  deriving DecidableEq

/-- One entry `{ type, direction, strength }` of the `patterns` array. -/
structure PatternRecord where
  type : String
  direction : TrendLabel
  strength : PatternStrength
  deriving DecidableEq

/-- The record returned by `detectAdvancedPatterns`. -/
structure PatternReport where
  bullishPatterns : Int
  bearishPatterns : Int
  patterns : List PatternRecord

/-- A swing point `{ index, value, time }` of `analyzeAdvancedMarketStructure`. -/
structure SwingPoint where
  index : ℕ
  value : ℚ
  time : Int
  deriving DecidableEq

/-- A point `{ time, value }` of a line series. -/
structure LinePoint where
  time : Int
  value : JSNum
  deriving DecidableEq

/-- The record `{ draw, points, slope }` returned by `calculateTrendline`. -/
structure Trendline where
  draw : Bool
  points : List LinePoint
  slope : JSNum

/-- The labels `'trending'`, `'ranging'`. -/
inductive StructureKind where
  | trending
  | ranging
  deriving DecidableEq

/-- The fields of the market-structure record that only the long form of the result
carries (they are `undefined` in the record returned for fewer than 50 candles). -/
structure StructureDetails where
  higherHighs : ℕ
  lowerHighs : ℕ
  higherLows : ℕ
  lowerLows : ℕ
  trendline : Option Trendline
  swingHighs : List SwingPoint
  swingLows : List SwingPoint

/-- The record returned by `analyzeAdvancedMarketStructure`. -/
structure MarketStructure where
  trend : StructureTrend
  strength : ℚ
  structure_ : StructureKind
  details : Option StructureDetails

/-! ## Indicator library -/

/-- The array method `xs.slice(a, b)` for `0 ≤ a ≤ b` (an end past the array is cut off). -/
def jsSlice {α : Type} (xs : List α) (a b : ℕ) : List α := (xs.drop a).take (b - a)

/-- The reduction `xs.reduce((a, b) => a + b, 0)`. -/
def jsSum (xs : List ℚ) : ℚ := xs.foldl (fun a b => a + b) 0

/-- Simple moving average, `calculateSMA` (script.js 777-784).  The loop index
`i` runs from `period - 1` to `data.length - 1`; `j` counts its iterations. -/
def calculateSMA (data : List ℚ) (period : ℕ) : List ℚ :=
  (List.range (data.length - (period - 1))).map fun j =>
    let i := period - 1 + j
    let sum := jsSum (jsSlice data (i + 1 - period) (i + 1))
    sum / period

/-- The first loop of `calculateRSI`: `changes[i-1] = data[i] - data[i-1]` for
`i = 1 .. data.length - 1`. -/
def priceChanges : List ℚ → List ℚ
  | a :: b :: rest => (b - a) :: priceChanges (b :: rest)
  | _ => []

/-- The body of the second loop of `calculateRSI` for one window
`changes.slice(i - period, i)` (script.js 795-799), in exact arithmetic;
`rsiOfWindow_fl` is the rounded counterpart. -/
def rsiOfWindow (window : List ℚ) (period : ℕ) : ℚ :=
  let gains := jsSum (window.filter fun c => c > 0) / period
  let losses := |jsSum (window.filter fun c => c < 0)| / period
  let rs := gains / (if losses = 0 then 1 else losses)
  100 - 100 / (1 + rs)

/-- Relative strength index, `calculateRSI` (script.js 787-804).  The second
loop runs `i` from `period` to `changes.length - 1`; `j` counts its iterations. -/
def calculateRSI (data : List ℚ) (period : ℕ) : List ℚ :=
  let changes := priceChanges data
  (List.range (changes.length - period)).map fun j =>
    let i := period + j
    rsiOfWindow (jsSlice changes (i - period) i) period

/-- The loop of `calculateEMA`: each step pushes `data[i] * k + result[i-1] * (1 - k)`;
`prev` is the value pushed last.  Exact arithmetic; `emaLoop_fl` is the rounded
counterpart. -/
def emaLoop (k : ℚ) : ℚ → List ℚ → List ℚ
  | _, [] => []
  | prev, x :: rest =>
    let next := x * k + prev * (1 - k)
    next :: emaLoop k next rest

/-- Exponential moving average, `calculateEMA` (script.js 820-829).  The result
array starts as `[data[0]]`, which for an empty `data` is `[undefined]`
(the slot `none`). -/
def calculateEMA (data : List ℚ) (period : ℕ) : List (Option ℚ) :=
  let k : ℚ := 2 / (period + 1)
  match data with
  | [] => [none]
  | first :: rest => some first :: (emaLoop k first rest).map some

/-- The first loop of `calculateATR` (ai-helpers.js 35-47): the true range of
bar `i` against the close of bar `i - 1`, for `i = 1 .. data.length - 1`. -/
def trueRanges : List Candle → List ℚ
  | prev :: cur :: rest =>
    let high := cur.high
    let low := cur.low
    let prevClose := prev.close
    let tr := max (high - low) (max |high - prevClose| |low - prevClose|)
    tr :: trueRanges (cur :: rest)
  | _ => []

/-- The smoothing loop of `calculateATR` (ai-helpers.js 55-58). -/
def atrLoop (multiplier : ℚ) : ℚ → List ℚ → List ℚ
  | _, [] => []
  | atr, tr :: rest =>
    let next := tr * multiplier + atr * (1 - multiplier)
    next :: atrLoop multiplier next rest

/-- Average true range, `calculateATR` (ai-helpers.js 32-61). -/
def calculateATR (data : List Candle) (period : ℕ) : List ℚ :=
  let trs := trueRanges data
  let atr := jsSum (jsSlice trs 0 period) / period
  let multiplier : ℚ := 1 / period
  atr :: atrLoop multiplier atr (trs.drop period)

/-! ## Prediction synthesizer: trend score, trend label, confidence -/

/-- The accumulation of `trendScore` and `trendStrength` in
`generateUltimatePrediction` (script.js 920-992), statement by statement.
The result is the pair `(trendScore, trendStrength)`. -/
def scoreTrend (currentPrice : JSNum) (indicators : Indicators)
    (patterns : PatternReport) (marketStructure : MarketStructure) : Int × Int :=
  let trendScore : Int := 0
  let trendStrength : Int := 0
  -- EMA alignment
  let trendScore := if currentPrice.gt indicators.ema9 then trendScore + 1 else trendScore
  let trendScore := if currentPrice.gt indicators.ema21 then trendScore + 2 else trendScore
  let trendScore := if currentPrice.gt indicators.ema50 then trendScore + 2 else trendScore
  let trendScore := if currentPrice.gt indicators.ema100 then trendScore + 1 else trendScore
  let trendScore := if indicators.ema9.gt indicators.ema21 then trendScore + 2 else trendScore
  let trendScore := if indicators.ema21.gt indicators.ema50 then trendScore + 2 else trendScore
  -- RSI analysis
  let (trendScore, trendStrength) :=
    if indicators.rsi.lt (.fin 30) then (trendScore + 3, trendStrength + 2)
    else if indicators.rsi.lt (.fin 40) then (trendScore + 1, trendStrength + 1)
    else if indicators.rsi.gt (.fin 70) then (trendScore - 3, trendStrength + 2)
    else if indicators.rsi.gt (.fin 60) then (trendScore - 1, trendStrength + 1)
    else (trendScore, trendStrength)
  -- MACD confirmation
  let (trendScore, trendStrength) :=
    if indicators.macd.signal = TrendLabel.bullish then (trendScore + 2, trendStrength + 1)
    else (trendScore - 2, trendStrength + 1)
  -- Stochastic RSI
  let trendScore := if indicators.stochRSI.k.lt (.fin 20) then trendScore + 2 else trendScore
  let trendScore := if indicators.stochRSI.k.gt (.fin 80) then trendScore - 2 else trendScore
  -- Volume confirmation
  let trendStrength :=
    if (Indicators.volumeRatio indicators).gt (.fin (3 / 2)) then trendStrength + 2
    else if (Indicators.volumeRatio indicators).lt (.fin (7 / 10)) then trendStrength - 1
    else trendStrength
  -- Bollinger Bands position
  let bbPosition :=
    (currentPrice.sub indicators.bbands.lower).div
      (indicators.bbands.upper.sub indicators.bbands.lower)
  let trendScore := if bbPosition.lt (.fin (1 / 5)) then trendScore + 2 else trendScore
  let trendScore := if bbPosition.gt (.fin (4 / 5)) then trendScore - 2 else trendScore
  -- Pattern recognition bonus
  let (trendScore, trendStrength) :=
    if patterns.bullishPatterns > 0 then
      (trendScore + patterns.bullishPatterns * 2, trendStrength + 1)
    else (trendScore, trendStrength)
  let (trendScore, trendStrength) :=
    if patterns.bearishPatterns > 0 then
      (trendScore - patterns.bearishPatterns * 2, trendStrength + 1)
    else (trendScore, trendStrength)
  -- Market structure
  let trendScore :=
    if marketStructure.trend = StructureTrend.uptrend then trendScore + 3 else trendScore
  let trendScore :=
    if marketStructure.trend = StructureTrend.downtrend then trendScore - 3 else trendScore
  -- Momentum confirmation
  let trendScore := if indicators.momentum.gt (.fin 0) then trendScore + 1 else trendScore - 1
  -- ROC confirmation
  let trendScore := if indicators.roc.gt (.fin 0) then trendScore + 1 else trendScore - 1
  (trendScore, trendStrength)

/-- The line `trend = trendScore > 2 ? 'bullish' : trendScore < -2 ? 'bearish' : 'neutral'`
(script.js 995). -/
def classifyTrend (trendScore : Int) : TrendLabel :=
  if trendScore > 2 then TrendLabel.bullish
  else if trendScore < -2 then TrendLabel.bearish
  else TrendLabel.neutral

/-- The confidence computation of `generateUltimatePrediction` (script.js 998-1003),
one assignment per line of the source. -/
def computeConfidence (trendScore trendStrength : Int) (patterns : PatternReport) : Int :=
  let confidence : Int := 50
  let confidence := confidence + min (|trendScore| * 3) 30
  let confidence := confidence + min (trendStrength * 2) 15
  let confidence :=
    if patterns.bullishPatterns + patterns.bearishPatterns > 0 then confidence + 5
    else confidence
  let confidence := min confidence 95
  let confidence := max confidence 30
  confidence

/-- The `trend` and `confidence` fields of the record returned by
`generateUltimatePrediction`. -/
structure Prediction where
  trend : TrendLabel
  confidence : Int

/-- The scoring part of `generateUltimatePrediction` (script.js 915-1003).
Reading `data[data.length - 1].close` throws on an empty candle list, which is
the `none` result.  The price path, positions and signals built afterwards do
not feed back into `trend` or `confidence`. -/
def generateUltimatePrediction (data : List Candle) (indicators : Indicators)
    (patterns : PatternReport) (marketStructure : MarketStructure) : Option Prediction :=
  match data.getLast? with
  | none => none
  | some last =>
    let currentPrice := JSNum.fin last.close
    let st := scoreTrend currentPrice indicators patterns marketStructure
    some
      { trend := classifyTrend st.1
        confidence := computeConfidence st.1 st.2 patterns }

/-- The clamp of the specification: `clamp(x, lo, hi)`. -/
def specClamp (x lo hi : Int) : Int := max lo (min x hi)

/-- The confidence formula as the specification words it. -/
def specConfidence (trendScore trendStrength bullishPatterns bearishPatterns : Int) : Int :=
  specClamp
    (50 + min (|trendScore| * 3) 30 + min (trendStrength * 2) 15
      + (if bullishPatterns + bearishPatterns > 0 then 5 else 0))
    30 95

/-! ## Indicator library: MACD, momentum, stochastic RSI -/

/-- The read `xs[xs.length - 1]` of an array of `calculateEMA`, as a number
(`undefined` counts as `NaN` in the subtraction that follows). -/
def lastValue (xs : List (Option ℚ)) : JSNum :=
  match xs.getLast? with
  | some (some q) => JSNum.fin q
  | _ => JSNum.nan

/-- Single-value MACD, `calculateMACD` (script.js 807-817), in exact arithmetic;
`calculateMACD_fl` is the rounded counterpart. -/
def calculateMACD (data : List ℚ) : MACD :=
  let ema12 := calculateEMA data 12
  let ema26 := calculateEMA data 26
  let macdLine := (lastValue ema12).sub (lastValue ema26)
  { value := macdLine
    signal := if macdLine.gt (JSNum.fin 0) then TrendLabel.bullish else TrendLabel.bearish }

/-- Momentum, `calculateMomentum` (ai-helpers.js 87-90): an index outside the array
reads `undefined`, which makes the difference `NaN`. -/
def calculateMomentum (data : List ℚ) (period : ℕ) : JSNum :=
  if data.length < period then JSNum.fin 0
  else
    match data[data.length - 1]?, data[data.length - period]? with
    | some a, some b => JSNum.fin (a - b)
    | _, _ => JSNum.nan

/-- The array method `xs.slice(-n)`: the last `n` elements (`slice(-0)` is the whole array). -/
def jsSliceLast {α : Type} (xs : List α) (n : ℕ) : List α :=
  if n = 0 then xs else xs.drop (xs.length - n)

/-- The call `Math.min(...xs)` on a non-empty array (the empty spread is `Infinity`,
which no caller with `period ≥ 1` produces; it is read as 0 here). -/
def jsMin : List ℚ → ℚ
  | [] => 0
  | x :: xs => xs.foldl min x

/-- The call `Math.max(...xs)` on a non-empty array (the empty spread is `-Infinity`,
which no caller with `period ≥ 1` produces; it is read as 0 here). -/
def jsMax : List ℚ → ℚ
  | [] => 0
  | x :: xs => xs.foldl max x

/-- The %K expression of `calculateStochRSI` (ai-helpers.js 10-14 and 20-23) for the
window `window` and the value `x`: `range === 0 ? 50 : ((x - min) / range) * 100`. -/
def stochK (window : List ℚ) (x : ℚ) : ℚ :=
  let minRSI := jsMin window
  let maxRSI := jsMax window
  let range := maxRSI - minRSI
  if range = 0 then 50 else ((x - minRSI) / range) * 100

/-- The array `kValues` of `calculateStochRSI` (ai-helpers.js 17-24): the loop runs
`i` from `period` to `rsiArray.length - 1`; `j` counts its iterations. -/
def stochKValues (rsiArray : List ℚ) (period : ℕ) : List ℚ :=
  (List.range (rsiArray.length - period)).map fun j =>
    let i := period + j
    stochK (jsSlice rsiArray (i - period) i) (rsiArray.getD i 0)

/-- Stochastic RSI, `calculateStochRSI` (ai-helpers.js 4-29). -/
def calculateStochRSI (rsiArray : List ℚ) (period : ℕ) : StochRSI :=
  if rsiArray.length < period then { k := JSNum.fin 50, d := JSNum.fin 50 }
  else
    let recent := jsSliceLast rsiArray period
    let k := stochK recent (rsiArray.getD (rsiArray.length - 1) 0)
    let kValues := stochKValues rsiArray period
    let d :=
      if kValues.length > 0 then jsSum (jsSliceLast kValues 3) / ((min 3 kValues.length : ℕ) : ℚ)
      else k
    { k := JSNum.fin k, d := JSNum.fin d }

/-! ## Support and resistance -/

/-- The mean `cluster.reduce((a, b) => a + b) / cluster.length` of a non-empty cluster,
in exact arithmetic; `clusterMean_fl` is the rounded counterpart. -/
def clusterMean (cluster : List ℚ) : ℚ := jsSum cluster / cluster.length

/-- The loop of `clusterLevels` (script.js 901-909) over the remaining sorted levels,
with the clusters pushed so far and the current cluster; the final push is the
base case. -/
def clusterLoop (threshold : ℚ) : List ℚ → List ℚ → List ℚ → List ℚ
  | clusters, currentCluster, [] => clusters ++ [clusterMean currentCluster]
  | clusters, currentCluster, x :: rest =>
    let first := currentCluster.headD 0
    if ((JSNum.fin (x - first)).div (JSNum.fin first)).lt (JSNum.fin threshold) then
      clusterLoop threshold clusters (currentCluster ++ [x]) rest
    else
      clusterLoop threshold (clusters ++ [clusterMean currentCluster]) [x] rest

/-- The function `clusterLevels(levels, threshold)` (script.js 894-912); the sort with
comparator `(a, b) => a - b` is ascending. -/
def clusterLevelsWith (levels : List ℚ) (threshold : ℚ) : List ℚ :=
  if levels.length = 0 then []
  else
    let sorted := levels.insertionSort (fun a b => a ≤ b)
    clusterLoop threshold [] [sorted.headD 0] sorted.tail

/-- The function `clusterLevels` called with its default threshold `0.002`. -/
def clusterLevels (levels : List ℚ) : List ℚ := clusterLevelsWith levels (1 / 500)

/-- The swing lows pushed by the scan of `findAdvancedSupportResistance`
(script.js 853-864): bar `i` against bars `i-2, i-1, i+1, i+2`. -/
def swingLowLevels : List Candle → List ℚ
  | prev2 :: prev1 :: current :: next1 :: next2 :: rest =>
    (if current.low < prev1.low ∧ current.low < prev2.low ∧
        current.low < next1.low ∧ current.low < next2.low then [current.low] else [])
      ++ swingLowLevels (prev1 :: current :: next1 :: next2 :: rest)
  | _ => []

/-- The swing highs pushed by the scan of `findAdvancedSupportResistance`
(script.js 853-871). -/
def swingHighLevels : List Candle → List ℚ
  | prev2 :: prev1 :: current :: next1 :: next2 :: rest =>
    (if current.high > prev1.high ∧ current.high > prev2.high ∧
        current.high > next1.high ∧ current.high > next2.high then [current.high] else [])
      ++ swingHighLevels (prev1 :: current :: next1 :: next2 :: rest)
  | _ => []

/-- The expression `v || fallback` for a number or `undefined` on the left:
`undefined` and `0` are falsy. -/
def jsOr (v : Option ℚ) (fallback : ℚ) : ℚ :=
  match v with
  | some x => if x = 0 then fallback else x
  | none => fallback

/-- Result record of `findAdvancedSupportResistance`. -/
structure SupportResistance where
  support : ℚ
  resistance : ℚ
  supportLevels : List ℚ
  resistanceLevels : List ℚ

/-- Support and resistance, `findAdvancedSupportResistance` (script.js 847-891).
Reading `data[data.length - 1].close` throws on an empty candle list (`none`). -/
def findAdvancedSupportResistance (data : List Candle) : Option SupportResistance :=
  let recent := jsSliceLast data 100
  let lows := swingLowLevels recent
  let highs := swingHighLevels recent
  let supportLevels := clusterLevels lows
  let resistanceLevels := clusterLevels highs
  match data.getLast? with
  | none => none
  | some last =>
    let currentPrice := last.close
    let support :=
      jsOr ((supportLevels.filter fun s => s < currentPrice).insertionSort
          (fun a b => a ≥ b)).head?
        (jsMin (recent.map fun c => c.low))
    let resistance :=
      jsOr ((resistanceLevels.filter fun r => r > currentPrice).insertionSort
          (fun a b => a ≤ b)).head?
        (jsMax (recent.map fun c => c.high))
    some
      { support := support
        resistance := resistance
        supportLevels := jsSlice supportLevels 0 3
        resistanceLevels := jsSlice resistanceLevels 0 3 }

/-! ## Change detector -/

/-- The text of a trend label inside a template string. -/
def TrendLabel.toJS : TrendLabel → String
  | TrendLabel.bullish => "bullish"
  | TrendLabel.bearish => "bearish"
  | TrendLabel.neutral => "neutral"

/-- The three fields of a prediction read by `detectMarketChangeSignificance`. -/
structure AnalysisSnapshot where
  trend : TrendLabel
  confidence : ℚ
  targetPrice : ℚ

/-- Result record of `detectMarketChangeSignificance`. -/
structure MarketChange where
  significant : Bool
  reason : String

/-- Change detector, `detectMarketChangeSignificance` (script.js 672-696).  The
built-in number formatting `x.toFixed(digits)` is the parameter `toFixed`. -/
def detectMarketChangeSignificance (toFixed : JSNum → ℕ → String)
    (oldAnalysis newAnalysis : AnalysisSnapshot) : MarketChange :=
  let changes : List String := []
  let changes :=
    if oldAnalysis.trend ≠ newAnalysis.trend then
      changes ++ ["Trend changed from " ++ oldAnalysis.trend.toJS ++ " to "
        ++ newAnalysis.trend.toJS]
    else changes
  let confidenceDelta := newAnalysis.confidence - oldAnalysis.confidence
  let changes :=
    if |confidenceDelta| > 15 then
      changes ++ ["Confidence " ++ (if confidenceDelta > 0 then "increased" else "decreased")
        ++ " by " ++ toFixed (JSNum.fin |confidenceDelta|) 1 ++ "%"]
    else changes
  let priceDelta :=
    (JSNum.fin |newAnalysis.targetPrice - oldAnalysis.targetPrice|).div
      (JSNum.fin oldAnalysis.targetPrice)
  let changes :=
    if priceDelta.gt (JSNum.fin (1 / 50)) then
      changes ++ ["Target price shifted by " ++ toFixed (priceDelta.mul (JSNum.fin 100)) 2
        ++ "%"]
    else changes
  { significant := decide (changes.length > 0)
    reason := String.intercalate ", " changes }

/-! ## Market structure analyzer -/

/-- The record returned by `calculateFibonacciLevels`: the keys `'0%'`, `'23.6%'`,
`'38.2%'`, `'50%'`, `'61.8%'`, `'78.6%'`, `'100%'` and `range`. -/
structure FibonacciLevels where
  level0 : ℚ
  level236 : ℚ
  level382 : ℚ
  level50 : ℚ
  level618 : ℚ
  level786 : ℚ
  level100 : ℚ
  range : ℚ

/-- Fibonacci retracement levels, `calculateFibonacciLevels` (ai-helpers.js 455-479);
`none` is the `null` returned for fewer than 50 candles.  Exact arithmetic;
`calculateFibonacciLevels_fl` is the rounded counterpart. -/
def calculateFibonacciLevels (data : List Candle) : Option FibonacciLevels :=
  if data.length < 50 then none
  else
    let recent := jsSliceLast data 100
    let highs := recent.map fun c => c.high
    let lows := recent.map fun c => c.low
    let maxHigh := jsMax highs
    let minLow := jsMin lows
    let range := maxHigh - minLow
    some
      { level0 := minLow
        level236 := minLow + range * (236 / 1000)
        level382 := minLow + range * (382 / 1000)
        level50 := minLow + range * (1 / 2)
        level618 := minLow + range * (618 / 1000)
        level786 := minLow + range * (786 / 1000)
        level100 := maxHigh
        range := range }

/-- The read `xs[i]` of a candle array at an index inside the array. -/
def candleAt (xs : List Candle) (i : ℕ) : Candle :=
  xs.getD i { time := 0, open_ := 0, high := 0, low := 0, close := 0, volume := none }

/-- The test `isSwingHigh` of `analyzeAdvancedMarketStructure` for bar `i`. -/
def isSwingHigh (recent : List Candle) (i : ℕ) : Bool :=
  decide ((candleAt recent i).high > (candleAt recent (i - 1)).high ∧
    (candleAt recent i).high > (candleAt recent (i - 2)).high ∧
    (candleAt recent i).high > (candleAt recent (i + 1)).high ∧
    (candleAt recent i).high > (candleAt recent (i + 2)).high)

/-- The test `isSwingLow` of `analyzeAdvancedMarketStructure` for bar `i`. -/
def isSwingLow (recent : List Candle) (i : ℕ) : Bool :=
  decide ((candleAt recent i).low < (candleAt recent (i - 1)).low ∧
    (candleAt recent i).low < (candleAt recent (i - 2)).low ∧
    (candleAt recent i).low < (candleAt recent (i + 1)).low ∧
    (candleAt recent i).low < (candleAt recent (i + 2)).low)

/-- The array `highs` built by the scan of `analyzeAdvancedMarketStructure`
(ai-helpers.js 340-353): `i` runs from 5 to `recent.length - 6`; `j` counts the
iterations. -/
def structureSwingHighs (recent : List Candle) : List SwingPoint :=
  (List.range (recent.length - 10)).filterMap fun j =>
    let i := j + 5
    if isSwingHigh recent i then
      some { index := i, value := (candleAt recent i).high, time := (candleAt recent i).time }
    else none

/-- The array `lows` built by the scan of `analyzeAdvancedMarketStructure`. -/
def structureSwingLows (recent : List Candle) : List SwingPoint :=
  (List.range (recent.length - 10)).filterMap fun j =>
    let i := j + 5
    if isSwingLow recent i then
      some { index := i, value := (candleAt recent i).low, time := (candleAt recent i).time }
    else none

/-- The two counters of one loop of ai-helpers.js 361-369 over the consecutive pairs of
a swing list: `(higher, lower)`, where `higher` counts the pairs whose later value is
strictly greater and `lower` all the others. -/
def countHigherLower : List SwingPoint → ℕ × ℕ
  | a :: b :: rest =>
    let counts := countHigherLower (b :: rest)
    if b.value > a.value then (counts.1 + 1, counts.2) else (counts.1, counts.2 + 1)
  | _ => (0, 0)

/-- Least-squares trendline, `calculateTrendline` (ai-helpers.js 407-452); `none` is
the `null` result.  The four sums are the accumulators of the `forEach`. -/
def calculateTrendline (swingPoints : List SwingPoint) (allData : List Candle) :
    Option Trendline :=
  if swingPoints.length < 2 then none
  else
    let points := jsSliceLast swingPoints 3
    let n : ℚ := points.length
    let sumX := jsSum (points.map fun p => (p.index : ℚ))
    let sumY := jsSum (points.map fun p => p.value)
    let sumXY := jsSum (points.map fun p => (p.index : ℚ) * p.value)
    let sumX2 := jsSum (points.map fun p => (p.index : ℚ) * (p.index : ℚ))
    let slope := (JSNum.fin (n * sumXY - sumX * sumY)).div (JSNum.fin (n * sumX2 - sumX * sumX))
    let intercept := ((JSNum.fin sumY).sub (slope.mul (JSNum.fin sumX))).div (JSNum.fin n)
    if slope.abs.gt (JSNum.fin 100) then none
    else
      let startIndex : Int := max 0 (((points.headD ⟨0, 0, 0⟩).index : Int) - 10)
      let endIndex : Int :=
        min ((allData.length : Int) - 1) (((points.getLastD ⟨0, 0, 0⟩).index : Int) + 10)
      let steps : ℕ := if endIndex < startIndex then 0 else ((endIndex - startIndex) / 5 + 1).toNat
      let trendlinePoints := (List.range steps).filterMap fun k =>
        let i : Int := startIndex + 5 * (k : Int)
        let value := (slope.mul (JSNum.fin i)).add intercept
        match allData[i.toNat]? with
        | some c => some { time := c.time, value := value }
        | none => none
      some { draw := decide (trendlinePoints.length > 1), points := trendlinePoints, slope := slope }

/-- The ordinary least-squares slope of the specification over the `(index, value)`
pairs of a list of swing points. -/
def leastSquaresSlope (points : List SwingPoint) : ℚ :=
  ((points.length : ℚ) * (points.map fun p => (p.index : ℚ) * p.value).sum
      - (points.map fun p => (p.index : ℚ)).sum * (points.map fun p => p.value).sum)
    / ((points.length : ℚ) * (points.map fun p => (p.index : ℚ) * (p.index : ℚ)).sum
      - (points.map fun p => (p.index : ℚ)).sum * (points.map fun p => (p.index : ℚ)).sum)

/-- Market structure, `analyzeAdvancedMarketStructure` (ai-helpers.js 330-402). -/
def analyzeAdvancedMarketStructure (data : List Candle) : MarketStructure :=
  if data.length < 50 then
    { trend := StructureTrend.neutral, strength := 0, structure_ := StructureKind.ranging,
      details := none }
  else
    let recent := jsSliceLast data 100
    let highs := structureSwingHighs recent
    let lows := structureSwingLows recent
    let higherHighs := (countHigherLower highs).1
    let lowerHighs := (countHigherLower highs).2
    let higherLows := (countHigherLower lows).1
    let lowerLows := (countHigherLower lows).2
    let result : StructureTrend × ℚ × StructureKind :=
      if higherHighs > lowerHighs ∧ higherLows > lowerLows then
        (StructureTrend.uptrend,
          (((higherHighs : ℚ) + higherLows) / ((highs.length : ℚ) + lows.length)) * 100,
          StructureKind.trending)
      else if lowerHighs > higherHighs ∧ lowerLows > higherLows then
        (StructureTrend.downtrend,
          (((lowerHighs : ℚ) + lowerLows) / ((highs.length : ℚ) + lows.length)) * 100,
          StructureKind.trending)
      else (StructureTrend.neutral, 0, StructureKind.ranging)
    let trend := result.1
    let strength := result.2.1
    let structure_ := result.2.2
    let trendline : Option Trendline :=
      if structure_ = StructureKind.trending ∧ (lows.length > 2 ∨ highs.length > 2) then
        calculateTrendline (if trend = StructureTrend.uptrend then lows else highs) recent
      else none
    { trend := trend, strength := strength, structure_ := structure_,
      details := some
        { higherHighs := higherHighs, lowerHighs := lowerHighs, higherLows := higherLows,
          lowerLows := lowerLows, trendline := trendline, swingHighs := highs,
          swingLows := lows } }

/-! ## Pattern detector -/

/-- An entry `{ index, price }` of the arrays `highs` and `lows` of
`detectHeadAndShoulders`. -/
structure IndexedPrice where
  index : ℕ
  price : ℚ
  deriving DecidableEq

/-- A detected result `{ detected: true, type, neckline }` of `detectHeadAndShoulders`. -/
structure HeadShoulders where
  type : TrendLabel
  neckline : ℚ
  deriving DecidableEq

/-- The array `peaks` of `detectHeadAndShoulders` (ai-helpers.js 237-241): `i` runs
from 5 to `highs.length - 6`; `j` counts the iterations. -/
def localPeaks (data : List Candle) : List IndexedPrice :=
  (List.range (data.length - 10)).filterMap fun j =>
    let i := j + 5
    if (candleAt data i).high > (candleAt data (i - 1)).high ∧
        (candleAt data i).high > (candleAt data (i + 1)).high then
      some { index := i, price := (candleAt data i).high }
    else none

/-- The array `troughs` of `detectHeadAndShoulders` (ai-helpers.js 259-263). -/
def localTroughs (data : List Candle) : List IndexedPrice :=
  (List.range (data.length - 10)).filterMap fun j =>
    let i := j + 5
    if (candleAt data i).low < (candleAt data (i - 1)).low ∧
        (candleAt data i).low < (candleAt data (i + 1)).low then
      some { index := i, price := (candleAt data i).low }
    else none

/-- Head and shoulders, `detectHeadAndShoulders` (ai-helpers.js 231-275); `none` is
the result `{ detected: false }`. -/
def detectHeadAndShoulders (data : List Candle) : Option HeadShoulders :=
  if data.length < 30 then none
  else
    let peaks := localPeaks data
    let top : Option HeadShoulders :=
      if peaks.length ≥ 3 then
        match jsSliceLast peaks 3 with
        | [left, head, right] =>
          if head.price > left.price ∧ head.price > right.price ∧
              ((JSNum.fin |left.price - right.price|).div (JSNum.fin left.price)).lt
                (JSNum.fin (1 / 50)) then
            some { type := TrendLabel.bearish, neckline := min left.price right.price }
          else none
        | _ => none
      else none
    match top with
    | some r => some r
    | none =>
      let troughs := localTroughs data
      if troughs.length ≥ 3 then
        match jsSliceLast troughs 3 with
        | [left, head, right] =>
          if head.price < left.price ∧ head.price < right.price ∧
              ((JSNum.fin |left.price - right.price|).div (JSNum.fin left.price)).lt
                (JSNum.fin (1 / 50)) then
            some { type := TrendLabel.bullish, neckline := max left.price right.price }
          else none
        | _ => none
      else none

/-- The detected types `'double_top'`, `'double_bottom'`. -/
inductive DoublePattern where
  | doubleTop
  | doubleBottom
  deriving DecidableEq

/-- Double tops and bottoms, `detectDoubleTopsBottoms` (ai-helpers.js 278-300); `none`
is `{ detected: false }`.  The arrays `maxIndices` and `minIndices` hold, in ascending
order, the indices whose value passes the test. -/
def detectDoubleTopsBottoms (data : List Candle) : Option DoublePattern :=
  if data.length < 20 then none
  else
    let recent := jsSliceLast data 20
    let highs := recent.map fun c => c.high
    let lows := recent.map fun c => c.low
    let maxHigh := jsMax highs
    let maxIndices := (List.range highs.length).filter fun i =>
      highs.getD i 0 ≥ maxHigh * (998 / 1000)
    if maxIndices.length ≥ 2 ∧
        ((maxIndices.getLastD 0 : ℕ) : Int) - ((maxIndices.headD 0 : ℕ) : Int) > 5 then
      some DoublePattern.doubleTop
    else
      let minLow := jsMin lows
      let minIndices := (List.range lows.length).filter fun i =>
        lows.getD i 0 ≤ minLow * (1002 / 1000)
      if minIndices.length ≥ 2 ∧
          ((minIndices.getLastD 0 : ℕ) : Int) - ((minIndices.headD 0 : ℕ) : Int) > 5 then
        some DoublePattern.doubleBottom
      else none

/-- The detected types `'bullish_flag'`, `'bearish_flag'`. -/
inductive FlagPattern where
  | bullishFlag
  | bearishFlag
  deriving DecidableEq

/-- Flags, `detectFlags` (ai-helpers.js 303-327); `none` is `{ detected: false }`. -/
def detectFlags (data : List Candle) : Option FlagPattern :=
  if data.length < 15 then none
  else
    let recent := jsSliceLast data 15
    let closes := recent.map fun c => c.close
    let firstPart := jsSlice closes 0 5
    let secondPart := closes.drop 5
    let firstMove :=
      (JSNum.fin (firstPart.getD (firstPart.length - 1) 0 - firstPart.getD 0 0)).div
        (JSNum.fin (firstPart.getD 0 0))
    let consolidationRange :=
      (JSNum.fin (jsMax secondPart - jsMin secondPart)).div (JSNum.fin (jsMin secondPart))
    if firstMove.gt (JSNum.fin (1 / 50)) ∧ consolidationRange.lt (JSNum.fin (1 / 100)) then
      some FlagPattern.bullishFlag
    else if firstMove.lt (JSNum.fin (-(1 / 50))) ∧
        consolidationRange.lt (JSNum.fin (1 / 100)) then
      some FlagPattern.bearishFlag
    else none

/-- The statements `bullishPatterns += weight; patterns.push(record)`. -/
def PatternReport.addBullish (r : PatternReport) (weight : Int) (type : String)
    (strength : PatternStrength) : PatternReport :=
  { bullishPatterns := r.bullishPatterns + weight
    bearishPatterns := r.bearishPatterns
    patterns := r.patterns ++
      [{ type := type, direction := TrendLabel.bullish, strength := strength }] }

/-- The statements `bearishPatterns += weight; patterns.push(record)`. -/
def PatternReport.addBearish (r : PatternReport) (weight : Int) (type : String)
    (strength : PatternStrength) : PatternReport :=
  { bullishPatterns := r.bullishPatterns
    bearishPatterns := r.bearishPatterns + weight
    patterns := r.patterns ++
      [{ type := type, direction := TrendLabel.bearish, strength := strength }] }

/-- Pattern detection, `detectAdvancedPatterns` (ai-helpers.js 101-228); `r` is the
triple of `bullishPatterns`, `bearishPatterns` and `patterns` as it is updated. -/
def detectAdvancedPatterns (data : List Candle) : PatternReport :=
  if data.length < 50 then { bullishPatterns := 0, bearishPatterns := 0, patterns := [] }
  else
    let r : PatternReport := { bullishPatterns := 0, bearishPatterns := 0, patterns := [] }
    let recent := jsSliceLast data 50
    let lastCandle := candleAt recent (recent.length - 1)
    let prevCandle := candleAt recent (recent.length - 2)
    let body := |lastCandle.close - lastCandle.open_|
    let lowerWick := min lastCandle.close lastCandle.open_ - lastCandle.low
    let upperWick := lastCandle.high - max lastCandle.close lastCandle.open_
    -- 1. Hammer and shooting star
    let r := if lowerWick > body * (5 / 2) ∧ upperWick < body * (3 / 10) then
      r.addBullish 2 "Hammer (Strong)" PatternStrength.high else r
    let r := if upperWick > body * (5 / 2) ∧ lowerWick < body * (3 / 10) then
      r.addBearish 2 "Shooting Star (Strong)" PatternStrength.high else r
    -- 2. Engulfing patterns
    let prevBody := |prevCandle.close - prevCandle.open_|
    let r := if lastCandle.close > lastCandle.open_ ∧ prevCandle.close < prevCandle.open_ ∧
        lastCandle.open_ ≤ prevCandle.close ∧ lastCandle.close ≥ prevCandle.open_ ∧
        body > prevBody * (6 / 5) then
      r.addBullish 2 "Bullish Engulfing" PatternStrength.high else r
    let r := if lastCandle.close < lastCandle.open_ ∧ prevCandle.close > prevCandle.open_ ∧
        lastCandle.open_ ≥ prevCandle.close ∧ lastCandle.close ≤ prevCandle.open_ ∧
        body > prevBody * (6 / 5) then
      r.addBearish 2 "Bearish Engulfing" PatternStrength.high else r
    -- 3. Morning and evening star, 4. three soldiers and three crows
    let c1 := candleAt recent (recent.length - 3)
    let c2 := candleAt recent (recent.length - 2)
    let c3 := candleAt recent (recent.length - 1)
    let r := if recent.length ≥ 3 then
      let r := if c1.close < c1.open_ ∧ c3.close > c3.open_ ∧
          |c2.close - c2.open_| < (c2.high - c2.low) * (3 / 10) ∧
          c3.close > (c1.open_ + c1.close) / 2 then
        r.addBullish 3 "Morning Star" PatternStrength.veryHigh else r
      if c1.close > c1.open_ ∧ c3.close < c3.open_ ∧
          |c2.close - c2.open_| < (c2.high - c2.low) * (3 / 10) ∧
          c3.close < (c1.open_ + c1.close) / 2 then
        r.addBearish 3 "Evening Star" PatternStrength.veryHigh else r
      else r
    let r := if recent.length ≥ 3 then
      let r := if c1.close > c1.open_ ∧ c2.close > c2.open_ ∧ c3.close > c3.open_ ∧
          c2.close > c1.close ∧ c3.close > c2.close then
        r.addBullish 3 "Three White Soldiers" PatternStrength.veryHigh else r
      if c1.close < c1.open_ ∧ c2.close < c2.open_ ∧ c3.close < c3.open_ ∧
          c2.close < c1.close ∧ c3.close < c2.close then
        r.addBearish 3 "Three Black Crows" PatternStrength.veryHigh else r
      else r
    -- 5. Head and shoulders
    let r := match detectHeadAndShoulders recent with
      | some hs =>
        if hs.type = TrendLabel.bearish then
          r.addBearish 4 "Head and Shoulders" PatternStrength.extreme
        else r.addBullish 4 "Inverse Head and Shoulders" PatternStrength.extreme
      | none => r
    -- 6. Double top and bottom
    let r := match detectDoubleTopsBottoms recent with
      | some dp =>
        if dp = DoublePattern.doubleTop then
          r.addBearish 3 "Double Top" PatternStrength.veryHigh
        else r.addBullish 3 "Double Bottom" PatternStrength.veryHigh
      | none => r
    -- 7. Flags
    let r := match detectFlags recent with
      | some fp =>
        if fp = FlagPattern.bullishFlag then r.addBullish 2 "Bullish Flag" PatternStrength.high
        else r.addBearish 2 "Bearish Flag" PatternStrength.high
      | none => r
    r

/-! ## Prediction synthesizer: price path and positions -/

/-- The lookup `map[timeframe] || 60` of `getTimeIncrement` (script.js 1137-1146). -/
def getTimeIncrement (timeframe : String) : Int :=
  if timeframe = "1m" then 60
  else if timeframe = "5m" then 300
  else if timeframe = "15m" then 900
  else if timeframe = "30m" then 1800
  else if timeframe = "1h" then 3600
  else 60

/-- The constant `numCandles` of `generateAdvancedPricePrediction` (script.js 1083-1085). -/
def numCandles (currentTimeframe : String) : ℕ :=
  if currentTimeframe = "5m" then 12
  else if currentTimeframe = "15m" then 8
  else if currentTimeframe = "30m" then 6
  else 10

/-- The loop of `generateAdvancedPricePrediction` (script.js 1099-1131) from iteration
`i` on, with `remaining` iterations to go and the running `price`.  The call
`Math.random()` of iteration `i` is the draw `random (i - 1)`. -/
def pricePathLoop (random : ℕ → ℚ) (currentPrice : JSNum) (lastTime timeIncrement : Int)
    (atr : JSNum) (trendFactor : ℚ) (meanReversionFactor support resistance : JSNum) :
    ℕ → ℕ → JSNum → List LinePoint
  | 0, _, _ => []
  | remaining + 1, i, price =>
    let decayFactor : ℚ := (9 / 10) ^ i
    let atrMove := ((JSNum.fin (random (i - 1) - 1 / 2)).mul atr).mul (JSNum.fin 2)
    let trendMove := (price.mul (JSNum.fin trendFactor)).mul (JSNum.fin decayFactor)
    let reversionMove := (price.mul meanReversionFactor).mul (JSNum.fin (1 - decayFactor))
    let srMove :=
      if price.lt (support.mul (JSNum.fin (101 / 100))) ∧
          price.gt (support.mul (JSNum.fin (99 / 100))) then
        (support.sub price).mul (JSNum.fin (3 / 10))
      else if price.gt (resistance.mul (JSNum.fin (99 / 100))) ∧
          price.lt (resistance.mul (JSNum.fin (101 / 100))) then
        (resistance.sub price).mul (JSNum.fin (3 / 10))
      else JSNum.fin 0
    let moved := price.add (((atrMove.add trendMove).add reversionMove).add srMove)
    let maxDeviation := currentPrice.mul (JSNum.fin (1 / 20))
    let clamped :=
      (currentPrice.sub maxDeviation).max ((currentPrice.add maxDeviation).min moved)
    { time := lastTime + timeIncrement * (i : Int), value := clamped }
      :: pricePathLoop random currentPrice lastTime timeIncrement atr trendFactor
          meanReversionFactor support resistance remaining (i + 1) clamped

/-- The value of `price + (atrMove + trendMove + reversionMove + srMove)` in iteration
`i` of the loop when the price `x`, the draw `rand`, the ATR `a`, the mean reversion
factor `m`, the support `s` and the resistance `r` are finite numbers. -/
def movedPrice (rand a trendFactor m s r : ℚ) (i : ℕ) (x : ℚ) : ℚ :=
  x + ((((rand - 1 / 2) * a * 2 + x * trendFactor * (9 / 10) ^ i)
      + x * m * (1 - (9 / 10) ^ i))
    + (if x < s * (101 / 100) ∧ s * (99 / 100) < x then (s - x) * (3 / 10)
       else if r * (99 / 100) < x ∧ x < r * (101 / 100) then (r - x) * (3 / 10)
       else 0))

/-- Synthetic price path, `generateAdvancedPricePrediction` (script.js 1078-1134).
The parameters `data` and `marketStructure` of the source are not read by its body. -/
def generateAdvancedPricePrediction (random : ℕ → ℚ) (currentTimeframe : String)
    (currentPrice : JSNum) (lastTime : Int) (trend : TrendLabel) (indicators : Indicators) :
    List LinePoint :=
  let timeIncrement := getTimeIncrement currentTimeframe
  let atr := indicators.atr
  let trendFactor : ℚ :=
    if trend = TrendLabel.bullish then 3 / 1000
    else if trend = TrendLabel.bearish then -(3 / 1000) else 0
  let distanceFromEMA := (currentPrice.sub indicators.ema21).div currentPrice
  let meanReversionFactor := distanceFromEMA.neg.mul (JSNum.fin (1 / 2))
  pricePathLoop random currentPrice lastTime timeIncrement atr trendFactor meanReversionFactor
    indicators.support indicators.resistance (numCandles currentTimeframe) 1 currentPrice

/-- The position types `'long'`, `'short'`. -/
inductive PositionSide where
  | long
  | short
  deriving DecidableEq

/-- A position record of `generateOptimizedPositions`. -/
structure Position where
  type : PositionSide
  entry : JSNum
  target : JSNum
  stopLoss : JSNum
  potentialProfit : JSNum
  riskAmount : JSNum
  riskRewardRatio : JSNum
  deriving DecidableEq

/-- Trading positions, `generateOptimizedPositions` (script.js 1149-1221).  Reading
`futurePrices[futurePrices.length - 1].value` throws on an empty path (`none`).  The
parameters `patterns` and `marketStructure` of the source are not read by its body. -/
def generateOptimizedPositions (currentPrice : JSNum) (futurePrices : List LinePoint)
    (indicators : Indicators) (trend : TrendLabel) : Option (List Position) :=
  let atr := indicators.atr
  if trend = TrendLabel.bullish then
    match futurePrices.getLast? with
    | none => none
    | some lastPoint =>
      let entry :=
        if (currentPrice.sub indicators.support).lt (atr.mul (JSNum.fin 2)) then
          indicators.support.add (atr.mul (JSNum.fin (1 / 2)))
        else currentPrice.mul (JSNum.fin (998 / 1000))
      let target := lastPoint.value
      let stopLoss :=
        (indicators.support.mul (JSNum.fin (998 / 1000))).max
          (currentPrice.sub (atr.mul (JSNum.fin 2)))
      let potentialProfit := ((target.sub entry).div entry).mul (JSNum.fin 100)
      let riskAmount := ((entry.sub stopLoss).div entry).mul (JSNum.fin 100)
      let riskRewardRatio := potentialProfit.div (riskAmount.orElse (JSNum.fin 1))
      some
        [{ type := PositionSide.long, entry := entry, target := target, stopLoss := stopLoss,
           potentialProfit := potentialProfit, riskAmount := riskAmount,
           riskRewardRatio := riskRewardRatio }]
  else if trend = TrendLabel.bearish then
    match futurePrices.getLast? with
    | none => none
    | some lastPoint =>
      let entry :=
        if (indicators.resistance.sub currentPrice).lt (atr.mul (JSNum.fin 2)) then
          indicators.resistance.sub (atr.mul (JSNum.fin (1 / 2)))
        else currentPrice.mul (JSNum.fin (1002 / 1000))
      let target := lastPoint.value
      let stopLoss :=
        (indicators.resistance.mul (JSNum.fin (1002 / 1000))).min
          (currentPrice.add (atr.mul (JSNum.fin 2)))
      let potentialProfit := ((entry.sub target).div entry).mul (JSNum.fin 100)
      let riskAmount := ((stopLoss.sub entry).div entry).mul (JSNum.fin 100)
      let riskRewardRatio := potentialProfit.div (riskAmount.orElse (JSNum.fin 1))
      some
        [{ type := PositionSide.short, entry := entry, target := target, stopLoss := stopLoss,
           potentialProfit := potentialProfit, riskAmount := riskAmount,
           riskRewardRatio := riskRewardRatio }]
  else some []

/-! ## Indicator library: Bollinger bands, volatility, rate of change -/

/-- The read `xs[xs.length - 1]` of an array of numbers; the `undefined` read from an
empty array is `NaN` (it behaves so in every comparison and operation that follows). -/
def lastNumber (xs : List ℚ) : JSNum :=
  match xs.getLast? with
  | some q => JSNum.fin q
  | none => JSNum.nan

/-- Bollinger bands, `calculateBollingerBands` (ai-helpers.js 64-84).  The loop index `i`
runs from `period - 1` to `data.length - 1`; `j` counts its iterations, and each row is
the triple pushed to `upper`, `middle`, `lower`.  The built-in `Math.sqrt` on a finite
non-negative number is the parameter `sqrt`. -/
def calculateBollingerBands (sqrt : ℚ → ℚ) (data : List ℚ) (period : ℕ) (stdDev : ℚ) :
    BBands :=
  let sma := calculateSMA data period
  let rows := (List.range (data.length - (period - 1))).map fun j =>
    let i := period - 1 + j
    let slice := jsSlice data (i + 1 - period) (i + 1)
    let mean := sma.getD (i + 1 - period) 0
    let variance := slice.foldl (fun sum val => sum + (val - mean) ^ 2) 0 / period
    let sd := sqrt variance
    (mean + sd * stdDev, mean, mean - sd * stdDev)
  { upper := lastNumber (rows.map fun r => r.1)
    middle := lastNumber (rows.map fun r => r.2.1)
    lower := lastNumber (rows.map fun r => r.2.2) }

/-- The call `Math.sqrt(x)`; on a finite non-negative number it is the parameter `sqrt`. -/
def jsSqrt (sqrt : ℚ → ℚ) : JSNum → JSNum
  | JSNum.fin q => if q < 0 then JSNum.nan else JSNum.fin (sqrt q)
  | JSNum.posInf => JSNum.posInf
  | _ => JSNum.nan

/-- The first loop of `calculateVolatility` (script.js 833-836):
`returns[i-1] = (data[i] - data[i-1]) / data[i-1]` for `i = 1 .. data.length - 1`. -/
def priceReturns : List ℚ → List JSNum
  | a :: b :: rest => (JSNum.fin (b - a)).div (JSNum.fin a) :: priceReturns (b :: rest)
  | _ => []

/-- The reduction `xs.reduce((a, b) => a + b, 0)` over numbers that need not be finite. -/
def jsSumNum (xs : List JSNum) : JSNum := xs.foldl JSNum.add (JSNum.fin 0)

/-- Volatility in percent, `calculateVolatility` (script.js 832-844). -/
def calculateVolatility (sqrt : ℚ → ℚ) (data : List ℚ) (period : ℕ) : JSNum :=
  let returns := priceReturns data
  let recentReturns := jsSliceLast returns period
  let mean := (jsSumNum recentReturns).div (JSNum.fin recentReturns.length)
  let variance :=
    (recentReturns.foldl (fun sum r => sum.add ((r.sub mean).mul (r.sub mean)))
      (JSNum.fin 0)).div (JSNum.fin recentReturns.length)
  let stdDev := jsSqrt sqrt variance
  stdDev.mul (JSNum.fin 100)

/-- Rate of change, `calculateROC` (ai-helpers.js 93-98): an index outside the array
reads `undefined`, which makes the result `NaN`. -/
def calculateROC (data : List ℚ) (period : ℕ) : JSNum :=
  if data.length < period then JSNum.fin 0
  else
    match data[data.length - 1]?, data[data.length - period]? with
    | some current, some previous =>
      ((JSNum.fin (current - previous)).div (JSNum.fin previous)).mul (JSNum.fin 100)
    | _, _ => JSNum.nan

/-- The indicator record, `calculateAdvancedIndicators` (script.js 699-774).  An
`undefined` read from an empty result array is `NaN`; `none` is the exception thrown by
`findAdvancedSupportResistance` on an empty candle list.  The arrays `highs` and `lows`
of the source are not read, and the fields `emaArray` and `closeArray` of the result are
not read by any function embedded here. -/
def calculateAdvancedIndicators (sqrt : ℚ → ℚ) (data : List Candle) : Option Indicators :=
  let closes := data.map fun c => c.close
  let volumes := data.map fun c => jsOr c.volume 0
  let ema9 := calculateEMA closes 9
  let ema21 := calculateEMA closes 21
  let ema50 := calculateEMA closes 50
  let ema100 := calculateEMA closes 100
  let ema200 := calculateEMA closes 200
  let sma20 := calculateSMA closes 20
  let sma50 := calculateSMA closes 50
  let sma200 := calculateSMA closes 200
  let rsi := calculateRSI closes 14
  let rsi7 := calculateRSI closes 7
  let macd := calculateMACD closes
  let stochRSI := calculateStochRSI rsi 14
  let atr := calculateATR data 14
  let bbands := calculateBollingerBands sqrt closes 20 2
  let volumeMA := calculateSMA volumes 20
  let volumeRatio := (lastNumber volumes).div (JSNum.fin (jsOr volumeMA.getLast? 1))
  let volatility := calculateVolatility sqrt closes 20
  let volatility50 := calculateVolatility sqrt closes 50
  match findAdvancedSupportResistance data with
  | none => none
  | some supportResistance =>
    let momentum := calculateMomentum closes 10
    let roc := calculateROC closes 12
    some
      { ema9 := lastValue ema9
        ema21 := lastValue ema21
        ema50 := lastValue ema50
        ema100 := lastValue ema100
        ema200 := lastValue ema200
        sma20 := lastNumber sma20
        sma50 := lastNumber sma50
        sma200 := lastNumber sma200
        rsi := lastNumber rsi
        rsi7 := lastNumber rsi7
        macd := macd
        stochRSI := stochRSI
        atr := lastNumber atr
        bbands := bbands
        volumeRatio := volumeRatio
        volatility := volatility
        volatility50 := volatility50
        support := JSNum.fin supportResistance.support
        resistance := JSNum.fin supportResistance.resistance
        momentum := momentum
        roc := roc }

/-! ## Smart money concepts -/

/-- An entry `{ type, price, strength }` of `orderBlocks`. -/
structure OrderBlock where
  type : TrendLabel
  price : ℚ
  strength : JSNum

/-- An entry `{ type, top, bottom, size }` of `fairValueGaps`. -/
structure FairValueGap where
  type : TrendLabel
  top : ℚ
  bottom : ℚ
  size : ℚ

/-- The record returned by `detectSmartMoneyConcepts`. -/
structure SmartMoney where
  orderBlocks : List OrderBlock
  fairValueGaps : List FairValueGap

/-- The order blocks pushed by iteration `i` of the first loop of
`detectSmartMoneyConcepts` (ai-helpers.js 520-544), in exact arithmetic;
`orderBlocksAt_fl` is the rounded counterpart. -/
def orderBlocksAt (recent : List Candle) (i : ℕ) : List OrderBlock :=
  let candle := candleAt recent i
  let prevCandle := candleAt recent (i - 1)
  let body := |candle.close - candle.open_|
  let range := candle.high - candle.low
  (if candle.close > candle.open_ ∧ body > range * (7 / 10) ∧
      prevCandle.close < prevCandle.open_ then
    [{ type := TrendLabel.bullish, price := candle.low,
       strength := (JSNum.fin body).div (JSNum.fin range) }]
  else [])
  ++ (if candle.close < candle.open_ ∧ body > range * (7 / 10) ∧
      prevCandle.close > prevCandle.open_ then
    [{ type := TrendLabel.bearish, price := candle.high,
       strength := (JSNum.fin body).div (JSNum.fin range) }]
  else [])

/-- The array `orderBlocks` after the first loop of `detectSmartMoneyConcepts`
(ai-helpers.js 520-545): `i` runs from 3 to `recent.length - 2`; `j` counts the
iterations. -/
def scanOrderBlocks (recent : List Candle) : List OrderBlock :=
  ((List.range (recent.length - 4)).map fun j => orderBlocksAt recent (j + 3)).flatten

/-- The gaps pushed by iteration `i` of the second loop of `detectSmartMoneyConcepts`
(ai-helpers.js 548-572). -/
def fairValueGapsAt (recent : List Candle) (i : ℕ) : List FairValueGap :=
  let c1 := candleAt recent (i - 2)
  let c2 := candleAt recent (i - 1)
  let c3 := candleAt recent i
  (if c3.low > c1.high ∧ c2.close > c2.open_ then
    [{ type := TrendLabel.bullish, top := c3.low, bottom := c1.high,
       size := c3.low - c1.high }]
  else [])
  ++ (if c3.high < c1.low ∧ c2.close < c2.open_ then
    [{ type := TrendLabel.bearish, top := c1.low, bottom := c3.high,
       size := c1.low - c3.high }]
  else [])

/-- The array `fairValueGaps` after the second loop of `detectSmartMoneyConcepts`
(ai-helpers.js 548-573): `i` runs from 2 to `recent.length - 1`; `j` counts the
iterations. -/
def scanFairValueGaps (recent : List Candle) : List FairValueGap :=
  ((List.range (recent.length - 2)).map fun j => fairValueGapsAt recent (j + 2)).flatten

/-- Order blocks and fair value gaps, `detectSmartMoneyConcepts` (ai-helpers.js 512-578).
The parameter `indicators` of the source is not read by its body. -/
def detectSmartMoneyConcepts (data : List Candle) : SmartMoney :=
  if data.length < 50 then { orderBlocks := [], fairValueGaps := [] }
  else
    let recent := jsSliceLast data 50
    let orderBlocks := scanOrderBlocks recent
    let fairValueGaps := scanFairValueGaps recent
    { orderBlocks := jsSliceLast orderBlocks 3
      fairValueGaps := jsSliceLast fairValueGaps 3 }

/-! ## Volume profile -/

/-- The call `Math.floor(x)`. -/
def JSNum.floor : JSNum → JSNum
  | JSNum.fin q => JSNum.fin ⌊q⌋
  | x => x

/-- An entry of the object `volumeProfile`: its key `bucket` and its value
`{ price, volume }`. -/
structure VolumeNode where
  bucket : JSNum
  price : JSNum
  volume : ℚ

/-- The bucket index `Math.floor((candle.close - minLow) / bucketSize)` of a candle
(ai-helpers.js 492). -/
def volumeBucket (minLow bucketSize : ℚ) (candle : Candle) : JSNum :=
  ((JSNum.fin (candle.close - minLow)).div (JSNum.fin bucketSize)).floor

/-- The update of `volumeProfile` for one candle (ai-helpers.js 495-498): the entry of
key `bucket` is created with volume 0 if it is missing, then `volume` is added to it.
Entries are kept in the order of their creation. -/
def addToProfile : List VolumeNode → JSNum → JSNum → ℚ → List VolumeNode
  | [], bucket, price, volume => [{ bucket := bucket, price := price, volume := 0 + volume }]
  | e :: rest, bucket, price, volume =>
    if e.bucket = bucket then { e with volume := e.volume + volume } :: rest
    else e :: addToProfile rest bucket price volume

/-- The object `volumeProfile` after the `forEach` of `analyzeVolumeProfile`
(ai-helpers.js 488-499), as the list of its entries in the order of their creation.
A missing or zero volume counts as 1 (`candle.volume || 1`). -/
def buildVolumeProfile (recent : List Candle) : List VolumeNode :=
  let minLow := jsMin (recent.map fun c => c.low)
  let priceRange := jsMax (recent.map fun c => c.high) - minLow
  let bucketSize := priceRange / 20
  recent.foldl
    (fun profile candle =>
      let bucket := volumeBucket minLow bucketSize candle
      let bucketPrice := (JSNum.fin minLow).add (bucket.mul (JSNum.fin bucketSize))
      addToProfile profile bucket bucketPrice (jsOr candle.volume 1))
    []

/-- The test whether the key of an entry is an array index (a non-negative integer);
`Object.values` lists these keys first, in ascending order. -/
def VolumeNode.isIndexKey (e : VolumeNode) : Bool :=
  match e.bucket with
  | JSNum.fin q => decide (0 ≤ q)
  | _ => false

/-- The order of two entries with array-index keys in `Object.values`. -/
def VolumeNode.keyLe (a b : VolumeNode) : Bool := !(b.bucket.lt a.bucket)

/-- The call `Object.values(volumeProfile)`: the entries whose key is an array index in
ascending key order, then the other entries in the order of their creation (the upper
limit of 2^32 - 2 on array indices is not represented). -/
def objectValues (profile : List VolumeNode) : List VolumeNode :=
  (profile.filter fun e => e.isIndexKey).insertionSort (fun a b => a.keyLe b = true)
    ++ profile.filter fun e => !e.isIndexKey

/-- The record returned by `analyzeVolumeProfile`; `avgVolume` is `undefined` (`none`)
in the record returned for fewer than 50 candles. -/
structure VolumeProfile where
  highVolumeNodes : List JSNum
  lowVolumeNodes : List JSNum
  avgVolume : Option ℚ

/-- Volume profile, `analyzeVolumeProfile` (ai-helpers.js 482-509).  With at least 50
candles the profile has at least one entry, so the mean is a finite number. -/
def analyzeVolumeProfile (data : List Candle) : VolumeProfile :=
  if data.length < 50 then { highVolumeNodes := [], lowVolumeNodes := [], avgVolume := none }
  else
    let recent := jsSliceLast data 100
    let volumes := objectValues (buildVolumeProfile recent)
    let avgVolume := jsSum (volumes.map fun v => v.volume) / volumes.length
    let highVolumeNodes :=
      (volumes.filter fun v => v.volume > avgVolume * (3 / 2)).map fun v => v.price
    let lowVolumeNodes :=
      (volumes.filter fun v => v.volume < avgVolume * (1 / 2)).map fun v => v.price
    { highVolumeNodes := highVolumeNodes, lowVolumeNodes := lowVolumeNodes,
      avgVolume := some avgVolume }

/-! ## Specification-side definitions for the pattern detector -/

/-- The weight of a strength tier as the specification words it: high = 2,
very high = 3, extreme = 4. -/
def specPatternWeight : PatternStrength → Int
  | PatternStrength.high => 2
  | PatternStrength.veryHigh => 3
  | PatternStrength.extreme => 4

/-- The sum of the weights of the pattern records with the given direction. -/
def specWeightedCount (direction : TrendLabel) (patterns : List PatternRecord) : Int :=
  ((patterns.filter fun p => p.direction = direction).map fun p =>
    specPatternWeight p.strength).sum

/-- The peak test as the specification words it: the high of bar `i` is strictly
greater than that of each of the 5 bars before it and each of the 5 bars after it. -/
def specStrictPeak (data : List Candle) (i : ℕ) : Bool :=
  (List.range 5).all fun k =>
    decide ((candleAt data i).high > (candleAt data (i - (k + 1))).high ∧
      (candleAt data i).high > (candleAt data (i + (k + 1))).high)

/-- The indices `5 .. data.length - 6` that pass `specStrictPeak`. -/
def specStrictPeaks (data : List Candle) : List ℕ :=
  ((List.range (data.length - 10)).map fun j => j + 5).filter fun i => specStrictPeak data i

/-! ## Prediction synthesizer: signals and the prediction record -/

/-- The strength labels `'Strong'`, `'Medium'`, `'Info'` of a signal. -/
inductive SignalStrength where
  | strong
  | medium
  | info
  deriving DecidableEq

/-- A signal `{ type, message, strength }`. -/
structure Signal where
  type : TrendLabel
  message : String
  strength : SignalStrength
  deriving DecidableEq

/-- The array method `xs.push(x)`, as the new array. -/
def jsPush {α : Type} (xs : List α) (x : α) : List α := xs ++ [x]

/-- The signal list, `generateAdvancedSignals` (script.js 1224-1406), rule by rule in
the order of the source.  The built-in `x.toFixed(digits)` is the parameter `toFixed`;
every call of it sits behind a comparison that is false for `NaN`. -/
def generateAdvancedSignals (toFixed : JSNum → ℕ → String) (indicators : Indicators)
    (trend : TrendLabel) (currentPrice : JSNum) (patterns : PatternReport)
    (marketStructure : MarketStructure) : List Signal :=
  let signals : List Signal := []
  -- RSI levels
  let signals :=
    if indicators.rsi.lt (JSNum.fin 30) then
      jsPush signals
        { type := TrendLabel.bullish
          message := "RSI Oversold (" ++ toFixed indicators.rsi 1
            ++ ") - Strong reversal potential"
          strength := SignalStrength.strong }
    else if indicators.rsi.lt (JSNum.fin 40) then
      jsPush signals
        { type := TrendLabel.bullish
          message := "RSI below 40 (" ++ toFixed indicators.rsi 1
            ++ ") - Bullish territory"
          strength := SignalStrength.medium }
    else if indicators.rsi.gt (JSNum.fin 70) then
      jsPush signals
        { type := TrendLabel.bearish
          message := "RSI Overbought (" ++ toFixed indicators.rsi 1
            ++ ") - Reversal risk high"
          strength := SignalStrength.strong }
    else if indicators.rsi.gt (JSNum.fin 60) then
      jsPush signals
        { type := TrendLabel.bearish
          message := "RSI above 60 (" ++ toFixed indicators.rsi 1
            ++ ") - Bearish territory"
          strength := SignalStrength.medium }
    else signals
  -- EMA alignment
  let signals :=
    if indicators.ema9.gt indicators.ema21 ∧ indicators.ema21.gt indicators.ema50 then
      jsPush signals
        { type := TrendLabel.bullish
          message := "Perfect EMA alignment - Strong uptrend structure"
          strength := SignalStrength.strong }
    else if indicators.ema9.lt indicators.ema21 ∧ indicators.ema21.lt indicators.ema50 then
      jsPush signals
        { type := TrendLabel.bearish
          message := "Perfect EMA alignment - Strong downtrend structure"
          strength := SignalStrength.strong }
    else signals
  -- Price position relative to EMA21
  let distanceFromEMA21 :=
    ((currentPrice.sub indicators.ema21).div indicators.ema21).mul (JSNum.fin 100)
  let signals :=
    if distanceFromEMA21.abs.gt (JSNum.fin 2) then
      jsPush signals
        { type := TrendLabel.neutral
          message := "Price "
            ++ (if distanceFromEMA21.gt (JSNum.fin 0) then "above" else "below")
            ++ " EMA21 by " ++ toFixed distanceFromEMA21.abs 2
            ++ "% - Mean reversion likely"
          strength := SignalStrength.medium }
    else signals
  -- MACD momentum
  let signals :=
    if indicators.macd.signal = TrendLabel.bullish ∧ indicators.macd.value.gt (JSNum.fin 0) then
      jsPush signals
        { type := TrendLabel.bullish
          message := "MACD bullish with positive momentum - Trend acceleration"
          strength := SignalStrength.strong }
    else if indicators.macd.signal = TrendLabel.bearish ∧
        indicators.macd.value.lt (JSNum.fin 0) then
      jsPush signals
        { type := TrendLabel.bearish
          message := "MACD bearish with negative momentum - Downward pressure"
          strength := SignalStrength.strong }
    else signals
  -- Stochastic RSI
  let signals :=
    if indicators.stochRSI.k.lt (JSNum.fin 20) ∧
        indicators.stochRSI.k.gt indicators.stochRSI.d then
      jsPush signals
        { type := TrendLabel.bullish
          message := "Stochastic RSI oversold with bullish cross - Entry opportunity"
          strength := SignalStrength.strong }
    else if indicators.stochRSI.k.gt (JSNum.fin 80) ∧
        indicators.stochRSI.k.lt indicators.stochRSI.d then
      jsPush signals
        { type := TrendLabel.bearish
          message := "Stochastic RSI overbought with bearish cross - Exit signal"
          strength := SignalStrength.strong }
    else signals
  -- Bollinger Bands
  let bbPosition :=
    (currentPrice.sub indicators.bbands.lower).div
      (indicators.bbands.upper.sub indicators.bbands.lower)
  let signals :=
    if bbPosition.lt (JSNum.fin (1 / 10)) then
      jsPush signals
        { type := TrendLabel.bullish
          message := "Price near lower Bollinger Band - Oversold bounce likely"
          strength := SignalStrength.medium }
    else if bbPosition.gt (JSNum.fin (9 / 10)) then
      jsPush signals
        { type := TrendLabel.bearish
          message := "Price near upper Bollinger Band - Overbought pullback likely"
          strength := SignalStrength.medium }
    else signals
  -- Volume
  let signals :=
    if (Indicators.volumeRatio indicators).gt (JSNum.fin 2) then
      jsPush signals
        { type := if trend = TrendLabel.bullish then TrendLabel.bullish else TrendLabel.bearish
          message := "Exceptional volume ("
            ++ toFixed (Indicators.volumeRatio indicators) 1
            ++ "x avg) - Strong trend confirmation"
          strength := SignalStrength.strong }
    else if (Indicators.volumeRatio indicators).gt (JSNum.fin (3 / 2)) then
      jsPush signals
        { type := if trend = TrendLabel.bullish then TrendLabel.bullish else TrendLabel.bearish
          message := "High volume ("
            ++ toFixed (Indicators.volumeRatio indicators) 1
            ++ "x avg) - Trend confirmation"
          strength := SignalStrength.medium }
    else if (Indicators.volumeRatio indicators).lt (JSNum.fin (1 / 2)) then
      jsPush signals
        { type := TrendLabel.neutral
          message := "Low volume - Weak trend, be cautious"
          strength := SignalStrength.info }
    else signals
  -- Support and resistance proximity
  let distToSupport :=
    ((currentPrice.sub indicators.support).div currentPrice).mul (JSNum.fin 100)
  let distToResistance :=
    ((indicators.resistance.sub currentPrice).div currentPrice).mul (JSNum.fin 100)
  let signals :=
    if distToSupport.lt (JSNum.fin 1) then
      jsPush signals
        { type := TrendLabel.bullish
          message := "Near support at $" ++ toFixed indicators.support 2
            ++ " - Bounce opportunity"
          strength := SignalStrength.strong }
    else signals
  let signals :=
    if distToResistance.lt (JSNum.fin 1) then
      jsPush signals
        { type := TrendLabel.bearish
          message := "Near resistance at $" ++ toFixed indicators.resistance 2
            ++ " - Rejection risk"
          strength := SignalStrength.strong }
    else signals
  -- Patterns
  let signals :=
    if patterns.bullishPatterns > 0 then
      jsPush signals
        { type := TrendLabel.bullish
          message := toString patterns.bullishPatterns ++ " bullish pattern"
            ++ (if patterns.bullishPatterns > 1 then "s" else "") ++ " detected"
          strength := SignalStrength.strong }
    else signals
  let signals :=
    if patterns.bearishPatterns > 0 then
      jsPush signals
        { type := TrendLabel.bearish
          message := toString patterns.bearishPatterns ++ " bearish pattern"
            ++ (if patterns.bearishPatterns > 1 then "s" else "") ++ " detected"
          strength := SignalStrength.strong }
    else signals
  -- Market structure
  let signals :=
    if marketStructure.trend = StructureTrend.uptrend then
      jsPush signals
        { type := TrendLabel.bullish
          message := "Market structure: Higher highs and higher lows confirmed"
          strength := SignalStrength.medium }
    else if marketStructure.trend = StructureTrend.downtrend then
      jsPush signals
        { type := TrendLabel.bearish
          message := "Market structure: Lower highs and lower lows confirmed"
          strength := SignalStrength.medium }
    else signals
  -- Volatility warning
  let signals :=
    if indicators.volatility.gt (JSNum.fin 3) then
      jsPush signals
        { type := TrendLabel.neutral
          message := "Extreme volatility (" ++ toFixed indicators.volatility 1
            ++ "%) - High risk environment"
          strength := SignalStrength.info }
    else signals
  signals

/-- The signals pushed for the order blocks in `generateUltimatePrediction`
(script.js 1021-1039). -/
def smartMoneySignals (smartMoney : SmartMoney) : List Signal :=
  if smartMoney.orderBlocks.length > 0 then
    let bullishOB := smartMoney.orderBlocks.filter fun ob => ob.type = TrendLabel.bullish
    let bearishOB := smartMoney.orderBlocks.filter fun ob => ob.type = TrendLabel.bearish
    (if bullishOB.length > 0 then
      [{ type := TrendLabel.bullish
         message := toString bullishOB.length
           ++ " Bullish Order Block(s) detected - Institutional support"
         strength := SignalStrength.strong }]
    else [])
    ++ (if bearishOB.length > 0 then
      [{ type := TrendLabel.bearish
         message := toString bearishOB.length
           ++ " Bearish Order Block(s) detected - Institutional resistance"
         strength := SignalStrength.strong }]
    else [])
  else []

/-- The test `distance < 0.005` of the Fibonacci loop for the level price `fibPrice`. -/
def nearFibonacci (currentPrice : JSNum) (fibPrice : ℚ) : Bool :=
  (((currentPrice.sub (JSNum.fin fibPrice)).abs).div currentPrice).lt (JSNum.fin (5 / 1000))

/-- The signal pushed for the Fibonacci level named `level` at price `fibPrice`. -/
def fibonacciSignal (toFixed : JSNum → ℕ → String) (level : String) (fibPrice : ℚ) : Signal :=
  { type := TrendLabel.neutral
    message := "Price near Fibonacci " ++ level ++ " level ($"
      ++ toFixed (JSNum.fin fibPrice) 2 ++ ") - Key decision point"
    strength := SignalStrength.strong }

/-- The signals pushed by the Fibonacci loop of `generateUltimatePrediction`
(script.js 1042-1056): the levels 61.8%, 50%, 38.2% in this order, stopping at the
first one within 0.5% of the price. -/
def fibonacciSignals (toFixed : JSNum → ℕ → String) (currentPrice : JSNum)
    (fibonacci : Option FibonacciLevels) : List Signal :=
  match fibonacci with
  | none => []
  | some fib =>
    if nearFibonacci currentPrice fib.level618 then
      [fibonacciSignal toFixed "61.8%" fib.level618]
    else if nearFibonacci currentPrice fib.level50 then
      [fibonacciSignal toFixed "50%" fib.level50]
    else if nearFibonacci currentPrice fib.level382 then
      [fibonacciSignal toFixed "38.2%" fib.level382]
    else []

/-- The record returned by `generateUltimatePrediction`. -/
structure UltimatePrediction where
  trend : TrendLabel
  confidence : Int
  futurePrices : List LinePoint
  positions : List Position
  signals : List Signal
  targetPrice : JSNum
  indicators : Indicators
  patterns : PatternReport
  marketStructure : MarketStructure
  fibonacci : Option FibonacciLevels
  smartMoney : SmartMoney
  trendline : Option Trendline

/-- The whole of `generateUltimatePrediction` (script.js 915-1075): the scoring part
(`scoreTrend`, `classifyTrend`, `computeConfidence`) followed by the price path, the
positions and the signals.  The draws of `Math.random` are the parameter `random`, the
global `currentTimeframe` and the built-in `toFixed` are parameters; `none` is a thrown
exception (an empty candle list or an empty price path).  The parameter `volumeProfile`
of the source is not read by its body. -/
def generateUltimatePredictionFull (random : ℕ → ℚ) (toFixed : JSNum → ℕ → String)
    (currentTimeframe : String) (data : List Candle) (indicators : Indicators)
    (patterns : PatternReport) (marketStructure : MarketStructure)
    (fibonacci : Option FibonacciLevels) (smartMoney : SmartMoney) :
    Option UltimatePrediction :=
  match data.getLast? with
  | none => none
  | some last =>
    let currentPrice := JSNum.fin last.close
    let lastTime := last.time
    let st := scoreTrend currentPrice indicators patterns marketStructure
    let trend := classifyTrend st.1
    let confidence := computeConfidence st.1 st.2 patterns
    let futurePrices :=
      generateAdvancedPricePrediction random currentTimeframe currentPrice lastTime trend
        indicators
    match generateOptimizedPositions currentPrice futurePrices indicators trend with
    | none => none
    | some positions =>
      let signals :=
        generateAdvancedSignals toFixed indicators trend currentPrice patterns marketStructure
      let signals := signals ++ smartMoneySignals smartMoney
      let signals := signals ++ fibonacciSignals toFixed currentPrice fibonacci
      let trendlineData := marketStructure.details.bind fun d => d.trendline
      match futurePrices.getLast? with
      | none => none
      | some lastPoint =>
        some
          { trend := trend
            confidence := confidence
            futurePrices := futurePrices
            positions := positions
            signals := signals
            targetPrice := lastPoint.value
            indicators := indicators
            patterns := patterns
            marketStructure := marketStructure
            fibonacci := fibonacci
            smartMoney := smartMoney
            trendline := trendlineData }

/-! ## Analysis driver -/

/-- The constant `AI_ALLOWED_TIMEFRAMES` (script.js 19). -/
def AI_ALLOWED_TIMEFRAMES : List String := ["1m", "5m", "15m", "30m"]

/-- The globals read and written by `runAIAnalysis`. -/
structure AppState where
  historicalData : List Candle
  currentTimeframe : String
  lastAIAnalysis : Option UltimatePrediction

/-- The check `isAIAllowed` (script.js 324-326). -/
def isAIAllowed (s : AppState) : Bool :=
  AI_ALLOWED_TIMEFRAMES.contains s.currentTimeframe

/-- Phases 1 to 7 of `runAIAnalysis` (script.js 627-649): indicators, patterns, market
structure, Fibonacci levels, smart money concepts and the prediction.  The volume
profile of phase 5 is passed to `generateUltimatePrediction` but never read there;
`none` is a thrown exception. -/
def analysisPipeline (random : ℕ → ℚ) (toFixed : JSNum → ℕ → String) (sqrt : ℚ → ℚ)
    (currentTimeframe : String) (historicalData : List Candle) : Option UltimatePrediction :=
  match calculateAdvancedIndicators sqrt historicalData with
  | none => none
  | some indicators =>
    let patterns := detectAdvancedPatterns historicalData
    let marketStructure := analyzeAdvancedMarketStructure historicalData
    let fibonacci := calculateFibonacciLevels historicalData
    let smartMoney := detectSmartMoneyConcepts historicalData
    generateUltimatePredictionFull random toFixed currentTimeframe historicalData indicators
      patterns marketStructure fibonacci smartMoney

/-- The state change of `runAIAnalysis` (script.js 611-669): the two early returns leave
the state as it is, otherwise the new prediction is stored in `lastAIAnalysis`.  The
console output (with the logged result of `detectMarketChangeSignificance`), the chart
drawings and the panel update do not touch the three globals; `none` is a thrown
exception before the assignment. -/
def runAIAnalysis (random : ℕ → ℚ) (toFixed : JSNum → ℕ → String) (sqrt : ℚ → ℚ)
    (s : AppState) : Option AppState :=
  if ¬ isAIAllowed s then some s
  else if s.historicalData.length < 200 then some s
  else
    match analysisPipeline random toFixed sqrt s.currentTimeframe s.historicalData with
    | none => none
    | some prediction => some { s with lastAIAnalysis := some prediction }

/-! ## Double-precision layer

The definitions above compute with exact rationals.  The definitions of this section
repeat those functions whose stated properties depend on the rounding of IEEE doubles:
the parameter `fl : ℚ → ℚ` is applied to the result of every arithmetic operation, in
the order in which the source evaluates it, and a decimal literal such as `0.7` is the
rounded constant `fl (7 / 10)`.  With `fl := id` they are the exact definitions; with
`fl := roundDouble` they compute what the double arithmetic of JavaScript computes, as
long as no result overflows or is subnormal (`roundDouble` rounds to 53 significant
bits, to nearest, ties to even, with an unbounded exponent range). -/

/-- The exponent `⌊log₂ n⌋` of a natural number `n ≥ 1`, by repeated halving; `fuel`
bounds the number of halvings (`natLog2 n n` always has enough). -/
def natLog2 : ℕ → ℕ → ℕ
  | 0, _ => 0
  | fuel + 1, n => if n < 2 then 0 else natLog2 fuel (n / 2) + 1

/-- The power `2 ^ e` for an integer exponent. -/
def pow2 (e : ℤ) : ℚ :=
  if 0 ≤ e then ((2 ^ e.toNat : ℕ) : ℚ) else 1 / ((2 ^ (-e).toNat : ℕ) : ℚ)

/-- The binary exponent of a positive rational `a`: the integer `e` with
`2 ^ e ≤ a < 2 ^ (e + 1)`. -/
def binaryExponent (a : ℚ) : ℤ :=
  let e0 : ℤ := (natLog2 a.num.natAbs a.num.natAbs : ℤ) - (natLog2 a.den a.den : ℤ)
  if pow2 e0 ≤ a then e0 else e0 - 1

/-- Rounding to the nearest integer, a tie going to the even neighbour. -/
def roundHalfEven (t : ℚ) : ℤ :=
  let q := ⌊t⌋
  let r := t - q
  if r < 1 / 2 then q
  else if 1 / 2 < r then q + 1
  else if q % 2 = 0 then q else q + 1

/-- Rounding of a positive rational to 53 significant bits: the multiple of
`2 ^ (e - 52)` nearest to `a`, where `e` is the binary exponent of `a`. -/
def roundPositive (a : ℚ) : ℚ :=
  let ulp := pow2 (binaryExponent a - 52)
  (roundHalfEven (a / ulp) : ℚ) * ulp

/-- The double nearest to the rational `x` (round to nearest, ties to even). -/
def roundDouble (x : ℚ) : ℚ :=
  if x = 0 then 0 else if 0 < x then roundPositive x else -roundPositive (-x)

/-- The unit roundoff `2 ^ (-53)` of double precision. -/
def unitRoundoff : ℚ := 1 / 2 ^ 53

/-- The properties of rounding that the proofs below use: monotone, relative error at
most the unit roundoff, symmetric, idempotent, and exact at 0, 1, 2 and 100. -/
structure RoundsToNearest (fl : ℚ → ℚ) : Prop where
  mono : Monotone fl
  error : ∀ x, |fl x - x| ≤ |x| * unitRoundoff
  neg : ∀ x, fl (-x) = -fl x
  idem : ∀ x, fl (fl x) = fl x
  zero : fl 0 = 0
  one : fl 1 = 1
  two : fl 2 = 2
  hundred : fl 100 = 100

/-- Rounding of a number that may be non-finite: only a finite value is rounded. -/
def JSNum.round (fl : ℚ → ℚ) : JSNum → JSNum
  | JSNum.fin q => JSNum.fin (fl q)
  | x => x

/-- The reduction `xs.reduce((a, b) => a + b, 0)` with every addition rounded. -/
def jsSum_fl (fl : ℚ → ℚ) (xs : List ℚ) : ℚ := xs.foldl (fun a b => fl (a + b)) 0

/-- The first loop of `calculateRSI` (script.js 789-791) with the subtraction rounded. -/
def priceChanges_fl (fl : ℚ → ℚ) : List ℚ → List ℚ
  | a :: b :: rest => fl (b - a) :: priceChanges_fl fl (b :: rest)
  | _ => []

/-- The constant `gains` of the second loop of `calculateRSI` (script.js 795) for one
window: the rounded sum of the positive changes, divided by `period`. -/
def rsiGains_fl (fl : ℚ → ℚ) (window : List ℚ) (period : ℕ) : ℚ :=
  fl (jsSum_fl fl (window.filter fun c => c > 0) / period)

/-- The body of the second loop of `calculateRSI` (script.js 795-799) for one window,
every operation rounded: the two sums and their division by `period`, the division
`gains / (losses || 1)`, the sum `1 + rs`, the quotient `100 / (1 + rs)` and the final
difference. -/
def rsiOfWindow_fl (fl : ℚ → ℚ) (window : List ℚ) (period : ℕ) : ℚ :=
  let gains := rsiGains_fl fl window period
  let losses := fl (|jsSum_fl fl (window.filter fun c => c < 0)| / period)
  let rs := fl (gains / (if losses = 0 then 1 else losses))
  fl (100 - fl (100 / fl (1 + rs)))

/-- Relative strength index, `calculateRSI` (script.js 787-804), in rounded arithmetic. -/
def calculateRSI_fl (fl : ℚ → ℚ) (data : List ℚ) (period : ℕ) : List ℚ :=
  let changes := priceChanges_fl fl data
  (List.range (changes.length - period)).map fun j =>
    let i := period + j
    rsiOfWindow_fl fl (jsSlice changes (i - period) i) period

/-- Simple moving average, `calculateSMA` (script.js 777-784), in rounded arithmetic:
the additions of the window sum and the division by `period` are rounded. -/
def calculateSMA_fl (fl : ℚ → ℚ) (data : List ℚ) (period : ℕ) : List ℚ :=
  (List.range (data.length - (period - 1))).map fun j =>
    let i := period - 1 + j
    let sum := jsSum_fl fl (jsSlice data (i + 1 - period) (i + 1))
    fl (sum / period)

/-- The constant `volumeRatio` of `calculateAdvancedIndicators` (script.js 733-734) in
rounded arithmetic: the last volume divided by the last 20-bar average of the volumes,
or by 1 when that average is 0 or missing. -/
def volumeRatio_fl (fl : ℚ → ℚ) (volumes : List ℚ) : JSNum :=
  ((lastNumber volumes).div
    (JSNum.fin (jsOr (calculateSMA_fl fl volumes 20).getLast? 1))).round fl

/-- The loop of `calculateEMA` (script.js 824-826) in rounded arithmetic: the step
`data[i] * k + result[i - 1] * (1 - k)` rounds the product `data[i] * k`, the difference
`1 - k`, the product `result[i - 1] * (1 - k)` and the sum. -/
def emaLoop_fl (fl : ℚ → ℚ) (k : ℚ) : ℚ → List ℚ → List ℚ
  | _, [] => []
  | prev, x :: rest =>
    let next := fl (fl (x * k) + fl (prev * fl (1 - k)))
    next :: emaLoop_fl fl k next rest

/-- Exponential moving average, `calculateEMA` (script.js 820-829), in rounded
arithmetic; the factor is `k = 2 / (period + 1)` with the sum and the quotient rounded. -/
def calculateEMA_fl (fl : ℚ → ℚ) (data : List ℚ) (period : ℕ) : List (Option ℚ) :=
  let k : ℚ := fl (2 / fl (period + 1))
  match data with
  | [] => [none]
  | first :: rest => some first :: (emaLoop_fl fl k first rest).map some

/-- Single-value MACD, `calculateMACD` (script.js 807-817), in rounded arithmetic. -/
def calculateMACD_fl (fl : ℚ → ℚ) (data : List ℚ) : MACD :=
  let ema12 := calculateEMA_fl fl data 12
  let ema26 := calculateEMA_fl fl data 26
  let macdLine := ((lastValue ema12).sub (lastValue ema26)).round fl
  { value := macdLine
    signal := if macdLine.gt (JSNum.fin 0) then TrendLabel.bullish else TrendLabel.bearish }

/-- The reduction `xs.reduce((a, b) => a + b)` without an initial value, every addition
rounded; the source applies it to non-empty clusters only. -/
def jsReduceSum_fl (fl : ℚ → ℚ) : List ℚ → ℚ
  | [] => 0
  | x :: rest => rest.foldl (fun a b => fl (a + b)) x

/-- The mean `cluster.reduce((a, b) => a + b) / cluster.length` (script.js 905 and 909)
in rounded arithmetic. -/
def clusterMean_fl (fl : ℚ → ℚ) (cluster : List ℚ) : ℚ :=
  fl (jsReduceSum_fl fl cluster / cluster.length)

/-- The loop of `clusterLevels` (script.js 901-909) in rounded arithmetic: the test
`(sorted[i] - currentCluster[0]) / currentCluster[0] < threshold` rounds the difference
and the quotient. -/
def clusterLoop_fl (fl : ℚ → ℚ) (threshold : ℚ) : List ℚ → List ℚ → List ℚ → List ℚ
  | clusters, currentCluster, [] => clusters ++ [clusterMean_fl fl currentCluster]
  | clusters, currentCluster, x :: rest =>
    let first := currentCluster.headD 0
    if (((JSNum.fin (fl (x - first))).div (JSNum.fin first)).round fl).lt
        (JSNum.fin threshold) then
      clusterLoop_fl fl threshold clusters (currentCluster ++ [x]) rest
    else
      clusterLoop_fl fl threshold (clusters ++ [clusterMean_fl fl currentCluster]) [x] rest

/-- The function `clusterLevels(levels, threshold)` (script.js 894-912) in rounded
arithmetic; the comparator `(a, b) => a - b` has the sign of the exact difference, so
the sort is the ascending one. -/
def clusterLevelsWith_fl (fl : ℚ → ℚ) (levels : List ℚ) (threshold : ℚ) : List ℚ :=
  if levels.length = 0 then []
  else
    let sorted := levels.insertionSort (fun a b => a ≤ b)
    clusterLoop_fl fl threshold [] [sorted.headD 0] sorted.tail

/-- The function `clusterLevels` called with its default threshold, the double `0.002`. -/
def clusterLevels_fl (fl : ℚ → ℚ) (levels : List ℚ) : List ℚ :=
  clusterLevelsWith_fl fl levels (fl (1 / 500))

/-- Fibonacci retracement levels, `calculateFibonacciLevels` (ai-helpers.js 455-479), in
rounded arithmetic: `range = maxHigh - minLow` is rounded, and each level
`minLow + range * r` rounds the literal `r`, the product and the sum. -/
def calculateFibonacciLevels_fl (fl : ℚ → ℚ) (data : List Candle) : Option FibonacciLevels :=
  if data.length < 50 then none
  else
    let recent := jsSliceLast data 100
    let highs := recent.map fun c => c.high
    let lows := recent.map fun c => c.low
    let maxHigh := jsMax highs
    let minLow := jsMin lows
    let range := fl (maxHigh - minLow)
    some
      { level0 := minLow
        level236 := fl (minLow + fl (range * fl (236 / 1000)))
        level382 := fl (minLow + fl (range * fl (382 / 1000)))
        level50 := fl (minLow + fl (range * fl (1 / 2)))
        level618 := fl (minLow + fl (range * fl (618 / 1000)))
        level786 := fl (minLow + fl (range * fl (786 / 1000)))
        level100 := maxHigh
        range := range }

/-- The order blocks pushed by iteration `i` of the first loop of
`detectSmartMoneyConcepts` (ai-helpers.js 520-544) in rounded arithmetic: the body
`Math.abs(candle.close - candle.open)`, the range `candle.high - candle.low`, the
product `range * 0.7` of the test and the quotient `body / range` are rounded. -/
def orderBlocksAt_fl (fl : ℚ → ℚ) (recent : List Candle) (i : ℕ) : List OrderBlock :=
  let candle := candleAt recent i
  let prevCandle := candleAt recent (i - 1)
  let body := |fl (candle.close - candle.open_)|
  let range := fl (candle.high - candle.low)
  (if candle.close > candle.open_ ∧ body > fl (range * fl (7 / 10)) ∧
      prevCandle.close < prevCandle.open_ then
    [{ type := TrendLabel.bullish, price := candle.low,
       strength := ((JSNum.fin body).div (JSNum.fin range)).round fl }]
  else [])
  ++ (if candle.close < candle.open_ ∧ body > fl (range * fl (7 / 10)) ∧
      prevCandle.close > prevCandle.open_ then
    [{ type := TrendLabel.bearish, price := candle.high,
       strength := ((JSNum.fin body).div (JSNum.fin range)).round fl }]
  else [])

/-- The array `orderBlocks` after the first loop of `detectSmartMoneyConcepts`
(ai-helpers.js 520-545) in rounded arithmetic: `i` runs from 3 to `recent.length - 2`. -/
def scanOrderBlocks_fl (fl : ℚ → ℚ) (recent : List Candle) : List OrderBlock :=
  ((List.range (recent.length - 4)).map fun j => orderBlocksAt_fl fl recent (j + 3)).flatten

/-- The gaps pushed by iteration `i` of the second loop of `detectSmartMoneyConcepts`
(ai-helpers.js 548-572) in rounded arithmetic: the `size` differences are rounded. -/
def fairValueGapsAt_fl (fl : ℚ → ℚ) (recent : List Candle) (i : ℕ) : List FairValueGap :=
  let c1 := candleAt recent (i - 2)
  let c2 := candleAt recent (i - 1)
  let c3 := candleAt recent i
  (if c3.low > c1.high ∧ c2.close > c2.open_ then
    [{ type := TrendLabel.bullish, top := c3.low, bottom := c1.high,
       size := fl (c3.low - c1.high) }]
  else [])
  ++ (if c3.high < c1.low ∧ c2.close < c2.open_ then
    [{ type := TrendLabel.bearish, top := c1.low, bottom := c3.high,
       size := fl (c1.low - c3.high) }]
  else [])

/-- The array `fairValueGaps` after the second loop of `detectSmartMoneyConcepts`
(ai-helpers.js 548-573) in rounded arithmetic: `i` runs from 2 to `recent.length - 1`. -/
def scanFairValueGaps_fl (fl : ℚ → ℚ) (recent : List Candle) : List FairValueGap :=
  ((List.range (recent.length - 2)).map fun j => fairValueGapsAt_fl fl recent (j + 2)).flatten

/-- Order blocks and fair value gaps, `detectSmartMoneyConcepts`
(ai-helpers.js 512-578), in rounded arithmetic. -/
def detectSmartMoneyConcepts_fl (fl : ℚ → ℚ) (data : List Candle) : SmartMoney :=
  if data.length < 50 then { orderBlocks := [], fairValueGaps := [] }
  else
    let recent := jsSliceLast data 50
    let orderBlocks := scanOrderBlocks_fl fl recent
    let fairValueGaps := scanFairValueGaps_fl fl recent
    { orderBlocks := jsSliceLast orderBlocks 3
      fairValueGaps := jsSliceLast fairValueGaps 3 }

/-! ## Sample inputs -/

/-- An indicator record with every numeric field finite. -/
def sampleIndicators : Indicators :=
  { ema9 := JSNum.fin 101, ema21 := JSNum.fin 100, ema50 := JSNum.fin 99,
    ema100 := JSNum.fin 98, ema200 := JSNum.fin 97, sma20 := JSNum.fin 100,
    sma50 := JSNum.fin 99, sma200 := JSNum.fin 97, rsi := JSNum.fin 55,
    rsi7 := JSNum.fin 58,
    macd := { value := JSNum.fin 1, signal := TrendLabel.bullish },
    stochRSI := { k := JSNum.fin 60, d := JSNum.fin 55 },
    atr := JSNum.fin 2,
    bbands := { upper := JSNum.fin 106, middle := JSNum.fin 100, lower := JSNum.fin 94 },
    volumeRatio := JSNum.fin 1, volatility := JSNum.fin 1, volatility50 := JSNum.fin 1,
    support := JSNum.fin 99, resistance := JSNum.fin 110,
    momentum := JSNum.fin 1, roc := JSNum.fin 1 }

/-- A candle with all four prices at 100 and no volume. -/
def flatCandle : Candle :=
  { time := 0, open_ := 100, high := 100, low := 100, close := 100, volume := none }

/-- A candle like `flatCandle` but with its high at 101. -/
def spikeCandle : Candle :=
  { time := 0, open_ := 100, high := 101, low := 100, close := 100, volume := none }

/-- Fifty candles, flat except for a higher high at index 2. -/
def earlySwingData : List Candle :=
  List.replicate 2 flatCandle ++ spikeCandle :: List.replicate 47 flatCandle

/-- Candle `i` of `twoSwingData`: highs 110 and lows 100, except for higher highs at
bars 15 and 25 and lower lows at bars 10 and 20. -/
def twoSwingCandle (i : ℕ) : Candle :=
  { time := i, open_ := 105
    high := if i = 15 then 120 else if i = 25 then 125 else 110
    low := if i = 10 then 90 else if i = 20 then 95 else 100
    close := 105, volume := none }

/-- Fifty candles with exactly two swing highs and two swing lows, both rising. -/
def twoSwingData : List Candle := (List.range 50).map twoSwingCandle

/-- Candle `i` of `threeSwingData`: as `twoSwingCandle`, with a third lower low at bar 30. -/
def threeSwingCandle (i : ℕ) : Candle :=
  { time := i, open_ := 105
    high := if i = 15 then 120 else if i = 25 then 125 else 110
    low := if i = 10 then 90 else if i = 20 then 95 else if i = 30 then 97 else 100
    close := 105, volume := none }

/-- Fifty candles with two rising swing highs and three rising swing lows. -/
def threeSwingData : List Candle := (List.range 50).map threeSwingCandle

/-- A bar whose high (1) lies below its low (3). -/
def invertedCandle : Candle :=
  { time := 60, open_ := 2, high := 1, low := 3, close := 2, volume := none }

/-- A candle with all four prices at 100 and volume 5. -/
def flatVolumeCandle : Candle :=
  { time := 0, open_ := 100, high := 100, low := 100, close := 100, volume := some 5 }

/-- A candle with low 100, high 110 and the given close, without volume. -/
def rangeCandle (close : ℚ) : Candle :=
  { time := 0, open_ := 105, high := 110, low := 100, close := close, volume := none }

/-- Fifty candles in the range 100 to 110: 49 close at 105, the last one at the high. -/
def topCloseData : List Candle := List.replicate 49 (rangeCandle 105) ++ [rangeCandle 110]

/-- Candle `i` of `shoulderData`: highs at 100 except for 105 at bars 10 and 14 and 110
at bar 12. -/
def shoulderCandle (i : ℕ) : Candle :=
  { time := i, open_ := 95
    high := if i = 10 then 105 else if i = 12 then 110 else if i = 14 then 105 else 100
    low := 90, close := 95, volume := none }

/-- Thirty candles with three one-bar peaks close together. -/
def shoulderData : List Candle := (List.range 30).map shoulderCandle

/-- Candle `i` of `orderBlockData`: flat at 100 except for a falling bar at index 9 and
a rising bar at index 10 whose body (7) is exactly 70% of its range (10). -/
def orderBlockCandle (i : ℕ) : Candle :=
  if i = 9 then { time := i, open_ := 101, high := 101, low := 100, close := 100, volume := none }
  else if i = 10 then
    { time := i, open_ := 100, high := 108, low := 98, close := 107, volume := none }
  else { time := i, open_ := 100, high := 100, low := 100, close := 100, volume := none }

/-- Fifty candles with one bar whose body is exactly 70% of its range. -/
def orderBlockData : List Candle := (List.range 50).map orderBlockCandle

/-- A candle with low 100 and high 200. -/
def wideCandle : Candle :=
  { time := 0, open_ := 150, high := 200, low := 100, close := 150, volume := none }

/-- Candle `i` of `wideBlockData`: flat at 100 except for a falling bar at index 9 and
a rising bar at index 10 whose body (63) is exactly 70% of its range (90). -/
def wideBlockCandle (i : ℕ) : Candle :=
  if i = 9 then { time := i, open_ := 101, high := 101, low := 100, close := 100, volume := none }
  else if i = 10 then
    { time := i, open_ := 100, high := 189, low := 99, close := 163, volume := none }
  else { time := i, open_ := 100, high := 100, low := 100, close := 100, volume := none }

/-- Fifty candles with one bar of body 63 and range 90. -/
def wideBlockData : List Candle := (List.range 50).map wideBlockCandle

/-! # Properties -/

/-! ## Helper lemmas -/

/-! ### Relative strength index -/

theorem jsSum_eq_sum (xs : List ℚ) : jsSum xs = xs.sum := by
  unfold jsSum
  have h : ∀ (l : List ℚ) (a : ℚ), l.foldl (fun a b => a + b) a = a + l.sum := by
    intro l
    induction l with
    | nil => intro a; simp
    | cons x r ih => intro a; simp [ih, add_assoc]
  simpa using h xs 0

theorem priceChanges_length (data : List ℚ) : (priceChanges data).length = data.length - 1 := by
  induction data with
  | nil => simp [priceChanges]
  | cons a rest ih =>
    cases rest with
    | nil => simp [priceChanges]
    | cons b r => simp [priceChanges] at ih ⊢; omega

theorem priceChanges_replicate (n : ℕ) (c : ℚ) :
    priceChanges (List.replicate n c) = List.replicate (n - 1) 0 := by
  induction n with
  | zero => simp [priceChanges]
  | succ m ih =>
    cases m with
    | zero => simp [priceChanges]
    | succ k =>
      simp only [List.replicate_succ] at ih ⊢
      simp [priceChanges, ih, List.replicate_succ]

theorem mem_jsSlice {α : Type} {xs : List α} {a b : ℕ} {x : α} (h : x ∈ jsSlice xs a b) :
    x ∈ xs :=
  List.mem_of_mem_drop (List.mem_of_mem_take h)

theorem mem_calculateRSI {data : List ℚ} {period : ℕ} {v : ℚ}
    (h : v ∈ calculateRSI data period) :
    ∃ j, j < (priceChanges data).length - period ∧
      v = rsiOfWindow (jsSlice (priceChanges data) j (j + period)) period := by
  simp only [calculateRSI, List.mem_map, List.mem_range] at h
  obtain ⟨j, hj, rfl⟩ := h
  refine ⟨j, hj, ?_⟩
  rw [Nat.add_sub_cancel_left, Nat.add_comm]

theorem calculateRSI_length (data : List ℚ) (period : ℕ) :
    (calculateRSI data period).length = data.length - 1 - period := by
  simp [calculateRSI, priceChanges_length]

theorem rsiOfWindow_zero_loss (window : List ℚ) (period : ℕ)
    (h : ∀ c ∈ window, 0 ≤ c) :
    rsiOfWindow window period
      = 100 - 100 / (1 + (window.filter fun c => 0 < c).sum / period) := by
  have hf : (window.filter fun c => c < 0) = [] := by
    apply List.filter_eq_nil_iff.mpr
    intro c hc
    simpa using h c hc
  simp [rsiOfWindow, hf, jsSum_eq_sum]

theorem filter_pos_sum_nonneg (window : List ℚ) :
    0 ≤ (window.filter fun c => 0 < c).sum := by
  apply List.sum_nonneg
  intro c hc
  have := (List.mem_filter.mp hc).2
  exact le_of_lt (by simpa using this)

theorem rsiOfWindow_bounds (window : List ℚ) (period : ℕ) :
    0 ≤ rsiOfWindow window period ∧ rsiOfWindow window period < 100 := by
  have hg : 0 ≤ jsSum (window.filter fun c => c > 0) / (period : ℚ) := by
    rw [jsSum_eq_sum]
    exact div_nonneg (filter_pos_sum_nonneg window) (Nat.cast_nonneg _)
  have hl : 0 ≤ |jsSum (window.filter fun c => c < 0)| / (period : ℚ) :=
    div_nonneg (abs_nonneg _) (Nat.cast_nonneg _)
  have hd : 0 < (if |jsSum (window.filter fun c => c < 0)| / (period : ℚ) = 0 then (1 : ℚ)
      else |jsSum (window.filter fun c => c < 0)| / (period : ℚ)) := by
    split_ifs with h0
    · exact one_pos
    · exact lt_of_le_of_ne hl (Ne.symm h0)
  have hrs := div_nonneg hg (le_of_lt hd)
  have h1 : (0 : ℚ) < 1 + jsSum (window.filter fun c => c > 0) / (period : ℚ) /
      (if |jsSum (window.filter fun c => c < 0)| / (period : ℚ) = 0 then (1 : ℚ)
      else |jsSum (window.filter fun c => c < 0)| / (period : ℚ)) := by linarith
  have hq : (100 : ℚ) / (1 + jsSum (window.filter fun c => c > 0) / (period : ℚ) /
      (if |jsSum (window.filter fun c => c < 0)| / (period : ℚ) = 0 then (1 : ℚ)
      else |jsSum (window.filter fun c => c < 0)| / (period : ℚ))) ≤ 100 := by
    rw [div_le_iff₀ h1]; nlinarith
  have hq0 : (0 : ℚ) < 100 / (1 + jsSum (window.filter fun c => c > 0) / (period : ℚ) /
      (if |jsSum (window.filter fun c => c < 0)| / (period : ℚ) = 0 then (1 : ℚ)
      else |jsSum (window.filter fun c => c < 0)| / (period : ℚ))) := div_pos (by norm_num) h1
  simp only [rsiOfWindow]
  constructor <;> linarith


theorem rsiOfWindow_all_zero (window : List ℚ) (period : ℕ) (h : ∀ c ∈ window, c = 0) :
    rsiOfWindow window period = 0 := by
  have hw : ∀ c ∈ window, 0 ≤ c := fun c hc => le_of_eq (h c hc).symm
  have hf : (window.filter fun c => 0 < c) = [] := by
    apply List.filter_eq_nil_iff.mpr
    intro c hc
    simp [h c hc]
  rw [rsiOfWindow_zero_loss window period hw, hf]
  norm_num

theorem calculateRSI_replicate (n : ℕ) (c : ℚ) (period : ℕ) :
    calculateRSI (List.replicate n c) period = List.replicate (n - 1 - period) 0 := by
  rw [List.eq_replicate_iff]
  refine ⟨by simp [calculateRSI_length], ?_⟩
  intro v hv
  obtain ⟨j, -, rfl⟩ := mem_calculateRSI hv
  apply rsiOfWindow_all_zero
  intro x hx
  have hx2 := mem_jsSlice hx
  rw [priceChanges_replicate] at hx2
  exact List.eq_of_mem_replicate hx2

theorem priceChanges_append_singleton (a : ℚ) (rest : List ℚ) (x : ℚ) :
    priceChanges (a :: rest ++ [x])
      = priceChanges (a :: rest) ++ [x - (a :: rest).getLast (List.cons_ne_nil a rest)] := by
  induction rest generalizing a with
  | nil => simp [priceChanges]
  | cons b r ih =>
    have := ih b
    simp only [List.cons_append] at this ⊢
    simp only [priceChanges, this, List.cons_append]
    simp

theorem jsSlice_append_singleton {α : Type} (cs : List α) (z : α) (j period : ℕ)
    (h : j + period ≤ cs.length) :
    jsSlice (cs ++ [z]) j (j + period) = jsSlice cs j (j + period) := by
  unfold jsSlice
  rw [List.drop_append_of_le_length (by omega), List.take_append_of_le_length]
  simp only [List.length_drop]
  omega

theorem calculateRSI_append_singleton (data : List ℚ) (x : ℚ) (period : ℕ) :
    calculateRSI (data ++ [x]) period
      = (List.range (data.length - period)).map fun j =>
          rsiOfWindow (jsSlice (priceChanges data) j (j + period)) period := by
  cases data with
  | nil => simp [calculateRSI, priceChanges]
  | cons a rest =>
    have hlen : (priceChanges (a :: rest)).length = rest.length := by
      simp [priceChanges_length]
    have hlen2 : (priceChanges (a :: rest ++ [x])).length = rest.length + 1 := by
      simp [priceChanges_length]
    unfold calculateRSI
    simp only [hlen2, List.length_cons]
    apply List.map_congr_left
    intro j hj
    rw [List.mem_range] at hj
    simp only [Nat.add_sub_cancel_left]
    rw [Nat.add_comm period j, priceChanges_append_singleton,
      jsSlice_append_singleton _ _ _ _ (by rw [hlen]; omega)]

/-! ### Simple moving average -/

theorem calculateSMA_length (data : List ℚ) (period : ℕ) :
    (calculateSMA data period).length = data.length - (period - 1) := by
  simp [calculateSMA]

theorem calculateSMA_get (data : List ℚ) (period : ℕ) (hp : 1 ≤ period) (i : ℕ)
    (hi : i < data.length - (period - 1)) :
    (calculateSMA data period)[i]? = some (((data.drop i).take period).sum / period) := by
  simp only [calculateSMA, List.getElem?_map, List.getElem?_range hi, Option.map_some',
    jsSum_eq_sum, jsSlice]
  have h1 : period - 1 + i + 1 - period = i := by omega
  have h2 : period - 1 + i + 1 - i = period := by omega
  rw [h1, h2]

theorem calculateSMA_one (data : List ℚ) : calculateSMA data 1 = data := by
  apply List.ext_getElem?
  intro i
  by_cases hi : i < data.length
  · rw [calculateSMA_get data 1 le_rfl i (by simpa using hi)]
    rw [List.getElem?_eq_getElem hi]
    have : (data.drop i).take 1 = [data[i]] := by
      rw [List.drop_eq_getElem_cons hi]; rfl
    simp [this]
  · have h1 : data.length ≤ i := not_lt.mp hi
    rw [List.getElem?_eq_none h1, List.getElem?_eq_none]
    simpa [calculateSMA_length] using h1

/-! ### Exponential moving average -/

theorem emaLoop_length (k prev : ℚ) (rest : List ℚ) : (emaLoop k prev rest).length = rest.length := by
  induction rest generalizing prev with
  | nil => simp [emaLoop]
  | cons x r ih => simp [emaLoop, ih]

theorem emaLoop_step (k : ℚ) (prev : ℚ) (rest : List ℚ) (i : ℕ) (hi : i < rest.length) :
    (prev :: emaLoop k prev rest).getD (i + 1) 0
      = (prev :: rest).getD (i + 1) 0 * k + (prev :: emaLoop k prev rest).getD i 0 * (1 - k) := by
  induction rest generalizing prev i with
  | nil => simp at hi
  | cons x r ih =>
    cases i with
    | zero => simp [emaLoop]
    | succ n =>
      have := ih (x * k + prev * (1 - k)) n (by simpa using hi)
      simpa [emaLoop] using this

/-! ### Average true range -/

theorem trueRanges_nonneg (data : List Candle) : ∀ tr ∈ trueRanges data, 0 ≤ tr := by
  induction data with
  | nil => simp [trueRanges]
  | cons a rest ih =>
    cases rest with
    | nil => simp [trueRanges]
    | cons b r =>
      intro tr htr
      simp only [trueRanges, List.mem_cons] at htr
      rcases htr with rfl | h
      · exact le_max_of_le_right (le_max_of_le_left (abs_nonneg _))
      · exact ih tr h

theorem atrLoop_nonneg (m : ℚ) (hm0 : 0 ≤ m) (hm1 : m ≤ 1) (atr : ℚ) (hatr : 0 ≤ atr)
    (trs : List ℚ) (htrs : ∀ tr ∈ trs, 0 ≤ tr) : ∀ v ∈ atrLoop m atr trs, 0 ≤ v := by
  induction trs generalizing atr with
  | nil => simp [atrLoop]
  | cons t r ih =>
    have ht : 0 ≤ t := htrs t (List.mem_cons_self _ _)
    have hn : 0 ≤ t * m + atr * (1 - m) :=
      add_nonneg (mul_nonneg ht hm0) (mul_nonneg hatr (by linarith))
    intro v hv
    simp only [atrLoop, List.mem_cons] at hv
    rcases hv with rfl | h
    · exact hn
    · exact ih _ hn (fun tr h2 => htrs tr (List.mem_cons_of_mem _ h2)) v h

/-! ## Properties of the specification -/

/-- C1: for every non-empty candle list and every indicator record, pattern report and
market structure, `generateUltimatePrediction` returns a prediction whose confidence is
`clamp(50 + min(|trendScore|*3, 30) + min(trendStrength*2, 15) + (5 if
bullishPatterns + bearishPatterns > 0 else 0), 30, 95)`, and it lies in `[30, 95]`. -/
theorem generateUltimatePrediction_confidence_clamped (init : List Candle) (last : Candle)
    (indicators : Indicators) (patterns : PatternReport) (marketStructure : MarketStructure) :
    ∃ r, generateUltimatePrediction (init ++ [last]) indicators patterns marketStructure = some r ∧
      r.confidence =
        specConfidence
          (scoreTrend (JSNum.fin last.close) indicators patterns marketStructure).1
          (scoreTrend (JSNum.fin last.close) indicators patterns marketStructure).2
          patterns.bullishPatterns patterns.bearishPatterns ∧
      30 ≤ r.confidence ∧ r.confidence ≤ 95 := by
  have hl : (init ++ [last]).getLast? = some last := by simp
  refine ⟨_, by rw [generateUltimatePrediction, hl], ?_, ?_, ?_⟩
  · simp only [computeConfidence, specConfidence, specClamp]
    split_ifs <;> simp [max_comm]
  · simp only [computeConfidence]
    exact le_max_right _ _
  · simp only [computeConfidence]
    exact max_le (min_le_right _ _) (by norm_num)

/-- C2: the trend label returned by `generateUltimatePrediction` is `classifyTrend` of the
accumulated integer trendScore: bullish exactly when trendScore ≥ 3, bearish exactly when
trendScore ≤ -3, neutral exactly when -2 ≤ trendScore ≤ 2. -/
theorem generateUltimatePrediction_trend_boundaries (init : List Candle) (last : Candle)
    (indicators : Indicators) (patterns : PatternReport) (marketStructure : MarketStructure) :
    ∃ r, generateUltimatePrediction (init ++ [last]) indicators patterns marketStructure = some r ∧
      r.trend = classifyTrend (scoreTrend (JSNum.fin last.close) indicators patterns marketStructure).1 ∧
      (r.trend = TrendLabel.bullish ↔
        3 ≤ (scoreTrend (JSNum.fin last.close) indicators patterns marketStructure).1) ∧
      (r.trend = TrendLabel.bearish ↔
        (scoreTrend (JSNum.fin last.close) indicators patterns marketStructure).1 ≤ -3) ∧
      (r.trend = TrendLabel.neutral ↔
        -2 ≤ (scoreTrend (JSNum.fin last.close) indicators patterns marketStructure).1 ∧
        (scoreTrend (JSNum.fin last.close) indicators patterns marketStructure).1 ≤ 2) := by
  have hl : (init ++ [last]).getLast? = some last := by simp
  refine ⟨_, by rw [generateUltimatePrediction, hl], rfl, ?_, ?_, ?_⟩ <;>
    simp only [classifyTrend] <;> split_ifs <;> simp <;> omega

/-- C3 (counterexample): on the constant series `[7, 7, 7]` with period 1 (more than
period + 1 elements) `calculateRSI` returns the single value 0, which is not 50. -/
theorem calculateRSI_constant_counterexample :
    1 ≤ 1 ∧ 1 + 1 < [(7 : ℚ), 7, 7].length ∧ calculateRSI [7, 7, 7] 1 = [0] ∧
      ¬ (∀ v ∈ calculateRSI [7, 7, 7] 1, v = 50) := by
  have h : calculateRSI [7, 7, 7] 1 = [0] := by
    simpa [List.replicate] using calculateRSI_replicate 3 7 1
  refine ⟨le_refl 1, by simp, h, ?_⟩
  rw [h]
  norm_num

/-- C3 (amended): for every period ≥ 1 and every constant series with more than
period + 1 elements, `calculateRSI` returns at least one value and every value it returns
is exactly 0. -/
theorem calculateRSI_constant_zero (period n : ℕ) (c : ℚ) (_hp : 1 ≤ period)
    (hn : period + 1 < n) :
    calculateRSI (List.replicate n c) period ≠ [] ∧
      ∀ v ∈ calculateRSI (List.replicate n c) period, v = 0 := by
  rw [calculateRSI_replicate]
  constructor
  · intro h
    have := congrArg List.length h
    simp at this
    omega
  · intro v hv
    exact List.eq_of_mem_replicate hv

/-- Witness for C3 (amended): period 14 and a constant series of 20 elements. -/
theorem calculateRSI_constant_zero_witness :
    1 ≤ 14 ∧ 14 + 1 < 20 ∧
      (calculateRSI (List.replicate 20 (100 : ℚ)) 14 ≠ [] ∧
        ∀ v ∈ calculateRSI (List.replicate 20 (100 : ℚ)) 14, v = 0) :=
  ⟨by decide, by decide, calculateRSI_constant_zero 14 20 100 (by decide) (by decide)⟩

/-- C4: for every series and every period ≥ 1, every value returned by `calculateRSI`
lies in the closed interval `[0, 100]`. -/
theorem calculateRSI_bounded (data : List ℚ) (period : ℕ) (_hp : 1 ≤ period) :
    ∀ v ∈ calculateRSI data period, 0 ≤ v ∧ v ≤ 100 := by
  intro v hv
  obtain ⟨j, -, rfl⟩ := mem_calculateRSI hv
  have := rsiOfWindow_bounds (jsSlice (priceChanges data) j (j + period)) period
  exact ⟨this.1, le_of_lt this.2⟩

/-- Witness for C4: a seven-element series with period 2. -/
theorem calculateRSI_bounded_witness :
    1 ≤ 2 ∧ ∀ v ∈ calculateRSI [1, 2, 4, 3, 7, 7, 8] 2, 0 ≤ v ∧ v ≤ 100 :=
  ⟨by decide, calculateRSI_bounded [1, 2, 4, 3, 7, 7, 8] 2 (by decide)⟩

/-- C5 (code evaluated): a series of `n = data.length + 1` elements yields only
`n - 1 - period` values, and the output does not depend on the last element of the
series: the most recent difference is never read. -/
theorem calculateRSI_omits_latest_change (data : List ℚ) (x y : ℚ) (period : ℕ) :
    (calculateRSI (data ++ [x]) period).length = (data ++ [x]).length - 1 - period ∧
      calculateRSI (data ++ [x]) period = calculateRSI (data ++ [y]) period := by
  refine ⟨calculateRSI_length _ _, ?_⟩
  rw [calculateRSI_append_singleton, calculateRSI_append_singleton]

/-- C7 (code evaluated): on the empty series `calculateEMA` returns the one-element array
`[undefined]`, so the output has length 1 while the input has length 0. -/
theorem calculateEMA_empty (period : ℕ) :
    calculateEMA [] period = [none] ∧ (calculateEMA [] period).length = 1 ∧
      (calculateEMA [] period).length ≠ ([] : List ℚ).length := by
  simp [calculateEMA]

/-- C8: for every non-empty series `first :: rest` and every period, the output of
`calculateEMA` is a list `out` of numbers with `out[0] = s[0]` and, for every index
`1 ≤ i < len(s)`, `out[i] = s[i] * k + out[i-1] * (1 - k)` where `k = 2 / (period + 1)`. -/
theorem calculateEMA_recurrence (first : ℚ) (rest : List ℚ) (period : ℕ) :
    ∃ out : List ℚ,
      calculateEMA (first :: rest) period = out.map some ∧
      out.length = (first :: rest).length ∧
      out[0]? = some first ∧
      ∀ i, 1 ≤ i → i < (first :: rest).length →
        out.getD i 0 = (first :: rest).getD i 0 * (2 / ((period : ℚ) + 1))
          + out.getD (i - 1) 0 * (1 - 2 / ((period : ℚ) + 1)) := by
  refine ⟨first :: emaLoop (2 / ((period : ℚ) + 1)) first rest, ?_, ?_, ?_, ?_⟩
  · simp [calculateEMA]
  · simp [emaLoop_length]
  · simp
  · intro i hi1 hi2
    obtain ⟨n, rfl⟩ : ∃ n, i = n + 1 := ⟨i - 1, by omega⟩
    have hn : n < rest.length := by simpa using hi2
    simpa using emaLoop_step (2 / ((period : ℚ) + 1)) first rest n hn

/-- C9: for every series `s` and period `p ≥ 1`, `calculateSMA s p` is empty when
`len(s) < p`; otherwise it has `len(s) - p + 1` values and its `i`-th value is the
arithmetic mean of `s[i .. i+p-1]`; and `calculateSMA s 1 = s`. -/
theorem calculateSMA_spec (s : List ℚ) (p : ℕ) (hp : 1 ≤ p) :
    (s.length < p → calculateSMA s p = []) ∧
    (p ≤ s.length →
      (calculateSMA s p).length = s.length - p + 1 ∧
      ∀ i, i < s.length - p + 1 →
        (calculateSMA s p)[i]? = some (((s.drop i).take p).sum / p)) ∧
    calculateSMA s 1 = s := by
  refine ⟨?_, ?_, calculateSMA_one s⟩
  · intro h
    apply List.eq_nil_of_length_eq_zero
    rw [calculateSMA_length]
    omega
  · intro h
    refine ⟨by rw [calculateSMA_length]; omega, ?_⟩
    intro i hi
    exact calculateSMA_get s p hp i (by omega)

/-- Witness for C9: the series `[1, 2, 3, 4, 5]` with period 2. -/
theorem calculateSMA_spec_witness :
    1 ≤ 2 ∧
    (([1, 2, 3, 4, 5] : List ℚ).length < 2 → calculateSMA [1, 2, 3, 4, 5] 2 = []) ∧
    (2 ≤ ([1, 2, 3, 4, 5] : List ℚ).length →
      (calculateSMA [1, 2, 3, 4, 5] 2).length = ([1, 2, 3, 4, 5] : List ℚ).length - 2 + 1 ∧
      ∀ i, i < ([1, 2, 3, 4, 5] : List ℚ).length - 2 + 1 →
        (calculateSMA [1, 2, 3, 4, 5] 2)[i]?
          = some (((([1, 2, 3, 4, 5] : List ℚ).drop i).take 2).sum / ((2 : ℕ) : ℚ))) ∧
    calculateSMA [1, 2, 3, 4, 5] 1 = [1, 2, 3, 4, 5] :=
  ⟨by decide, calculateSMA_spec [1, 2, 3, 4, 5] 2 (by decide)⟩

/-- C10: for every candle sequence, with no assumption that high ≥ low, and every
period ≥ 1, every value returned by `calculateATR` is ≥ 0. -/
theorem calculateATR_nonneg (data : List Candle) (period : ℕ) (hp : 1 ≤ period) :
    ∀ v ∈ calculateATR data period, 0 ≤ v := by
  have hseed : 0 ≤ jsSum (jsSlice (trueRanges data) 0 period) / (period : ℚ) := by
    rw [jsSum_eq_sum]
    apply div_nonneg _ (Nat.cast_nonneg _)
    apply List.sum_nonneg
    intro x hx
    exact trueRanges_nonneg data x (mem_jsSlice hx)
  have hpq : (1 : ℚ) ≤ period := by exact_mod_cast hp
  have hm0 : (0 : ℚ) ≤ 1 / period := by positivity
  have hm1 : (1 : ℚ) / period ≤ 1 := by
    rw [div_le_iff₀ (by linarith)]; linarith
  intro v hv
  simp only [calculateATR, List.mem_cons] at hv
  rcases hv with rfl | h
  · exact hseed
  · exact atrLoop_nonneg _ hm0 hm1 _ hseed _
      (fun tr htr => trueRanges_nonneg data tr (List.mem_of_mem_drop htr)) v h

/-- Witness for C10: three candles, the middle one with its high below its low, period 1. -/
theorem calculateATR_nonneg_witness :
    1 ≤ 1 ∧ ∀ v ∈ calculateATR [flatCandle, invertedCandle, flatCandle] 1, 0 ≤ v :=
  ⟨by decide, calculateATR_nonneg [flatCandle, invertedCandle, flatCandle] 1 (by decide)⟩

/-! ### MACD -/

theorem emaLoop_replicate (k c : ℚ) (n : ℕ) :
    emaLoop k c (List.replicate n c) = List.replicate n c := by
  induction n with
  | zero => simp [emaLoop]
  | succ m ih =>
    have hc : c * k + c * (1 - k) = c := by ring
    simp only [List.replicate_succ, emaLoop, hc, ih]

theorem lastValue_calculateEMA (first : ℚ) (rest : List ℚ) (period : ℕ) :
    lastValue (calculateEMA (first :: rest) period)
      = JSNum.fin ((first :: emaLoop (2 / ((period : ℚ) + 1)) first rest).getLast
          (List.cons_ne_nil _ _)) := by
  have h : calculateEMA (first :: rest) period
      = (first :: emaLoop (2 / ((period : ℚ) + 1)) first rest).map some := by
    simp [calculateEMA]
  rw [lastValue, h, List.getLast?_map,
    List.getLast?_eq_getLast _ (List.cons_ne_nil _ _)]
  rfl

theorem lastValue_calculateEMA_replicate (c : ℚ) (n period : ℕ) :
    lastValue (calculateEMA (List.replicate (n + 1) c) period) = JSNum.fin c := by
  rw [List.replicate_succ, lastValue_calculateEMA, emaLoop_replicate]
  congr 1
  have : c :: List.replicate n c = List.replicate (n + 1) c := rfl
  simp only [this]
  exact List.getLast_replicate _

theorem calculateMACD_signal_iff (data : List ℚ) :
    ((calculateMACD data).signal = TrendLabel.bullish ↔
        (calculateMACD data).value.gt (JSNum.fin 0) = true) ∧
      ((calculateMACD data).signal = TrendLabel.bearish ↔
        (calculateMACD data).value.gt (JSNum.fin 0) = false) := by
  simp only [calculateMACD]
  split_ifs with h <;> simp [h]


/-! ### Momentum -/

theorem calculateMomentum_window (pre : List ℚ) (first : ℚ) (mid : List ℚ) (last : ℚ) :
    calculateMomentum (pre ++ first :: (mid ++ [last])) (mid.length + 2)
      = JSNum.fin (last - first) := by
  have hlen : (pre ++ first :: (mid ++ [last])).length = pre.length + (mid.length + 2) := by
    simp
  have h1 : (pre ++ first :: (mid ++ [last]))[(pre ++ first :: (mid ++ [last])).length - 1]?
      = some last := by
    rw [← List.getLast?_eq_getElem?]
    have : pre ++ first :: (mid ++ [last]) = (pre ++ first :: mid) ++ [last] := by simp
    rw [this, List.getLast?_concat]
  have h2 : (pre ++ first :: (mid ++ [last]))[(pre ++ first :: (mid ++ [last])).length
      - (mid.length + 2)]? = some first := by
    rw [hlen, Nat.add_sub_cancel, List.getElem?_append_right (le_refl _)]
    simp
  unfold calculateMomentum
  rw [if_neg (by rw [hlen]; omega), h1, h2]

theorem calculateMomentum_one (pre : List ℚ) (last : ℚ) :
    calculateMomentum (pre ++ [last]) 1 = JSNum.fin 0 := by
  have h1 : (pre ++ [last])[(pre ++ [last]).length - 1]? = some last := by
    rw [← List.getLast?_eq_getElem?, List.getLast?_concat]
  unfold calculateMomentum
  rw [if_neg (by simp), h1]
  simp

/-! ### Change detector -/

theorem intercalate_go_length (sep : String) (rest : List String) (acc : String) :
    acc.length ≤ (String.intercalate.go acc sep rest).length := by
  induction rest generalizing acc with
  | nil => simp [String.intercalate.go]
  | cons a r ih =>
    have := ih (acc ++ sep ++ a)
    simp only [String.intercalate.go]
    simp only [String.length_append] at this
    omega

theorem intercalate_ne_empty (sep : String) (first : String) (rest : List String)
    (h : 0 < first.length) : String.intercalate sep (first :: rest) ≠ "" := by
  intro he
  have h1 := intercalate_go_length sep rest first
  have h2 : (String.intercalate sep (first :: rest)).length = 0 := by rw [he]; rfl
  simp only [String.intercalate] at h2
  omega

/-- C11 (counterexample): on the one-element series `[5]` the MACD value is 0, which is
≥ 0, yet the signal is bearish; so "bullish exactly when the value is ≥ 0" fails. -/
theorem calculateMACD_zero_counterexample :
    (calculateMACD [5]).value = JSNum.fin 0 ∧ (0 : ℚ) ≤ 0 ∧
      (calculateMACD [5]).signal = TrendLabel.bearish ∧
      ¬ (∀ v : ℚ, (calculateMACD [5]).value = JSNum.fin v →
          ((calculateMACD [5]).signal = TrendLabel.bullish ↔ 0 ≤ v)) := by
  have hv : (calculateMACD [5]).value = JSNum.fin 0 := by
    have h := lastValue_calculateEMA_replicate 5 0
    simp only [List.replicate] at h
    simp [calculateMACD, h, JSNum.sub]
  have hs : (calculateMACD [5]).signal = TrendLabel.bearish := by
    rw [(calculateMACD_signal_iff [5]).2, hv]
    simp [JSNum.gt, JSNum.lt]
  refine ⟨hv, le_refl 0, hs, ?_⟩
  intro h
  have := (h 0 hv).2 (le_refl 0)
  rw [hs] at this
  exact absurd this (by decide)

/-- C11 (amended): for every series `calculateMACD` returns signal bullish exactly when
its value is > 0 and bearish otherwise; for a non-empty series the value is a finite
number `v`, the signal is bullish exactly when `v > 0` and bearish exactly when `v ≤ 0`. -/
theorem calculateMACD_signal_strict (data : List ℚ) :
    ((calculateMACD data).signal = TrendLabel.bullish ↔
        (calculateMACD data).value.gt (JSNum.fin 0) = true) ∧
      ((calculateMACD data).signal = TrendLabel.bearish ↔
        (calculateMACD data).value.gt (JSNum.fin 0) = false) ∧
      (data ≠ [] → ∃ v : ℚ, (calculateMACD data).value = JSNum.fin v ∧
        ((calculateMACD data).signal = TrendLabel.bullish ↔ 0 < v) ∧
        ((calculateMACD data).signal = TrendLabel.bearish ↔ v ≤ 0)) := by
  refine ⟨(calculateMACD_signal_iff data).1, (calculateMACD_signal_iff data).2, ?_⟩
  intro hne
  obtain ⟨first, rest, rfl⟩ := List.exists_cons_of_ne_nil hne
  have hv : (calculateMACD (first :: rest)).value
      = JSNum.fin ((first :: emaLoop (2 / (((12 : ℕ) : ℚ) + 1)) first rest).getLast
            (List.cons_ne_nil _ _)
          - (first :: emaLoop (2 / (((26 : ℕ) : ℚ) + 1)) first rest).getLast
            (List.cons_ne_nil _ _)) := by
    simp only [calculateMACD, lastValue_calculateEMA, JSNum.sub]
  refine ⟨_, hv, ?_, ?_⟩
  · rw [(calculateMACD_signal_iff _).1, hv]
    simp [JSNum.gt, JSNum.lt]
  · rw [(calculateMACD_signal_iff _).2, hv]
    simp [JSNum.gt, JSNum.lt]

/-- C13 (code evaluated): `calculateMomentum` subtracts `data[n - period]`, the first of
the last `period` values, so it looks back `period - 1` steps: on a series whose last
`period` values are `first, ..., last` it returns `last - first`, and with period 1 it
returns 0 on every non-empty series. -/
theorem calculateMomentum_looks_back_one_short (pre : List ℚ) (first : ℚ) (mid : List ℚ)
    (last : ℚ) :
    calculateMomentum (pre ++ first :: (mid ++ [last])) (mid.length + 2)
        = JSNum.fin (last - first) ∧
      calculateMomentum (pre ++ [last]) 1 = JSNum.fin 0 :=
  ⟨calculateMomentum_window pre first mid last, calculateMomentum_one pre last⟩

/-- C19: comparing a snapshot with a non-zero target price against itself gives
`significant = false` and the empty reason. -/
theorem detectMarketChangeSignificance_same (toFixed : JSNum → ℕ → String)
    (p : AnalysisSnapshot) (h : p.targetPrice ≠ 0) :
    (detectMarketChangeSignificance toFixed p p).significant = false ∧
      (detectMarketChangeSignificance toFixed p p).reason = "" := by
  have hd : ((JSNum.fin |p.targetPrice - p.targetPrice|).div (JSNum.fin p.targetPrice)).gt
      (JSNum.fin (1 / 50)) = false := by
    simp [JSNum.div, h, JSNum.gt, JSNum.lt]
  simp only [detectMarketChangeSignificance, hd]
  simp
  rfl

theorem intercalate_eq_empty_iff (sep : String) (l : List String)
    (hl : ∀ s ∈ l, 0 < s.length) :
    String.intercalate sep l = "" ↔ decide (l.length > 0) = false := by
  cases l with
  | nil => simp [String.intercalate]
  | cons a r =>
    have := intercalate_ne_empty sep a r (hl a (List.mem_cons_self _ _))
    simp [this]

theorem trend_message_length (a b : String) :
    0 < ("Trend changed from " ++ a ++ " to " ++ b).length := by
  simp only [String.length_append]
  have : "Trend changed from ".length = 19 := by decide
  omega

theorem confidence_message_length (a b : String) :
    0 < ("Confidence " ++ a ++ " by " ++ b ++ "%").length := by
  simp only [String.length_append]
  have : "Confidence ".length = 11 := by decide
  omega

theorem target_message_length (a : String) :
    0 < ("Target price shifted by " ++ a ++ "%").length := by
  simp only [String.length_append]
  have : "Target price shifted by ".length = 24 := by decide
  omega

/-- Witness for C19: a bullish snapshot with confidence 70 and target price 100. -/
theorem detectMarketChangeSignificance_same_witness :
    (100 : ℚ) ≠ 0 ∧
      (detectMarketChangeSignificance (fun _ _ => "")
          { trend := TrendLabel.bullish, confidence := 70, targetPrice := 100 }
          { trend := TrendLabel.bullish, confidence := 70, targetPrice := 100 }).significant
        = false ∧
      (detectMarketChangeSignificance (fun _ _ => "")
          { trend := TrendLabel.bullish, confidence := 70, targetPrice := 100 }
          { trend := TrendLabel.bullish, confidence := 70, targetPrice := 100 }).reason = "" :=
  ⟨by norm_num,
    detectMarketChangeSignificance_same (fun _ _ => "")
      { trend := TrendLabel.bullish, confidence := 70, targetPrice := 100 } (by norm_num)⟩

/-- C20: `detectMarketChangeSignificance` returns `significant = true` if and only if the
trend labels differ, or `|new.confidence - old.confidence| > 15`, or
`|new.targetPrice - old.targetPrice| / old.targetPrice > 0.02` (the JavaScript quotient,
which for a non-zero old target price is the ordinary one); and the reason is the empty
string exactly when `significant` is false. -/
theorem detectMarketChangeSignificance_iff (toFixed : JSNum → ℕ → String)
    (oldAnalysis newAnalysis : AnalysisSnapshot) :
    ((detectMarketChangeSignificance toFixed oldAnalysis newAnalysis).significant = true ↔
        oldAnalysis.trend ≠ newAnalysis.trend ∨
        |newAnalysis.confidence - oldAnalysis.confidence| > 15 ∨
        ((JSNum.fin |newAnalysis.targetPrice - oldAnalysis.targetPrice|).div
          (JSNum.fin oldAnalysis.targetPrice)).gt (JSNum.fin (1 / 50)) = true) ∧
      (oldAnalysis.targetPrice ≠ 0 →
        (((JSNum.fin |newAnalysis.targetPrice - oldAnalysis.targetPrice|).div
            (JSNum.fin oldAnalysis.targetPrice)).gt (JSNum.fin (1 / 50)) = true ↔
          |newAnalysis.targetPrice - oldAnalysis.targetPrice| / oldAnalysis.targetPrice
            > 1 / 50)) ∧
      ((detectMarketChangeSignificance toFixed oldAnalysis newAnalysis).reason = "" ↔
        (detectMarketChangeSignificance toFixed oldAnalysis newAnalysis).significant
          = false) := by
  refine ⟨?_, ?_, ?_⟩
  · simp only [detectMarketChangeSignificance]
    split_ifs <;> simp_all
  · intro h
    simp [JSNum.div, h, JSNum.gt, JSNum.lt]
  · simp only [detectMarketChangeSignificance]
    apply intercalate_eq_empty_iff
    intro s hs
    generalize (if newAnalysis.confidence - oldAnalysis.confidence > 0 then "increased"
      else "decreased") = w at hs
    have hm : ∀ t ∈ ["Trend changed from " ++ oldAnalysis.trend.toJS ++ " to "
          ++ newAnalysis.trend.toJS,
        "Confidence " ++ w ++ " by "
          ++ toFixed (JSNum.fin |newAnalysis.confidence - oldAnalysis.confidence|) 1 ++ "%",
        "Target price shifted by "
          ++ toFixed (((JSNum.fin |newAnalysis.targetPrice - oldAnalysis.targetPrice|).div
              (JSNum.fin oldAnalysis.targetPrice)).mul (JSNum.fin 100)) 2
          ++ "%"], 0 < t.length := by
      intro t ht
      simp only [List.mem_cons, List.mem_singleton, List.not_mem_nil, or_false] at ht
      rcases ht with rfl | rfl | rfl
      · exact trend_message_length _ _
      · exact confidence_message_length _ _
      · exact target_message_length _
    apply hm
    split_ifs at hs <;> simp only [List.nil_append, List.cons_append, List.mem_cons,
      List.mem_singleton, List.not_mem_nil, or_false] at hs ⊢ <;> tauto

/-! ### Minimum and maximum of an array -/

theorem foldl_min_le (xs : List ℚ) (a : ℚ) :
    xs.foldl min a ≤ a ∧ ∀ x ∈ xs, xs.foldl min a ≤ x := by
  induction xs generalizing a with
  | nil => simp
  | cons y r ih =>
    obtain ⟨h1, h2⟩ := ih (min a y)
    refine ⟨le_trans h1 (min_le_left _ _), ?_⟩
    intro x hx
    rcases List.mem_cons.mp hx with rfl | hx
    · exact le_trans h1 (min_le_right _ _)
    · exact h2 x hx

theorem foldl_min_mem (xs : List ℚ) (a : ℚ) :
    xs.foldl min a = a ∨ xs.foldl min a ∈ xs := by
  induction xs generalizing a with
  | nil => simp
  | cons y r ih =>
    rcases ih (min a y) with h | h
    · rcases min_choice a y with hm | hm
      · left; simpa [hm] using h
      · right
        rw [hm] at h
        simp [List.foldl, hm, h]
    · right; exact List.mem_cons_of_mem _ h

theorem le_foldl_max (xs : List ℚ) (a : ℚ) :
    a ≤ xs.foldl max a ∧ ∀ x ∈ xs, x ≤ xs.foldl max a := by
  induction xs generalizing a with
  | nil => simp
  | cons y r ih =>
    obtain ⟨h1, h2⟩ := ih (max a y)
    refine ⟨le_trans (le_max_left _ _) h1, ?_⟩
    intro x hx
    rcases List.mem_cons.mp hx with rfl | hx
    · exact le_trans (le_max_right _ _) h1
    · exact h2 x hx

theorem foldl_max_mem (xs : List ℚ) (a : ℚ) :
    xs.foldl max a = a ∨ xs.foldl max a ∈ xs := by
  induction xs generalizing a with
  | nil => simp
  | cons y r ih =>
    rcases ih (max a y) with h | h
    · rcases max_choice a y with hm | hm
      · left; simpa [hm] using h
      · right
        rw [hm] at h
        simp [List.foldl, hm, h]
    · right; exact List.mem_cons_of_mem _ h

theorem jsMin_le {xs : List ℚ} {x : ℚ} (h : x ∈ xs) : jsMin xs ≤ x := by
  cases xs with
  | nil => simp at h
  | cons a r =>
    rcases List.mem_cons.mp h with rfl | h
    · exact (foldl_min_le r _).1
    · exact (foldl_min_le r a).2 x h

theorem jsMin_mem {xs : List ℚ} (h : xs ≠ []) : jsMin xs ∈ xs := by
  cases xs with
  | nil => exact absurd rfl h
  | cons a r =>
    rcases foldl_min_mem r a with h1 | h1
    · simp [jsMin, h1]
    · exact List.mem_cons_of_mem _ h1

theorem le_jsMax {xs : List ℚ} {x : ℚ} (h : x ∈ xs) : x ≤ jsMax xs := by
  cases xs with
  | nil => simp at h
  | cons a r =>
    rcases List.mem_cons.mp h with rfl | h
    · exact (le_foldl_max r _).1
    · exact (le_foldl_max r a).2 x h

theorem jsMax_mem {xs : List ℚ} (h : xs ≠ []) : jsMax xs ∈ xs := by
  cases xs with
  | nil => exact absurd rfl h
  | cons a r =>
    rcases foldl_max_mem r a with h1 | h1
    · simp [jsMax, h1]
    · exact List.mem_cons_of_mem _ h1

/-! ### Stochastic RSI -/

theorem calculateStochRSI_k_eq (rsiArray : List ℚ) (period : ℕ) (hp : 1 ≤ period)
    (hlen : period ≤ rsiArray.length) :
    (calculateStochRSI rsiArray period).k
      = JSNum.fin (stochK (rsiArray.drop (rsiArray.length - period))
          (rsiArray.getD (rsiArray.length - 1) 0)) := by
  have hp0 : period ≠ 0 := by omega
  simp only [calculateStochRSI, if_neg (not_lt.mpr hlen), jsSliceLast, if_neg hp0]

/-- C14: for `period ≥ 1`, `calculateStochRSI` returns k = 50 when the series has fewer
than `period` values or when the last `period` values are all equal; otherwise
k = (last - min) / (max - min) * 100 with min and max the least and greatest of the
last `period` values. -/
theorem calculateStochRSI_k (rsiArray : List ℚ) (period : ℕ) (hp : 1 ≤ period) :
    (rsiArray.length < period → (calculateStochRSI rsiArray period).k = JSNum.fin 50) ∧
    (period ≤ rsiArray.length →
      ((∀ x ∈ rsiArray.drop (rsiArray.length - period),
          ∀ y ∈ rsiArray.drop (rsiArray.length - period), x = y) →
        (calculateStochRSI rsiArray period).k = JSNum.fin 50) ∧
      (¬ (∀ x ∈ rsiArray.drop (rsiArray.length - period),
          ∀ y ∈ rsiArray.drop (rsiArray.length - period), x = y) →
        ∃ mn mx last : ℚ,
          mn ∈ rsiArray.drop (rsiArray.length - period) ∧
          mx ∈ rsiArray.drop (rsiArray.length - period) ∧
          (∀ x ∈ rsiArray.drop (rsiArray.length - period), mn ≤ x ∧ x ≤ mx) ∧
          rsiArray.getLast? = some last ∧
          (calculateStochRSI rsiArray period).k
            = JSNum.fin ((last - mn) / (mx - mn) * 100))) := by
  constructor
  · intro h
    simp [calculateStochRSI, h]
  · intro hlen
    have hk := calculateStochRSI_k_eq rsiArray period hp hlen
    have hne : rsiArray.drop (rsiArray.length - period) ≠ [] := by
      intro h
      have := congrArg List.length h
      simp only [List.length_drop, List.length_nil] at this
      omega
    have hmn := jsMin_mem hne
    have hmx := jsMax_mem hne
    constructor
    · intro heq
      have : jsMax (rsiArray.drop (rsiArray.length - period))
          = jsMin (rsiArray.drop (rsiArray.length - period)) := heq _ hmx _ hmn
      rw [hk]
      simp [stochK, this]
    · intro hneq
      have hlast : rsiArray.getLast? = some (rsiArray.getD (rsiArray.length - 1) 0) := by
        have hpos : rsiArray.length - 1 < rsiArray.length := by omega
        rw [List.getLast?_eq_getElem?, List.getD_eq_getElem _ _ hpos,
          List.getElem?_eq_getElem hpos]
      refine ⟨_, _, _, hmn, hmx, fun x hx => ⟨jsMin_le hx, le_jsMax hx⟩, hlast, ?_⟩
      have hrange : jsMax (rsiArray.drop (rsiArray.length - period))
          - jsMin (rsiArray.drop (rsiArray.length - period)) ≠ 0 := by
        intro h0
        apply hneq
        intro x hx y hy
        have h1 := jsMin_le hx
        have h2 := le_jsMax hx
        have h3 := jsMin_le hy
        have h4 := le_jsMax hy
        linarith
      rw [hk]
      simp only [stochK, if_neg hrange]

/-- Witness for C14: the series `[10, 20, 30]` with period 2. -/
theorem calculateStochRSI_k_witness :
    1 ≤ 2 ∧
    (([10, 20, 30] : List ℚ).length < 2 →
      (calculateStochRSI [10, 20, 30] 2).k = JSNum.fin 50) ∧
    (2 ≤ ([10, 20, 30] : List ℚ).length →
      ((∀ x ∈ ([10, 20, 30] : List ℚ).drop (([10, 20, 30] : List ℚ).length - 2),
          ∀ y ∈ ([10, 20, 30] : List ℚ).drop (([10, 20, 30] : List ℚ).length - 2), x = y) →
        (calculateStochRSI [10, 20, 30] 2).k = JSNum.fin 50) ∧
      (¬ (∀ x ∈ ([10, 20, 30] : List ℚ).drop (([10, 20, 30] : List ℚ).length - 2),
          ∀ y ∈ ([10, 20, 30] : List ℚ).drop (([10, 20, 30] : List ℚ).length - 2), x = y) →
        ∃ mn mx last : ℚ,
          mn ∈ ([10, 20, 30] : List ℚ).drop (([10, 20, 30] : List ℚ).length - 2) ∧
          mx ∈ ([10, 20, 30] : List ℚ).drop (([10, 20, 30] : List ℚ).length - 2) ∧
          (∀ x ∈ ([10, 20, 30] : List ℚ).drop (([10, 20, 30] : List ℚ).length - 2),
            mn ≤ x ∧ x ≤ mx) ∧
          ([10, 20, 30] : List ℚ).getLast? = some last ∧
          (calculateStochRSI [10, 20, 30] 2).k
            = JSNum.fin ((last - mn) / (mx - mn) * 100))) :=
  ⟨by decide, calculateStochRSI_k [10, 20, 30] 2 (by decide)⟩

/-- C15 (code evaluated): on the series `[10, 20, 30]` with period 2 the returned k is
100 (window `[20, 30]`), while the only averaged %K value is computed for the value 30
over the window `[10, 20]` that precedes it, which gives d = 200. -/
theorem calculateStochRSI_d_uses_preceding_window :
    (calculateStochRSI [10, 20, 30] 2).k = JSNum.fin 100 ∧
      stochKValues [10, 20, 30] 2 = [200] ∧
      (calculateStochRSI [10, 20, 30] 2).d = JSNum.fin 200 := by
  have hk : stochKValues [10, 20, 30] 2 = [200] := by
    norm_num [stochKValues, stochK, jsSlice, jsMin, jsMax, List.range_succ]
  refine ⟨?_, hk, ?_⟩
  · norm_num [calculateStochRSI, stochK, jsSliceLast, jsMin, jsMax]
  · norm_num [calculateStochRSI, hk, jsSliceLast, jsSum]

/-! ### Clustering of price levels -/

theorem clusterMean_singleton (a : ℚ) : clusterMean [a] = a := by
  simp [clusterMean, jsSum]

theorem cluster_test_eq (x first t : ℚ) (h : first ≠ 0) :
    ((JSNum.fin (x - first)).div (JSNum.fin first)).lt (JSNum.fin t)
      = decide ((x - first) / first < t) := by
  simp [JSNum.div, h, JSNum.lt]

theorem chain_separated_lt (a : ℚ) (rest : List ℚ) (ha : 0 < a)
    (h : List.Chain (fun a b : ℚ => a * (1 + 1 / 500) < b) a rest) :
    ∀ b ∈ rest, a < b := by
  induction rest generalizing a with
  | nil => simp
  | cons x r ih =>
    rw [List.chain_cons] at h
    have hax : a < x := by linarith [h.1]
    intro b hb
    rcases List.mem_cons.mp hb with rfl | hb
    · exact hax
    · exact lt_trans hax (ih x (lt_trans ha hax) h.2 b hb)

theorem chain_separated_sorted (a : ℚ) (rest : List ℚ) (ha : 0 < a)
    (h : List.Chain (fun a b : ℚ => a * (1 + 1 / 500) < b) a rest) :
    List.Sorted (fun a b : ℚ => a ≤ b) (a :: rest) := by
  induction rest generalizing a with
  | nil => simp
  | cons x r ih =>
    have hlt := chain_separated_lt a (x :: r) ha h
    rw [List.chain_cons] at h
    have hax : a < x := hlt x (List.mem_cons_self _ _)
    rw [List.sorted_cons]
    exact ⟨fun b hb => le_of_lt (hlt b hb), ih x (lt_trans ha hax) h.2⟩

theorem clusterLoop_separated (clusters : List ℚ) (a : ℚ) (rest : List ℚ) (ha : 0 < a)
    (h : List.Chain (fun a b : ℚ => a * (1 + 1 / 500) < b) a rest) :
    clusterLoop (1 / 500) clusters [a] rest = clusters ++ a :: rest := by
  induction rest generalizing clusters a with
  | nil => simp [clusterLoop, clusterMean_singleton]
  | cons x r ih =>
    rw [List.chain_cons] at h
    have hax : a < x := by linarith [h.1]
    have htest : ¬ ((x - a) / a < 1 / 500) := by
      rw [not_lt, le_div_iff₀ ha]
      linarith [h.1]
    simp only [clusterLoop, List.headD_cons, cluster_test_eq x a _ (ne_of_gt ha)]
    rw [if_neg (by simpa using htest), ih _ x (lt_trans ha hax) h.2, clusterMean_singleton]
    simp

theorem clusterLevels_separated (levels : List ℚ) (hpos : ∀ x ∈ levels, 0 < x)
    (h : List.Chain' (fun a b : ℚ => a * (1 + 1 / 500) < b) levels) :
    clusterLevels levels = levels := by
  cases levels with
  | nil => simp [clusterLevels, clusterLevelsWith]
  | cons a rest =>
    have ha : 0 < a := hpos a (List.mem_cons_self _ _)
    have hs := (chain_separated_sorted a rest ha h).insertionSort_eq
    simp only [clusterLevels, clusterLevelsWith, List.length_cons, Nat.succ_ne_zero,
      if_false, hs, List.headD_cons, List.tail_cons, Nat.add_one_ne_zero]
    simpa using clusterLoop_separated [] a rest ha h

theorem clusterMean_pos (cluster : List ℚ) (hne : cluster ≠ [])
    (hpos : ∀ x ∈ cluster, 0 < x) : 0 < clusterMean cluster := by
  unfold clusterMean
  rw [jsSum_eq_sum]
  apply div_pos (List.sum_pos _ hpos hne)
  have : 0 < cluster.length := List.length_pos.mpr hne
  exact_mod_cast this

theorem clusterLoop_pos (t : ℚ) (clusters cur rest : List ℚ)
    (hc : ∀ x ∈ clusters, 0 < x) (hne : cur ≠ []) (hcur : ∀ x ∈ cur, 0 < x)
    (hrest : ∀ x ∈ rest, 0 < x) : ∀ y ∈ clusterLoop t clusters cur rest, 0 < y := by
  induction rest generalizing clusters cur with
  | nil =>
    intro y hy
    simp only [clusterLoop, List.mem_append, List.mem_singleton] at hy
    rcases hy with hy | rfl
    · exact hc y hy
    · exact clusterMean_pos cur hne hcur
  | cons x r ih =>
    have hx : 0 < x := hrest x (List.mem_cons_self _ _)
    have hr : ∀ z ∈ r, 0 < z := fun z hz => hrest z (List.mem_cons_of_mem _ hz)
    simp only [clusterLoop]
    split_ifs
    · apply ih clusters (cur ++ [x]) hc (by simp) _ hr
      intro z hz
      rcases List.mem_append.mp hz with hz | hz
      · exact hcur z hz
      · rw [List.mem_singleton.mp hz]; exact hx
    · apply ih (clusters ++ [clusterMean cur]) [x] _ (by simp) (by simpa using hx) hr
      intro z hz
      rcases List.mem_append.mp hz with hz | hz
      · exact hc z hz
      · rw [List.mem_singleton.mp hz]; exact clusterMean_pos cur hne hcur

theorem clusterLevels_pos (levels : List ℚ) (hpos : ∀ x ∈ levels, 0 < x) :
    ∀ y ∈ clusterLevels levels, 0 < y := by
  unfold clusterLevels clusterLevelsWith
  split_ifs with h0
  · simp
  · have hs : ∀ x ∈ levels.insertionSort (fun a b => a ≤ b), 0 < x :=
      fun x hx => hpos x ((List.mem_insertionSort _).mp hx)
    cases hso : levels.insertionSort (fun a b => a ≤ b) with
    | nil =>
      have := List.length_insertionSort (fun a b : ℚ => a ≤ b) levels
      rw [hso] at this
      exact absurd this.symm h0
    | cons a rest =>
      rw [hso] at hs
      simp only [List.headD_cons, List.tail_cons]
      exact clusterLoop_pos _ [] [a] rest (by simp) (by simp)
        (by simpa using hs a (List.mem_cons_self _ _))
        (fun x hx => hs x (List.mem_cons_of_mem _ hx))

/-- C16: for every ascending list of positive price levels in which each level is more
than 0.2% above the previous one, `clusterLevels` returns the list unchanged. -/
theorem clusterLevels_fully_separated_unchanged (levels : List ℚ)
    (hpos : ∀ x ∈ levels, 0 < x)
    (hsep : List.Chain' (fun a b : ℚ => a * (1 + 1 / 500) < b) levels) :
    clusterLevels levels = levels :=
  clusterLevels_separated levels hpos hsep

/-- Witness for C16: the levels `[100, 101, 103]`. -/
theorem clusterLevels_fully_separated_unchanged_witness :
    (∀ x ∈ ([100, 101, 103] : List ℚ), 0 < x) ∧
      List.Chain' (fun a b : ℚ => a * (1 + 1 / 500) < b) [100, 101, 103] ∧
      clusterLevels [100, 101, 103] = [100, 101, 103] :=
  ⟨by norm_num, by norm_num,
    clusterLevels_fully_separated_unchanged [100, 101, 103] (by norm_num) (by norm_num)⟩

/-- C17 (counterexample): for the positive levels `[1000, 1001, 1002]` the first pass
gives `[1000.5, 1002]` and a second pass merges these into `[1001.25]`, so
`clusterLevels` is not idempotent. -/
theorem clusterLevels_not_idempotent :
    (∀ x ∈ ([1000, 1001, 1002] : List ℚ), 0 < x) ∧
      clusterLevels [1000, 1001, 1002] = [2001 / 2, 1002] ∧
      clusterLevels (clusterLevels [1000, 1001, 1002]) = [4005 / 4] ∧
      clusterLevels (clusterLevels [1000, 1001, 1002]) ≠ clusterLevels [1000, 1001, 1002] := by
  have h1 : clusterLevels [1000, 1001, 1002] = [2001 / 2, 1002] := by
    norm_num [clusterLevels, clusterLevelsWith, List.insertionSort, List.orderedInsert,
      clusterLoop, JSNum.div, JSNum.lt, clusterMean, jsSum]
  have h2 : clusterLevels [2001 / 2, 1002] = [4005 / 4] := by
    norm_num [clusterLevels, clusterLevelsWith, List.insertionSort, List.orderedInsert,
      clusterLoop, JSNum.div, JSNum.lt, clusterMean, jsSum]
  refine ⟨by norm_num, h1, by rw [h1, h2], ?_⟩
  rw [h1, h2]
  simp

/-- C17 (amended): for every list of positive price levels whose cluster values are
fully separated (each value of `clusterLevels L` more than 0.2% above the previous one),
`clusterLevels (clusterLevels L) = clusterLevels L`. -/
theorem clusterLevels_idempotent_of_separated (levels : List ℚ)
    (hpos : ∀ x ∈ levels, 0 < x)
    (hsep : List.Chain' (fun a b : ℚ => a * (1 + 1 / 500) < b) (clusterLevels levels)) :
    clusterLevels (clusterLevels levels) = clusterLevels levels :=
  clusterLevels_separated _ (clusterLevels_pos levels hpos) hsep

/-- Witness for C17 (amended): the levels `[100, 100.1, 103]`, which cluster to
`[100.05, 103]`. -/
theorem clusterLevels_idempotent_of_separated_witness :
    (∀ x ∈ ([100, 1001 / 10, 103] : List ℚ), 0 < x) ∧
      List.Chain' (fun a b : ℚ => a * (1 + 1 / 500) < b)
        (clusterLevels [100, 1001 / 10, 103]) ∧
      clusterLevels (clusterLevels [100, 1001 / 10, 103])
        = clusterLevels [100, 1001 / 10, 103] := by
  have h1 : clusterLevels [100, 1001 / 10, 103] = [2001 / 20, 103] := by
    norm_num [clusterLevels, clusterLevelsWith, List.insertionSort, List.orderedInsert,
      clusterLoop, JSNum.div, JSNum.lt, clusterMean, jsSum]
  have hsep : List.Chain' (fun a b : ℚ => a * (1 + 1 / 500) < b)
      (clusterLevels [100, 1001 / 10, 103]) := by
    rw [h1]; norm_num
  exact ⟨by norm_num, hsep,
    clusterLevels_idempotent_of_separated [100, 1001 / 10, 103] (by norm_num) hsep⟩

/-! ### Support and resistance -/

theorem jsOr_le (v : Option ℚ) (fallback b : ℚ) (hv : ∀ x, v = some x → x ≤ b)
    (hf : fallback ≤ b) : jsOr v fallback ≤ b := by
  unfold jsOr
  cases v with
  | none => exact hf
  | some x =>
    simp only
    split_ifs
    · exact hf
    · exact hv x rfl

theorem le_jsOr (v : Option ℚ) (fallback b : ℚ) (hv : ∀ x, v = some x → b ≤ x)
    (hf : b ≤ fallback) : b ≤ jsOr v fallback := by
  unfold jsOr
  cases v with
  | none => exact hf
  | some x =>
    simp only
    split_ifs
    · exact hf
    · exact hv x rfl

theorem mem_jsSliceLast_concat {α : Type} (init : List α) (last : α) (n : ℕ) (hn : 1 ≤ n) :
    last ∈ jsSliceLast (init ++ [last]) n := by
  have hn0 : n ≠ 0 := by omega
  simp only [jsSliceLast, if_neg hn0]
  rw [List.drop_append_of_le_length (by simp; omega)]
  simp

/-- C18: for every non-empty candle sequence with positive prices and
low ≤ close ≤ high on every candle, `findAdvancedSupportResistance` returns a record with
support ≤ close of the last candle ≤ resistance. -/
theorem findAdvancedSupportResistance_brackets_close (init : List Candle) (last : Candle)
    (h : ∀ c ∈ init ++ [last], 0 < c.low ∧ c.low ≤ c.close ∧ c.close ≤ c.high) :
    ∃ r, findAdvancedSupportResistance (init ++ [last]) = some r ∧
      r.support ≤ last.close ∧ last.close ≤ r.resistance := by
  have hl : (init ++ [last]).getLast? = some last := by simp
  have hlast := h last (by simp)
  have hmem := mem_jsSliceLast_concat init last 100 (by decide)
  refine ⟨_, by simp only [findAdvancedSupportResistance, hl]; rfl, ?_, ?_⟩
  · apply jsOr_le
    · intro x hx
      have h1 := List.mem_of_mem_head? (Option.mem_def.mpr hx)
      rw [List.mem_insertionSort] at h1
      have h2 := (List.mem_filter.mp h1).2
      exact le_of_lt (by simpa using h2)
    · exact le_trans (jsMin_le (List.mem_map_of_mem (fun c : Candle => c.low) hmem))
        hlast.2.1
  · apply le_jsOr
    · intro x hx
      have h1 := List.mem_of_mem_head? (Option.mem_def.mpr hx)
      rw [List.mem_insertionSort] at h1
      have h2 := (List.mem_filter.mp h1).2
      exact le_of_lt (by simpa using h2)
    · exact le_trans hlast.2.2
        (le_jsMax (List.mem_map_of_mem (fun c : Candle => c.high) hmem))

/-- Witness for C18: the fifty candles of `twoSwingData`, written as the first 49 followed
by the last.  The swing lows cluster to `[90, 95]` and the swing highs to `[120, 125]`;
the last close is 105, so the support 95 is the nearest cluster below the price and the
resistance 120 the nearest cluster above it, neither being the fallback (the minimum low
90 or the maximum high 125 of the window). -/
theorem findAdvancedSupportResistance_brackets_close_witness :
    (∀ c ∈ (List.range 49).map twoSwingCandle ++ [twoSwingCandle 49],
        0 < c.low ∧ c.low ≤ c.close ∧ c.close ≤ c.high) ∧
      (∃ r, findAdvancedSupportResistance
            ((List.range 49).map twoSwingCandle ++ [twoSwingCandle 49]) = some r ∧
          r.support ≤ (twoSwingCandle 49).close ∧ (twoSwingCandle 49).close ≤ r.resistance) ∧
      clusterLevels (swingLowLevels
          (jsSliceLast ((List.range 49).map twoSwingCandle ++ [twoSwingCandle 49]) 100))
        = [90, 95] ∧
      clusterLevels (swingHighLevels
          (jsSliceLast ((List.range 49).map twoSwingCandle ++ [twoSwingCandle 49]) 100))
        = [120, 125] ∧
      (twoSwingCandle 49).close = 105 ∧
      (findAdvancedSupportResistance
          ((List.range 49).map twoSwingCandle ++ [twoSwingCandle 49])).map
        (fun r => (r.support, r.resistance)) = some (95, 120) ∧
      jsMin ((jsSliceLast ((List.range 49).map twoSwingCandle ++ [twoSwingCandle 49]) 100).map
        fun c => c.low) = 90 ∧
      jsMax ((jsSliceLast ((List.range 49).map twoSwingCandle ++ [twoSwingCandle 49]) 100).map
        fun c => c.high) = 125 :=
  ⟨by decide!,
    findAdvancedSupportResistance_brackets_close ((List.range 49).map twoSwingCandle)
      (twoSwingCandle 49) (by decide!),
    by decide!, by decide!, by decide!, by decide!, by decide!, by decide!⟩

/-! ### Market structure -/

theorem jsSliceLast_of_length_le {α : Type} (xs : List α) (n : ℕ) (h : xs.length ≤ n) :
    jsSliceLast xs n = xs := by
  unfold jsSliceLast
  split_ifs
  · rfl
  · rw [Nat.sub_eq_zero_of_le h, List.drop_zero]

theorem mem_structureSwingHighs (recent : List Candle) (p : SwingPoint) :
    p ∈ structureSwingHighs recent ↔
      5 ≤ p.index ∧ p.index + 5 < recent.length ∧
      (candleAt recent p.index).high > (candleAt recent (p.index - 1)).high ∧
      (candleAt recent p.index).high > (candleAt recent (p.index - 2)).high ∧
      (candleAt recent p.index).high > (candleAt recent (p.index + 1)).high ∧
      (candleAt recent p.index).high > (candleAt recent (p.index + 2)).high ∧
      p.value = (candleAt recent p.index).high ∧ p.time = (candleAt recent p.index).time := by
  simp only [structureSwingHighs, List.mem_filterMap, List.mem_range, isSwingHigh]
  constructor
  · rintro ⟨j, hj, hp⟩
    split_ifs at hp with hc
    · simp only [Option.some.injEq] at hp
      subst hp
      simp only [decide_eq_true_eq] at hc
      exact ⟨by dsimp only; omega, by dsimp only; omega, hc.1, hc.2.1, hc.2.2.1, hc.2.2.2,
        rfl, rfl⟩
  · rintro ⟨h5, hlen, h1, h2, h3, h4, hv, ht⟩
    refine ⟨p.index - 5, by omega, ?_⟩
    have hi : p.index - 5 + 5 = p.index := by omega
    simp only [hi]
    rw [if_pos (by simp only [decide_eq_true_eq]; exact ⟨h1, h2, h3, h4⟩)]
    cases p
    simp_all

theorem mem_structureSwingLows (recent : List Candle) (p : SwingPoint) :
    p ∈ structureSwingLows recent ↔
      5 ≤ p.index ∧ p.index + 5 < recent.length ∧
      (candleAt recent p.index).low < (candleAt recent (p.index - 1)).low ∧
      (candleAt recent p.index).low < (candleAt recent (p.index - 2)).low ∧
      (candleAt recent p.index).low < (candleAt recent (p.index + 1)).low ∧
      (candleAt recent p.index).low < (candleAt recent (p.index + 2)).low ∧
      p.value = (candleAt recent p.index).low ∧ p.time = (candleAt recent p.index).time := by
  simp only [structureSwingLows, List.mem_filterMap, List.mem_range, isSwingLow]
  constructor
  · rintro ⟨j, hj, hp⟩
    split_ifs at hp with hc
    · simp only [Option.some.injEq] at hp
      subst hp
      simp only [decide_eq_true_eq] at hc
      exact ⟨by dsimp only; omega, by dsimp only; omega, hc.1, hc.2.1, hc.2.2.1, hc.2.2.2,
        rfl, rfl⟩
  · rintro ⟨h5, hlen, h1, h2, h3, h4, hv, ht⟩
    refine ⟨p.index - 5, by omega, ?_⟩
    have hi : p.index - 5 + 5 = p.index := by omega
    simp only [hi]
    rw [if_pos (by simp only [decide_eq_true_eq]; exact ⟨h1, h2, h3, h4⟩)]
    cases p
    simp_all

theorem structureSwingHighs_sorted (recent : List Candle) :
    (structureSwingHighs recent).Pairwise (fun a b => a.index < b.index) := by
  unfold structureSwingHighs
  refine List.Pairwise.filterMap _ ?_ (List.pairwise_lt_range _)
  intro a a2 hlt b hb b2 hb2
  simp only [Option.mem_def] at hb hb2
  split_ifs at hb hb2
  simp only [Option.some.injEq] at hb hb2
  subst hb hb2
  simp only
  omega

theorem structureSwingLows_sorted (recent : List Candle) :
    (structureSwingLows recent).Pairwise (fun a b => a.index < b.index) := by
  unfold structureSwingLows
  refine List.Pairwise.filterMap _ ?_ (List.pairwise_lt_range _)
  intro a a2 hlt b hb b2 hb2
  simp only [Option.mem_def] at hb hb2
  split_ifs at hb hb2
  simp only [Option.some.injEq] at hb hb2
  subst hb hb2
  simp only
  omega

theorem analyzeAdvancedMarketStructure_details (data : List Candle) (h : 50 ≤ data.length) :
    (analyzeAdvancedMarketStructure data).details.map (fun d => (d.swingHighs, d.swingLows))
      = some (structureSwingHighs (data.drop (data.length - 100)),
          structureSwingLows (data.drop (data.length - 100))) := by
  simp [analyzeAdvancedMarketStructure, not_lt.mpr h, jsSliceLast]

theorem candleAt_replicate (n : ℕ) (c : Candle) (i : ℕ) (h : i < n) :
    candleAt (List.replicate n c) i = c := by
  simp [candleAt, List.getElem?_replicate_of_lt h]

theorem candleAt_earlySwingData (k : ℕ) (h : k < 47) :
    candleAt earlySwingData (k + 3) = flatCandle := by
  have h1 := candleAt_replicate 47 flatCandle k h
  simp only [candleAt] at h1 ⊢
  simpa [earlySwingData, List.replicate] using h1

theorem structureSwingHighs_earlySwingData : structureSwingHighs earlySwingData = [] := by
  rw [structureSwingHighs, List.filterMap_eq_nil_iff]
  intro j hj
  have hlen : earlySwingData.length = 50 := by simp [earlySwingData]
  rw [hlen, List.mem_range] at hj
  have h1 := candleAt_earlySwingData (j + 2) (by omega)
  have h2 := candleAt_earlySwingData (j + 1) (by omega)
  have h3 : j + 5 - 1 = j + 1 + 3 := by omega
  simp only [isSwingHigh, h3, h1, h2, gt_iff_lt, lt_self_iff_false, false_and,
    decide_False, Bool.false_eq_true, if_false]

/-- C28 (counterexample): in `earlySwingData` (50 candles) bar 2 has two neighbours on
each side and its high 101 strictly exceeds the highs of bars 0, 1, 3 and 4, yet the
returned `swingHighs` is empty. -/
theorem analyzeAdvancedMarketStructure_misses_early_swing :
    50 ≤ earlySwingData.length ∧
      2 ≤ 2 ∧ 2 + 2 < (earlySwingData.drop (earlySwingData.length - 100)).length ∧
      (candleAt (earlySwingData.drop (earlySwingData.length - 100)) 2).high
        > (candleAt (earlySwingData.drop (earlySwingData.length - 100)) 1).high ∧
      (candleAt (earlySwingData.drop (earlySwingData.length - 100)) 2).high
        > (candleAt (earlySwingData.drop (earlySwingData.length - 100)) 0).high ∧
      (candleAt (earlySwingData.drop (earlySwingData.length - 100)) 2).high
        > (candleAt (earlySwingData.drop (earlySwingData.length - 100)) 3).high ∧
      (candleAt (earlySwingData.drop (earlySwingData.length - 100)) 2).high
        > (candleAt (earlySwingData.drop (earlySwingData.length - 100)) 4).high ∧
      (analyzeAdvancedMarketStructure earlySwingData).details.map (fun d => d.swingHighs)
        = some [] := by
  have hlen : earlySwingData.length = 50 := by simp [earlySwingData]
  have hdrop : earlySwingData.drop (earlySwingData.length - 100) = earlySwingData := by
    rw [hlen]; rfl
  have hd := analyzeAdvancedMarketStructure_details earlySwingData (by rw [hlen])
  rw [hdrop, structureSwingHighs_earlySwingData] at hd
  rw [hdrop]
  refine ⟨by rw [hlen], le_refl 2, by rw [hlen]; decide, ?_, ?_, ?_, ?_, ?_⟩
  · norm_num [earlySwingData, candleAt, List.replicate, flatCandle, spikeCandle]
  · norm_num [earlySwingData, candleAt, List.replicate, flatCandle, spikeCandle]
  · norm_num [earlySwingData, candleAt, List.replicate, flatCandle, spikeCandle]
  · norm_num [earlySwingData, candleAt, List.replicate, flatCandle, spikeCandle]
  · cases hdet : (analyzeAdvancedMarketStructure earlySwingData).details with
    | none => rw [hdet] at hd; simp at hd
    | some d =>
      rw [hdet] at hd
      simp only [Option.map_some', Option.some.injEq, Prod.mk.injEq] at hd ⊢
      exact hd.1

/-- C28 (amended): for every sequence of at least 50 candles, the `swingHighs` returned
by `analyzeAdvancedMarketStructure` are exactly the bars with index `5 ≤ i < len - 5`
of the trailing-100 window whose high strictly exceeds the highs of the 2 preceding and
the 2 following bars (each recorded with its index, high and time), in ascending index
order; likewise `swingLows` with lows strictly undercutting. -/
theorem analyzeAdvancedMarketStructure_swings (data : List Candle) (h : 50 ≤ data.length) :
    ∃ d, (analyzeAdvancedMarketStructure data).details = some d ∧
      (∀ p : SwingPoint, p ∈ d.swingHighs ↔
        5 ≤ p.index ∧ p.index + 5 < (data.drop (data.length - 100)).length ∧
        (candleAt (data.drop (data.length - 100)) p.index).high
          > (candleAt (data.drop (data.length - 100)) (p.index - 1)).high ∧
        (candleAt (data.drop (data.length - 100)) p.index).high
          > (candleAt (data.drop (data.length - 100)) (p.index - 2)).high ∧
        (candleAt (data.drop (data.length - 100)) p.index).high
          > (candleAt (data.drop (data.length - 100)) (p.index + 1)).high ∧
        (candleAt (data.drop (data.length - 100)) p.index).high
          > (candleAt (data.drop (data.length - 100)) (p.index + 2)).high ∧
        p.value = (candleAt (data.drop (data.length - 100)) p.index).high ∧
        p.time = (candleAt (data.drop (data.length - 100)) p.index).time) ∧
      d.swingHighs.Pairwise (fun a b => a.index < b.index) ∧
      (∀ p : SwingPoint, p ∈ d.swingLows ↔
        5 ≤ p.index ∧ p.index + 5 < (data.drop (data.length - 100)).length ∧
        (candleAt (data.drop (data.length - 100)) p.index).low
          < (candleAt (data.drop (data.length - 100)) (p.index - 1)).low ∧
        (candleAt (data.drop (data.length - 100)) p.index).low
          < (candleAt (data.drop (data.length - 100)) (p.index - 2)).low ∧
        (candleAt (data.drop (data.length - 100)) p.index).low
          < (candleAt (data.drop (data.length - 100)) (p.index + 1)).low ∧
        (candleAt (data.drop (data.length - 100)) p.index).low
          < (candleAt (data.drop (data.length - 100)) (p.index + 2)).low ∧
        p.value = (candleAt (data.drop (data.length - 100)) p.index).low ∧
        p.time = (candleAt (data.drop (data.length - 100)) p.index).time) ∧
      d.swingLows.Pairwise (fun a b => a.index < b.index) := by
  have hd := analyzeAdvancedMarketStructure_details data h
  cases hdet : (analyzeAdvancedMarketStructure data).details with
  | none => rw [hdet] at hd; simp at hd
  | some d =>
    rw [hdet] at hd
    simp only [Option.map_some', Option.some.injEq, Prod.mk.injEq] at hd
    refine ⟨d, rfl, ?_, ?_, ?_, ?_⟩
    · intro p; rw [hd.1]; exact mem_structureSwingHighs _ p
    · rw [hd.1]; exact structureSwingHighs_sorted _
    · intro p; rw [hd.2]; exact mem_structureSwingLows _ p
    · rw [hd.2]; exact structureSwingLows_sorted _

/-- Witness for C28 (amended): the 50 candles of `earlySwingData`. -/
theorem analyzeAdvancedMarketStructure_swings_witness :
    50 ≤ earlySwingData.length ∧
    (∃ d, (analyzeAdvancedMarketStructure earlySwingData).details = some d ∧
      (∀ p : SwingPoint, p ∈ d.swingHighs ↔
        5 ≤ p.index ∧ p.index + 5 < (earlySwingData.drop (earlySwingData.length - 100)).length ∧
        (candleAt (earlySwingData.drop (earlySwingData.length - 100)) p.index).high
          > (candleAt (earlySwingData.drop (earlySwingData.length - 100)) (p.index - 1)).high ∧
        (candleAt (earlySwingData.drop (earlySwingData.length - 100)) p.index).high
          > (candleAt (earlySwingData.drop (earlySwingData.length - 100)) (p.index - 2)).high ∧
        (candleAt (earlySwingData.drop (earlySwingData.length - 100)) p.index).high
          > (candleAt (earlySwingData.drop (earlySwingData.length - 100)) (p.index + 1)).high ∧
        (candleAt (earlySwingData.drop (earlySwingData.length - 100)) p.index).high
          > (candleAt (earlySwingData.drop (earlySwingData.length - 100)) (p.index + 2)).high ∧
        p.value = (candleAt (earlySwingData.drop (earlySwingData.length - 100)) p.index).high ∧
        p.time = (candleAt (earlySwingData.drop (earlySwingData.length - 100)) p.index).time) ∧
      d.swingHighs.Pairwise (fun a b => a.index < b.index) ∧
      (∀ p : SwingPoint, p ∈ d.swingLows ↔
        5 ≤ p.index ∧ p.index + 5 < (earlySwingData.drop (earlySwingData.length - 100)).length ∧
        (candleAt (earlySwingData.drop (earlySwingData.length - 100)) p.index).low
          < (candleAt (earlySwingData.drop (earlySwingData.length - 100)) (p.index - 1)).low ∧
        (candleAt (earlySwingData.drop (earlySwingData.length - 100)) p.index).low
          < (candleAt (earlySwingData.drop (earlySwingData.length - 100)) (p.index - 2)).low ∧
        (candleAt (earlySwingData.drop (earlySwingData.length - 100)) p.index).low
          < (candleAt (earlySwingData.drop (earlySwingData.length - 100)) (p.index + 1)).low ∧
        (candleAt (earlySwingData.drop (earlySwingData.length - 100)) p.index).low
          < (candleAt (earlySwingData.drop (earlySwingData.length - 100)) (p.index + 2)).low ∧
        p.value = (candleAt (earlySwingData.drop (earlySwingData.length - 100)) p.index).low ∧
        p.time = (candleAt (earlySwingData.drop (earlySwingData.length - 100)) p.index).time) ∧
      d.swingLows.Pairwise (fun a b => a.index < b.index)) :=
  ⟨by simp [earlySwingData],
    analyzeAdvancedMarketStructure_swings earlySwingData (by simp [earlySwingData])⟩

theorem countHigherLower_eq (l : List SwingPoint) :
    countHigherLower l
      = ((l.zip l.tail).countP (fun p => decide (p.2.value > p.1.value)),
         (l.zip l.tail).countP (fun p => decide (¬ p.2.value > p.1.value))) := by
  induction l with
  | nil => simp [countHigherLower]
  | cons a rest ih =>
    cases rest with
    | nil => simp [countHigherLower]
    | cons b r =>
      simp only [List.tail_cons] at ih
      by_cases hc : b.value > a.value
      · simp [countHigherLower, ih, List.countP_cons, hc]
      · simp [countHigherLower, ih, List.countP_cons, hc, not_lt.mp hc]

/-- C29: with `higherHighs` / `lowerHighs` the numbers of consecutive swing-high pairs
whose later high is strictly greater / not greater than the earlier one (likewise
`higherLows` / `lowerLows`), `analyzeAdvancedMarketStructure` on at least 50 candles
returns uptrend iff `higherHighs > lowerHighs` and `higherLows > lowerLows`, downtrend
iff `lowerHighs > higherHighs` and `lowerLows > higherLows`, neutral otherwise,
and structure trending iff the trend is not neutral; on fewer than 50 candles it
returns neutral and ranging. -/
theorem analyzeAdvancedMarketStructure_trend (data : List Candle) :
    (data.length < 50 →
      (analyzeAdvancedMarketStructure data).trend = StructureTrend.neutral ∧
      (analyzeAdvancedMarketStructure data).structure_ = StructureKind.ranging) ∧
    (50 ≤ data.length →
      ∃ d, (analyzeAdvancedMarketStructure data).details = some d ∧
        d.higherHighs = (d.swingHighs.zip d.swingHighs.tail).countP
          (fun p => decide (p.2.value > p.1.value)) ∧
        d.lowerHighs = (d.swingHighs.zip d.swingHighs.tail).countP
          (fun p => decide (¬ p.2.value > p.1.value)) ∧
        d.higherLows = (d.swingLows.zip d.swingLows.tail).countP
          (fun p => decide (p.2.value > p.1.value)) ∧
        d.lowerLows = (d.swingLows.zip d.swingLows.tail).countP
          (fun p => decide (¬ p.2.value > p.1.value)) ∧
        ((analyzeAdvancedMarketStructure data).trend = StructureTrend.uptrend ↔
          d.higherHighs > d.lowerHighs ∧ d.higherLows > d.lowerLows) ∧
        ((analyzeAdvancedMarketStructure data).trend = StructureTrend.downtrend ↔
          d.lowerHighs > d.higherHighs ∧ d.lowerLows > d.higherLows) ∧
        ((analyzeAdvancedMarketStructure data).trend = StructureTrend.neutral ↔
          ¬ (d.higherHighs > d.lowerHighs ∧ d.higherLows > d.lowerLows) ∧
          ¬ (d.lowerHighs > d.higherHighs ∧ d.lowerLows > d.higherLows)) ∧
        ((analyzeAdvancedMarketStructure data).structure_ = StructureKind.trending ↔
          (analyzeAdvancedMarketStructure data).trend ≠ StructureTrend.neutral)) := by
  constructor
  · intro h
    simp [analyzeAdvancedMarketStructure, h]
  · intro h
    simp only [analyzeAdvancedMarketStructure, if_neg (not_lt.mpr h)]
    refine ⟨_, rfl, ?_, ?_, ?_, ?_, ?_, ?_, ?_, ?_⟩
    · simp only [countHigherLower_eq]
    · simp only [countHigherLower_eq]
    · simp only [countHigherLower_eq]
    · simp only [countHigherLower_eq]
    all_goals
      generalize countHigherLower (structureSwingHighs (jsSliceLast data 100)) = ch
      generalize countHigherLower (structureSwingLows (jsSliceLast data 100)) = cl
      split_ifs with h1 h2 <;> (try simp_all) <;> (try omega)

theorem candleAt_map_range (f : ℕ → Candle) (n i : ℕ) (h : i < n) :
    candleAt ((List.range n).map f) i = f i := by
  simp [candleAt, List.getElem?_range h]

theorem range_forty : List.range 40 = [0, 1, 2, 3, 4, 5, 6, 7, 8, 9, 10, 11, 12, 13, 14, 15, 16, 17, 18, 19, 20, 21, 22, 23, 24, 25, 26, 27, 28, 29, 30, 31, 32, 33, 34, 35, 36, 37, 38, 39] := by
  rfl

theorem twoSwingData_length : twoSwingData.length = 50 := by simp [twoSwingData]

theorem candleAt_twoSwingData (i : ℕ) (h : i < 50) :
    candleAt twoSwingData i = twoSwingCandle i :=
  candleAt_map_range _ _ _ h

theorem structureSwingHighs_twoSwingData :
    structureSwingHighs twoSwingData = [⟨15, 120, 15⟩, ⟨25, 125, 25⟩] := by
  simp only [structureSwingHighs, twoSwingData_length, Nat.reduceSub, range_forty, List.filterMap_cons,
    List.filterMap_nil]
  norm_num [isSwingHigh, candleAt_twoSwingData, twoSwingCandle]

theorem structureSwingLows_twoSwingData :
    structureSwingLows twoSwingData = [⟨10, 90, 10⟩, ⟨20, 95, 20⟩] := by
  simp only [structureSwingLows, twoSwingData_length, Nat.reduceSub, range_forty, List.filterMap_cons,
    List.filterMap_nil]
  norm_num [isSwingLow, candleAt_twoSwingData, twoSwingCandle]

theorem threeSwingData_length : threeSwingData.length = 50 := by simp [threeSwingData]

theorem candleAt_threeSwingData (i : ℕ) (h : i < 50) :
    candleAt threeSwingData i = threeSwingCandle i :=
  candleAt_map_range _ _ _ h

theorem structureSwingHighs_threeSwingData :
    structureSwingHighs threeSwingData = [⟨15, 120, 15⟩, ⟨25, 125, 25⟩] := by
  simp only [structureSwingHighs, threeSwingData_length, Nat.reduceSub, range_forty, List.filterMap_cons,
    List.filterMap_nil]
  norm_num [isSwingHigh, candleAt_threeSwingData, threeSwingCandle]

theorem structureSwingLows_threeSwingData :
    structureSwingLows threeSwingData = [⟨10, 90, 10⟩, ⟨20, 95, 20⟩, ⟨30, 97, 30⟩] := by
  simp only [structureSwingLows, threeSwingData_length, Nat.reduceSub, range_forty, List.filterMap_cons,
    List.filterMap_nil]
  norm_num [isSwingLow, candleAt_threeSwingData, threeSwingCandle]

theorem countHigherLower_sum (l : List SwingPoint) :
    (countHigherLower l).1 + (countHigherLower l).2 = l.length - 1 := by
  induction l with
  | nil => simp [countHigherLower]
  | cons a rest ih =>
    cases rest with
    | nil => simp [countHigherLower]
    | cons b r =>
      simp only [countHigherLower, List.length_cons] at ih ⊢
      split_ifs <;> simp only [] <;> omega

theorem leastSquares_den_ne_zero (pts : List SwingPoint) (h2 : 2 ≤ pts.length)
    (h3 : pts.length ≤ 3) (hs : pts.Pairwise (fun a b => a.index < b.index)) :
    (pts.length : ℚ) * (pts.map fun p => (p.index : ℚ) * (p.index : ℚ)).sum
      - (pts.map fun p => (p.index : ℚ)).sum * (pts.map fun p => (p.index : ℚ)).sum ≠ 0 := by
  match pts, h2, h3, hs with
  | [a, b], _, _, hs =>
    have hab : (a.index : ℚ) < b.index := by
      have := (List.pairwise_cons.mp hs).1 b (by simp)
      exact_mod_cast this
    simp only [List.length_cons, List.length_nil, List.map_cons, List.map_nil, List.sum_cons,
      List.sum_nil]
    norm_num
    nlinarith [sq_nonneg ((a.index : ℚ) - b.index), sq_pos_of_pos (sub_pos.mpr hab)]
  | [a, b, c], _, _, hs =>
    have hab : (a.index : ℚ) < b.index := by
      have := (List.pairwise_cons.mp hs).1 b (by simp)
      exact_mod_cast this
    simp only [List.length_cons, List.length_nil, List.map_cons, List.map_nil, List.sum_cons,
      List.sum_nil]
    norm_num
    nlinarith [sq_nonneg ((a.index : ℚ) - c.index), sq_nonneg ((b.index : ℚ) - c.index),
      sq_pos_of_pos (sub_pos.mpr hab)]

theorem jsSliceLast_three_props (sp : List SwingPoint) (h2 : 2 ≤ sp.length)
    (hs : sp.Pairwise (fun a b => a.index < b.index)) :
    2 ≤ (jsSliceLast sp 3).length ∧ (jsSliceLast sp 3).length ≤ 3 ∧
      (jsSliceLast sp 3).Pairwise (fun a b => a.index < b.index) := by
  have h : jsSliceLast sp 3 = sp.drop (sp.length - 3) := by simp [jsSliceLast]
  rw [h]
  refine ⟨?_, ?_, hs.sublist (List.drop_sublist _ _)⟩
  · simp only [List.length_drop]; omega
  · simp only [List.length_drop]; omega

theorem calculateTrendline_slope (sp : List SwingPoint) (allData : List Candle)
    (h2 : 2 ≤ sp.length) (hs : sp.Pairwise (fun a b => a.index < b.index))
    (hslope : |leastSquaresSlope (jsSliceLast sp 3)| ≤ 100) :
    ∃ t, calculateTrendline sp allData = some t ∧
      t.slope = JSNum.fin (leastSquaresSlope (jsSliceLast sp 3)) := by
  obtain ⟨p2, p3, ps⟩ := jsSliceLast_three_props sp h2 hs
  have hden := leastSquares_den_ne_zero _ p2 p3 ps
  have hsl : (JSNum.fin (((jsSliceLast sp 3).length : ℚ)
        * jsSum ((jsSliceLast sp 3).map fun p => (p.index : ℚ) * p.value)
        - jsSum ((jsSliceLast sp 3).map fun p => (p.index : ℚ))
          * jsSum ((jsSliceLast sp 3).map fun p => p.value))).div
      (JSNum.fin (((jsSliceLast sp 3).length : ℚ)
        * jsSum ((jsSliceLast sp 3).map fun p => (p.index : ℚ) * (p.index : ℚ))
        - jsSum ((jsSliceLast sp 3).map fun p => (p.index : ℚ))
          * jsSum ((jsSliceLast sp 3).map fun p => (p.index : ℚ))))
      = JSNum.fin (leastSquaresSlope (jsSliceLast sp 3)) := by
    simp only [jsSum_eq_sum, JSNum.div, if_neg hden, leastSquaresSlope]
  have habs : (JSNum.fin (leastSquaresSlope (jsSliceLast sp 3))).abs.gt (JSNum.fin 100)
      = false := by
    simp only [JSNum.abs, JSNum.gt, JSNum.lt, decide_eq_false_iff_not, not_lt]
    exact hslope
  simp only [calculateTrendline, if_neg (not_lt.mpr h2), hsl, habs]
  exact ⟨_, rfl, rfl⟩

/-- C30 (counterexample): `twoSwingData` is classified as a trending uptrend with two
swing lows (bars 10 and 20) whose least-squares slope is 1/2, yet the result carries no
trendline, because neither swing list has more than 2 points. -/
theorem analyzeAdvancedMarketStructure_two_swings_no_trendline :
    (analyzeAdvancedMarketStructure twoSwingData).structure_ = StructureKind.trending ∧
      (analyzeAdvancedMarketStructure twoSwingData).trend = StructureTrend.uptrend ∧
      ∃ d, (analyzeAdvancedMarketStructure twoSwingData).details = some d ∧
        d.swingLows = [⟨10, 90, 10⟩, ⟨20, 95, 20⟩] ∧
        2 ≤ d.swingLows.length ∧
        leastSquaresSlope (jsSliceLast d.swingLows 3) = 1 / 2 ∧
        |leastSquaresSlope (jsSliceLast d.swingLows 3)| ≤ 100 ∧
        d.trendline.isNone = true := by
  have hs : jsSliceLast twoSwingData 100 = twoSwingData :=
    jsSliceLast_of_length_le _ _ (by rw [twoSwingData_length]; decide)
  have hslope : leastSquaresSlope
      (jsSliceLast [(⟨10, 90, 10⟩ : SwingPoint), ⟨20, 95, 20⟩] 3) = 1 / 2 := by
    norm_num [leastSquaresSlope, jsSliceLast]
  simp only [analyzeAdvancedMarketStructure, twoSwingData_length, hs,
    structureSwingHighs_twoSwingData, structureSwingLows_twoSwingData]
  refine ⟨by norm_num [countHigherLower], by norm_num [countHigherLower], _, rfl, rfl,
    by simp, hslope,
    by rw [hslope]; exact abs_le.mpr ⟨by norm_num, by norm_num⟩, ?_⟩
  norm_num [countHigherLower]

set_option maxRecDepth 4000 in
/-- C30 (amended): whenever `analyzeAdvancedMarketStructure` (on at least 50 candles)
classifies the market as trending, at least 3 swing lows or at least 3 swing highs
exist, and the least-squares slope over the last 3 relevant swing points (swing lows
for an uptrend, swing highs for a downtrend) satisfies `|slope| ≤ 100`, the result
carries a trendline with that slope. -/
theorem analyzeAdvancedMarketStructure_trendline (data : List Candle)
    (h : 50 ≤ data.length) :
    ∃ d, (analyzeAdvancedMarketStructure data).details = some d ∧
      ((analyzeAdvancedMarketStructure data).structure_ = StructureKind.trending →
        (d.swingLows.length > 2 ∨ d.swingHighs.length > 2) →
        |leastSquaresSlope (jsSliceLast
          (if (analyzeAdvancedMarketStructure data).trend = StructureTrend.uptrend
            then d.swingLows else d.swingHighs) 3)| ≤ 100 →
        ∃ t, d.trendline = some t ∧
          t.slope = JSNum.fin (leastSquaresSlope (jsSliceLast
            (if (analyzeAdvancedMarketStructure data).trend = StructureTrend.uptrend
              then d.swingLows else d.swingHighs) 3))) := by
  have hsumH := countHigherLower_sum (structureSwingHighs (jsSliceLast data 100))
  have hsumL := countHigherLower_sum (structureSwingLows (jsSliceLast data 100))
  have hsH := structureSwingHighs_sorted (jsSliceLast data 100)
  have hsL := structureSwingLows_sorted (jsSliceLast data 100)
  simp only [analyzeAdvancedMarketStructure, if_neg (not_lt.mpr h)]
  refine ⟨_, rfl, ?_⟩
  simp only []
  by_cases hup : (countHigherLower (structureSwingHighs (jsSliceLast data 100))).1
        > (countHigherLower (structureSwingHighs (jsSliceLast data 100))).2 ∧
      (countHigherLower (structureSwingLows (jsSliceLast data 100))).1
        > (countHigherLower (structureSwingLows (jsSliceLast data 100))).2
  · simp only [if_pos hup, if_true, true_and]
    intro _ hgate hslope
    rw [if_pos hgate]
    exact calculateTrendline_slope _ _ (by omega) hsL hslope
  · by_cases hdown : (countHigherLower (structureSwingHighs (jsSliceLast data 100))).2
          > (countHigherLower (structureSwingHighs (jsSliceLast data 100))).1 ∧
        (countHigherLower (structureSwingLows (jsSliceLast data 100))).2
          > (countHigherLower (structureSwingLows (jsSliceLast data 100))).1
    · simp only [if_neg hup, if_pos hdown, if_true, true_and]
      intro _ hgate hslope
      rw [if_pos hgate]
      rw [if_neg (by decide)] at hslope ⊢
      exact calculateTrendline_slope _ _ (by omega) hsH hslope
    · simp only [if_neg hup, if_neg hdown]
      intro hcontra
      exact absurd hcontra (by decide)

/-- Witness for C30 (amended): `threeSwingData` is a trending uptrend with three swing
lows (bars 10, 20, 30) of least-squares slope 7/20, and its result carries a trendline
with slope 7/20. -/
theorem analyzeAdvancedMarketStructure_trendline_witness :
    50 ≤ threeSwingData.length ∧
      ∃ d, (analyzeAdvancedMarketStructure threeSwingData).details = some d ∧
        (analyzeAdvancedMarketStructure threeSwingData).structure_ = StructureKind.trending ∧
        (analyzeAdvancedMarketStructure threeSwingData).trend = StructureTrend.uptrend ∧
        d.swingLows.length > 2 ∧
        leastSquaresSlope (jsSliceLast d.swingLows 3) = 7 / 20 ∧
        ∃ t, d.trendline = some t ∧ t.slope = JSNum.fin (7 / 20) := by
  have hlen : 50 ≤ threeSwingData.length := by rw [threeSwingData_length]
  have hs : jsSliceLast threeSwingData 100 = threeSwingData :=
    jsSliceLast_of_length_le _ _ (by rw [threeSwingData_length]; decide)
  have hdrop : threeSwingData.drop (threeSwingData.length - 100) = threeSwingData := by
    rw [threeSwingData_length]; rfl
  have htrending : (analyzeAdvancedMarketStructure threeSwingData).structure_
      = StructureKind.trending := by
    simp only [analyzeAdvancedMarketStructure, threeSwingData_length, hs,
      structureSwingHighs_threeSwingData, structureSwingLows_threeSwingData]
    norm_num [countHigherLower]
  have hup : (analyzeAdvancedMarketStructure threeSwingData).trend
      = StructureTrend.uptrend := by
    simp only [analyzeAdvancedMarketStructure, threeSwingData_length, hs,
      structureSwingHighs_threeSwingData, structureSwingLows_threeSwingData]
    norm_num [countHigherLower]
  obtain ⟨d, hd, himp⟩ := analyzeAdvancedMarketStructure_trendline threeSwingData hlen
  have hsw := analyzeAdvancedMarketStructure_details threeSwingData hlen
  rw [hd, hdrop, structureSwingHighs_threeSwingData, structureSwingLows_threeSwingData] at hsw
  simp only [Option.map_some', Option.some.injEq, Prod.mk.injEq] at hsw
  have hslope : leastSquaresSlope (jsSliceLast d.swingLows 3) = 7 / 20 := by
    rw [hsw.2]
    norm_num [leastSquaresSlope, jsSliceLast]
  have hgate : d.swingLows.length > 2 := by rw [hsw.2]; decide
  rw [hup, if_pos rfl, hslope] at himp
  exact ⟨hlen, d, hd, htrending, hup, hgate, hslope,
    himp htrending (Or.inl hgate) (abs_le.mpr ⟨by norm_num, by norm_num⟩)⟩

/-! ### Flat series -/

theorem candleAt_mem (xs : List Candle) (i : ℕ) (h : i < xs.length) : candleAt xs i ∈ xs := by
  unfold candleAt
  rw [List.getD_eq_getElem _ _ h]
  exact List.getElem_mem _

theorem mem_jsSliceLast {α : Type} {xs : List α} {n : ℕ} {x : α} (h : x ∈ jsSliceLast xs n) :
    x ∈ xs := by
  unfold jsSliceLast at h
  split_ifs at h
  · exact h
  · exact List.mem_of_mem_drop h

theorem jsSliceLast_length {α : Type} (xs : List α) (n : ℕ) (hn : 1 ≤ n) (h : n ≤ xs.length) :
    (jsSliceLast xs n).length = n := by
  have hn0 : n ≠ 0 := by omega
  simp only [jsSliceLast, if_neg hn0, List.length_drop]
  omega

theorem map_eq_replicate_of_forall {α : Type} (xs : List α) (f : α → ℚ) (v : ℚ)
    (h : ∀ c ∈ xs, f c = v) : xs.map f = List.replicate xs.length v := by
  rw [List.eq_replicate_iff]
  refine ⟨by simp, ?_⟩
  intro b hb
  obtain ⟨c, hc, rfl⟩ := List.mem_map.mp hb
  exact h c hc

theorem jsMax_replicate (n : ℕ) (v : ℚ) (hn : 1 ≤ n) : jsMax (List.replicate n v) = v := by
  have hne : List.replicate n v ≠ [] := by
    intro h
    have := congrArg List.length h
    simp at this
    omega
  exact List.eq_of_mem_replicate (jsMax_mem hne)

theorem jsMin_replicate (n : ℕ) (v : ℚ) (hn : 1 ≤ n) : jsMin (List.replicate n v) = v := by
  have hne : List.replicate n v ≠ [] := by
    intro h
    have := congrArg List.length h
    simp at this
    omega
  exact List.eq_of_mem_replicate (jsMin_mem hne)

theorem localPeaks_flat (data : List Candle) (v : ℚ) (h : ∀ c ∈ data, c.high = v) :
    localPeaks data = [] := by
  rw [localPeaks, List.filterMap_eq_nil_iff]
  intro j hj
  rw [List.mem_range] at hj
  have h1 := h _ (candleAt_mem data (j + 5) (by omega))
  have h2 := h _ (candleAt_mem data (j + 4) (by omega))
  have e : j + 5 - 1 = j + 4 := by omega
  simp [e, h1, h2]

theorem localTroughs_flat (data : List Candle) (v : ℚ) (h : ∀ c ∈ data, c.low = v) :
    localTroughs data = [] := by
  rw [localTroughs, List.filterMap_eq_nil_iff]
  intro j hj
  rw [List.mem_range] at hj
  have h1 := h _ (candleAt_mem data (j + 5) (by omega))
  have h2 := h _ (candleAt_mem data (j + 4) (by omega))
  have e : j + 5 - 1 = j + 4 := by omega
  simp [e, h1, h2]

theorem detectHeadAndShoulders_flat (data : List Candle) (v : ℚ)
    (h : ∀ c ∈ data, c.high = v ∧ c.low = v) : detectHeadAndShoulders data = none := by
  unfold detectHeadAndShoulders
  split_ifs
  · rfl
  · simp [localPeaks_flat data v (fun c hc => (h c hc).1),
      localTroughs_flat data v (fun c hc => (h c hc).2)]

theorem detectDoubleTopsBottoms_flat (data : List Candle) (v : ℚ) (hv : 0 < v)
    (hlen : 20 ≤ data.length) (h : ∀ c ∈ data, c.high = v) :
    detectDoubleTopsBottoms data = some DoublePattern.doubleTop := by
  have hl := jsSliceLast_length data 20 (by decide) hlen
  have hhighs : (jsSliceLast data 20).map (fun c => c.high) = List.replicate 20 v := by
    rw [map_eq_replicate_of_forall _ _ v (fun c hc => h c (mem_jsSliceLast hc)), hl]
  have hfilter : (List.range 20).filter
      (fun i => decide ((List.replicate 20 v).getD i 0 ≥ v * (998 / 1000))) = List.range 20 := by
    rw [List.filter_eq_self]
    intro i hi
    rw [List.mem_range] at hi
    simp only [List.getD_eq_getElem?_getD, List.getElem?_replicate_of_lt hi, Option.getD_some,
      decide_eq_true_eq, ge_iff_le]
    linarith
  unfold detectDoubleTopsBottoms
  rw [if_neg (by omega)]
  simp only [hhighs, jsMax_replicate 20 v (by decide), List.length_replicate, hfilter]
  rw [if_pos]
  refine ⟨by simp, ?_⟩
  have h1 : (List.range 20).getLastD 0 = 19 := by rfl
  have h2 : (List.range 20).headD 0 = 0 := by rfl
  rw [h1, h2]
  decide

theorem detectFlags_flat (data : List Candle) (v : ℚ) (h : ∀ c ∈ data, c.close = v) :
    detectFlags data = none := by
  unfold detectFlags
  split_ifs with h15
  · rfl
  · have hl := jsSliceLast_length data 15 (by decide) (by omega)
    have hcloses : (jsSliceLast data 15).map (fun c => c.close) = List.replicate 15 v := by
      rw [map_eq_replicate_of_forall _ _ v (fun c hc => h c (mem_jsSliceLast hc)), hl]
    have hfirst : jsSlice (List.replicate 15 v) 0 5 = List.replicate 5 v := by
      simp [jsSlice, List.take_replicate]
    have hmove : (JSNum.fin ((List.replicate 5 v).getD ((List.replicate 5 v).length - 1) 0
        - (List.replicate 5 v).getD 0 0)).div (JSNum.fin ((List.replicate 5 v).getD 0 0))
        = if v = 0 then JSNum.nan else JSNum.fin 0 := by
      simp [JSNum.div, List.replicate]
    simp only [hcloses, hfirst, hmove]
    have hgt : (JSNum.fin 0).gt (JSNum.fin (1 / 50)) = false := by
      norm_num [JSNum.gt, JSNum.lt]
    have hlt : (JSNum.fin 0).lt (JSNum.fin (-(1 / 50))) = false := by
      norm_num [JSNum.gt, JSNum.lt]
    have hgtn : JSNum.nan.gt (JSNum.fin (1 / 50)) = false := rfl
    have hltn : JSNum.nan.lt (JSNum.fin (-(1 / 50))) = false := rfl
    by_cases hv : v = 0
    · simp only [if_pos hv, hgtn, hltn, Bool.false_eq_true, false_and, if_false]
    · simp only [if_neg hv, hgt, hlt, Bool.false_eq_true, false_and, if_false]

theorem detectAdvancedPatterns_flat (data : List Candle) (v : ℚ) (hv : 0 < v)
    (hlen : 50 ≤ data.length)
    (hflat : ∀ c ∈ data, c.open_ = v ∧ c.high = v ∧ c.low = v ∧ c.close = v) :
    detectAdvancedPatterns data
      = { bullishPatterns := 0, bearishPatterns := 3
          patterns := [{ type := "Double Top", direction := TrendLabel.bearish,
                         strength := PatternStrength.veryHigh }] } := by
  have hl := jsSliceLast_length data 50 (by decide) hlen
  have hrec : ∀ c ∈ jsSliceLast data 50,
      c.open_ = v ∧ c.high = v ∧ c.low = v ∧ c.close = v :=
    fun c hc => hflat c (mem_jsSliceLast hc)
  obtain ⟨a1, a2, a3, a4⟩ := hrec _ (candleAt_mem (jsSliceLast data 50) 49 (by omega))
  obtain ⟨b1, b2, b3, b4⟩ := hrec _ (candleAt_mem (jsSliceLast data 50) 48 (by omega))
  obtain ⟨c1, c2, c3, c4⟩ := hrec _ (candleAt_mem (jsSliceLast data 50) 47 (by omega))
  have hhs := detectHeadAndShoulders_flat (jsSliceLast data 50) v
    (fun c hc => ⟨(hrec c hc).2.1, (hrec c hc).2.2.1⟩)
  have hdt := detectDoubleTopsBottoms_flat (jsSliceLast data 50) v hv (by omega)
    (fun c hc => (hrec c hc).2.1)
  have hfl := detectFlags_flat (jsSliceLast data 50) v (fun c hc => (hrec c hc).2.2.2)
  unfold detectAdvancedPatterns
  rw [if_neg (by omega)]
  simp only [hl, Nat.reduceSub, a1, a2, a3, a4, b1, b2, b3, b4, c1, c2, c3, c4, hhs, hdt, hfl]
  simp [PatternReport.addBearish]

/-- C22 (counterexample): for 250 candles with open, high, low and close all equal to
100, `detectAdvancedPatterns` returns bearishPatterns = 3 and the one pattern
"Double Top", so a pattern is detected. -/
theorem detectAdvancedPatterns_flat_counterexample :
    (List.replicate 250 flatCandle).length = 250 ∧
      (∀ c ∈ List.replicate 250 flatCandle,
        c.open_ = 100 ∧ c.high = 100 ∧ c.low = 100 ∧ c.close = 100) ∧
      (detectAdvancedPatterns (List.replicate 250 flatCandle)).bullishPatterns = 0 ∧
      (detectAdvancedPatterns (List.replicate 250 flatCandle)).bearishPatterns = 3 ∧
      (detectAdvancedPatterns (List.replicate 250 flatCandle)).patterns
        = [{ type := "Double Top", direction := TrendLabel.bearish,
             strength := PatternStrength.veryHigh }] ∧
      ¬ ((detectAdvancedPatterns (List.replicate 250 flatCandle)).bearishPatterns = 0 ∧
        (detectAdvancedPatterns (List.replicate 250 flatCandle)).patterns = []) := by
  have hflat : ∀ c ∈ List.replicate 250 flatCandle,
      c.open_ = 100 ∧ c.high = 100 ∧ c.low = 100 ∧ c.close = 100 := by
    intro c hc
    rw [List.eq_of_mem_replicate hc]
    exact ⟨rfl, rfl, rfl, rfl⟩
  have hlen : (List.replicate 250 flatCandle).length = 250 := List.length_replicate _ _
  have h := detectAdvancedPatterns_flat (List.replicate 250 flatCandle) 100 (by norm_num)
    (by rw [hlen]; decide) hflat
  rw [h]
  exact ⟨hlen, hflat, rfl, rfl, rfl, fun h0 => absurd h0.1 (by decide)⟩

/-- C22 (amended): for a flat series of 250 candles (indeed of at least 50) whose open,
high, low and close are all the same positive value, `detectAdvancedPatterns` detects
exactly one pattern, the Double Top: bullishPatterns = 0, bearishPatterns = 3 and the
patterns list holds the single record Double Top (bearish, very high). -/
theorem detectAdvancedPatterns_flat_double_top (data : List Candle) (v : ℚ) (hv : 0 < v)
    (hlen : 50 ≤ data.length)
    (hflat : ∀ c ∈ data, c.open_ = v ∧ c.high = v ∧ c.low = v ∧ c.close = v) :
    (detectAdvancedPatterns data).bullishPatterns = 0 ∧
      (detectAdvancedPatterns data).bearishPatterns = 3 ∧
      (detectAdvancedPatterns data).patterns
        = [{ type := "Double Top", direction := TrendLabel.bearish,
             strength := PatternStrength.veryHigh }] := by
  rw [detectAdvancedPatterns_flat data v hv hlen hflat]
  exact ⟨rfl, rfl, rfl⟩

/-- Witness for C22 (amended): 250 copies of `flatCandle`. -/
theorem detectAdvancedPatterns_flat_double_top_witness :
    (0 : ℚ) < 100 ∧ 50 ≤ (List.replicate 250 flatCandle).length ∧
      (∀ c ∈ List.replicate 250 flatCandle,
        c.open_ = 100 ∧ c.high = 100 ∧ c.low = 100 ∧ c.close = 100) ∧
      ((detectAdvancedPatterns (List.replicate 250 flatCandle)).bullishPatterns = 0 ∧
        (detectAdvancedPatterns (List.replicate 250 flatCandle)).bearishPatterns = 3 ∧
        (detectAdvancedPatterns (List.replicate 250 flatCandle)).patterns
          = [{ type := "Double Top", direction := TrendLabel.bearish,
               strength := PatternStrength.veryHigh }]) := by
  have hflat : ∀ c ∈ List.replicate 250 flatCandle,
      c.open_ = 100 ∧ c.high = 100 ∧ c.low = 100 ∧ c.close = 100 := by
    intro c hc
    rw [List.eq_of_mem_replicate hc]
    exact ⟨rfl, rfl, rfl, rfl⟩
  have hlen : 50 ≤ (List.replicate 250 flatCandle).length := by
    rw [List.length_replicate]; decide
  exact ⟨by norm_num, hlen, hflat,
    detectAdvancedPatterns_flat_double_top (List.replicate 250 flatCandle) 100 (by norm_num)
      hlen hflat⟩

/-! ### Arithmetic on finite numbers -/

theorem JSNum.add_fin (a b : ℚ) : (JSNum.fin a).add (JSNum.fin b) = JSNum.fin (a + b) := rfl

theorem JSNum.sub_fin (a b : ℚ) : (JSNum.fin a).sub (JSNum.fin b) = JSNum.fin (a - b) := rfl

theorem JSNum.mul_fin (a b : ℚ) : (JSNum.fin a).mul (JSNum.fin b) = JSNum.fin (a * b) := rfl

theorem JSNum.neg_fin (a : ℚ) : (JSNum.fin a).neg = JSNum.fin (-a) := rfl

theorem JSNum.min_fin (a b : ℚ) : (JSNum.fin a).min (JSNum.fin b) = JSNum.fin (Min.min a b) := rfl

theorem JSNum.max_fin (a b : ℚ) : (JSNum.fin a).max (JSNum.fin b) = JSNum.fin (Max.max a b) := rfl

theorem JSNum.lt_fin (a b : ℚ) : (JSNum.fin a).lt (JSNum.fin b) = decide (a < b) := rfl

theorem JSNum.gt_fin (a b : ℚ) : (JSNum.fin a).gt (JSNum.fin b) = decide (b < a) := rfl

theorem JSNum.div_fin (a b : ℚ) (h : b ≠ 0) :
    (JSNum.fin a).div (JSNum.fin b) = JSNum.fin (a / b) := by
  simp [JSNum.div, h]

/-! ### Price path -/

theorem pricePathLoop_length (random : ℕ → ℚ) (currentPrice : JSNum)
    (lastTime timeIncrement : Int) (atr : JSNum) (trendFactor : ℚ)
    (mrf support resistance : JSNum) (remaining i : ℕ) (price : JSNum) :
    (pricePathLoop random currentPrice lastTime timeIncrement atr trendFactor mrf support
      resistance remaining i price).length = remaining := by
  induction remaining generalizing i price with
  | zero => simp [pricePathLoop]
  | succ n ih => simp [pricePathLoop, ih]

theorem ite_fin (c : Prop) [Decidable c] (u w : ℚ) :
    (if c then JSNum.fin u else JSNum.fin w) = JSNum.fin (if c then u else w) := by
  split_ifs <;> rfl

theorem pricePathLoop_succ_fin (random : ℕ → ℚ) (p : ℚ) (lastTime timeIncrement : Int)
    (a trendFactor m s r : ℚ) (n i : ℕ) (x : ℚ) :
    pricePathLoop random (JSNum.fin p) lastTime timeIncrement (JSNum.fin a) trendFactor
        (JSNum.fin m) (JSNum.fin s) (JSNum.fin r) (n + 1) i (JSNum.fin x)
      = { time := lastTime + timeIncrement * (i : Int),
          value := JSNum.fin (max (p - p * (1 / 20)) (min (p + p * (1 / 20))
            (movedPrice (random (i - 1)) a trendFactor m s r i x))) }
        :: pricePathLoop random (JSNum.fin p) lastTime timeIncrement (JSNum.fin a) trendFactor
            (JSNum.fin m) (JSNum.fin s) (JSNum.fin r) n (i + 1)
            (JSNum.fin (max (p - p * (1 / 20)) (min (p + p * (1 / 20))
              (movedPrice (random (i - 1)) a trendFactor m s r i x)))) := by
  rw [pricePathLoop]
  simp only [JSNum.mul_fin, JSNum.sub_fin, JSNum.add_fin, JSNum.lt_fin, JSNum.gt_fin,
    decide_eq_true_eq, ite_fin, movedPrice, JSNum.min_fin, JSNum.max_fin]

theorem pricePathLoop_bounds (random : ℕ → ℚ) (p : ℚ) (hp : 0 < p)
    (lastTime timeIncrement : Int) (a trendFactor m s r : ℚ) (remaining i : ℕ) (x : ℚ) :
    ∀ pt ∈ pricePathLoop random (JSNum.fin p) lastTime timeIncrement (JSNum.fin a) trendFactor
        (JSNum.fin m) (JSNum.fin s) (JSNum.fin r) remaining i (JSNum.fin x),
      ∃ q : ℚ, pt.value = JSNum.fin q ∧ 19 / 20 * p ≤ q ∧ q ≤ 21 / 20 * p := by
  induction remaining generalizing i x with
  | zero => simp [pricePathLoop]
  | succ n ih =>
    intro pt hpt
    rw [pricePathLoop_succ_fin, List.mem_cons] at hpt
    rcases hpt with rfl | htail
    · refine ⟨_, rfl, ?_, ?_⟩
      · exact le_trans (by linarith) (le_max_left _ _)
      · exact max_le (by linarith) (le_trans (min_le_left _ _) (by linarith))
    · exact ih _ _ pt htail

/-- C24: for every positive starting price `p`, every indicator record whose `atr`,
`ema21`, `support` and `resistance` are finite numbers, every trend label, every
timeframe and every sequence of random draws, the path returned by
`generateAdvancedPricePrediction` has `numCandles` points (at least 6) and every value
`v` in it satisfies `0.95 * p ≤ v ≤ 1.05 * p`. -/
theorem generateAdvancedPricePrediction_bounds (random : ℕ → ℚ) (currentTimeframe : String)
    (p : ℚ) (lastTime : Int) (trend : TrendLabel) (indicators : Indicators)
    (a e s r : ℚ) (hp : 0 < p)
    (ha : indicators.atr = JSNum.fin a) (he : indicators.ema21 = JSNum.fin e)
    (hs : indicators.support = JSNum.fin s) (hr : indicators.resistance = JSNum.fin r) :
    (generateAdvancedPricePrediction random currentTimeframe (JSNum.fin p) lastTime trend
        indicators).length = numCandles currentTimeframe ∧
      6 ≤ numCandles currentTimeframe ∧
      ∀ pt ∈ generateAdvancedPricePrediction random currentTimeframe (JSNum.fin p) lastTime
          trend indicators,
        ∃ v : ℚ, pt.value = JSNum.fin v ∧ 95 / 100 * p ≤ v ∧ v ≤ 105 / 100 * p := by
  refine ⟨pricePathLoop_length _ _ _ _ _ _ _ _ _ _ _ _, ?_, ?_⟩
  · unfold numCandles
    split_ifs <;> decide
  · intro pt hpt
    simp only [generateAdvancedPricePrediction, ha, he, hs, hr, JSNum.sub_fin,
      JSNum.div_fin _ _ (ne_of_gt hp), JSNum.neg_fin, JSNum.mul_fin] at hpt
    obtain ⟨q, hq, h1, h2⟩ := pricePathLoop_bounds random p hp _ _ a _ _ s r _ _ p pt hpt
    exact ⟨q, hq, by linarith, by linarith⟩

/-- Witness for C24: starting price 102, the record `sampleIndicators`, a bullish trend
on the 5m timeframe and the draws `i / 13`. -/
theorem generateAdvancedPricePrediction_bounds_witness :
    (0 : ℚ) < 102 ∧ sampleIndicators.atr = JSNum.fin 2 ∧
      sampleIndicators.ema21 = JSNum.fin 100 ∧ sampleIndicators.support = JSNum.fin 99 ∧
      sampleIndicators.resistance = JSNum.fin 110 ∧
      ((generateAdvancedPricePrediction (fun i => (i : ℚ) / 13) "5m" (JSNum.fin 102) 1000
          TrendLabel.bullish sampleIndicators).length = numCandles "5m" ∧
        6 ≤ numCandles "5m" ∧
        ∀ pt ∈ generateAdvancedPricePrediction (fun i => (i : ℚ) / 13) "5m" (JSNum.fin 102)
            1000 TrendLabel.bullish sampleIndicators,
          ∃ v : ℚ, pt.value = JSNum.fin v ∧ 95 / 100 * 102 ≤ v ∧ v ≤ 105 / 100 * 102) :=
  ⟨by norm_num, rfl, rfl, rfl, rfl,
    generateAdvancedPricePrediction_bounds (fun i => (i : ℚ) / 13) "5m" 102 1000
      TrendLabel.bullish sampleIndicators 2 100 99 110 (by norm_num) rfl rfl rfl rfl⟩

/-- C25: for finite price `p`, ATR `a`, support `s` and resistance `r` and a non-empty
projected path, `generateOptimizedPositions` returns the empty list exactly when the
trend is neutral; for a bullish trend exactly one long position with entry
`s + 0.5 * a` if `p - s < 2 * a` and `0.998 * p` otherwise, stopLoss
`max(0.998 * s, p - 2 * a)` and target the value of the last projected price; for a
bearish trend exactly one short position with entry `r - 0.5 * a` if `r - p < 2 * a` and
`1.002 * p` otherwise, stopLoss `min(1.002 * r, p + 2 * a)` and the same target. -/
theorem generateOptimizedPositions_spec (p a s r : ℚ) (init : List LinePoint)
    (lastPoint : LinePoint) (indicators : Indicators) (trend : TrendLabel)
    (ha : indicators.atr = JSNum.fin a) (hs : indicators.support = JSNum.fin s)
    (hr : indicators.resistance = JSNum.fin r) :
    ∃ ps, generateOptimizedPositions (JSNum.fin p) (init ++ [lastPoint]) indicators trend
        = some ps ∧
      (ps = [] ↔ trend = TrendLabel.neutral) ∧
      (trend = TrendLabel.bullish →
        ∃ pos, ps = [pos] ∧ pos.type = PositionSide.long ∧
          pos.entry = JSNum.fin (if p - s < 2 * a then s + 1 / 2 * a else 998 / 1000 * p) ∧
          pos.stopLoss = JSNum.fin (max (998 / 1000 * s) (p - 2 * a)) ∧
          pos.target = lastPoint.value) ∧
      (trend = TrendLabel.bearish →
        ∃ pos, ps = [pos] ∧ pos.type = PositionSide.short ∧
          pos.entry = JSNum.fin (if r - p < 2 * a then r - 1 / 2 * a else 1002 / 1000 * p) ∧
          pos.stopLoss = JSNum.fin (min (1002 / 1000 * r) (p + 2 * a)) ∧
          pos.target = lastPoint.value) := by
  have hl : (init ++ [lastPoint]).getLast? = some lastPoint := by simp
  cases trend with
  | bullish =>
    refine ⟨_, by simp only [generateOptimizedPositions, hl, if_true]; rfl, by simp, ?_,
      by simp⟩
    intro _
    refine ⟨_, rfl, rfl, ?_, ?_, rfl⟩
    · simp only [ha, hs, JSNum.sub_fin, JSNum.mul_fin, JSNum.lt_fin, JSNum.add_fin,
        decide_eq_true_eq, ite_fin]
      congr 1
      split_ifs with h1 h2 h2 <;> first | ring1 | (exfalso; linarith)
    · simp only [ha, hs, JSNum.sub_fin, JSNum.mul_fin, JSNum.max_fin]
      congr 2 <;> ring1
  | bearish =>
    refine ⟨_, by simp only [generateOptimizedPositions, hl]; rfl, by simp, by simp, ?_⟩
    intro _
    refine ⟨_, rfl, rfl, ?_, ?_, rfl⟩
    · simp only [ha, hr, JSNum.sub_fin, JSNum.mul_fin, JSNum.lt_fin, JSNum.add_fin,
        decide_eq_true_eq, ite_fin]
      congr 1
      split_ifs with h1 h2 h2 <;> first | ring1 | (exfalso; linarith)
    · simp only [ha, hr, JSNum.add_fin, JSNum.mul_fin, JSNum.min_fin]
      congr 2 <;> ring1
  | neutral =>
    exact ⟨[], by simp [generateOptimizedPositions], by simp, by simp, by simp⟩

/-- Witness for C25: the sample indicators with a bullish trend at price 102 and a
one-point projected path. -/
theorem generateOptimizedPositions_spec_witness :
    sampleIndicators.atr = JSNum.fin 2 ∧ sampleIndicators.support = JSNum.fin 99 ∧
    sampleIndicators.resistance = JSNum.fin 110 ∧
    ∃ ps, generateOptimizedPositions (JSNum.fin 102)
        ([] ++ [LinePoint.mk 60 (JSNum.fin 104)]) sampleIndicators TrendLabel.bullish
        = some ps ∧
      (ps = [] ↔ TrendLabel.bullish = TrendLabel.neutral) ∧
      (TrendLabel.bullish = TrendLabel.bullish →
        ∃ pos, ps = [pos] ∧ pos.type = PositionSide.long ∧
          pos.entry = JSNum.fin
            (if (102 : ℚ) - 99 < 2 * 2 then 99 + 1 / 2 * 2 else 998 / 1000 * 102) ∧
          pos.stopLoss = JSNum.fin (max (998 / 1000 * 99) (102 - 2 * 2)) ∧
          pos.target = (LinePoint.mk 60 (JSNum.fin 104)).value) ∧
      (TrendLabel.bullish = TrendLabel.bearish →
        ∃ pos, ps = [pos] ∧ pos.type = PositionSide.short ∧
          pos.entry = JSNum.fin
            (if (110 : ℚ) - 102 < 2 * 2 then 110 - 1 / 2 * 2 else 1002 / 1000 * 102) ∧
          pos.stopLoss = JSNum.fin (min (1002 / 1000 * 110) (102 + 2 * 2)) ∧
          pos.target = (LinePoint.mk 60 (JSNum.fin 104)).value) :=
  ⟨rfl, rfl, rfl,
    generateOptimizedPositions_spec 102 2 99 110 [] (LinePoint.mk 60 (JSNum.fin 104))
      sampleIndicators TrendLabel.bullish rfl rfl rfl⟩

/-! ### Prediction record and analysis driver -/

theorem numCandles_ge (currentTimeframe : String) : 6 ≤ numCandles currentTimeframe := by
  unfold numCandles
  split_ifs <;> decide

theorem generateAdvancedPricePrediction_getLast (random : ℕ → ℚ) (currentTimeframe : String)
    (currentPrice : JSNum) (lastTime : Int) (trend : TrendLabel) (indicators : Indicators) :
    ∃ lastPoint, (generateAdvancedPricePrediction random currentTimeframe currentPrice
      lastTime trend indicators).getLast? = some lastPoint := by
  have hlen : (generateAdvancedPricePrediction random currentTimeframe currentPrice
      lastTime trend indicators).length = numCandles currentTimeframe :=
    pricePathLoop_length _ _ _ _ _ _ _ _ _ _ _ _
  have h6 := numCandles_ge currentTimeframe
  cases hfp : generateAdvancedPricePrediction random currentTimeframe currentPrice
      lastTime trend indicators with
  | nil => rw [hfp] at hlen; simp at hlen; omega
  | cons a l => exact ⟨_, List.getLast?_eq_getLast _ (List.cons_ne_nil a l)⟩

theorem generateOptimizedPositions_core (currentPrice : JSNum)
    (futurePrices1 futurePrices2 : List LinePoint) (lastPoint1 lastPoint2 : LinePoint)
    (indicators : Indicators) (trend : TrendLabel)
    (h1 : futurePrices1.getLast? = some lastPoint1)
    (h2 : futurePrices2.getLast? = some lastPoint2) :
    ∃ ps1 ps2,
      generateOptimizedPositions currentPrice futurePrices1 indicators trend = some ps1 ∧
      generateOptimizedPositions currentPrice futurePrices2 indicators trend = some ps2 ∧
      ps1.map (fun q => (q.type, q.entry, q.stopLoss))
        = ps2.map (fun q => (q.type, q.entry, q.stopLoss)) := by
  cases trend <;> simp [generateOptimizedPositions, h1, h2]

theorem calculateAdvancedIndicators_isSome (sqrt : ℚ → ℚ) (init : List Candle)
    (last : Candle) : ∃ indicators,
      calculateAdvancedIndicators sqrt (init ++ [last]) = some indicators := by
  simp [calculateAdvancedIndicators, findAdvancedSupportResistance]

theorem generateUltimatePredictionFull_fields (random : ℕ → ℚ)
    (toFixed : JSNum → ℕ → String) (currentTimeframe : String) (init : List Candle)
    (last : Candle) (indicators : Indicators) (patterns : PatternReport)
    (marketStructure : MarketStructure) (fibonacci : Option FibonacciLevels)
    (smartMoney : SmartMoney) :
    ∃ p,
      generateUltimatePredictionFull random toFixed currentTimeframe (init ++ [last])
        indicators patterns marketStructure fibonacci smartMoney = some p ∧
      p.trend
        = classifyTrend (scoreTrend (JSNum.fin last.close) indicators patterns
            marketStructure).1 ∧
      p.confidence
        = computeConfidence (scoreTrend (JSNum.fin last.close) indicators patterns
            marketStructure).1 (scoreTrend (JSNum.fin last.close) indicators patterns
            marketStructure).2 patterns ∧
      p.signals
        = (generateAdvancedSignals toFixed indicators p.trend (JSNum.fin last.close) patterns
            marketStructure ++ smartMoneySignals smartMoney)
          ++ fibonacciSignals toFixed (JSNum.fin last.close) fibonacci ∧
      p.futurePrices
        = generateAdvancedPricePrediction random currentTimeframe (JSNum.fin last.close)
            last.time p.trend indicators ∧
      generateOptimizedPositions (JSNum.fin last.close) p.futurePrices indicators p.trend
        = some p.positions := by
  have hl : (init ++ [last]).getLast? = some last := by simp
  obtain ⟨lp, h1⟩ := generateAdvancedPricePrediction_getLast random currentTimeframe
    (JSNum.fin last.close) last.time
    (classifyTrend (scoreTrend (JSNum.fin last.close) indicators patterns marketStructure).1)
    indicators
  obtain ⟨ps, _, e1, _, _⟩ := generateOptimizedPositions_core (JSNum.fin last.close)
    _ _ lp lp indicators
    (classifyTrend (scoreTrend (JSNum.fin last.close) indicators patterns marketStructure).1)
    h1 h1
  simp only [generateUltimatePredictionFull, hl, e1, h1]
  exact ⟨_, rfl, rfl, rfl, rfl, rfl, e1⟩

/-- C27: the trend, the confidence and the signals returned by
`generateUltimatePrediction` do not depend on the random source.  For every non-empty
candle list and all other inputs fixed, the runs with the draws `random1` and `random2`
both return a record, and the two records have the same trend, the same confidence and
the same signals list; their positions lists also agree in type, entry and stopLoss
(only the target-derived fields, `futurePrices` and `targetPrice` can differ). -/
theorem generateUltimatePredictionFull_random_independent (random1 random2 : ℕ → ℚ)
    (toFixed : JSNum → ℕ → String) (currentTimeframe : String) (init : List Candle)
    (last : Candle) (indicators : Indicators) (patterns : PatternReport)
    (marketStructure : MarketStructure) (fibonacci : Option FibonacciLevels)
    (smartMoney : SmartMoney) :
    ∃ p1 p2,
      generateUltimatePredictionFull random1 toFixed currentTimeframe (init ++ [last])
        indicators patterns marketStructure fibonacci smartMoney = some p1 ∧
      generateUltimatePredictionFull random2 toFixed currentTimeframe (init ++ [last])
        indicators patterns marketStructure fibonacci smartMoney = some p2 ∧
      p1.trend = p2.trend ∧ p1.confidence = p2.confidence ∧ p1.signals = p2.signals ∧
      p1.positions.map (fun q => (q.type, q.entry, q.stopLoss))
        = p2.positions.map (fun q => (q.type, q.entry, q.stopLoss)) := by
  obtain ⟨p1, f1, t1, c1, s1, fp1, o1⟩ := generateUltimatePredictionFull_fields random1
    toFixed currentTimeframe init last indicators patterns marketStructure fibonacci smartMoney
  obtain ⟨p2, f2, t2, c2, s2, fp2, o2⟩ := generateUltimatePredictionFull_fields random2
    toFixed currentTimeframe init last indicators patterns marketStructure fibonacci smartMoney
  have ht : p1.trend = p2.trend := t1.trans t2.symm
  obtain ⟨lp1, h1⟩ := generateAdvancedPricePrediction_getLast random1 currentTimeframe
    (JSNum.fin last.close) last.time p1.trend indicators
  obtain ⟨lp2, h2⟩ := generateAdvancedPricePrediction_getLast random2 currentTimeframe
    (JSNum.fin last.close) last.time p2.trend indicators
  rw [← fp1] at h1
  rw [← fp2] at h2
  obtain ⟨ps1, ps2, e1, e2, hcore⟩ := generateOptimizedPositions_core (JSNum.fin last.close)
    p1.futurePrices p2.futurePrices lp1 lp2 indicators p1.trend h1 h2
  rw [ht, o2] at e2
  rw [o1] at e1
  rw [← Option.some.inj e1, ← Option.some.inj e2] at hcore
  refine ⟨p1, p2, f1, f2, ht, c1.trans c2.symm, ?_, hcore⟩
  rw [s1, s2, ht]

theorem analysisPipeline_isSome (random : ℕ → ℚ) (toFixed : JSNum → ℕ → String)
    (sqrt : ℚ → ℚ) (currentTimeframe : String) (init : List Candle) (last : Candle) :
    ∃ prediction, analysisPipeline random toFixed sqrt currentTimeframe (init ++ [last])
      = some prediction := by
  obtain ⟨indicators, hind⟩ := calculateAdvancedIndicators_isSome sqrt init last
  obtain ⟨p, hp, _⟩ := generateUltimatePredictionFull_fields random toFixed
    currentTimeframe init last indicators (detectAdvancedPatterns (init ++ [last]))
    (analyzeAdvancedMarketStructure (init ++ [last]))
    (calculateFibonacciLevels (init ++ [last])) (detectSmartMoneyConcepts (init ++ [last]))
  exact ⟨p, by simp only [analysisPipeline, hind, hp]⟩

/-- C26: `runAIAnalysis` leaves the state, and with it the retained prediction
`lastAIAnalysis`, unchanged (no prediction is computed) whenever the candle buffer holds
fewer than 200 candles or the current timeframe is not one of 1m, 5m, 15m, 30m; with
at least 200 candles and an allowed timeframe the pipeline returns a prediction and
`lastAIAnalysis` is replaced by it. -/
theorem runAIAnalysis_gate (random : ℕ → ℚ) (toFixed : JSNum → ℕ → String)
    (sqrt : ℚ → ℚ) (s : AppState) :
    ((s.historicalData.length < 200 ∨ s.currentTimeframe ∉ ["1m", "5m", "15m", "30m"]) →
      runAIAnalysis random toFixed sqrt s = some s) ∧
    ((200 ≤ s.historicalData.length ∧ s.currentTimeframe ∈ ["1m", "5m", "15m", "30m"]) →
      ∃ prediction,
        analysisPipeline random toFixed sqrt s.currentTimeframe s.historicalData
          = some prediction ∧
        runAIAnalysis random toFixed sqrt s
          = some { historicalData := s.historicalData
                   currentTimeframe := s.currentTimeframe
                   lastAIAnalysis := some prediction }) := by
  have hallowed : isAIAllowed s = true ↔ s.currentTimeframe ∈ ["1m", "5m", "15m", "30m"] := by
    simp [isAIAllowed, AI_ALLOWED_TIMEFRAMES]
  constructor
  · rintro (hlen | htf)
    · unfold runAIAnalysis
      split_ifs <;> rfl
    · unfold runAIAnalysis
      rw [if_pos (fun h => htf (hallowed.mp h))]
  · rintro ⟨hlen, htf⟩
    have hne : s.historicalData ≠ [] := by
      intro h
      rw [h] at hlen
      simp at hlen
    obtain ⟨prediction, hp⟩ : ∃ prediction,
        analysisPipeline random toFixed sqrt s.currentTimeframe s.historicalData
          = some prediction := by
      have hsplit := List.dropLast_append_getLast hne
      rw [← hsplit]
      exact analysisPipeline_isSome random toFixed sqrt s.currentTimeframe _ _
    refine ⟨prediction, hp, ?_⟩
    unfold runAIAnalysis
    rw [if_neg (fun h => h (hallowed.mpr htf)), if_neg (by omega), hp]

/-! ### Indicators of a flat series -/

theorem lastNumber_replicate (n : ℕ) (c : ℚ) :
    lastNumber (List.replicate (n + 1) c) = JSNum.fin c := by
  have h : (List.replicate (n + 1) c).getLast? = some c := by
    rw [List.getLast?_eq_getLast _ (by simp)]
    exact congrArg some (List.getLast_replicate _)
  simp only [lastNumber, h]

theorem lastNumber_map_range (n : ℕ) (g : ℕ → ℚ) :
    lastNumber ((List.range (n + 1)).map g) = JSNum.fin (g n) := by
  have h : ((List.range (n + 1)).map g).getLast? = some (g n) := by
    simp [List.range_succ]
  simp only [lastNumber, h]

theorem jsSlice_replicate (n a b : ℕ) (c : ℚ) :
    jsSlice (List.replicate n c) a b = List.replicate (min (b - a) (n - a)) c := by
  simp [jsSlice, List.drop_replicate, List.take_replicate]

theorem jsSum_replicate (n : ℕ) (c : ℚ) : jsSum (List.replicate n c) = n * c := by
  rw [jsSum_eq_sum, List.sum_replicate, nsmul_eq_mul]

theorem calculateSMA_replicate (n period : ℕ) (c : ℚ) (hp : 1 ≤ period) :
    calculateSMA (List.replicate n c) period = List.replicate (n - (period - 1)) c := by
  rw [List.eq_replicate_iff]
  refine ⟨by simp [calculateSMA], ?_⟩
  intro b hb
  simp only [calculateSMA, List.mem_map, List.mem_range, List.length_replicate] at hb
  obtain ⟨j, hj, rfl⟩ := hb
  have hmin : min (period - 1 + j + 1 - (period - 1 + j + 1 - period))
      (n - (period - 1 + j + 1 - period)) = period := by omega
  rw [jsSlice_replicate, hmin, jsSum_replicate]
  have hp0 : (period : ℚ) ≠ 0 := by
    have : (0 : ℚ) < period := by exact_mod_cast hp
    exact ne_of_gt this
  field_simp

theorem foldl_replicate_fixed {β : Type} (f : β → ℚ → β) (a : β) (x : ℚ) (n : ℕ)
    (h : f a x = a) : (List.replicate n x).foldl f a = a := by
  induction n with
  | zero => rfl
  | succ m ih => rw [List.replicate_succ, List.foldl_cons, h, ih]

theorem calculateBollingerBands_replicate (sqrt : ℚ → ℚ) (hsqrt : sqrt 0 = 0) (n : ℕ)
    (c : ℚ) (hn : 20 ≤ n) :
    (calculateBollingerBands sqrt (List.replicate n c) 20 2).upper = JSNum.fin c ∧
      (calculateBollingerBands sqrt (List.replicate n c) 20 2).lower = JSNum.fin c := by
  obtain ⟨m, rfl⟩ : ∃ m, n = m + 20 := ⟨n - 20, by omega⟩
  have hrange : (List.replicate (m + 20) c).length - (20 - 1) = m + 1 := by
    rw [List.length_replicate]; omega
  have hslice : jsSlice (List.replicate (m + 20) c) (20 - 1 + m + 1 - 20) (20 - 1 + m + 1)
      = List.replicate 20 c := by
    rw [jsSlice_replicate]
    congr 1
    omega
  have hmean : (calculateSMA (List.replicate (m + 20) c) 20).getD (20 - 1 + m + 1 - 20) 0
      = c := by
    rw [calculateSMA_replicate _ _ _ (by decide)]
    have e1 : m + 20 - (20 - 1) = m + 1 := by omega
    have e2 : 20 - 1 + m + 1 - 20 = m := by omega
    rw [e1, e2, List.getD_eq_getElem?_getD, List.getElem?_replicate_of_lt (by omega)]
    rfl
  have hvar : (List.replicate 20 c).foldl (fun sum val => sum + (val - c) ^ 2) 0 = 0 :=
    foldl_replicate_fixed _ _ _ _ (by simp)
  unfold calculateBollingerBands
  simp only [hrange, List.map_map, lastNumber_map_range, Function.comp, hslice, hmean, hvar,
    zero_div, hsqrt, zero_mul, add_zero, sub_zero]
  exact ⟨trivial, trivial⟩

theorem stochK_replicate (n : ℕ) (c x : ℚ) (hn : 1 ≤ n) :
    stochK (List.replicate n c) x = 50 := by
  simp [stochK, jsMax_replicate n c hn, jsMin_replicate n c hn]

theorem calculateStochRSI_replicate_k (n : ℕ) (c : ℚ) (hn : 14 ≤ n) :
    (calculateStochRSI (List.replicate n c) 14).k = JSNum.fin 50 := by
  have hslice : jsSliceLast (List.replicate n c) 14 = List.replicate 14 c := by
    simp only [jsSliceLast, List.drop_replicate, List.length_replicate]
    rw [if_neg (by decide)]
    congr 1
    omega
  unfold calculateStochRSI
  rw [if_neg (by rw [List.length_replicate]; omega)]
  simp only [hslice, stochK_replicate 14 c _ (by decide)]

theorem calculateMACD_replicate (c : ℚ) (n : ℕ) :
    (calculateMACD (List.replicate (n + 1) c)).signal = TrendLabel.bearish := by
  simp [calculateMACD, lastValue_calculateEMA_replicate, JSNum.sub, JSNum.gt, JSNum.lt]

theorem calculateMomentum_replicate (c : ℚ) (n period : ℕ) (hp : 1 ≤ period)
    (hn : period ≤ n) : calculateMomentum (List.replicate n c) period = JSNum.fin 0 := by
  unfold calculateMomentum
  rw [List.length_replicate, if_neg (by omega),
    List.getElem?_replicate_of_lt (by omega), List.getElem?_replicate_of_lt (by omega)]
  simp

theorem calculateROC_replicate (c : ℚ) (hc : c ≠ 0) (n period : ℕ) (hp : 1 ≤ period)
    (hn : period ≤ n) : calculateROC (List.replicate n c) period = JSNum.fin 0 := by
  unfold calculateROC
  rw [List.length_replicate, if_neg (by omega),
    List.getElem?_replicate_of_lt (by omega), List.getElem?_replicate_of_lt (by omega)]
  simp [JSNum.div, JSNum.mul, hc]

theorem trueRanges_flat (data : List Candle) (v : ℚ)
    (h : ∀ c ∈ data, c.high = v ∧ c.low = v ∧ c.close = v) :
    trueRanges data = List.replicate (data.length - 1) 0 := by
  induction data with
  | nil => rfl
  | cons a t ih =>
    cases t with
    | nil => rfl
    | cons b rest =>
      have hb := h b (by simp)
      have ha := h a (by simp)
      have ih2 := ih (fun c hc => h c (List.mem_cons_of_mem _ hc))
      simp only [trueRanges, ih2, hb.1, hb.2.1, ha.2.2, sub_self, abs_zero, max_self,
        List.length_cons, Nat.add_sub_cancel]
      rfl

theorem atrLoop_zero (m : ℚ) (k : ℕ) :
    atrLoop m 0 (List.replicate k 0) = List.replicate k 0 := by
  induction k with
  | zero => rfl
  | succ n ih => simp [List.replicate_succ, atrLoop, ih]

theorem calculateATR_flat (data : List Candle) (v : ℚ)
    (h : ∀ c ∈ data, c.high = v ∧ c.low = v ∧ c.close = v) :
    lastNumber (calculateATR data 14) = JSNum.fin 0 := by
  unfold calculateATR
  simp only [trueRanges_flat data v h, jsSlice_replicate, jsSum_replicate, mul_zero, zero_div,
    List.drop_replicate, atrLoop_zero]
  exact lastNumber_replicate _ 0

theorem swingLowLevels_flat (l : List Candle) (v : ℚ) (h : ∀ c ∈ l, c.low = v) :
    swingLowLevels l = [] := by
  induction l with
  | nil => rfl
  | cons a t ih =>
    have ih2 := ih (fun c hc => h c (List.mem_cons_of_mem _ hc))
    match t, ih2, h with
    | [], _, _ => rfl
    | [_], _, _ => rfl
    | [_, _], _, _ => rfl
    | [_, _, _], _, _ => rfl
    | p1 :: cur :: n1 :: n2 :: rest, ih2, h =>
      have hc := h cur (by simp)
      have hp := h p1 (by simp)
      simp only [swingLowLevels, ih2, hc, hp, lt_self_iff_false, false_and, if_false,
        List.append_nil]

theorem swingHighLevels_flat (l : List Candle) (v : ℚ) (h : ∀ c ∈ l, c.high = v) :
    swingHighLevels l = [] := by
  induction l with
  | nil => rfl
  | cons a t ih =>
    have ih2 := ih (fun c hc => h c (List.mem_cons_of_mem _ hc))
    match t, ih2, h with
    | [], _, _ => rfl
    | [_], _, _ => rfl
    | [_, _], _, _ => rfl
    | [_, _, _], _, _ => rfl
    | p1 :: cur :: n1 :: n2 :: rest, ih2, h =>
      have hc := h cur (by simp)
      have hp := h p1 (by simp)
      simp only [swingHighLevels, ih2, hc, hp, gt_iff_lt, lt_self_iff_false, false_and,
        if_false, List.append_nil]

theorem findAdvancedSupportResistance_flat (data : List Candle) (v : ℚ)
    (hlen : 100 ≤ data.length)
    (h : ∀ c ∈ data, c.high = v ∧ c.low = v) :
    ∃ sr, findAdvancedSupportResistance data = some sr ∧ sr.support = v ∧
      sr.resistance = v := by
  have hl := jsSliceLast_length data 100 (by decide) hlen
  have hlows : (jsSliceLast data 100).map (fun c => c.low) = List.replicate 100 v := by
    rw [map_eq_replicate_of_forall _ _ v (fun c hc => (h c (mem_jsSliceLast hc)).2), hl]
  have hhighs : (jsSliceLast data 100).map (fun c => c.high) = List.replicate 100 v := by
    rw [map_eq_replicate_of_forall _ _ v (fun c hc => (h c (mem_jsSliceLast hc)).1), hl]
  have hsl := swingLowLevels_flat (jsSliceLast data 100) v
    (fun c hc => (h c (mem_jsSliceLast hc)).2)
  have hsh := swingHighLevels_flat (jsSliceLast data 100) v
    (fun c hc => (h c (mem_jsSliceLast hc)).1)
  have hne : data ≠ [] := by
    intro h0
    rw [h0] at hlen
    simp at hlen
  have hlast : data.getLast? = some (data.getLast hne) := List.getLast?_eq_getLast _ hne
  have hcl : clusterLevels [] = [] := rfl
  have hres : findAdvancedSupportResistance data
      = some { support := v, resistance := v, supportLevels := [], resistanceLevels := [] } := by
    simp only [findAdvancedSupportResistance, hlast, hsl, hsh, hcl, hlows, hhighs,
      jsMin_replicate 100 v (by decide), jsMax_replicate 100 v (by decide)]
    rfl
  exact ⟨_, hres, rfl, rfl⟩

theorem structureSwingHighs_flat (recent : List Candle) (v : ℚ)
    (h : ∀ c ∈ recent, c.high = v) : structureSwingHighs recent = [] := by
  rw [structureSwingHighs, List.filterMap_eq_nil_iff]
  intro j hj
  rw [List.mem_range] at hj
  have h1 := h _ (candleAt_mem recent (j + 5) (by omega))
  have h2 := h _ (candleAt_mem recent (j + 4) (by omega))
  have e : j + 5 - 1 = j + 4 := by omega
  simp [isSwingHigh, e, h1, h2]

theorem structureSwingLows_flat (recent : List Candle) (v : ℚ)
    (h : ∀ c ∈ recent, c.low = v) : structureSwingLows recent = [] := by
  rw [structureSwingLows, List.filterMap_eq_nil_iff]
  intro j hj
  rw [List.mem_range] at hj
  have h1 := h _ (candleAt_mem recent (j + 5) (by omega))
  have h2 := h _ (candleAt_mem recent (j + 4) (by omega))
  have e : j + 5 - 1 = j + 4 := by omega
  simp [isSwingLow, e, h1, h2]

theorem analyzeAdvancedMarketStructure_flat (data : List Candle) (v : ℚ)
    (h : ∀ c ∈ data, c.high = v ∧ c.low = v) :
    (analyzeAdvancedMarketStructure data).trend = StructureTrend.neutral := by
  have hsh := structureSwingHighs_flat (jsSliceLast data 100) v
    (fun c hc => (h c (mem_jsSliceLast hc)).1)
  have hsl := structureSwingLows_flat (jsSliceLast data 100) v
    (fun c hc => (h c (mem_jsSliceLast hc)).2)
  unfold analyzeAdvancedMarketStructure
  split_ifs
  · rfl
  · simp [hsh, hsl, countHigherLower]

theorem volumeRatio_replicate (w : ℚ) (n : ℕ) (hn : 20 ≤ n) :
    (lastNumber (List.replicate n w)).div
        (JSNum.fin (jsOr (calculateSMA (List.replicate n w) 20).getLast? 1))
      = if w = 0 then JSNum.fin 0 else JSNum.fin 1 := by
  obtain ⟨m, rfl⟩ : ∃ m, n = m + 20 := ⟨n - 20, by omega⟩
  have e1 : m + 20 - (20 - 1) = m + 1 := by omega
  have hlast : (List.replicate (m + 1) w).getLast? = some w := by
    rw [List.getLast?_eq_getLast _ (by simp)]
    exact congrArg some (List.getLast_replicate _)
  rw [calculateSMA_replicate _ _ _ (by decide), e1, hlast, lastNumber_replicate (m + 19) w]
  by_cases hw : w = 0
  · simp [jsOr, hw, JSNum.div]
  · simp [jsOr, hw, JSNum.div]

theorem calculateAdvancedIndicators_flat (sqrt : ℚ → ℚ) (hsqrt : sqrt 0 = 0)
    (data : List Candle) (v w : ℚ) (hv : 0 < v) (hlen : data.length = 250)
    (hflat : ∀ c ∈ data, c.open_ = v ∧ c.high = v ∧ c.low = v ∧ c.close = v)
    (hvol : ∀ c ∈ data, c.volume = some w) :
    ∃ ind, calculateAdvancedIndicators sqrt data = some ind ∧
      ind.ema9 = JSNum.fin v ∧ ind.ema21 = JSNum.fin v ∧ ind.ema50 = JSNum.fin v ∧
      ind.ema100 = JSNum.fin v ∧ ind.rsi = JSNum.fin 0 ∧
      ind.macd.signal = TrendLabel.bearish ∧ ind.stochRSI.k = JSNum.fin 50 ∧
      Indicators.volumeRatio ind = (if w = 0 then JSNum.fin 0 else JSNum.fin 1) ∧
      ind.bbands.upper = JSNum.fin v ∧ ind.bbands.lower = JSNum.fin v ∧
      ind.momentum = JSNum.fin 0 ∧ ind.roc = JSNum.fin 0 ∧ ind.atr = JSNum.fin 0 ∧
      ind.support = JSNum.fin v ∧ ind.resistance = JSNum.fin v := by
  have hcloses : data.map (fun c => c.close) = List.replicate 250 v := by
    rw [map_eq_replicate_of_forall _ _ v (fun c hc => (hflat c hc).2.2.2), hlen]
  have hvolumes : data.map (fun c => jsOr c.volume 0) = List.replicate 250 w := by
    rw [map_eq_replicate_of_forall _ _ w, hlen]
    intro c hc
    rw [hvol c hc]
    by_cases hw : w = 0
    · simp [jsOr, hw]
    · simp [jsOr, hw]
  obtain ⟨sr, hsr, hsup, hres⟩ := findAdvancedSupportResistance_flat data v (by omega)
    (fun c hc => ⟨(hflat c hc).2.1, (hflat c hc).2.2.1⟩)
  have hatr := calculateATR_flat data v
    (fun c hc => ⟨(hflat c hc).2.1, (hflat c hc).2.2.1, (hflat c hc).2.2.2⟩)
  have hbb := calculateBollingerBands_replicate sqrt hsqrt 250 v (by decide)
  have hrsi : lastNumber (calculateRSI (List.replicate 250 v) 14) = JSNum.fin 0 := by
    rw [calculateRSI_replicate]
    exact lastNumber_replicate 234 0
  have hstoch : (calculateStochRSI (calculateRSI (List.replicate 250 v) 14) 14).k
      = JSNum.fin 50 := by
    rw [calculateRSI_replicate]
    exact calculateStochRSI_replicate_k _ 0 (by decide)
  have hema : ∀ p, lastValue (calculateEMA (List.replicate 250 v) p) = JSNum.fin v :=
    fun p => lastValue_calculateEMA_replicate v 249 p
  have hmacd : (calculateMACD (List.replicate 250 v)).signal = TrendLabel.bearish :=
    calculateMACD_replicate v 249
  have hvr := volumeRatio_replicate w 250 (by decide)
  have hmom : calculateMomentum (List.replicate 250 v) 10 = JSNum.fin 0 :=
    calculateMomentum_replicate v 250 10 (by decide) (by decide)
  have hroc : calculateROC (List.replicate 250 v) 12 = JSNum.fin 0 :=
    calculateROC_replicate v (ne_of_gt hv) 250 12 (by decide) (by decide)
  simp only [calculateAdvancedIndicators, hsr, hcloses, hvolumes]
  refine ⟨_, rfl, ?_⟩
  simp only [hema, hrsi, hmacd, hstoch, hvr, hbb.1, hbb.2, hmom, hroc, hatr, hsup, hres,
    and_self]

theorem scoreTrend_flat (ind : Indicators) (patterns : PatternReport)
    (marketStructure : MarketStructure) (v w : ℚ)
    (h9 : ind.ema9 = JSNum.fin v) (h21 : ind.ema21 = JSNum.fin v)
    (h50 : ind.ema50 = JSNum.fin v) (h100 : ind.ema100 = JSNum.fin v)
    (hrsi : ind.rsi = JSNum.fin 0) (hmacd : ind.macd.signal = TrendLabel.bearish)
    (hk : ind.stochRSI.k = JSNum.fin 50)
    (hvr : Indicators.volumeRatio ind = (if w = 0 then JSNum.fin 0 else JSNum.fin 1))
    (hup : ind.bbands.upper = JSNum.fin v) (hlo : ind.bbands.lower = JSNum.fin v)
    (hmom : ind.momentum = JSNum.fin 0) (hroc : ind.roc = JSNum.fin 0)
    (hbull : patterns.bullishPatterns = 0) (hbear : patterns.bearishPatterns = 3)
    (hms : marketStructure.trend = StructureTrend.neutral) :
    scoreTrend (JSNum.fin v) ind patterns marketStructure
      = (-7, if w = 0 then 3 else 4) := by
  by_cases hw : w = 0
  · simp only [scoreTrend, h9, h21, h50, h100, hrsi, hmacd, hk, hvr, hup, hlo, hmom, hroc,
      hbull, hbear, hms, if_pos hw]
    norm_num [JSNum.gt, JSNum.lt, JSNum.sub, JSNum.div]
    decide
  · simp only [scoreTrend, h9, h21, h50, h100, hrsi, hmacd, hk, hvr, hup, hlo, hmom, hroc,
      hbull, hbear, hms, if_neg hw]
    norm_num [JSNum.gt, JSNum.lt, JSNum.sub, JSNum.div]
    decide

theorem analysisPipeline_flat (random : ℕ → ℚ) (toFixed : JSNum → ℕ → String)
    (sqrt : ℚ → ℚ) (hsqrt : sqrt 0 = 0) (currentTimeframe : String)
    (data : List Candle) (v w : ℚ) (hv : 0 < v) (hlen : data.length = 250)
    (hflat : ∀ c ∈ data, c.open_ = v ∧ c.high = v ∧ c.low = v ∧ c.close = v)
    (hvol : ∀ c ∈ data, c.volume = some w) :
    ∃ p, analysisPipeline random toFixed sqrt currentTimeframe data = some p ∧
      p.trend = TrendLabel.bearish ∧
      p.confidence = (if w = 0 then 82 else 84) ∧
      ∃ pos, p.positions = [pos] ∧ pos.type = PositionSide.short ∧
        pos.entry = JSNum.fin (v * (1002 / 1000)) ∧ pos.stopLoss = JSNum.fin v := by
  obtain ⟨ind, hind, h9, h21, h50, h100, hrsi, hmacd, hk, hvr, hup, hlo, hmom, hroc, hatr,
    hsup, hres⟩ := calculateAdvancedIndicators_flat sqrt hsqrt data v w hv hlen hflat hvol
  have hpat := detectAdvancedPatterns_flat data v hv (by omega) hflat
  have hms := analyzeAdvancedMarketStructure_flat data v
    (fun c hc => ⟨(hflat c hc).2.1, (hflat c hc).2.2.1⟩)
  have hne : data ≠ [] := by
    intro h0
    rw [h0] at hlen
    simp at hlen
  have hsplit := List.dropLast_append_getLast hne
  have hclose : (data.getLast hne).close = v := (hflat _ (List.getLast_mem hne)).2.2.2
  obtain ⟨p, hp, ht, hc, -, hfp, hpos⟩ := generateUltimatePredictionFull_fields random toFixed
    currentTimeframe data.dropLast (data.getLast hne) ind (detectAdvancedPatterns data)
    (analyzeAdvancedMarketStructure data) (calculateFibonacciLevels data)
    (detectSmartMoneyConcepts data)
  rw [hsplit] at hp
  have hscore := scoreTrend_flat ind (detectAdvancedPatterns data)
    (analyzeAdvancedMarketStructure data) v w h9 h21 h50 h100 hrsi hmacd hk hvr hup hlo hmom
    hroc (by rw [hpat]) (by rw [hpat]) hms
  rw [hclose] at ht hc hpos
  rw [hscore] at ht hc
  have htrend : p.trend = TrendLabel.bearish := by
    rw [ht]
    rfl
  have hconf : p.confidence = (if w = 0 then 82 else 84) := by
    rw [hc, hpat]
    by_cases hw : w = 0
    · simp only [if_pos hw]
      decide
    · simp only [if_neg hw]
      decide
  obtain ⟨lp, hlp⟩ := generateAdvancedPricePrediction_getLast random currentTimeframe
    (JSNum.fin (data.getLast hne).close) (data.getLast hne).time p.trend ind
  rw [← hfp] at hlp
  refine ⟨p, by simp only [analysisPipeline, hind, hp], htrend, hconf, ?_⟩
  rw [htrend] at hpos
  simp only [generateOptimizedPositions, hlp, hatr, hres, JSNum.sub_fin, JSNum.mul_fin,
    JSNum.lt_fin, JSNum.add_fin, JSNum.min_fin, sub_self, zero_mul, lt_self_iff_false,
    decide_False, add_zero] at hpos
  have hpos2 := (Option.some.inj hpos).symm
  refine ⟨_, hpos2, rfl, ?_, ?_⟩
  · simp
  · simp only [min_eq_right_iff]
    congr 1
    rw [min_eq_right]
    nlinarith

/-- C23 (counterexample): for 250 candles with open, high, low and close all equal to
100 and the constant volume 5, the pipeline returns confidence 84 and one position, not
confidence 30 with an empty positions list. -/
theorem analysisPipeline_flat_counterexample :
    ∃ p, analysisPipeline (fun _ => 1 / 2) (fun _ _ => "") (fun _ => 0) "5m"
        (List.replicate 250 flatVolumeCandle) = some p ∧
      p.confidence = 84 ∧ p.positions.length = 1 ∧
      ¬ (p.confidence = 30 ∧ p.positions = []) := by
  have hflat : ∀ c ∈ List.replicate 250 flatVolumeCandle,
      c.open_ = 100 ∧ c.high = 100 ∧ c.low = 100 ∧ c.close = 100 := by
    intro c hc
    rw [List.eq_of_mem_replicate hc]
    exact ⟨rfl, rfl, rfl, rfl⟩
  have hvol : ∀ c ∈ List.replicate 250 flatVolumeCandle, c.volume = some 5 := by
    intro c hc
    rw [List.eq_of_mem_replicate hc]
    rfl
  obtain ⟨p, hp, -, hc, pos, hpos, -⟩ := analysisPipeline_flat (fun _ => 1 / 2)
    (fun _ _ => "") (fun _ => 0) rfl "5m" (List.replicate 250 flatVolumeCandle) 100 5
    (by norm_num) (List.length_replicate _ _) hflat hvol
  rw [if_neg (by norm_num)] at hc
  refine ⟨p, hp, hc, by rw [hpos]; rfl, ?_⟩
  intro h0
  rw [hc] at h0
  exact absurd h0.1 (by decide)

/-! ### Volume profile -/

theorem addToProfile_mem_self (profile : List VolumeNode) (bucket price : JSNum)
    (volume : ℚ) : ∃ e ∈ addToProfile profile bucket price volume, e.bucket = bucket := by
  induction profile with
  | nil => exact ⟨_, List.mem_singleton.mpr rfl, rfl⟩
  | cons a t ih =>
    unfold addToProfile
    split_ifs with h
    · exact ⟨_, List.mem_cons_self _ _, h⟩
    · obtain ⟨e, he, hb⟩ := ih
      exact ⟨e, List.mem_cons_of_mem _ he, hb⟩

theorem addToProfile_keeps (profile : List VolumeNode) (bucket price : JSNum)
    (volume : ℚ) (b : JSNum) (h : ∃ e ∈ profile, e.bucket = b) :
    ∃ e ∈ addToProfile profile bucket price volume, e.bucket = b := by
  induction profile with
  | nil => simp at h
  | cons a t ih =>
    obtain ⟨e, he, hb⟩ := h
    unfold addToProfile
    split_ifs with hab
    · rcases List.mem_cons.mp he with rfl | het
      · exact ⟨_, List.mem_cons_self _ _, hb⟩
      · exact ⟨e, List.mem_cons_of_mem _ het, hb⟩
    · rcases List.mem_cons.mp he with rfl | het
      · exact ⟨_, List.mem_cons_self _ _, hb⟩
      · obtain ⟨e2, he2, hb2⟩ := ih ⟨e, het, hb⟩
        exact ⟨e2, List.mem_cons_of_mem _ he2, hb2⟩

theorem foldl_profile_mem (key : Candle → JSNum) (price : Candle → JSNum)
    (recent : List Candle) (profile : List VolumeNode) (c : Candle) (hc : c ∈ recent) :
    ∃ e ∈ recent.foldl
        (fun profile candle => addToProfile profile (key candle) (price candle)
          (jsOr candle.volume 1)) profile,
      e.bucket = key c := by
  have keep : ∀ (l : List Candle) (profile : List VolumeNode) (b : JSNum),
      (∃ e ∈ profile, e.bucket = b) →
      ∃ e ∈ l.foldl
          (fun profile candle => addToProfile profile (key candle) (price candle)
            (jsOr candle.volume 1)) profile,
        e.bucket = b := by
    intro l
    induction l with
    | nil => intro profile b h; exact h
    | cons a t ih =>
      intro profile b h
      exact ih _ b (addToProfile_keeps profile _ _ _ b h)
  induction recent generalizing profile with
  | nil => simp at hc
  | cons a t ih =>
    rcases List.mem_cons.mp hc with rfl | hct
    · exact keep t _ _ (addToProfile_mem_self profile _ _ _)
    · exact ih _ hct

theorem buildVolumeProfile_mem (recent : List Candle) (c : Candle) (hc : c ∈ recent) :
    ∃ e ∈ buildVolumeProfile recent,
      e.bucket = volumeBucket (jsMin (recent.map fun c => c.low))
        ((jsMax (recent.map fun c => c.high) - jsMin (recent.map fun c => c.low)) / 20) c :=
  foldl_profile_mem _ _ recent [] c hc

theorem volumeBucket_bounds (minLow maxHigh : ℚ) (c : Candle) (hrange : minLow < maxHigh)
    (hlo : minLow ≤ c.close) (hhi : c.close ≤ maxHigh) :
    ∃ b : Int, volumeBucket minLow ((maxHigh - minLow) / 20) c = JSNum.fin b ∧
      0 ≤ b ∧ b ≤ 20 ∧ (b = 20 ↔ c.close = maxHigh) := by
  have hsize : (maxHigh - minLow) / 20 ≠ 0 := by
    have : 0 < maxHigh - minLow := by linarith
    positivity
  have hpos : 0 < maxHigh - minLow := by linarith
  refine ⟨⌊(c.close - minLow) / ((maxHigh - minLow) / 20)⌋, ?_, ?_, ?_, ?_⟩
  · simp only [volumeBucket, JSNum.div_fin _ _ hsize, JSNum.floor]
  · apply Int.floor_nonneg.mpr
    apply div_nonneg <;> linarith
  · have h20 : (c.close - minLow) / ((maxHigh - minLow) / 20) ≤ 20 := by
      rw [div_le_iff₀ (by positivity)]
      linarith
    have := Int.floor_le_floor h20
    simpa using this
  · constructor
    · intro hb
      have h1 : ((20 : Int) : ℚ) ≤ (c.close - minLow) / ((maxHigh - minLow) / 20) := by
        rw [← hb]
        exact Int.floor_le _
      rw [le_div_iff₀ (by positivity)] at h1
      push_cast at h1
      linarith
    · intro hc
      have : (c.close - minLow) / ((maxHigh - minLow) / 20) = ((20 : Int) : ℚ) := by
        rw [hc]
        field_simp
      rw [this, Int.floor_intCast]

/-- C31 (code evaluated): for at least 50 candles with low ≤ close ≤ high on every candle
of the trailing window and a non-zero low-high range of the window, every candle of the
window is assigned to an entry of the profile whose bucket index lies in 0..20, and the
index is 20 exactly when the candle closes at the high of the window: the profile can
hold 21 buckets, not 20. -/
theorem analyzeVolumeProfile_bucket_range (data : List Candle) (_hlen : 50 ≤ data.length)
    (hcandle : ∀ c ∈ jsSliceLast data 100, c.low ≤ c.close ∧ c.close ≤ c.high)
    (hrange : jsMin ((jsSliceLast data 100).map fun c => c.low)
      < jsMax ((jsSliceLast data 100).map fun c => c.high)) :
    ∀ c ∈ jsSliceLast data 100,
      ∃ b : Int, (∃ e ∈ buildVolumeProfile (jsSliceLast data 100), e.bucket = JSNum.fin b) ∧
        0 ≤ b ∧ b ≤ 20 ∧
        (b = 20 ↔ c.close = jsMax ((jsSliceLast data 100).map fun c => c.high)) := by
  intro c hc
  have hlo : jsMin ((jsSliceLast data 100).map fun c => c.low) ≤ c.close :=
    le_trans (jsMin_le (List.mem_map.mpr ⟨c, hc, rfl⟩)) (hcandle c hc).1
  have hhi : c.close ≤ jsMax ((jsSliceLast data 100).map fun c => c.high) :=
    le_trans (hcandle c hc).2 (le_jsMax (List.mem_map.mpr ⟨c, hc, rfl⟩))
  obtain ⟨b, hb, h0, h20, hiff⟩ := volumeBucket_bounds _ _ c hrange hlo hhi
  obtain ⟨e, he, hbucket⟩ := buildVolumeProfile_mem (jsSliceLast data 100) c hc
  exact ⟨b, ⟨e, he, hbucket.trans hb⟩, h0, h20, hiff⟩

theorem topCloseData_mem (c : Candle) (hc : c ∈ topCloseData) :
    c.low = 100 ∧ c.high = 110 ∧ (c.close = 105 ∨ c.close = 110) := by
  unfold topCloseData at hc
  rcases List.mem_append.mp hc with h | h
  · rw [List.eq_of_mem_replicate h]
    exact ⟨rfl, rfl, Or.inl rfl⟩
  · rw [List.mem_singleton.mp h]
    exact ⟨rfl, rfl, Or.inr rfl⟩

theorem topCloseData_length : topCloseData.length = 50 := by
  simp [topCloseData]

theorem topCloseData_bounds :
    jsMin (topCloseData.map fun c => c.low) = 100 ∧
      jsMax (topCloseData.map fun c => c.high) = 110 := by
  rw [map_eq_replicate_of_forall _ _ 100 (fun c hc => (topCloseData_mem c hc).1),
    map_eq_replicate_of_forall _ _ 110 (fun c hc => (topCloseData_mem c hc).2.1),
    topCloseData_length]
  exact ⟨jsMin_replicate 50 100 (by decide), jsMax_replicate 50 110 (by decide)⟩

/-- Witness for C31: the fifty candles `topCloseData`, whose last candle closes at the
high 110 of the window and so falls into bucket 20. -/
theorem analyzeVolumeProfile_bucket_range_witness :
    50 ≤ topCloseData.length ∧
      (∀ c ∈ jsSliceLast topCloseData 100, c.low ≤ c.close ∧ c.close ≤ c.high) ∧
      jsMin ((jsSliceLast topCloseData 100).map fun c => c.low)
        < jsMax ((jsSliceLast topCloseData 100).map fun c => c.high) ∧
      rangeCandle 110 ∈ jsSliceLast topCloseData 100 ∧
      (rangeCandle 110).close = jsMax ((jsSliceLast topCloseData 100).map fun c => c.high) ∧
      ∀ c ∈ jsSliceLast topCloseData 100,
        ∃ b : Int,
          (∃ e ∈ buildVolumeProfile (jsSliceLast topCloseData 100), e.bucket = JSNum.fin b) ∧
          0 ≤ b ∧ b ≤ 20 ∧
          (b = 20 ↔ c.close = jsMax ((jsSliceLast topCloseData 100).map fun c => c.high)) := by
  have hslice : jsSliceLast topCloseData 100 = topCloseData :=
    jsSliceLast_of_length_le _ _ (by rw [topCloseData_length]; decide)
  have hlen : 50 ≤ topCloseData.length := by rw [topCloseData_length]
  have hcandle : ∀ c ∈ jsSliceLast topCloseData 100, c.low ≤ c.close ∧ c.close ≤ c.high := by
    intro c hc
    rw [hslice] at hc
    obtain ⟨h1, h2, h3 | h3⟩ := topCloseData_mem c hc <;> rw [h1, h2, h3] <;> norm_num
  have hrange : jsMin ((jsSliceLast topCloseData 100).map fun c => c.low)
      < jsMax ((jsSliceLast topCloseData 100).map fun c => c.high) := by
    rw [hslice, topCloseData_bounds.1, topCloseData_bounds.2]
    norm_num
  refine ⟨hlen, hcandle, hrange, ?_, ?_,
    analyzeVolumeProfile_bucket_range topCloseData hlen hcandle hrange⟩
  · rw [hslice]
    simp [topCloseData]
  · rw [hslice, topCloseData_bounds.2]
    rfl

/-! ### Smart money concepts -/

theorem jsSliceLast_three_suffix {α : Type} (xs : List α) :
    List.IsSuffix (jsSliceLast xs 3) xs ∧ (jsSliceLast xs 3).length = min 3 xs.length := by
  have h3 : (3 : ℕ) ≠ 0 := by decide
  simp only [jsSliceLast, if_neg h3]
  refine ⟨List.drop_suffix _ _, ?_⟩
  rw [List.length_drop]
  omega

/-! ### Head and shoulders -/

theorem mem_localPeaks (data : List Candle) (p : IndexedPrice) :
    p ∈ localPeaks data ↔
      5 ≤ p.index ∧ p.index + 5 < data.length ∧
      p.price = (candleAt data p.index).high ∧
      (candleAt data p.index).high > (candleAt data (p.index - 1)).high ∧
      (candleAt data p.index).high > (candleAt data (p.index + 1)).high := by
  simp only [localPeaks, List.mem_filterMap, List.mem_range]
  constructor
  · rintro ⟨j, hj, h⟩
    split_ifs at h with hc
    cases h
    exact ⟨by dsimp only; omega, by dsimp only; omega, rfl, hc.1, hc.2⟩
  · rintro ⟨h5, hlen, hp, h1, h2⟩
    refine ⟨p.index - 5, by omega, ?_⟩
    have e : p.index - 5 + 5 = p.index := by omega
    rw [e, if_pos ⟨h1, h2⟩, ← hp]

theorem mem_localTroughs (data : List Candle) (p : IndexedPrice) :
    p ∈ localTroughs data ↔
      5 ≤ p.index ∧ p.index + 5 < data.length ∧
      p.price = (candleAt data p.index).low ∧
      (candleAt data p.index).low < (candleAt data (p.index - 1)).low ∧
      (candleAt data p.index).low < (candleAt data (p.index + 1)).low := by
  simp only [localTroughs, List.mem_filterMap, List.mem_range]
  constructor
  · rintro ⟨j, hj, h⟩
    split_ifs at h with hc
    cases h
    exact ⟨by dsimp only; omega, by dsimp only; omega, rfl, hc.1, hc.2⟩
  · rintro ⟨h5, hlen, hp, h1, h2⟩
    refine ⟨p.index - 5, by omega, ?_⟩
    have e : p.index - 5 + 5 = p.index := by omega
    rw [e, if_pos ⟨h1, h2⟩, ← hp]

theorem detectHeadAndShoulders_bearish (data : List Candle) (r : HeadShoulders)
    (h : detectHeadAndShoulders data = some r) (hr : r.type = TrendLabel.bearish) :
    30 ≤ data.length ∧ 3 ≤ (localPeaks data).length ∧
      ∃ left head right, jsSliceLast (localPeaks data) 3 = [left, head, right] ∧
        head.price > left.price ∧ head.price > right.price ∧
        r.neckline = min left.price right.price := by
  unfold detectHeadAndShoulders at h
  split_ifs at h with hlen
  simp only at h
  split at h
  · rename_i r0 htop
    simp only [Option.some.injEq] at h
    subst h
    split_ifs at htop with h3
    split at htop
    · rename_i left head right hsl
      split_ifs at htop with hc
      simp only [Option.some.injEq] at htop
      subst htop
      exact ⟨by omega, h3, left, head, right, hsl, hc.1, hc.2.1, rfl⟩
    · cases htop
  · split_ifs at h with ht
    split at h
    · split_ifs at h
      simp only [Option.some.injEq] at h
      subst h
      cases hr
    · cases h

theorem range_twenty : List.range 20 = [0, 1, 2, 3, 4, 5, 6, 7, 8, 9, 10, 11, 12, 13, 14, 15, 16, 17, 18, 19] := by
  rfl

theorem shoulderData_length : shoulderData.length = 30 := by simp [shoulderData]

theorem candleAt_shoulderData (i : ℕ) (h : i < 30) :
    candleAt shoulderData i = shoulderCandle i :=
  candleAt_map_range _ _ _ h

theorem localPeaks_shoulderData :
    localPeaks shoulderData = [⟨10, 105⟩, ⟨12, 110⟩, ⟨14, 105⟩] := by
  simp only [localPeaks, shoulderData_length, Nat.reduceSub, range_twenty, List.filterMap_cons,
    List.filterMap_nil]
  norm_num [candleAt_shoulderData, shoulderCandle]

theorem specStrictPeaks_shoulderData : specStrictPeaks shoulderData = [12] := by
  simp only [specStrictPeaks, shoulderData_length, Nat.reduceSub, range_twenty, List.map_cons,
    List.map_nil, List.filter_cons, List.filter_nil]
  have h5 : List.range 5 = [0, 1, 2, 3, 4] := by rfl
  norm_num [specStrictPeak, h5, candleAt_shoulderData, shoulderCandle]

theorem detectHeadAndShoulders_shoulderData :
    detectHeadAndShoulders shoulderData
      = some { type := TrendLabel.bearish, neckline := 105 } := by
  unfold detectHeadAndShoulders
  rw [if_neg (by rw [shoulderData_length]; decide)]
  simp only [localPeaks_shoulderData]
  norm_num [jsSliceLast, JSNum.div, JSNum.lt]

/-- C33 (counterexample): the thirty candles `shoulderData` hold a single bar (bar 12)
whose high exceeds that of each of the 5 bars before and after it, yet
`detectHeadAndShoulders` takes the three one-bar peaks 10, 12, 14 and reports a bearish
head and shoulders. -/
theorem detectHeadAndShoulders_adjacent_peaks_counterexample :
    30 ≤ shoulderData.length ∧ (specStrictPeaks shoulderData).length < 3 ∧
      localPeaks shoulderData = [⟨10, 105⟩, ⟨12, 110⟩, ⟨14, 105⟩] ∧
      specStrictPeak shoulderData 10 = false ∧
      detectHeadAndShoulders shoulderData
        = some { type := TrendLabel.bearish, neckline := 105 } := by
  refine ⟨by rw [shoulderData_length], by rw [specStrictPeaks_shoulderData]; decide,
    localPeaks_shoulderData, ?_, detectHeadAndShoulders_shoulderData⟩
  have h5 : List.range 5 = [0, 1, 2, 3, 4] := by rfl
  norm_num [specStrictPeak, h5, candleAt_shoulderData, shoulderCandle]

/-- C33 (amended): every peak (trough) considered by `detectHeadAndShoulders` is a bar at
an index from 5 to length - 6 whose high (low) is strictly greater (smaller) than that
of the bar just before it and of the bar just after it, and every such bar is
considered; a bearish head and shoulders is reported only for at least 30 candles with
at least three such peaks, with the middle one of the last three the highest, and its
neckline is the minimum of the two shoulder highs. -/
theorem detectHeadAndShoulders_peaks (data : List Candle) :
    (∀ p, p ∈ localPeaks data ↔
      5 ≤ p.index ∧ p.index + 5 < data.length ∧
      p.price = (candleAt data p.index).high ∧
      (candleAt data p.index).high > (candleAt data (p.index - 1)).high ∧
      (candleAt data p.index).high > (candleAt data (p.index + 1)).high) ∧
    (∀ p, p ∈ localTroughs data ↔
      5 ≤ p.index ∧ p.index + 5 < data.length ∧
      p.price = (candleAt data p.index).low ∧
      (candleAt data p.index).low < (candleAt data (p.index - 1)).low ∧
      (candleAt data p.index).low < (candleAt data (p.index + 1)).low) ∧
    (∀ r, detectHeadAndShoulders data = some r → r.type = TrendLabel.bearish →
      30 ≤ data.length ∧ 3 ≤ (localPeaks data).length ∧
        ∃ left head right, jsSliceLast (localPeaks data) 3 = [left, head, right] ∧
          head.price > left.price ∧ head.price > right.price ∧
          r.neckline = min left.price right.price) :=
  ⟨mem_localPeaks data, mem_localTroughs data, detectHeadAndShoulders_bearish data⟩

/-! ### Weighted pattern counts -/

theorem specWeightedCount_append (direction : TrendLabel) (l : List PatternRecord)
    (p : PatternRecord) :
    specWeightedCount direction (l ++ [p])
      = specWeightedCount direction l
        + (if p.direction = direction then specPatternWeight p.strength else 0) := by
  unfold specWeightedCount
  rw [List.filter_append, List.map_append, List.sum_append]
  congr 1
  by_cases h : p.direction = direction
  · simp [List.filter_cons, h]
  · simp [List.filter_cons, h]

theorem addBullish_counts (r : PatternReport) (w : Int) (type : String)
    (strength : PatternStrength) (hw : specPatternWeight strength = w)
    (h : r.bullishPatterns = specWeightedCount TrendLabel.bullish r.patterns ∧
      r.bearishPatterns = specWeightedCount TrendLabel.bearish r.patterns) :
    (r.addBullish w type strength).bullishPatterns
        = specWeightedCount TrendLabel.bullish (r.addBullish w type strength).patterns ∧
      (r.addBullish w type strength).bearishPatterns
        = specWeightedCount TrendLabel.bearish (r.addBullish w type strength).patterns := by
  simp only [PatternReport.addBullish, specWeightedCount_append, h.1, h.2, hw]
  simp

theorem addBearish_counts (r : PatternReport) (w : Int) (type : String)
    (strength : PatternStrength) (hw : specPatternWeight strength = w)
    (h : r.bullishPatterns = specWeightedCount TrendLabel.bullish r.patterns ∧
      r.bearishPatterns = specWeightedCount TrendLabel.bearish r.patterns) :
    (r.addBearish w type strength).bullishPatterns
        = specWeightedCount TrendLabel.bullish (r.addBearish w type strength).patterns ∧
      (r.addBearish w type strength).bearishPatterns
        = specWeightedCount TrendLabel.bearish (r.addBearish w type strength).patterns := by
  simp only [PatternReport.addBearish, specWeightedCount_append, h.1, h.2, hw]
  simp

theorem ite_counts (c : Prop) [Decidable c] (a b : PatternReport)
    (ha : a.bullishPatterns = specWeightedCount TrendLabel.bullish a.patterns ∧
      a.bearishPatterns = specWeightedCount TrendLabel.bearish a.patterns)
    (hb : b.bullishPatterns = specWeightedCount TrendLabel.bullish b.patterns ∧
      b.bearishPatterns = specWeightedCount TrendLabel.bearish b.patterns) :
    (if c then a else b).bullishPatterns
        = specWeightedCount TrendLabel.bullish (if c then a else b).patterns ∧
      (if c then a else b).bearishPatterns
        = specWeightedCount TrendLabel.bearish (if c then a else b).patterns := by
  split_ifs
  · exact ha
  · exact hb

theorem detectAdvancedPatterns_counts (data : List Candle) :
    (detectAdvancedPatterns data).bullishPatterns
        = specWeightedCount TrendLabel.bullish (detectAdvancedPatterns data).patterns ∧
      (detectAdvancedPatterns data).bearishPatterns
        = specWeightedCount TrendLabel.bearish (detectAdvancedPatterns data).patterns := by
  unfold detectAdvancedPatterns
  split_ifs with hlen
  · exact ⟨rfl, rfl⟩
  · lift_lets
    intro r0 recent lastCandle prevCandle body lowerWick upperWick r1 r2 prevBody r3 r4 c1
      r5a r5 r6a r6 r7 r8 r9
    have h0 : r0.bullishPatterns = specWeightedCount TrendLabel.bullish r0.patterns ∧
        r0.bearishPatterns = specWeightedCount TrendLabel.bearish r0.patterns := ⟨rfl, rfl⟩
    have h1 : r1.bullishPatterns = specWeightedCount TrendLabel.bullish r1.patterns ∧
        r1.bearishPatterns = specWeightedCount TrendLabel.bearish r1.patterns :=
      ite_counts _ _ _ (addBullish_counts _ _ _ _ rfl h0) h0
    have h2 : r2.bullishPatterns = specWeightedCount TrendLabel.bullish r2.patterns ∧
        r2.bearishPatterns = specWeightedCount TrendLabel.bearish r2.patterns :=
      ite_counts _ _ _ (addBearish_counts _ _ _ _ rfl h1) h1
    have h3 : r3.bullishPatterns = specWeightedCount TrendLabel.bullish r3.patterns ∧
        r3.bearishPatterns = specWeightedCount TrendLabel.bearish r3.patterns :=
      ite_counts _ _ _ (addBullish_counts _ _ _ _ rfl h2) h2
    have h4 : r4.bullishPatterns = specWeightedCount TrendLabel.bullish r4.patterns ∧
        r4.bearishPatterns = specWeightedCount TrendLabel.bearish r4.patterns :=
      ite_counts _ _ _ (addBearish_counts _ _ _ _ rfl h3) h3
    have h5a : r5a.bullishPatterns = specWeightedCount TrendLabel.bullish r5a.patterns ∧
        r5a.bearishPatterns = specWeightedCount TrendLabel.bearish r5a.patterns :=
      ite_counts _ _ _ (addBullish_counts _ _ _ _ rfl h4) h4
    have h5 : r5.bullishPatterns = specWeightedCount TrendLabel.bullish r5.patterns ∧
        r5.bearishPatterns = specWeightedCount TrendLabel.bearish r5.patterns :=
      ite_counts _ _ _ (ite_counts _ _ _ (addBearish_counts _ _ _ _ rfl h5a) h5a) h4
    have h6a : r6a.bullishPatterns = specWeightedCount TrendLabel.bullish r6a.patterns ∧
        r6a.bearishPatterns = specWeightedCount TrendLabel.bearish r6a.patterns :=
      ite_counts _ _ _ (addBullish_counts _ _ _ _ rfl h5) h5
    have h6 : r6.bullishPatterns = specWeightedCount TrendLabel.bullish r6.patterns ∧
        r6.bearishPatterns = specWeightedCount TrendLabel.bearish r6.patterns :=
      ite_counts _ _ _ (ite_counts _ _ _ (addBearish_counts _ _ _ _ rfl h6a) h6a) h5
    have h7 : r7.bullishPatterns = specWeightedCount TrendLabel.bullish r7.patterns ∧
        r7.bearishPatterns = specWeightedCount TrendLabel.bearish r7.patterns := by
      simp only [r7]
      split
      · exact ite_counts _ _ _ (addBearish_counts _ _ _ _ rfl h6)
          (addBullish_counts _ _ _ _ rfl h6)
      · exact h6
    have h8 : r8.bullishPatterns = specWeightedCount TrendLabel.bullish r8.patterns ∧
        r8.bearishPatterns = specWeightedCount TrendLabel.bearish r8.patterns := by
      simp only [r8]
      split
      · exact ite_counts _ _ _ (addBearish_counts _ _ _ _ rfl h7)
          (addBullish_counts _ _ _ _ rfl h7)
      · exact h7
    simp only [r9]
    split
    · exact ite_counts _ _ _ (addBullish_counts _ _ _ _ rfl h8)
        (addBearish_counts _ _ _ _ rfl h8)
    · exact h8

/-- C34: for every candle sequence the report of `detectAdvancedPatterns` has
bullishPatterns equal to the sum, over the returned records with direction bullish, of
the weight of the record's strength (high = 2, very high = 3, extreme = 4), and
bearishPatterns equal to the same sum over the bearish records; for fewer than 50
candles both counts are 0 and the list is empty. -/
theorem detectAdvancedPatterns_weighted_counts (data : List Candle) :
    (detectAdvancedPatterns data).bullishPatterns
        = specWeightedCount TrendLabel.bullish (detectAdvancedPatterns data).patterns ∧
      (detectAdvancedPatterns data).bearishPatterns
        = specWeightedCount TrendLabel.bearish (detectAdvancedPatterns data).patterns ∧
      (data.length < 50 →
        (detectAdvancedPatterns data).bullishPatterns = 0 ∧
        (detectAdvancedPatterns data).bearishPatterns = 0 ∧
        (detectAdvancedPatterns data).patterns = []) := by
  refine ⟨(detectAdvancedPatterns_counts data).1, (detectAdvancedPatterns_counts data).2, ?_⟩
  intro hlen
  simp only [detectAdvancedPatterns, if_pos hlen, and_self]

/-! ### Missing volume -/

theorem findAdvancedSupportResistance_isSome (data : List Candle) (h : data ≠ []) :
    ∃ sr, findAdvancedSupportResistance data = some sr := by
  have hlast : data.getLast? = some (data.getLast h) := List.getLast?_eq_getLast _ h
  simp only [findAdvancedSupportResistance, hlast]
  exact ⟨_, rfl⟩

theorem calculateAdvancedIndicators_no_volume (sqrt : ℚ → ℚ) (data : List Candle)
    (hlen : 20 ≤ data.length) (hvol : ∀ c ∈ data, c.volume = none) :
    ∃ ind, calculateAdvancedIndicators sqrt data = some ind ∧
      Indicators.volumeRatio ind = JSNum.fin 0 := by
  have hne : data ≠ [] := by
    intro h0
    rw [h0] at hlen
    simp at hlen
  obtain ⟨sr, hsr⟩ := findAdvancedSupportResistance_isSome data hne
  have hvolumes : data.map (fun c => jsOr c.volume 0) = List.replicate data.length 0 := by
    apply map_eq_replicate_of_forall
    intro c hc
    rw [hvol c hc]
    rfl
  have hvr := volumeRatio_replicate 0 data.length hlen
  rw [if_pos rfl] at hvr
  simp only [calculateAdvancedIndicators, hsr, hvolumes]
  exact ⟨_, rfl, hvr⟩

theorem addToProfile_volume_sum (profile : List VolumeNode) (bucket price : JSNum)
    (volume : ℚ) :
    ((addToProfile profile bucket price volume).map fun e => e.volume).sum
      = (profile.map fun e => e.volume).sum + volume := by
  induction profile with
  | nil => simp [addToProfile]
  | cons a t ih =>
    unfold addToProfile
    split_ifs
    · simp only [List.map_cons, List.sum_cons]
      ring
    · simp only [List.map_cons, List.sum_cons, ih]
      ring

theorem foldl_profile_volume_sum (key price : Candle → JSNum) (recent : List Candle)
    (profile : List VolumeNode) :
    ((recent.foldl
        (fun profile candle => addToProfile profile (key candle) (price candle)
          (jsOr candle.volume 1)) profile).map fun e => e.volume).sum
      = (profile.map fun e => e.volume).sum + (recent.map fun c => jsOr c.volume 1).sum := by
  induction recent generalizing profile with
  | nil => simp
  | cons a t ih =>
    simp only [List.foldl_cons, List.map_cons, List.sum_cons, ih, addToProfile_volume_sum]
    ring

theorem buildVolumeProfile_no_volume (recent : List Candle)
    (hvol : ∀ c ∈ recent, c.volume = none) :
    ((buildVolumeProfile recent).map fun e => e.volume).sum = recent.length := by
  have h := foldl_profile_volume_sum
    (fun candle => volumeBucket (jsMin (recent.map fun c => c.low))
      ((jsMax (recent.map fun c => c.high) - jsMin (recent.map fun c => c.low)) / 20) candle)
    (fun candle => (JSNum.fin (jsMin (recent.map fun c => c.low))).add
      ((volumeBucket (jsMin (recent.map fun c => c.low))
        ((jsMax (recent.map fun c => c.high) - jsMin (recent.map fun c => c.low)) / 20)
        candle).mul
        (JSNum.fin ((jsMax (recent.map fun c => c.high)
          - jsMin (recent.map fun c => c.low)) / 20))))
    recent []
  have hone : (recent.map fun c => jsOr c.volume 1) = List.replicate recent.length 1 := by
    apply map_eq_replicate_of_forall
    intro c hc
    rw [hvol c hc]
    rfl
  rw [hone, List.sum_replicate] at h
  simp only [List.map_nil, List.sum_nil, zero_add, nsmul_eq_mul, mul_one] at h
  exact h

/-- C35 (counterexample): for 20 candles without volume `calculateAdvancedIndicators`
reports volumeRatio = 0, not 1. -/
theorem calculateAdvancedIndicators_no_volume_counterexample :
    20 ≤ (List.replicate 20 flatCandle).length ∧
      (∀ c ∈ List.replicate 20 flatCandle, c.volume = none) ∧
      ∃ ind, calculateAdvancedIndicators (fun _ => 0) (List.replicate 20 flatCandle)
          = some ind ∧
        Indicators.volumeRatio ind = JSNum.fin 0 ∧
        Indicators.volumeRatio ind ≠ JSNum.fin 1 := by
  have hlen : 20 ≤ (List.replicate 20 flatCandle).length := by
    rw [List.length_replicate]
  have hvol : ∀ c ∈ List.replicate 20 flatCandle, c.volume = none := by
    intro c hc
    rw [List.eq_of_mem_replicate hc]
    rfl
  obtain ⟨ind, hind, hvr⟩ := calculateAdvancedIndicators_no_volume (fun _ => 0)
    (List.replicate 20 flatCandle) hlen hvol
  refine ⟨hlen, hvol, ind, hind, hvr, ?_⟩
  rw [hvr]
  intro h
  have := JSNum.fin.inj h
  norm_num at this

/-- C35 (amended): a candle whose volume is missing is treated as having volume 0 by
`calculateAdvancedIndicators` and as having volume 1 by `analyzeVolumeProfile`: for a
series of at least 20 candles none of which carries a volume,
`calculateAdvancedIndicators` reports volumeRatio = 0 (the last volume 0 divided by 1,
the replacement of the zero mean), while the volumes of the profile built by
`analyzeVolumeProfile` add up to the number of candles of the window. -/
theorem calculateAdvancedIndicators_missing_volume (sqrt : ℚ → ℚ) (data : List Candle)
    (hlen : 20 ≤ data.length) (hvol : ∀ c ∈ data, c.volume = none) :
    (∃ ind, calculateAdvancedIndicators sqrt data = some ind ∧
      Indicators.volumeRatio ind = JSNum.fin 0) ∧
    ((buildVolumeProfile (jsSliceLast data 100)).map fun e => e.volume).sum
      = (jsSliceLast data 100).length :=
  ⟨calculateAdvancedIndicators_no_volume sqrt data hlen hvol,
    buildVolumeProfile_no_volume _ (fun c hc => hvol c (mem_jsSliceLast hc))⟩

/-- Witness for C35 (amended): 250 copies of `flatCandle`, which carries no volume. -/
theorem calculateAdvancedIndicators_missing_volume_witness :
    20 ≤ (List.replicate 250 flatCandle).length ∧
      (∀ c ∈ List.replicate 250 flatCandle, c.volume = none) ∧
      (∃ ind, calculateAdvancedIndicators (fun _ => 0) (List.replicate 250 flatCandle)
          = some ind ∧
        Indicators.volumeRatio ind = JSNum.fin 0) ∧
      ((buildVolumeProfile (jsSliceLast (List.replicate 250 flatCandle) 100)).map
          fun e => e.volume).sum
        = (jsSliceLast (List.replicate 250 flatCandle) 100).length := by
  have hlen : 20 ≤ (List.replicate 250 flatCandle).length := by
    rw [List.length_replicate]
    decide
  have hvol : ∀ c ∈ List.replicate 250 flatCandle, c.volume = none := by
    intro c hc
    rw [List.eq_of_mem_replicate hc]
    rfl
  exact ⟨hlen, hvol,
    calculateAdvancedIndicators_missing_volume (fun _ => 0) (List.replicate 250 flatCandle)
      hlen hvol⟩

/-! ### Trend strength -/

theorem pair_match_eq {γ : Type} (p : Int × Int) (f : Int → Int → γ) :
    (match p with | (a, b) => f a b) = f p.1 p.2 := by
  cases p
  rfl

theorem ite_pair_snd (c : Prop) [Decidable c] (p q : Int × Int) :
    (if c then p else q).2 = if c then p.2 else q.2 := by
  split_ifs <;> rfl

theorem ite_pair_fst (c : Prop) [Decidable c] (p q : Int × Int) :
    (if c then p else q).1 = if c then p.1 else q.1 := by
  split_ifs <;> rfl

theorem scoreTrend_strength_nonneg (currentPrice : JSNum) (indicators : Indicators)
    (patterns : PatternReport) (marketStructure : MarketStructure) :
    0 ≤ (scoreTrend currentPrice indicators patterns marketStructure).2 := by
  unfold scoreTrend
  simp only [pair_match_eq, ite_pair_snd, ite_pair_fst]
  have hR : (0 : Int) ≤
      (if indicators.rsi.lt (JSNum.fin 30) = true then 0 + 2
        else if indicators.rsi.lt (JSNum.fin 40) = true then 0 + 1
        else if indicators.rsi.gt (JSNum.fin 70) = true then 0 + 2
        else if indicators.rsi.gt (JSNum.fin 60) = true then 0 + 1 else 0) := by
    split_ifs <;> omega
  generalize (if indicators.rsi.lt (JSNum.fin 30) = true then (0 : Int) + 2
    else if indicators.rsi.lt (JSNum.fin 40) = true then 0 + 1
    else if indicators.rsi.gt (JSNum.fin 70) = true then 0 + 2
    else if indicators.rsi.gt (JSNum.fin 60) = true then 0 + 1 else 0) = R at hR ⊢
  split_ifs <;> omega

/-- C36: for every input of `generateUltimatePrediction` (a non-empty candle list and
any indicator record, pattern report and market structure) the accumulated
trendStrength is never negative, so the returned confidence lies in [50, 95]: it is the
sum 50 + min(|trendScore| * 3, 30) + min(trendStrength * 2, 15) + pattern bonus capped at
95, and the floor of 30 never takes effect. -/
theorem generateUltimatePrediction_confidence_at_least_fifty (init : List Candle)
    (last : Candle) (indicators : Indicators) (patterns : PatternReport)
    (marketStructure : MarketStructure) :
    ∃ r, generateUltimatePrediction (init ++ [last]) indicators patterns marketStructure
        = some r ∧
      0 ≤ (scoreTrend (JSNum.fin last.close) indicators patterns marketStructure).2 ∧
      50 ≤ r.confidence ∧ r.confidence ≤ 95 ∧
      r.confidence
        = min (50
            + min (|(scoreTrend (JSNum.fin last.close) indicators patterns
                marketStructure).1| * 3) 30
            + min ((scoreTrend (JSNum.fin last.close) indicators patterns
                marketStructure).2 * 2) 15
            + (if patterns.bullishPatterns + patterns.bearishPatterns > 0 then 5 else 0)) 95 := by
  have hl : (init ++ [last]).getLast? = some last := by simp
  have hs := scoreTrend_strength_nonneg (JSNum.fin last.close) indicators patterns
    marketStructure
  have habs : 0 ≤ |(scoreTrend (JSNum.fin last.close) indicators patterns
      marketStructure).1| := abs_nonneg _
  refine ⟨_, by rw [generateUltimatePrediction, hl], hs, ?_, ?_, ?_⟩
  · simp only [computeConfidence]
    split_ifs <;> omega
  · simp only [computeConfidence]
    split_ifs <;> omega
  · simp only [computeConfidence]
    split_ifs <;> omega

/-! ### Risk of a long position -/

theorem generateOptimizedPositions_long (p a s : ℚ) (init : List LinePoint)
    (lastPoint : LinePoint) (indicators : Indicators)
    (ha : indicators.atr = JSNum.fin a) (hs : indicators.support = JSNum.fin s) :
    ∃ pos, generateOptimizedPositions (JSNum.fin p) (init ++ [lastPoint]) indicators
        TrendLabel.bullish = some [pos] ∧
      pos.type = PositionSide.long ∧
      pos.entry = JSNum.fin (if p - s < a * 2 then s + a * (1 / 2) else p * (998 / 1000)) ∧
      pos.stopLoss = JSNum.fin (max (s * (998 / 1000)) (p - a * 2)) ∧
      pos.riskAmount = ((pos.entry.sub pos.stopLoss).div pos.entry).mul (JSNum.fin 100) := by
  have hl : (init ++ [lastPoint]).getLast? = some lastPoint := by simp
  simp only [generateOptimizedPositions, hl, if_true, ha, hs, JSNum.sub_fin, JSNum.mul_fin,
    JSNum.lt_fin, JSNum.add_fin, JSNum.max_fin, decide_eq_true_eq, ite_fin]
  exact ⟨_, rfl, rfl, rfl, rfl, rfl⟩

/-- C37 (code evaluated): for a price `p`, ATR `a > 0` and support `s > 0` (in
particular for `0 < s ≤ p`), the long position returned by `generateOptimizedPositions` has its stopLoss
strictly below its entry, and so a strictly positive riskAmount, exactly when the price
is within 2 ATR of the support or the ATR exceeds 0.1% of the price; otherwise the
entry is `0.998 * p` and the stopLoss `p - 2 * a` lies on or above it. -/
theorem generateOptimizedPositions_long_risk (p a s : ℚ) (init : List LinePoint)
    (lastPoint : LinePoint) (indicators : Indicators) (ha0 : 0 < a) (hs0 : 0 < s)
    (ha : indicators.atr = JSNum.fin a) (hs : indicators.support = JSNum.fin s) :
    ∃ pos entry stop risk,
      generateOptimizedPositions (JSNum.fin p) (init ++ [lastPoint]) indicators
        TrendLabel.bullish = some [pos] ∧
      pos.type = PositionSide.long ∧
      pos.entry = JSNum.fin entry ∧ pos.stopLoss = JSNum.fin stop ∧
      pos.riskAmount = JSNum.fin risk ∧
      (stop < entry ↔ (p - s < a * 2 ∨ p < 1000 * a)) ∧
      (0 < risk ↔ stop < entry) ∧
      (¬ (p - s < a * 2 ∨ p < 1000 * a) →
        entry = p * (998 / 1000) ∧ stop = p - a * 2) := by
  obtain ⟨pos, hpos, htype, hentry, hstop, hrisk⟩ :=
    generateOptimizedPositions_long p a s init lastPoint indicators ha hs
  have hepos : 0 < (if p - s < a * 2 then s + a * (1 / 2) else p * (998 / 1000)) := by
    split_ifs <;> linarith
  have hiff : max (s * (998 / 1000)) (p - a * 2)
        < (if p - s < a * 2 then s + a * (1 / 2) else p * (998 / 1000))
      ↔ (p - s < a * 2 ∨ p < 1000 * a) := by
    split_ifs with hc
    · constructor
      · exact fun _ => Or.inl hc
      · intro _
        exact max_lt (by linarith) (by linarith)
    · constructor
      · intro h
        right
        have := lt_of_le_of_lt (le_max_right _ _) h
        linarith
      · rintro (h | h)
        · exact absurd h hc
        · exact max_lt (by linarith) (by linarith)
  have hriskv : pos.riskAmount
      = JSNum.fin (((if p - s < a * 2 then s + a * (1 / 2) else p * (998 / 1000))
          - max (s * (998 / 1000)) (p - a * 2))
        / (if p - s < a * 2 then s + a * (1 / 2) else p * (998 / 1000)) * 100) := by
    rw [hrisk, hentry, hstop, JSNum.sub_fin, JSNum.div_fin _ _ (ne_of_gt hepos),
      JSNum.mul_fin]
  refine ⟨pos, _, _, _, hpos, htype, hentry, hstop, hriskv, hiff, ?_, ?_⟩
  · rw [mul_pos_iff_of_pos_right (by norm_num), div_pos_iff_of_pos_right hepos, sub_pos]
  · intro hn
    rw [not_or] at hn
    rw [if_neg hn.1]
    refine ⟨rfl, max_eq_right ?_⟩
    linarith [hn.1, hn.2]

/-- Witness for C37: price 100, ATR 0.01 and support 50; the entry is 99.8 and the
stopLoss 99.98 lies above it, so the riskAmount is negative. -/
theorem generateOptimizedPositions_long_risk_witness :
    (0 : ℚ) < 1 / 100 ∧ (0 : ℚ) < 50 ∧ (50 : ℚ) ≤ 100 ∧
      ∃ pos entry stop risk,
        generateOptimizedPositions (JSNum.fin 100) ([] ++ [LinePoint.mk 60 (JSNum.fin 101)])
          { sampleIndicators with atr := JSNum.fin (1 / 100), support := JSNum.fin 50 }
          TrendLabel.bullish = some [pos] ∧
        pos.entry = JSNum.fin entry ∧ pos.stopLoss = JSNum.fin stop ∧
        pos.riskAmount = JSNum.fin risk ∧
        entry = 100 * (998 / 1000) ∧ stop = 100 - 1 / 100 * 2 ∧
        ¬ stop < entry ∧ ¬ 0 < risk := by
  obtain ⟨pos, entry, stop, risk, hpos, -, hentry, hstop, hrisk, hiff, hriskiff, hval⟩ :=
    generateOptimizedPositions_long_risk 100 (1 / 100) 50 [] (LinePoint.mk 60 (JSNum.fin 101))
      { sampleIndicators with atr := JSNum.fin (1 / 100), support := JSNum.fin 50 }
      (by norm_num) (by norm_num) rfl rfl
  have hn : ¬ ((100 : ℚ) - 50 < 1 / 100 * 2 ∨ (100 : ℚ) < 1000 * (1 / 100)) := by norm_num
  have hlt : ¬ stop < entry := fun h => hn (hiff.mp h)
  exact ⟨by norm_num, by norm_num, by norm_num, pos, entry, stop, risk, hpos,
    hentry, hstop, hrisk, (hval hn).1, (hval hn).2, hlt, fun h => hlt (hriskiff.mp h)⟩

/-! ### Range of the stochastic RSI -/

theorem stochK_bounds (window : List ℚ) (x : ℚ) (hx : x ∈ window) :
    0 ≤ stochK window x ∧ stochK window x ≤ 100 := by
  have h1 := jsMin_le hx
  have h2 := le_jsMax hx
  unfold stochK
  simp only []
  split_ifs with hr
  · constructor <;> norm_num
  · have hpos : 0 < jsMax window - jsMin window := by
      rcases lt_or_eq_of_le (sub_nonneg.mpr (le_trans h1 h2)) with h | h
      · exact h
      · exact absurd h.symm hr
    constructor
    · apply mul_nonneg _ (by norm_num)
      apply div_nonneg <;> linarith
    · rw [div_mul_eq_mul_div, div_le_iff₀ hpos]
      linarith

/-- C38 (code evaluated): for every RSI series with at least `period` values
(`period ≥ 1`) the output k of `calculateStochRSI` lies in [0, 100]; the output d does
not: on the series `[50, 40, 10]` with period 2 the only averaged %K value scales 10
against the preceding window `[50, 40]`, which gives d = -300 (and k = 0). -/
theorem calculateStochRSI_k_bounded_d_not :
    (∀ (rsiArray : List ℚ) (period : ℕ), 1 ≤ period → period ≤ rsiArray.length →
      ∃ k : ℚ, (calculateStochRSI rsiArray period).k = JSNum.fin k ∧ 0 ≤ k ∧ k ≤ 100) ∧
    (calculateStochRSI [50, 40, 10] 2).k = JSNum.fin 0 ∧
    stochKValues [50, 40, 10] 2 = [-300] ∧
    (calculateStochRSI [50, 40, 10] 2).d = JSNum.fin (-300) := by
  have hk : stochKValues [50, 40, 10] 2 = [-300] := by
    norm_num [stochKValues, stochK, jsSlice, jsMin, jsMax, List.range_succ]
  refine ⟨?_, ?_, hk, ?_⟩
  · intro rsiArray period hp hlen
    have hmem : rsiArray.getD (rsiArray.length - 1) 0
        ∈ rsiArray.drop (rsiArray.length - period) := by
      have hpos : rsiArray.length - 1 < rsiArray.length := by omega
      rw [List.getD_eq_getElem _ _ hpos, List.mem_drop_iff_getElem]
      refine ⟨period - 1, by omega, ?_⟩
      congr 1
      omega
    have hb := stochK_bounds _ _ hmem
    exact ⟨_, calculateStochRSI_k_eq rsiArray period hp hlen, hb.1, hb.2⟩
  · norm_num [calculateStochRSI, stochK, jsSliceLast, jsMin, jsMax]
  · norm_num [calculateStochRSI, hk, jsSliceLast, jsSum]

/-! ### Rounding to doubles -/

theorem natLog2_spec (fuel : ℕ) : ∀ n : ℕ, n < 2 ^ fuel → 0 < n →
    2 ^ natLog2 fuel n ≤ n ∧ n < 2 ^ (natLog2 fuel n + 1) := by
  induction fuel with
  | zero =>
    intro n h hn
    simp at h
    omega
  | succ f ih =>
    intro n h hn
    unfold natLog2
    split_ifs with h2
    · simp
      omega
    · have hlt : n / 2 < 2 ^ f := by
        rw [pow_succ] at h
        omega
      obtain ⟨h3, h4⟩ := ih (n / 2) hlt (by omega)
      rw [pow_succ, pow_succ]
      rw [pow_succ] at h4
      omega

theorem natLog2_self (n : ℕ) (hn : 0 < n) :
    2 ^ natLog2 n n ≤ n ∧ n < 2 ^ (natLog2 n n + 1) :=
  natLog2_spec n n (Nat.lt_two_pow n) hn

theorem pow2_eq (e : ℤ) : pow2 e = (2 : ℚ) ^ e := by
  unfold pow2
  split_ifs with h
  · obtain ⟨n, rfl⟩ := Int.eq_ofNat_of_zero_le h
    simp
  · push_neg at h
    obtain ⟨n, rfl⟩ := Int.exists_eq_neg_ofNat (le_of_lt h)
    simp

theorem pow2_pos (e : ℤ) : 0 < pow2 e := by
  rw [pow2_eq]
  positivity

theorem pow2_add (a b : ℤ) : pow2 (a + b) = pow2 a * pow2 b := by
  simp only [pow2_eq]
  exact zpow_add₀ (by norm_num) a b

theorem pow2_le_pow2 {a b : ℤ} (h : a ≤ b) : pow2 a ≤ pow2 b := by
  simp only [pow2_eq]
  exact zpow_le_zpow_right₀ (by norm_num) h

theorem pow2_lt_pow2_iff {a b : ℤ} : pow2 a < pow2 b ↔ a < b := by
  simp only [pow2_eq]
  exact zpow_lt_zpow_iff_right₀ (by norm_num)

theorem binaryExponent_spec (a : ℚ) (ha : 0 < a) :
    pow2 (binaryExponent a) ≤ a ∧ a < pow2 (binaryExponent a + 1) := by
  have hnum : 0 < a.num := Rat.num_pos.mpr ha
  have hn : 0 < a.num.natAbs := Int.natAbs_pos.mpr (ne_of_gt hnum)
  have hd : 0 < a.den := a.den_pos
  obtain ⟨n1, n2⟩ := natLog2_self a.num.natAbs hn
  obtain ⟨d1, d2⟩ := natLog2_self a.den hd
  have hnd : a = (a.num.natAbs : ℚ) / (a.den : ℚ) := by
    have h1 : ((a.num.natAbs : ℤ) : ℚ) = (a.num : ℚ) := by
      rw [Int.natAbs_of_nonneg (le_of_lt hnum)]
    have h2 : ((a.num.natAbs : ℕ) : ℚ) = ((a.num.natAbs : ℤ) : ℚ) :=
      (Int.cast_natCast _).symm
    rw [h2, h1]
    exact (Rat.num_div_den a).symm
  have hdq : (0 : ℚ) < a.den := by exact_mod_cast hd
  have n1q : ((2 : ℚ) ^ natLog2 a.num.natAbs a.num.natAbs) ≤ (a.num.natAbs : ℚ) := by
    exact_mod_cast n1
  have n2q : (a.num.natAbs : ℚ) < (2 : ℚ) ^ (natLog2 a.num.natAbs a.num.natAbs + 1) := by
    exact_mod_cast n2
  have d1q : ((2 : ℚ) ^ natLog2 a.den a.den) ≤ (a.den : ℚ) := by exact_mod_cast d1
  have d2q : (a.den : ℚ) < (2 : ℚ) ^ (natLog2 a.den a.den + 1) := by exact_mod_cast d2
  set ln := natLog2 a.num.natAbs a.num.natAbs
  set ld := natLog2 a.den a.den
  have hup : a < pow2 ((ln : ℤ) - (ld : ℤ) + 1) := by
    rw [pow2_eq, show ((ln : ℤ) - (ld : ℤ) + 1) = ((ln + 1 : ℕ) : ℤ) - (ld : ℤ) by push_cast; ring,
      zpow_sub₀ (by norm_num), zpow_natCast, zpow_natCast, hnd, div_lt_div_iff₀ hdq (by positivity)]
    calc (a.num.natAbs : ℚ) * 2 ^ ld < 2 ^ (ln + 1) * 2 ^ ld := by
          apply mul_lt_mul_of_pos_right n2q (by positivity)
      _ ≤ 2 ^ (ln + 1) * (a.den : ℚ) := by
          apply mul_le_mul_of_nonneg_left d1q (by positivity)
  have hlow : pow2 ((ln : ℤ) - (ld : ℤ) - 1) ≤ a := by
    rw [pow2_eq, show ((ln : ℤ) - (ld : ℤ) - 1) = (ln : ℤ) - ((ld + 1 : ℕ) : ℤ) by push_cast; ring,
      zpow_sub₀ (by norm_num), zpow_natCast, zpow_natCast, hnd, div_le_div_iff₀ (by positivity) hdq]
    calc (2 : ℚ) ^ ln * (a.den : ℚ) ≤ 2 ^ ln * 2 ^ (ld + 1) := by
          apply mul_le_mul_of_nonneg_left (le_of_lt d2q) (by positivity)
      _ ≤ (a.num.natAbs : ℚ) * 2 ^ (ld + 1) := by
          apply mul_le_mul_of_nonneg_right n1q (by positivity)
  unfold binaryExponent
  simp only
  split_ifs with h
  · exact ⟨h, hup⟩
  · push_neg at h
    refine ⟨hlow, ?_⟩
    rw [sub_add_cancel]
    exact h

theorem binaryExponent_unique (a : ℚ) (e : ℤ) (h1 : pow2 e ≤ a) (h2 : a < pow2 (e + 1)) :
    binaryExponent a = e := by
  have ha : 0 < a := lt_of_lt_of_le (pow2_pos e) h1
  obtain ⟨b1, b2⟩ := binaryExponent_spec a ha
  have h3 : e < binaryExponent a + 1 := pow2_lt_pow2_iff.mp (lt_of_le_of_lt h1 b2)
  have h4 : binaryExponent a < e + 1 := pow2_lt_pow2_iff.mp (lt_of_le_of_lt b1 h2)
  omega

theorem binaryExponent_mono {a b : ℚ} (ha : 0 < a) (hab : a ≤ b) :
    binaryExponent a ≤ binaryExponent b := by
  obtain ⟨a1, _⟩ := binaryExponent_spec a ha
  obtain ⟨_, b2⟩ := binaryExponent_spec b (lt_of_lt_of_le ha hab)
  have := pow2_lt_pow2_iff.mp (lt_of_le_of_lt (le_trans a1 hab) b2)
  omega

theorem roundHalfEven_abs_sub_le (t : ℚ) : |(roundHalfEven t : ℚ) - t| ≤ 1 / 2 := by
  have h1 := Int.floor_le t
  have h2 := Int.lt_floor_add_one t
  unfold roundHalfEven
  simp only
  rw [abs_le]
  split_ifs with a b c <;> push_cast <;> constructor <;> linarith

theorem roundHalfEven_intCast (n : ℤ) : roundHalfEven (n : ℚ) = n := by
  unfold roundHalfEven
  simp

theorem roundHalfEven_mono {t s : ℚ} (h : t ≤ s) : roundHalfEven t ≤ roundHalfEven s := by
  have hq : ⌊t⌋ ≤ ⌊s⌋ := Int.floor_le_floor h
  have ht1 := Int.floor_le t
  have ht2 := Int.lt_floor_add_one t
  have hs1 := Int.floor_le s
  have hs2 := Int.lt_floor_add_one s
  rcases lt_or_eq_of_le hq with hlt | heq
  · have hA : roundHalfEven t ≤ ⌊t⌋ + 1 := by
      unfold roundHalfEven
      simp only
      split_ifs <;> omega
    have hB : ⌊s⌋ ≤ roundHalfEven s := by
      unfold roundHalfEven
      simp only
      split_ifs <;> omega
    omega
  · unfold roundHalfEven
    simp only
    rw [heq]
    have hts : t - (⌊s⌋ : ℚ) ≤ s - (⌊s⌋ : ℚ) := by linarith
    split_ifs <;> first | omega | (exfalso; linarith)

theorem roundHalfEven_le_of_le (t : ℚ) (n : ℤ) (h : t ≤ n) : roundHalfEven t ≤ n := by
  have := roundHalfEven_mono h
  rwa [roundHalfEven_intCast] at this

theorem le_roundHalfEven_of_le (t : ℚ) (n : ℤ) (h : (n : ℚ) ≤ t) : n ≤ roundHalfEven t := by
  have := roundHalfEven_mono h
  rwa [roundHalfEven_intCast] at this


theorem pow2_fifty_two : pow2 52 = 2 ^ 52 := by
  rw [pow2_eq]
  norm_num

theorem pow2_split (e : ℤ) : pow2 e = pow2 (e - 52) * 2 ^ 52 := by
  rw [← pow2_fifty_two, ← pow2_add, sub_add_cancel]

theorem pow2_split_succ (e : ℤ) : pow2 (e + 1) = pow2 (e - 52) * 2 ^ 53 := by
  have h : e + 1 = (e - 52) + 52 + 1 := by ring
  rw [h, pow2_add, pow2_add, pow2_fifty_two]
  have : pow2 1 = 2 := by rw [pow2_eq]; norm_num
  rw [this]
  ring

theorem roundPositive_bounds (a : ℚ) (ha : 0 < a) :
    pow2 (binaryExponent a) ≤ roundPositive a ∧
      roundPositive a ≤ pow2 (binaryExponent a + 1) := by
  obtain ⟨h1, h2⟩ := binaryExponent_spec a ha
  have hu := pow2_pos (binaryExponent a - 52)
  unfold roundPositive
  simp only
  constructor
  · have h3 : (((2 ^ 52 : ℕ) : ℤ) : ℚ) ≤ a / pow2 (binaryExponent a - 52) := by
      rw [le_div_iff₀ hu]
      have hs := pow2_split (binaryExponent a)
      norm_num at hs ⊢
      linarith
    have h4 := le_roundHalfEven_of_le _ _ h3
    have h5 : (((2 ^ 52 : ℕ) : ℤ) : ℚ) ≤ (roundHalfEven (a / pow2 (binaryExponent a - 52)) : ℚ) := by
      exact_mod_cast h4
    rw [pow2_split]
    push_cast at h5
    rw [mul_comm]
    exact mul_le_mul_of_nonneg_right h5 (le_of_lt hu)
  · have h3 : a / pow2 (binaryExponent a - 52) ≤ (((2 ^ 53 : ℕ) : ℤ) : ℚ) := by
      rw [div_le_iff₀ hu]
      have hs := pow2_split_succ (binaryExponent a)
      norm_num at hs ⊢
      linarith
    have h4 := roundHalfEven_le_of_le _ _ h3
    have h5 : (roundHalfEven (a / pow2 (binaryExponent a - 52)) : ℚ) ≤ (((2 ^ 53 : ℕ) : ℤ) : ℚ) := by
      exact_mod_cast h4
    rw [pow2_split_succ]
    push_cast at h5
    rw [mul_comm (pow2 _)]
    exact mul_le_mul_of_nonneg_right h5 (le_of_lt hu)

theorem roundPositive_pos (a : ℚ) (ha : 0 < a) : 0 < roundPositive a :=
  lt_of_lt_of_le (pow2_pos _) (roundPositive_bounds a ha).1

theorem roundPositive_error (a : ℚ) (ha : 0 < a) :
    |roundPositive a - a| ≤ a * unitRoundoff := by
  obtain ⟨h1, _⟩ := binaryExponent_spec a ha
  have hu := pow2_pos (binaryExponent a - 52)
  have hr := roundHalfEven_abs_sub_le (a / pow2 (binaryExponent a - 52))
  have heq : roundPositive a - a
      = ((roundHalfEven (a / pow2 (binaryExponent a - 52)) : ℚ)
          - a / pow2 (binaryExponent a - 52)) * pow2 (binaryExponent a - 52) := by
    unfold roundPositive
    simp only
    field_simp
  rw [heq, abs_mul, abs_of_pos hu]
  rw [pow2_split] at h1
  unfold unitRoundoff
  calc |(roundHalfEven (a / pow2 (binaryExponent a - 52)) : ℚ)
          - a / pow2 (binaryExponent a - 52)| * pow2 (binaryExponent a - 52)
      ≤ 1 / 2 * pow2 (binaryExponent a - 52) := mul_le_mul_of_nonneg_right hr (le_of_lt hu)
    _ = pow2 (binaryExponent a - 52) * 2 ^ 52 * (1 / 2 ^ 53) := by ring
    _ ≤ a * (1 / 2 ^ 53) := mul_le_mul_of_nonneg_right h1 (by positivity)

theorem roundPositive_mono {a b : ℚ} (ha : 0 < a) (hab : a ≤ b) :
    roundPositive a ≤ roundPositive b := by
  have hb : 0 < b := lt_of_lt_of_le ha hab
  rcases lt_or_eq_of_le (binaryExponent_mono ha hab) with hlt | heq
  · calc roundPositive a ≤ pow2 (binaryExponent a + 1) := (roundPositive_bounds a ha).2
      _ ≤ pow2 (binaryExponent b) := pow2_le_pow2 (by omega)
      _ ≤ roundPositive b := (roundPositive_bounds b hb).1
  · unfold roundPositive
    simp only
    rw [heq]
    have hu := pow2_pos (binaryExponent b - 52)
    have h1 : a / pow2 (binaryExponent b - 52) ≤ b / pow2 (binaryExponent b - 52) :=
      div_le_div_of_nonneg_right hab (le_of_lt hu)
    have h2 := roundHalfEven_mono h1
    have h3 : (roundHalfEven (a / pow2 (binaryExponent b - 52)) : ℚ)
        ≤ (roundHalfEven (b / pow2 (binaryExponent b - 52)) : ℚ) := by exact_mod_cast h2
    exact mul_le_mul_of_nonneg_right h3 (le_of_lt hu)

theorem roundDouble_zero : roundDouble 0 = 0 := by
  simp [roundDouble]

theorem roundDouble_of_pos {x : ℚ} (hx : 0 < x) : roundDouble x = roundPositive x := by
  simp [roundDouble, ne_of_gt hx, hx]

theorem roundDouble_of_neg {x : ℚ} (hx : x < 0) : roundDouble x = -roundPositive (-x) := by
  simp [roundDouble, ne_of_lt hx, not_lt.mpr (le_of_lt hx)]

theorem roundDouble_neg (x : ℚ) : roundDouble (-x) = -roundDouble x := by
  rcases lt_trichotomy x 0 with h | h | h
  · rw [roundDouble_of_neg h, roundDouble_of_pos (neg_pos.mpr h), neg_neg]
  · rw [h, neg_zero, roundDouble_zero, neg_zero]
  · rw [roundDouble_of_pos h, roundDouble_of_neg (neg_neg_of_pos h), neg_neg]

theorem roundDouble_pos {x : ℚ} (hx : 0 < x) : 0 < roundDouble x := by
  rw [roundDouble_of_pos hx]
  exact roundPositive_pos x hx

theorem roundDouble_nonneg {x : ℚ} (hx : 0 ≤ x) : 0 ≤ roundDouble x := by
  rcases eq_or_lt_of_le hx with h | h
  · rw [← h, roundDouble_zero]
  · exact le_of_lt (roundDouble_pos h)

theorem roundDouble_error (x : ℚ) : |roundDouble x - x| ≤ |x| * unitRoundoff := by
  rcases lt_trichotomy x 0 with h | h | h
  · rw [roundDouble_of_neg h, abs_of_neg h]
    have := roundPositive_error (-x) (neg_pos.mpr h)
    rw [show -roundPositive (-x) - x = -(roundPositive (-x) - -x) by ring, abs_neg]
    exact this
  · rw [h, roundDouble_zero]
    simp
  · rw [roundDouble_of_pos h, abs_of_pos h]
    exact roundPositive_error x h

theorem roundDouble_mono : Monotone roundDouble := by
  intro x y hxy
  rcases lt_trichotomy x 0 with hx | hx | hx
  · rcases lt_trichotomy y 0 with hy | hy | hy
    · rw [roundDouble_of_neg hx, roundDouble_of_neg hy, neg_le_neg_iff]
      exact roundPositive_mono (neg_pos.mpr hy) (neg_le_neg hxy)
    · rw [hy, roundDouble_zero, roundDouble_of_neg hx]
      exact le_of_lt (neg_neg_of_pos (roundPositive_pos _ (neg_pos.mpr hx)))
    · rw [roundDouble_of_neg hx]
      exact le_trans (le_of_lt (neg_neg_of_pos (roundPositive_pos _ (neg_pos.mpr hx))))
        (le_of_lt (roundDouble_pos hy))
  · rw [hx, roundDouble_zero]
    exact roundDouble_nonneg (hx ▸ hxy)
  · rw [roundDouble_of_pos hx, roundDouble_of_pos (lt_of_lt_of_le hx hxy)]
    exact roundPositive_mono hx hxy

theorem roundDouble_one : roundDouble 1 = 1 := by decide!

theorem roundDouble_two : roundDouble 2 = 2 := by decide!

theorem roundDouble_hundred : roundDouble 100 = 100 := by decide!


theorem roundPositive_of_int (e M : ℤ) (h1 : 2 ^ 52 ≤ M) (h2 : M < 2 ^ 53) :
    roundPositive ((M : ℚ) * pow2 (e - 52)) = (M : ℚ) * pow2 (e - 52) := by
  have hu := pow2_pos (e - 52)
  have h1q : ((2 : ℚ) ^ 52) ≤ (M : ℚ) := by exact_mod_cast h1
  have h2q : (M : ℚ) < (2 : ℚ) ^ 53 := by exact_mod_cast h2
  have hb : binaryExponent ((M : ℚ) * pow2 (e - 52)) = e := by
    apply binaryExponent_unique
    · rw [pow2_split e, mul_comm]
      exact mul_le_mul_of_nonneg_right h1q (le_of_lt hu)
    · rw [pow2_split_succ e, mul_comm (pow2 _)]
      exact mul_lt_mul_of_pos_right h2q hu
  unfold roundPositive
  simp only
  rw [hb, mul_div_assoc, div_self (ne_of_gt hu), mul_one, roundHalfEven_intCast]

theorem roundPositive_idem (a : ℚ) (ha : 0 < a) :
    roundPositive (roundPositive a) = roundPositive a := by
  obtain ⟨b1, b2⟩ := binaryExponent_spec a ha
  have hu := pow2_pos (binaryExponent a - 52)
  have hlo : (2 : ℤ) ^ 52 ≤ roundHalfEven (a / pow2 (binaryExponent a - 52)) := by
    apply le_roundHalfEven_of_le
    rw [le_div_iff₀ hu]
    have hs := pow2_split (binaryExponent a)
    norm_num at hs ⊢
    linarith
  have hhi : roundHalfEven (a / pow2 (binaryExponent a - 52)) ≤ (2 : ℤ) ^ 53 := by
    apply roundHalfEven_le_of_le
    rw [div_le_iff₀ hu]
    have hs := pow2_split_succ (binaryExponent a)
    norm_num at hs ⊢
    linarith
  have hdef : roundPositive a
      = (roundHalfEven (a / pow2 (binaryExponent a - 52)) : ℚ) * pow2 (binaryExponent a - 52) :=
    rfl
  rcases lt_or_eq_of_le hhi with hlt | heq
  · rw [hdef]
    exact roundPositive_of_int _ _ hlo hlt
  · have hr : roundPositive a = ((2 ^ 52 : ℤ) : ℚ) * pow2 (binaryExponent a + 1 - 52) := by
      rw [hdef, heq]
      have h1 := pow2_split_succ (binaryExponent a)
      have h2 := pow2_split (binaryExponent a + 1)
      push_cast
      linarith
    rw [hr]
    exact roundPositive_of_int _ _ (le_refl _) (by norm_num)

theorem roundDouble_idem (x : ℚ) : roundDouble (roundDouble x) = roundDouble x := by
  rcases lt_trichotomy x 0 with h | h | h
  · rw [roundDouble_of_neg h, roundDouble_neg,
      roundDouble_of_pos (roundPositive_pos _ (neg_pos.mpr h)),
      roundPositive_idem _ (neg_pos.mpr h)]
  · rw [h, roundDouble_zero, roundDouble_zero]
  · rw [roundDouble_of_pos h, roundDouble_of_pos (roundPositive_pos _ h),
      roundPositive_idem _ h]

theorem roundDouble_roundsToNearest : RoundsToNearest roundDouble :=
  { mono := roundDouble_mono
    error := roundDouble_error
    neg := roundDouble_neg
    idem := roundDouble_idem
    zero := roundDouble_zero
    one := roundDouble_one
    two := roundDouble_two
    hundred := roundDouble_hundred }

theorem id_roundsToNearest : RoundsToNearest id :=
  { mono := monotone_id
    error := fun x => by
      simp only [id, sub_self, abs_zero]
      exact mul_nonneg (abs_nonneg x) (by norm_num [unitRoundoff])
    neg := fun _ => rfl
    idem := fun _ => rfl
    zero := rfl
    one := rfl
    two := rfl
    hundred := rfl }

theorem unitRoundoff_pos : 0 < unitRoundoff := by norm_num [unitRoundoff]

theorem unitRoundoff_lt_one : unitRoundoff < 1 := by norm_num [unitRoundoff]

theorem RoundsToNearest.nonneg {fl : ℚ → ℚ} (h : RoundsToNearest fl) {x : ℚ} (hx : 0 ≤ x) :
    0 ≤ fl x := by
  have := h.mono hx
  rwa [h.zero] at this

theorem RoundsToNearest.lower {fl : ℚ → ℚ} (h : RoundsToNearest fl) {x : ℚ} (hx : 0 ≤ x) :
    x * (1 - unitRoundoff) ≤ fl x := by
  have := h.error x
  rw [abs_of_nonneg hx, abs_le] at this
  linarith [this.1]

theorem RoundsToNearest.upper {fl : ℚ → ℚ} (h : RoundsToNearest fl) {x : ℚ} (hx : 0 ≤ x) :
    fl x ≤ x * (1 + unitRoundoff) := by
  have := h.error x
  rw [abs_of_nonneg hx, abs_le] at this
  linarith [this.2]

theorem RoundsToNearest.abs_le {fl : ℚ → ℚ} (h : RoundsToNearest fl) (x : ℚ) :
    |fl x| ≤ |x| * (1 + unitRoundoff) := by
  have h1 := h.error x
  have h2 : |fl x| ≤ |fl x - x| + |x| := by
    have := abs_add (fl x - x) x
    rwa [sub_add_cancel] at this
  linarith

/-! ### Exponential moving average in rounded arithmetic -/

theorem emaLoop_fl_length (fl : ℚ → ℚ) (k : ℚ) :
    ∀ (rest : List ℚ) (prev : ℚ), (emaLoop_fl fl k prev rest).length = rest.length := by
  intro rest
  induction rest with
  | nil => intro prev; rfl
  | cons x t ih => intro prev; simp [emaLoop_fl, ih]

theorem emaLoop_fl_id (k : ℚ) :
    ∀ (rest : List ℚ) (prev : ℚ), emaLoop_fl id k prev rest = emaLoop k prev rest := by
  intro rest
  induction rest with
  | nil => intro prev; rfl
  | cons x t ih => intro prev; simp [emaLoop_fl, emaLoop, ih]

theorem calculateEMA_fl_id (data : List ℚ) (period : ℕ) :
    calculateEMA_fl id data period = calculateEMA data period := by
  cases data with
  | nil => rfl
  | cons first rest => simp [calculateEMA_fl, calculateEMA, emaLoop_fl_id]

theorem emaStep_fl_bounds {fl : ℚ → ℚ} (h : RoundsToNearest fl) (k : ℚ) (hk0 : 0 ≤ k)
    (hk1 : k ≤ 1) (x prev lo hi : ℚ) (hlo : 0 ≤ lo) (hxl : lo ≤ x) (hpl : lo ≤ prev)
    (hxh : x ≤ hi) (hph : prev ≤ hi) :
    lo * (1 - unitRoundoff) ^ 3 ≤ fl (fl (x * k) + fl (prev * fl (1 - k))) ∧
      fl (fl (x * k) + fl (prev * fl (1 - k))) ≤ hi * (1 + unitRoundoff) ^ 3 := by
  have hu0 := unitRoundoff_pos
  have hu1 := unitRoundoff_lt_one
  have hm0 : 0 ≤ 1 - unitRoundoff := by linarith
  have hM0 : 0 ≤ 1 + unitRoundoff := by linarith
  have hx0 : 0 ≤ x := le_trans hlo hxl
  have hp0 : 0 ≤ prev := le_trans hlo hpl
  have hhi : 0 ≤ hi := le_trans hx0 hxh
  have hk' : 0 ≤ 1 - k := by linarith
  have hxk : 0 ≤ x * k := mul_nonneg hx0 hk0
  have ht2 : 0 ≤ fl (1 - k) := h.nonneg hk'
  have hpt : 0 ≤ prev * fl (1 - k) := mul_nonneg hp0 ht2
  have hsum : 0 ≤ fl (x * k) + fl (prev * fl (1 - k)) :=
    add_nonneg (h.nonneg hxk) (h.nonneg hpt)
  constructor
  · have a1 : lo * k * (1 - unitRoundoff) ≤ fl (x * k) :=
      le_trans (mul_le_mul_of_nonneg_right (mul_le_mul_of_nonneg_right hxl hk0) hm0)
        (h.lower hxk)
    have a2 : (1 - k) * (1 - unitRoundoff) ≤ fl (1 - k) := h.lower hk'
    have a3 : lo * ((1 - k) * (1 - unitRoundoff)) ≤ prev * fl (1 - k) :=
      mul_le_mul hpl a2 (mul_nonneg hk' hm0) hp0
    have a4 : lo * ((1 - k) * (1 - unitRoundoff)) * (1 - unitRoundoff)
        ≤ fl (prev * fl (1 - k)) :=
      le_trans (mul_le_mul_of_nonneg_right a3 hm0) (h.lower hpt)
    have a5 : lo * (1 - unitRoundoff) ^ 2 ≤ fl (x * k) + fl (prev * fl (1 - k)) := by
      have : 0 ≤ lo * k * (1 - unitRoundoff) * unitRoundoff :=
        mul_nonneg (mul_nonneg (mul_nonneg hlo hk0) hm0) (le_of_lt hu0)
      nlinarith
    calc lo * (1 - unitRoundoff) ^ 3
        = lo * (1 - unitRoundoff) ^ 2 * (1 - unitRoundoff) := by ring
      _ ≤ (fl (x * k) + fl (prev * fl (1 - k))) * (1 - unitRoundoff) :=
          mul_le_mul_of_nonneg_right a5 hm0
      _ ≤ fl (fl (x * k) + fl (prev * fl (1 - k))) := h.lower hsum
  · have b1 : fl (x * k) ≤ hi * k * (1 + unitRoundoff) :=
      le_trans (h.upper hxk)
        (mul_le_mul_of_nonneg_right (mul_le_mul_of_nonneg_right hxh hk0) hM0)
    have b2 : fl (1 - k) ≤ (1 - k) * (1 + unitRoundoff) := h.upper hk'
    have b3 : prev * fl (1 - k) ≤ hi * ((1 - k) * (1 + unitRoundoff)) :=
      mul_le_mul hph b2 ht2 hhi
    have b4 : fl (prev * fl (1 - k))
        ≤ hi * ((1 - k) * (1 + unitRoundoff)) * (1 + unitRoundoff) :=
      le_trans (h.upper hpt) (mul_le_mul_of_nonneg_right b3 hM0)
    have b5 : fl (x * k) + fl (prev * fl (1 - k)) ≤ hi * (1 + unitRoundoff) ^ 2 := by
      have : 0 ≤ hi * k * (1 + unitRoundoff) * unitRoundoff :=
        mul_nonneg (mul_nonneg (mul_nonneg hhi hk0) hM0) (le_of_lt hu0)
      nlinarith
    calc fl (fl (x * k) + fl (prev * fl (1 - k)))
        ≤ (fl (x * k) + fl (prev * fl (1 - k))) * (1 + unitRoundoff) := h.upper hsum
      _ ≤ hi * (1 + unitRoundoff) ^ 2 * (1 + unitRoundoff) :=
          mul_le_mul_of_nonneg_right b5 hM0
      _ = hi * (1 + unitRoundoff) ^ 3 := by ring

theorem emaLoop_fl_bounds {fl : ℚ → ℚ} (h : RoundsToNearest fl) (k : ℚ) (hk0 : 0 ≤ k)
    (hk1 : k ≤ 1) :
    ∀ (rest : List ℚ) (prev lo hi : ℚ) (i : ℕ), 0 ≤ lo → lo ≤ prev → prev ≤ hi →
      i < rest.length → (∀ x ∈ rest.take (i + 1), lo ≤ x ∧ x ≤ hi) →
      ∃ e, (emaLoop_fl fl k prev rest)[i]? = some e ∧
        lo * (1 - unitRoundoff) ^ (3 * (i + 1)) ≤ e ∧
        e ≤ hi * (1 + unitRoundoff) ^ (3 * (i + 1)) := by
  have hu0 := unitRoundoff_pos
  have hu1 := unitRoundoff_lt_one
  have hm0 : 0 ≤ 1 - unitRoundoff := by linarith
  have hm1 : 1 - unitRoundoff ≤ 1 := by linarith
  have hM1 : 1 ≤ 1 + unitRoundoff := by linarith
  intro rest
  induction rest with
  | nil => intro prev lo hi i _ _ _ hlt; simp at hlt
  | cons x t ih =>
    intro prev lo hi i hlo hpl hph hlt hall
    have hx := hall x (by simp)
    obtain ⟨s1, s2⟩ := emaStep_fl_bounds h k hk0 hk1 x prev lo hi hlo hx.1 hpl hx.2 hph
    have hhi : 0 ≤ hi := le_trans (le_trans hlo hpl) hph
    cases i with
    | zero =>
      exact ⟨fl (fl (x * k) + fl (prev * fl (1 - k))), by simp [emaLoop_fl],
        by simpa using s1, by simpa using s2⟩
    | succ j =>
      have hlo3 : lo * (1 - unitRoundoff) ^ 3 ≤ lo :=
        mul_le_of_le_one_right hlo (pow_le_one₀ hm0 hm1)
      have hhi3 : hi ≤ hi * (1 + unitRoundoff) ^ 3 :=
        le_mul_of_one_le_right hhi (one_le_pow₀ hM1)
      obtain ⟨e, he, h1, h2⟩ := ih (fl (fl (x * k) + fl (prev * fl (1 - k))))
        (lo * (1 - unitRoundoff) ^ 3) (hi * (1 + unitRoundoff) ^ 3) j
        (mul_nonneg hlo (pow_nonneg hm0 3)) s1 s2 (by simpa using hlt)
        (fun y hy => by
          have := hall y (by
            rw [List.take_succ_cons]
            exact List.mem_cons_of_mem _ hy)
          exact ⟨le_trans hlo3 this.1, le_trans this.2 hhi3⟩)
      refine ⟨e, by simpa [emaLoop_fl] using he, ?_, ?_⟩
      · calc lo * (1 - unitRoundoff) ^ (3 * (j + 1 + 1))
            = lo * (1 - unitRoundoff) ^ 3 * (1 - unitRoundoff) ^ (3 * (j + 1)) := by ring
          _ ≤ e := h1
      · calc e ≤ hi * (1 + unitRoundoff) ^ 3 * (1 + unitRoundoff) ^ (3 * (j + 1)) := h2
          _ = hi * (1 + unitRoundoff) ^ (3 * (j + 1 + 1)) := by ring

theorem emaFactor_fl_bounds {fl : ℚ → ℚ} (h : RoundsToNearest fl) (period : ℕ)
    (hp : 1 ≤ period) :
    0 ≤ fl (2 / fl ((period : ℚ) + 1)) ∧ fl (2 / fl ((period : ℚ) + 1)) ≤ 1 := by
  have hp1 : (2 : ℚ) ≤ (period : ℚ) + 1 := by
    have : (1 : ℚ) ≤ period := by exact_mod_cast hp
    linarith
  have h2 : 2 ≤ fl ((period : ℚ) + 1) := by
    have := h.mono hp1
    rwa [h.two] at this
  have hq0 : (0 : ℚ) ≤ 2 / fl ((period : ℚ) + 1) := by positivity
  have hq1 : 2 / fl ((period : ℚ) + 1) ≤ 1 := by
    rw [div_le_one (by linarith)]
    exact h2
  refine ⟨h.nonneg hq0, ?_⟩
  have := h.mono hq1
  rwa [h.one] at this

theorem calculateEMA_fl_bounds {fl : ℚ → ℚ} (h : RoundsToNearest fl) (first : ℚ)
    (rest : List ℚ) (period : ℕ) (hp : 1 ≤ period) (hnn : ∀ x ∈ first :: rest, 0 ≤ x)
    (i : ℕ) (hi : i < (first :: rest).length) :
    ∃ e, (calculateEMA_fl fl (first :: rest) period)[i]? = some (some e) ∧
      jsMin ((first :: rest).take (i + 1)) * (1 - unitRoundoff) ^ (3 * i) ≤ e ∧
      e ≤ jsMax ((first :: rest).take (i + 1)) * (1 + unitRoundoff) ^ (3 * i) := by
  have hfirst : first ∈ (first :: rest).take (i + 1) := by simp
  cases i with
  | zero =>
    refine ⟨first, by simp [calculateEMA_fl], ?_, ?_⟩ <;> simp [jsMin, jsMax]
  | succ j =>
    obtain ⟨hk0, hk1⟩ := emaFactor_fl_bounds h period hp
    have hne : (first :: rest).take (j + 1 + 1) ≠ [] := by simp
    have hmin0 : 0 ≤ jsMin ((first :: rest).take (j + 1 + 1)) :=
      hnn _ (List.mem_of_mem_take (jsMin_mem hne))
    obtain ⟨e, he, h1, h2⟩ := emaLoop_fl_bounds h _ hk0 hk1 rest first
      (jsMin ((first :: rest).take (j + 1 + 1))) (jsMax ((first :: rest).take (j + 1 + 1)))
      j hmin0 (jsMin_le hfirst) (le_jsMax hfirst) (by simpa using hi)
      (fun y hy => by
        have hy2 : y ∈ (first :: rest).take (j + 1 + 1) := by
          rw [List.take_succ_cons]
          exact List.mem_cons_of_mem _ hy
        exact ⟨jsMin_le hy2, le_jsMax hy2⟩)
    refine ⟨e, ?_, h1, h2⟩
    simp only [calculateEMA_fl, List.getElem?_cons_succ, List.getElem?_map, he,
      Option.map_some']

/-- C39 (counterexample): in double arithmetic the EMA of the constant series `[7, 7, 7]`
with period 9 is `[7, 7 + 2^-50, 7 + 2^-49]` (printed `7.000000000000001` and
`7.000000000000002`): the second and third values exceed the maximum 7 of the series
and are not the constant. -/
theorem calculateEMA_fl_constant_counterexample :
    calculateEMA_fl roundDouble [7, 7, 7] 9
        = [some 7, some (7 + 1 / 2 ^ 50), some (7 + 1 / 2 ^ 49)] ∧
      jsMax [7, 7, 7] < (7 : ℚ) + 1 / 2 ^ 50 ∧
      calculateEMA_fl roundDouble (List.replicate 3 7) 9 ≠ List.replicate 3 (some 7) := by
  decide!

/-- C39 (amended): for every non-empty series `first :: rest` of non-negative numbers
and `period ≥ 1`, every value of `calculateEMA` in double arithmetic at an index `i`
lies between the minimum and the maximum of the first `i + 1` values of the series up
to the rounding of `3 * i` operations: it is at least `min * (1 - 2^-53) ^ (3 * i)` and
at most `max * (1 + 2^-53) ^ (3 * i)`; the value at index 0 is `first` itself, and the
EMA of the constant series `c, ..., c` stays within these bounds around `c`. -/
theorem calculateEMA_fl_between (first : ℚ) (rest : List ℚ) (period : ℕ) (hp : 1 ≤ period)
    (hnn : ∀ x ∈ first :: rest, 0 ≤ x) :
    (∀ i, i < (first :: rest).length →
      ∃ e, (calculateEMA_fl roundDouble (first :: rest) period)[i]? = some (some e) ∧
        jsMin ((first :: rest).take (i + 1)) * (1 - unitRoundoff) ^ (3 * i) ≤ e ∧
        e ≤ jsMax ((first :: rest).take (i + 1)) * (1 + unitRoundoff) ^ (3 * i)) ∧
    (calculateEMA_fl roundDouble (first :: rest) period)[0]? = some (some first) ∧
    (∀ (c : ℚ) (n i : ℕ), 0 ≤ c → i < n + 1 →
      ∃ e, (calculateEMA_fl roundDouble (List.replicate (n + 1) c) period)[i]? = some (some e) ∧
        c * (1 - unitRoundoff) ^ (3 * i) ≤ e ∧ e ≤ c * (1 + unitRoundoff) ^ (3 * i)) := by
  refine ⟨fun i hi => calculateEMA_fl_bounds roundDouble_roundsToNearest first rest period hp
    hnn i hi, by simp [calculateEMA_fl], ?_⟩
  intro c n i hc hi
  obtain ⟨e, he, h1, h2⟩ := calculateEMA_fl_bounds roundDouble_roundsToNearest c
    (List.replicate n c) period hp
    (fun x hx => by
      rw [← List.replicate_succ] at hx
      rw [List.eq_of_mem_replicate hx]
      exact hc)
    i (by simpa using hi)
  rw [← List.replicate_succ, List.take_replicate] at h1 h2
  rw [jsMin_replicate _ _ (by omega)] at h1
  rw [jsMax_replicate _ _ (by omega)] at h2
  rw [← List.replicate_succ] at he
  exact ⟨e, he, h1, h2⟩

/-- Witness for C39 (amended): the series `[7, 7, 7]` with period 9. -/
theorem calculateEMA_fl_between_witness :
    1 ≤ 9 ∧ (∀ x ∈ (7 : ℚ) :: [7, 7], 0 ≤ x) ∧
      (∀ i, i < ((7 : ℚ) :: [7, 7]).length →
        ∃ e, (calculateEMA_fl roundDouble ((7 : ℚ) :: [7, 7]) 9)[i]? = some (some e) ∧
          jsMin (((7 : ℚ) :: [7, 7]).take (i + 1)) * (1 - unitRoundoff) ^ (3 * i) ≤ e ∧
          e ≤ jsMax (((7 : ℚ) :: [7, 7]).take (i + 1)) * (1 + unitRoundoff) ^ (3 * i)) ∧
      (calculateEMA_fl roundDouble ((7 : ℚ) :: [7, 7]) 9)[0]? = some (some 7) ∧
      (∀ (c : ℚ) (n i : ℕ), 0 ≤ c → i < n + 1 →
        ∃ e, (calculateEMA_fl roundDouble (List.replicate (n + 1) c) 9)[i]? = some (some e) ∧
          c * (1 - unitRoundoff) ^ (3 * i) ≤ e ∧ e ≤ c * (1 + unitRoundoff) ^ (3 * i)) :=
  ⟨by decide, by norm_num, calculateEMA_fl_between 7 [7, 7] 9 (by decide) (by norm_num)⟩

/-! ### MACD in rounded arithmetic -/

theorem calculateEMA_fl_length (fl : ℚ → ℚ) (first : ℚ) (rest : List ℚ) (period : ℕ) :
    (calculateEMA_fl fl (first :: rest) period).length = rest.length + 1 := by
  simp [calculateEMA_fl, emaLoop_fl_length]

theorem lastValue_calculateEMA_fl_replicate {fl : ℚ → ℚ} (h : RoundsToNearest fl) (c : ℚ)
    (n period : ℕ) (hp : 1 ≤ period) (hc : 0 ≤ c) :
    ∃ e, lastValue (calculateEMA_fl fl (List.replicate (n + 1) c) period) = JSNum.fin e ∧
      c * (1 - unitRoundoff) ^ (3 * n) ≤ e ∧ e ≤ c * (1 + unitRoundoff) ^ (3 * n) := by
  obtain ⟨e, he, h1, h2⟩ := calculateEMA_fl_bounds h c (List.replicate n c) period hp
    (fun x hx => by
      rw [← List.replicate_succ] at hx
      rw [List.eq_of_mem_replicate hx]
      exact hc)
    n (by simp)
  rw [← List.replicate_succ, List.take_replicate] at h1 h2
  rw [jsMin_replicate _ _ (by omega)] at h1
  rw [jsMax_replicate _ _ (by omega)] at h2
  refine ⟨e, ?_, h1, h2⟩
  have hlen := calculateEMA_fl_length fl c (List.replicate n c) period
  rw [List.length_replicate] at hlen
  rw [← List.replicate_succ] at he hlen
  unfold lastValue
  rw [List.getLast?_eq_getElem?, hlen, Nat.add_sub_cancel, he]

theorem calculateMACD_fl_id (data : List ℚ) :
    calculateMACD_fl id data = calculateMACD data := by
  have hr : ∀ x : JSNum, x.round id = x := by
    intro x
    cases x <;> rfl
  simp only [calculateMACD_fl, calculateMACD, calculateEMA_fl_id, hr]

/-- C12 (counterexample): in double arithmetic the MACD of two closes of `60000.01`
(the double nearest to it) is `2^-37`, about `7.28e-12`, and the signal is bullish, not
value 0 with signal bearish. -/
theorem calculateMACD_fl_constant_counterexample :
    (calculateMACD_fl roundDouble (List.replicate 2 (roundDouble (6000001 / 100)))).value
        = JSNum.fin (1 / 2 ^ 37) ∧
      (calculateMACD_fl roundDouble (List.replicate 2 (roundDouble (6000001 / 100)))).signal
        = TrendLabel.bullish ∧
      roundDouble (6000001 / 100) = 8246338582709535 / 2 ^ 37 := by
  decide!

/-- C12 (amended): for every non-empty constant series of a non-negative number `c`,
`n + 1` elements long, `calculateMACD` in double arithmetic returns a finite value `v`
that is zero up to the rounding drift of the two moving averages,
`|v| ≤ c * ((1 + 2^-53) ^ (3 * n) - (1 - 2^-53) ^ (3 * n)) * (1 + 2^-53)`; the signal is
bullish when `v > 0` and bearish otherwise, and for a single element the value is 0 and
the signal bearish. -/
theorem calculateMACD_fl_constant (c : ℚ) (n : ℕ) (hc : 0 ≤ c) :
    (∃ v, (calculateMACD_fl roundDouble (List.replicate (n + 1) c)).value = JSNum.fin v ∧
      |v| ≤ c * ((1 + unitRoundoff) ^ (3 * n) - (1 - unitRoundoff) ^ (3 * n))
        * (1 + unitRoundoff) ∧
      ((calculateMACD_fl roundDouble (List.replicate (n + 1) c)).signal = TrendLabel.bullish
        ↔ 0 < v) ∧
      ((calculateMACD_fl roundDouble (List.replicate (n + 1) c)).signal = TrendLabel.bearish
        ↔ v ≤ 0)) ∧
    (calculateMACD_fl roundDouble [c]).value = JSNum.fin 0 ∧
    (calculateMACD_fl roundDouble [c]).signal = TrendLabel.bearish := by
  have h := roundDouble_roundsToNearest
  constructor
  · obtain ⟨a, ha, a1, a2⟩ := lastValue_calculateEMA_fl_replicate h c n 12 (by decide) hc
    obtain ⟨b, hb, b1, b2⟩ := lastValue_calculateEMA_fl_replicate h c n 26 (by decide) hc
    refine ⟨roundDouble (a - b), ?_, ?_, ?_, ?_⟩
    · simp only [calculateMACD_fl, ha, hb, JSNum.sub, JSNum.round]
    · have hd : |a - b| ≤ c * ((1 + unitRoundoff) ^ (3 * n) - (1 - unitRoundoff) ^ (3 * n)) := by
        rw [abs_le]
        constructor <;> linarith
      calc |roundDouble (a - b)| ≤ |a - b| * (1 + unitRoundoff) := h.abs_le _
        _ ≤ c * ((1 + unitRoundoff) ^ (3 * n) - (1 - unitRoundoff) ^ (3 * n))
            * (1 + unitRoundoff) :=
          mul_le_mul_of_nonneg_right hd (by linarith [unitRoundoff_pos])
    · simp only [calculateMACD_fl, ha, hb, JSNum.sub, JSNum.round, JSNum.gt, JSNum.lt]
      simp
    · simp only [calculateMACD_fl, ha, hb, JSNum.sub, JSNum.round, JSNum.gt, JSNum.lt]
      simp
  · simp [calculateMACD_fl, calculateEMA_fl, emaLoop_fl, lastValue, JSNum.sub, JSNum.round,
      roundDouble_zero, JSNum.gt, JSNum.lt]

/-- Witness for C12 (amended): three closes of 100. -/
theorem calculateMACD_fl_constant_witness :
    (0 : ℚ) ≤ 100 ∧
      (∃ v, (calculateMACD_fl roundDouble (List.replicate (2 + 1) 100)).value = JSNum.fin v ∧
        |v| ≤ 100 * ((1 + unitRoundoff) ^ (3 * 2) - (1 - unitRoundoff) ^ (3 * 2))
          * (1 + unitRoundoff) ∧
        ((calculateMACD_fl roundDouble (List.replicate (2 + 1) 100)).signal
          = TrendLabel.bullish ↔ 0 < v) ∧
        ((calculateMACD_fl roundDouble (List.replicate (2 + 1) 100)).signal
          = TrendLabel.bearish ↔ v ≤ 0)) ∧
      (calculateMACD_fl roundDouble [100]).value = JSNum.fin 0 ∧
      (calculateMACD_fl roundDouble [100]).signal = TrendLabel.bearish :=
  ⟨by norm_num, calculateMACD_fl_constant 100 2 (by norm_num)⟩

/-! ### Relative strength index in rounded arithmetic -/

theorem foldl_fl_nonneg {fl : ℚ → ℚ} (h : RoundsToNearest fl) :
    ∀ (xs : List ℚ) (acc : ℚ), 0 ≤ acc → (∀ x ∈ xs, 0 ≤ x) →
      0 ≤ xs.foldl (fun a b => fl (a + b)) acc := by
  intro xs
  induction xs with
  | nil => intro acc hacc _; exact hacc
  | cons x t ih =>
    intro acc hacc hx
    rw [List.foldl_cons]
    exact ih _ (h.nonneg (add_nonneg hacc (hx x (List.mem_cons_self _ _))))
      (fun y hy => hx y (List.mem_cons_of_mem _ hy))

theorem rsiGains_fl_nonneg {fl : ℚ → ℚ} (h : RoundsToNearest fl) (window : List ℚ)
    (period : ℕ) : 0 ≤ rsiGains_fl fl window period := by
  unfold rsiGains_fl jsSum_fl
  apply h.nonneg
  apply div_nonneg _ (Nat.cast_nonneg _)
  apply foldl_fl_nonneg h _ _ (le_refl _)
  intro x hx
  have := (List.mem_filter.mp hx).2
  exact le_of_lt (by simpa using this)

theorem rsiOfWindow_fl_zero_loss {fl : ℚ → ℚ} (h : RoundsToNearest fl) (window : List ℚ)
    (period : ℕ) (hw : ∀ c ∈ window, 0 ≤ c) :
    rsiOfWindow_fl fl window period
      = fl (100 - fl (100 / fl (1 + rsiGains_fl fl window period))) := by
  have hneg : (window.filter fun c => c < 0) = [] := by
    rw [List.filter_eq_nil_iff]
    intro c hc
    simpa using hw c hc
  have hidem : fl (rsiGains_fl fl window period) = rsiGains_fl fl window period := by
    unfold rsiGains_fl
    exact h.idem _
  simp only [rsiOfWindow_fl, hneg, jsSum_fl, List.foldl_nil, abs_zero, zero_div, h.zero,
    if_true, div_one, hidem]

theorem rsiValue_fl_bounds {fl : ℚ → ℚ} (h : RoundsToNearest fl) (g : ℚ) (hg : 0 ≤ g) :
    0 ≤ fl (100 - fl (100 / fl (1 + g))) ∧ fl (100 - fl (100 / fl (1 + g))) ≤ 100 ∧
      (g ≤ 2 ^ 50 → fl (100 - fl (100 / fl (1 + g))) < 100) := by
  have hs1 : 1 ≤ fl (1 + g) := by
    have := h.mono (show (1 : ℚ) ≤ 1 + g by linarith)
    rwa [h.one] at this
  have hs0 : 0 < fl (1 + g) := by linarith
  have hq0 : 0 ≤ 100 / fl (1 + g) := by positivity
  have hq1 : 100 / fl (1 + g) ≤ 100 := by
    rw [div_le_iff₀ hs0]
    linarith
  have hd0 : 0 ≤ fl (100 / fl (1 + g)) := h.nonneg hq0
  have hd1 : fl (100 / fl (1 + g)) ≤ 100 := by
    have := h.mono hq1
    rwa [h.hundred] at this
  have hv0 : 0 ≤ 100 - fl (100 / fl (1 + g)) := by linarith
  refine ⟨h.nonneg hv0, ?_, ?_⟩
  · have := h.mono (show 100 - fl (100 / fl (1 + g)) ≤ 100 by linarith)
    rwa [h.hundred] at this
  · intro hg50
    have hu0 := unitRoundoff_pos
    have hs2 : fl (1 + g) ≤ (1 + 2 ^ 50) * (1 + unitRoundoff) :=
      le_trans (h.upper (by linarith))
        (mul_le_mul_of_nonneg_right (by linarith) (by linarith))
    have hq2 : 100 / ((1 + 2 ^ 50) * (1 + unitRoundoff)) ≤ 100 / fl (1 + g) :=
      div_le_div_of_nonneg_left (by norm_num) hs0 hs2
    have hd2 : 100 / ((1 + 2 ^ 50) * (1 + unitRoundoff)) * (1 - unitRoundoff)
        ≤ fl (100 / fl (1 + g)) :=
      le_trans (mul_le_mul_of_nonneg_right hq2 (by linarith [unitRoundoff_lt_one]))
        (h.lower hq0)
    have hv1 : fl (100 - fl (100 / fl (1 + g)))
        ≤ (100 - fl (100 / fl (1 + g))) * (1 + unitRoundoff) := h.upper hv0
    have hnum : (100 - 100 / ((1 + 2 ^ 50) * (1 + unitRoundoff)) * (1 - unitRoundoff))
        * (1 + unitRoundoff) < 100 := by
      norm_num [unitRoundoff]
    have hv2 : (100 - fl (100 / fl (1 + g))) * (1 + unitRoundoff)
        ≤ (100 - 100 / ((1 + 2 ^ 50) * (1 + unitRoundoff)) * (1 - unitRoundoff))
          * (1 + unitRoundoff) :=
      mul_le_mul_of_nonneg_right (by linarith) (by linarith)
    linarith

theorem calculateRSI_fl_length (fl : ℚ → ℚ) (data : List ℚ) (period : ℕ) :
    (calculateRSI_fl fl data period).length = (priceChanges_fl fl data).length - period := by
  simp [calculateRSI_fl]

theorem calculateRSI_fl_getElem (fl : ℚ → ℚ) (data : List ℚ) (period j : ℕ)
    (hj : j < (calculateRSI_fl fl data period).length) :
    (calculateRSI_fl fl data period)[j]? =
      some (rsiOfWindow_fl fl (jsSlice (priceChanges_fl fl data) j (j + period)) period) := by
  have hj2 : j < (priceChanges_fl fl data).length - period := by
    simpa [calculateRSI_fl] using hj
  simp only [calculateRSI_fl, List.getElem?_map, List.getElem?_range hj2, Option.map_some']
  rw [Nat.add_sub_cancel_left, Nat.add_comm]

theorem priceChanges_fl_id : ∀ data : List ℚ, priceChanges_fl id data = priceChanges data
  | [] => rfl
  | [_] => rfl
  | a :: b :: rest => by
    rw [priceChanges_fl, priceChanges, priceChanges_fl_id (b :: rest)]
    rfl

theorem calculateRSI_fl_id (data : List ℚ) (period : ℕ) :
    calculateRSI_fl id data period = calculateRSI data period := by
  simp only [calculateRSI_fl, calculateRSI, priceChanges_fl_id]
  rfl

/-- C6 (counterexample): in double arithmetic `calculateRSI([0, 1e17, 2e17], 1)` is
`[100]`: the only window read has no negative difference, its gain is `1e17`, and the
value `100 - 100 / (1 + 1e17)` rounds to exactly 100. -/
theorem calculateRSI_fl_exactly_hundred_counterexample :
    calculateRSI_fl roundDouble [0, 10 ^ 17, 2 * 10 ^ 17] 1 = [100] ∧
      jsSlice (priceChanges_fl roundDouble [0, 10 ^ 17, 2 * 10 ^ 17]) 0 (0 + 1) = [10 ^ 17] ∧
      roundDouble (10 ^ 17) = 10 ^ 17 ∧ roundDouble (2 * 10 ^ 17) = 2 * 10 ^ 17 := by
  decide!

/-- C6 (amended): for every window of `calculateRSI` without a negative difference the
zero-loss denominator is replaced by 1 and the value is `100 - 100 / (1 + g)` evaluated
in double arithmetic, with `g` the rounded sum of the window's positive differences
divided by `period`; the value lies between 0 and 100, it is strictly below 100 whenever
`g ≤ 2^50`, and for larger `g` it can be exactly 100. -/
theorem calculateRSI_fl_zero_loss_window (data : List ℚ) (period : ℕ) (_hp : 1 ≤ period) (j : ℕ)
    (hj : j < (calculateRSI_fl roundDouble data period).length)
    (hw : ∀ c ∈ jsSlice (priceChanges_fl roundDouble data) j (j + period), 0 ≤ c) :
    ∃ v, (calculateRSI_fl roundDouble data period)[j]? = some v ∧
      v = roundDouble (100 - roundDouble (100 / roundDouble (1 +
          rsiGains_fl roundDouble (jsSlice (priceChanges_fl roundDouble data) j (j + period))
            period))) ∧
      0 ≤ v ∧ v ≤ 100 ∧
      (rsiGains_fl roundDouble (jsSlice (priceChanges_fl roundDouble data) j (j + period))
          period ≤ 2 ^ 50 → v < 100) := by
  have h := roundDouble_roundsToNearest
  obtain ⟨b1, b2, b3⟩ := rsiValue_fl_bounds h _
    (rsiGains_fl_nonneg h (jsSlice (priceChanges_fl roundDouble data) j (j + period)) period)
  refine ⟨_, ?_, rfl, b1, b2, b3⟩
  rw [calculateRSI_fl_getElem _ _ _ _ hj, rsiOfWindow_fl_zero_loss h _ _ hw]

/-- Witness for C6 (amended): the rising series `[1, 2, 4, 7]` with period 2, first
window. -/
theorem calculateRSI_fl_zero_loss_window_witness :
    1 ≤ 2 ∧ 0 < (calculateRSI_fl roundDouble [1, 2, 4, 7] 2).length ∧
      (∀ c ∈ jsSlice (priceChanges_fl roundDouble [1, 2, 4, 7]) 0 (0 + 2), 0 ≤ c) ∧
      ∃ v, (calculateRSI_fl roundDouble [1, 2, 4, 7] 2)[0]? = some v ∧
        v = roundDouble (100 - roundDouble (100 / roundDouble (1 +
            rsiGains_fl roundDouble (jsSlice (priceChanges_fl roundDouble [1, 2, 4, 7]) 0 (0 + 2))
              2))) ∧
        0 ≤ v ∧ v ≤ 100 ∧
        (rsiGains_fl roundDouble (jsSlice (priceChanges_fl roundDouble [1, 2, 4, 7]) 0 (0 + 2))
            2 ≤ 2 ^ 50 → v < 100) :=
  ⟨by decide, by decide!, by decide!,
    calculateRSI_fl_zero_loss_window [1, 2, 4, 7] 2 (by decide) 0 (by decide!) (by decide!)⟩

/-! ### Fibonacci levels in rounded arithmetic -/

theorem calculateFibonacciLevels_fl_id (data : List Candle) :
    calculateFibonacciLevels_fl id data = calculateFibonacciLevels data := rfl

theorem fibonacciLevel_fl_bounds {fl : ℚ → ℚ} (h : RoundsToNearest fl) (L H r : ℚ)
    (hL : 0 ≤ L) (hLH : L ≤ H) (hr : 0 ≤ r) :
    (L + r * (H - L)) * (1 - unitRoundoff) ^ 4 ≤ fl (L + fl (fl (H - L) * fl r)) ∧
      fl (L + fl (fl (H - L) * fl r)) ≤ (L + r * (H - L)) * (1 + unitRoundoff) ^ 4 := by
  have hu0 := unitRoundoff_pos
  have hu1 := unitRoundoff_lt_one
  have hm0 : 0 ≤ 1 - unitRoundoff := by linarith
  have hm1 : 1 - unitRoundoff ≤ 1 := by linarith
  have hM0 : 0 ≤ 1 + unitRoundoff := by linarith
  have hM1 : 1 ≤ 1 + unitRoundoff := by linarith
  have hd : 0 ≤ H - L := by linarith
  have hR : 0 ≤ fl (H - L) := h.nonneg hd
  have hr' : 0 ≤ fl r := h.nonneg hr
  have hP : 0 ≤ fl (H - L) * fl r := mul_nonneg hR hr'
  have hS : 0 ≤ L + fl (fl (H - L) * fl r) := add_nonneg hL (h.nonneg hP)
  have hdr : 0 ≤ r * (H - L) := mul_nonneg hr hd
  constructor
  · have a1 : (H - L) * (1 - unitRoundoff) * (r * (1 - unitRoundoff)) ≤ fl (H - L) * fl r :=
      mul_le_mul (h.lower hd) (h.lower hr) (mul_nonneg hr hm0) hR
    have a2 : (H - L) * (1 - unitRoundoff) * (r * (1 - unitRoundoff)) * (1 - unitRoundoff)
        ≤ fl (fl (H - L) * fl r) :=
      le_trans (mul_le_mul_of_nonneg_right a1 hm0) (h.lower hP)
    have a3 : (L + r * (H - L) * (1 - unitRoundoff) ^ 3) * (1 - unitRoundoff)
        ≤ fl (L + fl (fl (H - L) * fl r)) := by
      refine le_trans (mul_le_mul_of_nonneg_right ?_ hm0) (h.lower hS)
      linarith
    have a4 : L * (1 - unitRoundoff) ^ 3 ≤ L :=
      mul_le_of_le_one_right hL (pow_le_one₀ hm0 hm1)
    calc (L + r * (H - L)) * (1 - unitRoundoff) ^ 4
        = (L * (1 - unitRoundoff) ^ 3 + r * (H - L) * (1 - unitRoundoff) ^ 3)
            * (1 - unitRoundoff) := by ring
      _ ≤ (L + r * (H - L) * (1 - unitRoundoff) ^ 3) * (1 - unitRoundoff) :=
          mul_le_mul_of_nonneg_right (by linarith) hm0
      _ ≤ fl (L + fl (fl (H - L) * fl r)) := a3
  · have b1 : fl (H - L) * fl r ≤ (H - L) * (1 + unitRoundoff) * (r * (1 + unitRoundoff)) :=
      mul_le_mul (h.upper hd) (h.upper hr) hr' (mul_nonneg hd hM0)
    have b2 : fl (fl (H - L) * fl r)
        ≤ (H - L) * (1 + unitRoundoff) * (r * (1 + unitRoundoff)) * (1 + unitRoundoff) :=
      le_trans (h.upper hP) (mul_le_mul_of_nonneg_right b1 hM0)
    have b3 : fl (L + fl (fl (H - L) * fl r))
        ≤ (L + r * (H - L) * (1 + unitRoundoff) ^ 3) * (1 + unitRoundoff) := by
      refine le_trans (h.upper hS) (mul_le_mul_of_nonneg_right ?_ hM0)
      linarith
    have b4 : L ≤ L * (1 + unitRoundoff) ^ 3 :=
      le_mul_of_one_le_right hL (one_le_pow₀ hM1)
    calc fl (L + fl (fl (H - L) * fl r))
        ≤ (L + r * (H - L) * (1 + unitRoundoff) ^ 3) * (1 + unitRoundoff) := b3
      _ ≤ (L * (1 + unitRoundoff) ^ 3 + r * (H - L) * (1 + unitRoundoff) ^ 3)
            * (1 + unitRoundoff) :=
          mul_le_mul_of_nonneg_right (by linarith) hM0
      _ = (L + r * (H - L)) * (1 + unitRoundoff) ^ 4 := by ring

theorem fibonacciLevels_hundred_two_hundred :
    roundDouble (200 - 100) = 100 ∧
      roundDouble (100 + roundDouble (roundDouble (200 - 100) * roundDouble (236 / 1000)))
        = roundDouble (1236 / 10) ∧
      roundDouble (100 + roundDouble (roundDouble (200 - 100) * roundDouble (382 / 1000)))
        = roundDouble (1382 / 10) ∧
      roundDouble (100 + roundDouble (roundDouble (200 - 100) * roundDouble (1 / 2))) = 150 ∧
      roundDouble (100 + roundDouble (roundDouble (200 - 100) * roundDouble (618 / 1000)))
        = roundDouble (1618 / 10) ∧
      roundDouble (100 + roundDouble (roundDouble (200 - 100) * roundDouble (786 / 1000)))
        = roundDouble (1786 / 10) + 1 / 2 ^ 45 := by
  decide!

/-- C21 (counterexample): for 50 candles with low 100 and high 200 the 78.6% level
computed in double arithmetic is `178.60000000000002`, one unit in the last place
(`2^-45`) above the double `178.6`, so the listed value 178.6 is not returned. -/
theorem calculateFibonacciLevels_fl_counterexample :
    (calculateFibonacciLevels_fl roundDouble (List.replicate 50 wideCandle)).map
        (fun f => f.level786) = some (roundDouble (1786 / 10) + 1 / 2 ^ 45) ∧
      roundDouble (1786 / 10) + 1 / 2 ^ 45 ≠ roundDouble (1786 / 10) ∧
      roundDouble (1786 / 10) + 1 / 2 ^ 45 ≠ 1786 / 10 := by
  decide!

/-- C21 (amended): `calculateFibonacciLevels` returns none for fewer than 50 candles;
for 50 or more, with `L` the minimum low and `H` the maximum high of the trailing 100
candles, it returns, in double arithmetic, `range = H - L` rounded, the 0% level `L`, the
100% level `H`, and for `r = 0.236, 0.382, 0.5, 0.618, 0.786` the level `L + range * r`
with the literal, the product and the sum rounded; for `0 ≤ L ≤ H` each of these lies
within the factors `(1 - 2^-53)^4` and `(1 + 2^-53)^4` of the exact `L + r * (H - L)`.
For `L = 100` and `H = 200` the levels are the doubles 100, 123.6, 138.2, 150, 161.8
and 200, and the 78.6% level is `178.60000000000002`, the double above 178.6. -/
theorem calculateFibonacciLevels_fl_spec (data : List Candle) :
    (data.length < 50 → calculateFibonacciLevels_fl roundDouble data = none) ∧
    (50 ≤ data.length →
      ∃ (L H : ℚ) (f : FibonacciLevels),
        (∃ c ∈ data.drop (data.length - 100), c.low = L) ∧
        (∀ c ∈ data.drop (data.length - 100), L ≤ c.low) ∧
        (∃ c ∈ data.drop (data.length - 100), c.high = H) ∧
        (∀ c ∈ data.drop (data.length - 100), c.high ≤ H) ∧
        calculateFibonacciLevels_fl roundDouble data = some f ∧
        f.range = roundDouble (H - L) ∧
        f.level0 = L ∧
        f.level236 = roundDouble (L + roundDouble (roundDouble (H - L) * roundDouble (236 / 1000))) ∧
        f.level382 = roundDouble (L + roundDouble (roundDouble (H - L) * roundDouble (382 / 1000))) ∧
        f.level50 = roundDouble (L + roundDouble (roundDouble (H - L) * roundDouble (1 / 2))) ∧
        f.level618 = roundDouble (L + roundDouble (roundDouble (H - L) * roundDouble (618 / 1000))) ∧
        f.level786 = roundDouble (L + roundDouble (roundDouble (H - L) * roundDouble (786 / 1000))) ∧
        f.level100 = H ∧
        (0 ≤ L → L ≤ H →
          ∀ p ∈ [(f.level236, (236 : ℚ) / 1000), (f.level382, 382 / 1000), (f.level50, 1 / 2),
              (f.level618, 618 / 1000), (f.level786, 786 / 1000)],
            (L + p.2 * (H - L)) * (1 - unitRoundoff) ^ 4 ≤ p.1 ∧
              p.1 ≤ (L + p.2 * (H - L)) * (1 + unitRoundoff) ^ 4) ∧
        (L = 100 → H = 200 →
          f.level0 = 100 ∧ f.level236 = roundDouble (1236 / 10) ∧
          f.level382 = roundDouble (1382 / 10) ∧ f.level50 = 150 ∧
          f.level618 = roundDouble (1618 / 10) ∧
          f.level786 = roundDouble (1786 / 10) + 1 / 2 ^ 45 ∧
          f.level100 = 200)) := by
  constructor
  · intro h
    simp [calculateFibonacciLevels_fl, h]
  · intro h
    have hne : data.drop (data.length - 100) ≠ [] := by
      intro h0
      have := congrArg List.length h0
      simp only [List.length_drop, List.length_nil] at this
      omega
    have hlo : (data.drop (data.length - 100)).map (fun c => c.low) ≠ [] := by
      simpa using hne
    have hhi : (data.drop (data.length - 100)).map (fun c => c.high) ≠ [] := by
      simpa using hne
    have hrec : jsSliceLast data 100 = data.drop (data.length - 100) := by
      simp [jsSliceLast]
    refine ⟨jsMin ((data.drop (data.length - 100)).map fun c => c.low),
      jsMax ((data.drop (data.length - 100)).map fun c => c.high), ?_⟩
    simp only [calculateFibonacciLevels_fl, if_neg (not_lt.mpr h), hrec]
    refine ⟨_, ?_, ?_, ?_, ?_, rfl, rfl, rfl, rfl, rfl, rfl, rfl, rfl, rfl, ?_, ?_⟩
    · obtain ⟨c, hc, hcl⟩ := List.mem_map.mp (jsMin_mem hlo)
      exact ⟨c, hc, hcl⟩
    · intro c hc
      exact jsMin_le (List.mem_map_of_mem (fun c : Candle => c.low) hc)
    · obtain ⟨c, hc, hch⟩ := List.mem_map.mp (jsMax_mem hhi)
      exact ⟨c, hc, hch⟩
    · intro c hc
      exact le_jsMax (List.mem_map_of_mem (fun c : Candle => c.high) hc)
    · intro hL hLH p hp
      simp only [List.mem_cons, List.mem_singleton, List.not_mem_nil, or_false] at hp
      rcases hp with rfl | rfl | rfl | rfl | rfl <;>
        exact fibonacciLevel_fl_bounds roundDouble_roundsToNearest _ _ _ hL hLH (by norm_num)
    · intro hL hH
      simp only [hL, hH]
      obtain ⟨-, h1, h2, h3, h4, h5⟩ := fibonacciLevels_hundred_two_hundred
      exact ⟨trivial, h1, h2, h3, h4, h5, trivial⟩

/-! ### Smart money concepts in rounded arithmetic -/

theorem orderBlocksAt_fl_iff (fl : ℚ → ℚ) (recent : List Candle) (i : ℕ) :
    (orderBlocksAt_fl fl recent i ≠ [] ↔
      |fl ((candleAt recent i).close - (candleAt recent i).open_)|
          > fl (fl ((candleAt recent i).high - (candleAt recent i).low) * fl (7 / 10)) ∧
        (((candleAt recent i).close > (candleAt recent i).open_ ∧
            (candleAt recent (i - 1)).close < (candleAt recent (i - 1)).open_) ∨
          ((candleAt recent i).close < (candleAt recent i).open_ ∧
            (candleAt recent (i - 1)).close > (candleAt recent (i - 1)).open_))) := by
  simp only [orderBlocksAt_fl]
  constructor
  · intro h
    by_contra hn
    apply h
    rw [if_neg, if_neg]
    · rfl
    · exact fun hc => hn ⟨hc.2.1, Or.inr ⟨hc.1, hc.2.2⟩⟩
    · exact fun hc => hn ⟨hc.2.1, Or.inl ⟨hc.1, hc.2.2⟩⟩
  · rintro ⟨hb, ⟨h1, h2⟩ | ⟨h1, h2⟩⟩
    · rw [if_pos ⟨h1, hb, h2⟩]
      simp
    · rw [if_neg (fun hc => absurd hc.1 (not_lt.mpr (le_of_lt h1))), if_pos ⟨h1, hb, h2⟩]
      simp

theorem mem_scanOrderBlocks_fl (fl : ℚ → ℚ) (recent : List Candle) (ob : OrderBlock) :
    ob ∈ scanOrderBlocks_fl fl recent ↔
      ∃ i, 3 ≤ i ∧ i + 1 < recent.length ∧ ob ∈ orderBlocksAt_fl fl recent i := by
  simp only [scanOrderBlocks_fl, List.mem_flatten, List.mem_map, List.mem_range]
  constructor
  · rintro ⟨l, ⟨j, hj, rfl⟩, hob⟩
    exact ⟨j + 3, by omega, by omega, hob⟩
  · rintro ⟨i, h3, hi, hob⟩
    exact ⟨_, ⟨i - 3, by omega, rfl⟩, by rw [Nat.sub_add_cancel h3]; exact hob⟩

theorem detectSmartMoneyConcepts_fl_id (data : List Candle) :
    detectSmartMoneyConcepts_fl id data = detectSmartMoneyConcepts data := by
  have hr : ∀ x : JSNum, x.round id = x := by
    intro x
    cases x <;> rfl
  have h1 : ∀ recent i, orderBlocksAt_fl id recent i = orderBlocksAt recent i := by
    intro recent i
    simp only [orderBlocksAt_fl, orderBlocksAt, hr, id]
  have h2 : ∀ recent i, fairValueGapsAt_fl id recent i = fairValueGapsAt recent i := by
    intro recent i
    simp only [fairValueGapsAt_fl, fairValueGapsAt, id]
  simp only [detectSmartMoneyConcepts_fl, detectSmartMoneyConcepts, scanOrderBlocks_fl,
    scanOrderBlocks, scanFairValueGaps_fl, scanFairValueGaps, h1, h2]

/-- C32 (counterexample): in `orderBlockData` the scanned bar 10 rises after the falling
bar 9, its body is 7 and its range 10, and the double product `10 * 0.7` is exactly 7:
the body is exactly 70% of the range, yet the scan in double arithmetic reports no order
block. -/
theorem detectSmartMoneyConcepts_fl_seventy_counterexample :
    roundDouble ((candleAt (jsSliceLast orderBlockData 50) 10).close
        - (candleAt (jsSliceLast orderBlockData 50) 10).open_) = 7 ∧
    roundDouble ((candleAt (jsSliceLast orderBlockData 50) 10).high
        - (candleAt (jsSliceLast orderBlockData 50) 10).low) = 10 ∧
    roundDouble (10 * roundDouble (7 / 10)) = 7 ∧
    (candleAt (jsSliceLast orderBlockData 50) 10).close
      > (candleAt (jsSliceLast orderBlockData 50) 10).open_ ∧
    (candleAt (jsSliceLast orderBlockData 50) 9).close
      < (candleAt (jsSliceLast orderBlockData 50) 9).open_ ∧
    (orderBlocksAt_fl roundDouble (jsSliceLast orderBlockData 50) 10).length = 0 ∧
    (scanOrderBlocks_fl roundDouble (jsSliceLast orderBlockData 50)).length = 0 ∧
    (detectSmartMoneyConcepts_fl roundDouble orderBlockData).orderBlocks.length = 0 := by
  decide!

/-- C32 (amended): in `detectSmartMoneyConcepts`, before truncation, the bars scanned
are those at the indices 3 to length - 2 of the last 50 candles, and a bar is reported as
an order block if and only if its body |close - open| is strictly greater than the double
product `range * 0.7` of its range high - low and its direction is opposite to that of
the bar before it (rising after a falling bar, or falling after a rising bar); the
returned orderBlocks and fairValueGaps are the last entries of the scanned lists, at
most 3 of each.  A body of exactly 70% of the range is reported or not according to the
rounding of the product: `10 * 0.7` is 7, so a body of 7 on a range of 10 is not
reported, while `90 * 0.7` is `62.99999999999999`, so the bar of `wideBlockData` with
body 63 and range 90 is reported, with strength `0.7`. -/
theorem detectSmartMoneyConcepts_fl_order_blocks (data : List Candle) :
    (∀ i, orderBlocksAt_fl roundDouble (jsSliceLast data 50) i ≠ [] ↔
      |roundDouble ((candleAt (jsSliceLast data 50) i).close
            - (candleAt (jsSliceLast data 50) i).open_)|
          > roundDouble (roundDouble ((candleAt (jsSliceLast data 50) i).high
            - (candleAt (jsSliceLast data 50) i).low) * roundDouble (7 / 10)) ∧
        (((candleAt (jsSliceLast data 50) i).close
              > (candleAt (jsSliceLast data 50) i).open_ ∧
            (candleAt (jsSliceLast data 50) (i - 1)).close
              < (candleAt (jsSliceLast data 50) (i - 1)).open_) ∨
          ((candleAt (jsSliceLast data 50) i).close
              < (candleAt (jsSliceLast data 50) i).open_ ∧
            (candleAt (jsSliceLast data 50) (i - 1)).close
              > (candleAt (jsSliceLast data 50) (i - 1)).open_))) ∧
    (∀ ob, ob ∈ scanOrderBlocks_fl roundDouble (jsSliceLast data 50) ↔
      ∃ i, 3 ≤ i ∧ i + 1 < (jsSliceLast data 50).length ∧
        ob ∈ orderBlocksAt_fl roundDouble (jsSliceLast data 50) i) ∧
    List.IsSuffix (detectSmartMoneyConcepts_fl roundDouble data).orderBlocks
      (scanOrderBlocks_fl roundDouble (jsSliceLast data 50)) ∧
    List.IsSuffix (detectSmartMoneyConcepts_fl roundDouble data).fairValueGaps
      (scanFairValueGaps_fl roundDouble (jsSliceLast data 50)) ∧
    (detectSmartMoneyConcepts_fl roundDouble data).orderBlocks.length ≤ 3 ∧
    (detectSmartMoneyConcepts_fl roundDouble data).fairValueGaps.length ≤ 3 ∧
    (50 ≤ data.length →
      (detectSmartMoneyConcepts_fl roundDouble data).orderBlocks.length
          = min 3 (scanOrderBlocks_fl roundDouble (jsSliceLast data 50)).length ∧
        (detectSmartMoneyConcepts_fl roundDouble data).fairValueGaps.length
          = min 3 (scanFairValueGaps_fl roundDouble (jsSliceLast data 50)).length) ∧
    roundDouble (10 * roundDouble (7 / 10)) = 7 ∧
    roundDouble (90 * roundDouble (7 / 10)) < 63 ∧
    (detectSmartMoneyConcepts_fl roundDouble wideBlockData).orderBlocks.map
        (fun ob => (ob.type, ob.price, ob.strength))
      = [(TrendLabel.bullish, 99, JSNum.fin (roundDouble (7 / 10)))] := by
  refine ⟨fun i => orderBlocksAt_fl_iff _ _ i, fun ob => mem_scanOrderBlocks_fl _ _ ob, ?_⟩
  have ho := jsSliceLast_three_suffix (scanOrderBlocks_fl roundDouble (jsSliceLast data 50))
  have hf := jsSliceLast_three_suffix (scanFairValueGaps_fl roundDouble (jsSliceLast data 50))
  have hc : roundDouble (10 * roundDouble (7 / 10)) = 7 ∧
      roundDouble (90 * roundDouble (7 / 10)) < 63 ∧
      (detectSmartMoneyConcepts_fl roundDouble wideBlockData).orderBlocks.map
          (fun ob => (ob.type, ob.price, ob.strength))
        = [(TrendLabel.bullish, 99, JSNum.fin (roundDouble (7 / 10)))] := by
    decide!
  by_cases hlen : data.length < 50
  · simp only [detectSmartMoneyConcepts_fl, if_pos hlen]
    exact ⟨List.nil_suffix, List.nil_suffix, by simp, by simp, fun h => by omega, hc⟩
  · simp only [detectSmartMoneyConcepts_fl, if_neg hlen]
    exact ⟨ho.1, hf.1, by rw [ho.2]; omega, by rw [hf.2]; omega, fun _ => ⟨ho.2, hf.2⟩, hc⟩

/-! ### Clustering of price levels in rounded arithmetic -/

theorem foldl_fl_bounds {fl : ℚ → ℚ} (h : RoundsToNearest fl) :
    ∀ (rest : List ℚ) (acc E : ℚ) (j : ℕ), 0 ≤ E →
      E * (1 - unitRoundoff) ^ j ≤ acc → acc ≤ E * (1 + unitRoundoff) ^ j →
      (∀ y ∈ rest, 0 ≤ y) →
      (E + rest.sum) * (1 - unitRoundoff) ^ (j + rest.length)
          ≤ rest.foldl (fun a b => fl (a + b)) acc ∧
        rest.foldl (fun a b => fl (a + b)) acc
          ≤ (E + rest.sum) * (1 + unitRoundoff) ^ (j + rest.length) := by
  have hu0 := unitRoundoff_pos
  have hu1 := unitRoundoff_lt_one
  have hm0 : 0 ≤ 1 - unitRoundoff := by linarith
  have hm1 : 1 - unitRoundoff ≤ 1 := by linarith
  have hM0 : 0 ≤ 1 + unitRoundoff := by linarith
  have hM1 : 1 ≤ 1 + unitRoundoff := by linarith
  intro rest
  induction rest with
  | nil =>
    intro acc E j _ h1 h2 _
    simpa using ⟨h1, h2⟩
  | cons y t ih =>
    intro acc E j hE h1 h2 hy
    have hy0 : 0 ≤ y := hy y (List.mem_cons_self _ _)
    have hacc : 0 ≤ acc := le_trans (mul_nonneg hE (pow_nonneg hm0 j)) h1
    have hs : 0 ≤ acc + y := add_nonneg hacc hy0
    have hyl : y * (1 - unitRoundoff) ^ j ≤ y :=
      mul_le_of_le_one_right hy0 (pow_le_one₀ hm0 hm1)
    have hyu : y ≤ y * (1 + unitRoundoff) ^ j :=
      le_mul_of_one_le_right hy0 (one_le_pow₀ hM1)
    have l1 : (E + y) * (1 - unitRoundoff) ^ (j + 1) ≤ fl (acc + y) := by
      refine le_trans ?_ (h.lower hs)
      rw [pow_succ, ← mul_assoc]
      apply mul_le_mul_of_nonneg_right _ hm0
      linarith
    have l2 : fl (acc + y) ≤ (E + y) * (1 + unitRoundoff) ^ (j + 1) := by
      refine le_trans (h.upper hs) ?_
      rw [pow_succ, ← mul_assoc]
      apply mul_le_mul_of_nonneg_right _ hM0
      linarith
    obtain ⟨r1, r2⟩ := ih (fl (acc + y)) (E + y) (j + 1) (add_nonneg hE hy0) l1 l2
      (fun z hz => hy z (List.mem_cons_of_mem _ hz))
    rw [List.foldl_cons, List.sum_cons, List.length_cons]
    have e1 : E + (y + t.sum) = E + y + t.sum := by ring
    have e2 : j + (t.length + 1) = j + 1 + t.length := by ring
    rw [e1, e2]
    exact ⟨r1, r2⟩

theorem clusterMean_fl_bounds {fl : ℚ → ℚ} (h : RoundsToNearest fl) (first : ℚ)
    (more : List ℚ) (hnn : ∀ y ∈ first :: more, 0 ≤ y) :
    (first :: more).sum / (first :: more).length
          * (1 - unitRoundoff) ^ (first :: more).length
        ≤ clusterMean_fl fl (first :: more) ∧
      clusterMean_fl fl (first :: more)
        ≤ (first :: more).sum / (first :: more).length
          * (1 + unitRoundoff) ^ (first :: more).length := by
  have hu0 := unitRoundoff_pos
  have hu1 := unitRoundoff_lt_one
  have hm0 : 0 ≤ 1 - unitRoundoff := by linarith
  have hM0 : 0 ≤ 1 + unitRoundoff := by linarith
  have hf0 : 0 ≤ first := hnn first (List.mem_cons_self _ _)
  obtain ⟨s1, s2⟩ := foldl_fl_bounds h more first first 0 hf0 (by simp) (by simp)
    (fun y hy => hnn y (List.mem_cons_of_mem _ hy))
  have hlen : (0 : ℚ) < ((first :: more).length : ℚ) := by
    have : 0 < (first :: more).length := by simp
    exact_mod_cast this
  have hS0 : 0 ≤ more.foldl (fun a b => fl (a + b)) first :=
    foldl_fl_nonneg h more first hf0 (fun y hy => hnn y (List.mem_cons_of_mem _ hy))
  have hq0 : 0 ≤ more.foldl (fun a b => fl (a + b)) first / ((first :: more).length : ℚ) :=
    div_nonneg hS0 (le_of_lt hlen)
  simp only [zero_add] at s1 s2
  simp only [clusterMean_fl, jsReduceSum_fl, List.sum_cons]
  constructor
  · refine le_trans ?_ (h.lower hq0)
    rw [List.length_cons, pow_succ, ← mul_assoc]
    apply mul_le_mul_of_nonneg_right _ hm0
    rw [div_mul_eq_mul_div]
    exact div_le_div_of_nonneg_right s1 (le_of_lt hlen)
  · refine le_trans (h.upper hq0) ?_
    rw [List.length_cons, pow_succ, ← mul_assoc]
    apply mul_le_mul_of_nonneg_right _ hM0
    rw [div_mul_eq_mul_div]
    exact div_le_div_of_nonneg_right s2 (le_of_lt hlen)


theorem clusterMean_fl_range {fl : ℚ → ℚ} (h : RoundsToNearest fl) (first : ℚ)
    (more : List ℚ) (lo hi : ℚ) (N : ℕ) (hlo : 0 ≤ lo) (hN : (first :: more).length ≤ N)
    (hall : ∀ y ∈ first :: more, lo ≤ y ∧ y ≤ hi) :
    lo * (1 - unitRoundoff) ^ N ≤ clusterMean_fl fl (first :: more) ∧
      clusterMean_fl fl (first :: more) ≤ hi * (1 + unitRoundoff) ^ N := by
  have hu0 := unitRoundoff_pos
  have hu1 := unitRoundoff_lt_one
  have hm0 : 0 ≤ 1 - unitRoundoff := by linarith
  have hm1 : 1 - unitRoundoff ≤ 1 := by linarith
  have hM1 : 1 ≤ 1 + unitRoundoff := by linarith
  obtain ⟨m1, m2⟩ := clusterMean_fl_bounds h first more
    (fun y hy => le_trans hlo (hall y hy).1)
  have hlen : (0 : ℚ) < ((first :: more).length : ℚ) := by
    have : 0 < (first :: more).length := by simp
    exact_mod_cast this
  have hhi : 0 ≤ hi := le_trans hlo (le_trans (hall first (List.mem_cons_self _ _)).1
    (hall first (List.mem_cons_self _ _)).2)
  have a1 : lo ≤ (first :: more).sum / (first :: more).length := by
    rw [le_div_iff₀ hlen]
    have := List.card_nsmul_le_sum (first :: more) lo (fun y hy => (hall y hy).1)
    rw [nsmul_eq_mul] at this
    linarith
  have a2 : (first :: more).sum / (first :: more).length ≤ hi := by
    rw [div_le_iff₀ hlen]
    have := List.sum_le_card_nsmul (first :: more) hi (fun y hy => (hall y hy).2)
    rw [nsmul_eq_mul] at this
    linarith
  constructor
  · refine le_trans ?_ m1
    exact mul_le_mul a1 (pow_le_pow_of_le_one hm0 hm1 hN) (pow_nonneg hm0 N)
      (le_trans hlo a1)
  · refine le_trans m2 ?_
    exact mul_le_mul a2 (pow_le_pow_right₀ hM1 hN) (pow_nonneg (by linarith) _) hhi

theorem clusterLoop_fl_bounds {fl : ℚ → ℚ} (h : RoundsToNearest fl) (threshold lo hi : ℚ)
    (N : ℕ) (hlo : 0 ≤ lo) :
    ∀ (rest clusters : List ℚ) (first : ℚ) (more : List ℚ),
      (first :: more).length + rest.length ≤ N →
      (∀ c ∈ clusters, lo * (1 - unitRoundoff) ^ N ≤ c ∧ c ≤ hi * (1 + unitRoundoff) ^ N) →
      (∀ y ∈ first :: more, lo ≤ y ∧ y ≤ hi) →
      (∀ z ∈ rest, lo ≤ z ∧ z ≤ hi) →
      clusterLoop_fl fl threshold clusters (first :: more) rest ≠ [] ∧
      (clusterLoop_fl fl threshold clusters (first :: more) rest).length
        ≤ clusters.length + 1 + rest.length ∧
      ∀ c ∈ clusterLoop_fl fl threshold clusters (first :: more) rest,
        lo * (1 - unitRoundoff) ^ N ≤ c ∧ c ≤ hi * (1 + unitRoundoff) ^ N := by
  intro rest
  induction rest with
  | nil =>
    intro clusters first more hN hcb hyb _
    simp only [clusterLoop_fl]
    refine ⟨by simp, by simp, ?_⟩
    intro c hc
    rcases List.mem_append.mp hc with hc | hc
    · exact hcb c hc
    · rw [List.mem_singleton.mp hc]
      exact clusterMean_fl_range h first more lo hi N hlo (by simpa using hN) hyb
  | cons x r ih =>
    intro clusters first more hN hcb hyb hzb
    have hx := hzb x (List.mem_cons_self _ _)
    simp only [clusterLoop_fl, List.headD_cons]
    simp only [List.length_cons] at hN
    split_ifs with htest
    · have key := ih clusters first (more ++ [x])
        (by simp only [List.length_cons, List.length_append, List.length_nil]; omega)
        hcb
        (by
          intro y hy
          rcases List.mem_cons.mp hy with rfl | hy
          · exact hyb _ (List.mem_cons_self _ _)
          · rcases List.mem_append.mp hy with hy | hy
            · exact hyb y (List.mem_cons_of_mem _ hy)
            · rw [List.mem_singleton.mp hy]
              exact hx)
        (fun z hz => hzb z (List.mem_cons_of_mem _ hz))
      rw [List.cons_append]
      refine ⟨key.1, ?_, key.2.2⟩
      have := key.2.1
      simp only [List.length_cons]
      omega
    · have key := ih (clusters ++ [clusterMean_fl fl (first :: more)]) x []
        (by rw [List.length_singleton]; omega)
        (by
          intro c hc
          rcases List.mem_append.mp hc with hc | hc
          · exact hcb c hc
          · rw [List.mem_singleton.mp hc]
            exact clusterMean_fl_range h first more lo hi N hlo
              (by simp only [List.length_cons]; omega) hyb)
        (by
          intro y hy
          rw [List.mem_singleton.mp hy]
          exact hx)
        (fun z hz => hzb z (List.mem_cons_of_mem _ hz))
      refine ⟨key.1, ?_, key.2.2⟩
      have hlen := key.2.1
      rw [List.length_append, List.length_singleton] at hlen
      rw [List.length_cons]
      omega

theorem cluster_test_fl_eq (fl : ℚ → ℚ) (x first t : ℚ) (h : first ≠ 0) :
    (((JSNum.fin (fl (x - first))).div (JSNum.fin first)).round fl).lt (JSNum.fin t)
      = decide (fl (fl (x - first) / first) < t) := by
  simp [JSNum.div, h, JSNum.round, JSNum.lt]

theorem cluster_test_fl_fails {fl : ℚ → ℚ} (h : RoundsToNearest fl) (x first : ℚ)
    (hf : 0 < first) (hfx : first ≤ x)
    (hfail : ¬ fl (fl (x - first) / first) < fl (1 / 500)) :
    first * (1 + 1 / 501) ≤ x := by
  have hu0 := unitRoundoff_pos
  have hu1 := unitRoundoff_lt_one
  have hM0 : 0 < 1 + unitRoundoff := by linarith
  have hd : 0 ≤ x - first := by linarith
  have hD : 0 ≤ fl (x - first) := h.nonneg hd
  have hz : 0 ≤ fl (x - first) / first := div_nonneg hD (le_of_lt hf)
  have t1 : 1 / 500 * (1 - unitRoundoff) ≤ fl (1 / 500) := h.lower (by norm_num)
  have t2 : fl (fl (x - first) / first) ≤ fl (x - first) / first * (1 + unitRoundoff) :=
    h.upper hz
  have t3 : fl (x - first) ≤ (x - first) * (1 + unitRoundoff) := h.upper hd
  have t4 : 1 / 500 * (1 - unitRoundoff) ≤ fl (x - first) / first * (1 + unitRoundoff) :=
    le_trans t1 (le_trans (not_lt.mp hfail) t2)
  have t5 : 1 / 500 * (1 - unitRoundoff) * first
      ≤ fl (x - first) * (1 + unitRoundoff) := by
    have := mul_le_mul_of_nonneg_right t4 (le_of_lt hf)
    rwa [mul_assoc (fl (x - first) / first), mul_comm (1 + unitRoundoff) first,
      ← mul_assoc (fl (x - first) / first), div_mul_cancel₀ _ (ne_of_gt hf)] at this
  have t6 : 1 / 500 * (1 - unitRoundoff) * first
      ≤ (x - first) * (1 + unitRoundoff) * (1 + unitRoundoff) :=
    le_trans t5 (mul_le_mul_of_nonneg_right t3 (le_of_lt hM0))
  have hc : (1 + unitRoundoff) * (1 + unitRoundoff) / 501 < 1 / 500 * (1 - unitRoundoff) := by
    norm_num [unitRoundoff]
  by_contra hlt
  push_neg at hlt
  have hd2 : x - first < first / 501 := by linarith
  have t7 : (x - first) * (1 + unitRoundoff) * (1 + unitRoundoff)
      < first / 501 * (1 + unitRoundoff) * (1 + unitRoundoff) :=
    mul_lt_mul_of_pos_right (mul_lt_mul_of_pos_right hd2 hM0) hM0
  have t8 : first / 501 * (1 + unitRoundoff) * (1 + unitRoundoff)
      = first * ((1 + unitRoundoff) * (1 + unitRoundoff) / 501) := by ring
  have t9 : first * ((1 + unitRoundoff) * (1 + unitRoundoff) / 501)
      < first * (1 / 500 * (1 - unitRoundoff)) := mul_lt_mul_of_pos_left hc hf
  linarith

theorem clusterMean_gap (m N : ℕ) (hm : 1 ≤ m) (hmN : m ≤ N) (hN : N ≤ 10 ^ 6) :
    (1 - 1 / (502 * (m : ℚ))) * (1 + unitRoundoff) ^ m < (1 - unitRoundoff) ^ N := by
  have hu0 := unitRoundoff_pos
  have hu1 := unitRoundoff_lt_one
  have ha1 : (1 : ℚ) ≤ m := by exact_mod_cast hm
  have hab : (m : ℚ) ≤ N := by exact_mod_cast hmN
  have hb : (N : ℚ) ≤ 10 ^ 6 := by exact_mod_cast hN
  have hb1 : 1 - (N : ℚ) * unitRoundoff ≤ (1 - unitRoundoff) ^ N := by
    have := one_add_mul_le_pow (show (-2 : ℚ) ≤ -unitRoundoff by linarith) N
    simpa [sub_eq_add_neg] using this
  have hb2 : 1 - (m : ℚ) * unitRoundoff ≤ (1 - unitRoundoff) ^ m := by
    have := one_add_mul_le_pow (show (-2 : ℚ) ≤ -unitRoundoff by linarith) m
    simpa [sub_eq_add_neg] using this
  have hP : 0 < (1 + unitRoundoff) ^ m := by positivity
  have hprod : (1 + unitRoundoff) ^ m * (1 - unitRoundoff) ^ m ≤ 1 := by
    rw [← mul_pow]
    apply pow_le_one₀
    · nlinarith
    · nlinarith
  have hau : 0 < 1 - (m : ℚ) * unitRoundoff := by
    have : (m : ℚ) * unitRoundoff ≤ 10 ^ 6 * unitRoundoff :=
      mul_le_mul_of_nonneg_right (le_trans hab hb) (le_of_lt hu0)
    have : (10 : ℚ) ^ 6 * unitRoundoff < 1 := by norm_num [unitRoundoff]
    linarith
  have hP2 : (1 + unitRoundoff) ^ m * (1 - (m : ℚ) * unitRoundoff) ≤ 1 :=
    le_trans (mul_le_mul_of_nonneg_left hb2 (le_of_lt hP)) hprod
  have hc0 : 0 ≤ 1 - 1 / (502 * (m : ℚ)) := by
    rw [sub_nonneg, div_le_one (by positivity)]
    linarith
  have hkey : 1 - 1 / (502 * (m : ℚ))
      < (1 - (N : ℚ) * unitRoundoff) * (1 - (m : ℚ) * unitRoundoff) := by
    have h1 : ((m : ℚ) + N) * unitRoundoff < 1 / (502 * (m : ℚ)) := by
      rw [lt_div_iff₀ (by positivity)]
      have h2 : ((m : ℚ) + N) * (502 * (m : ℚ)) ≤ 2 * 10 ^ 6 * (502 * 10 ^ 6) := by
        apply mul_le_mul (by linarith) (by linarith) (by positivity) (by norm_num)
      have h3 : ((m : ℚ) + N) * unitRoundoff * (502 * (m : ℚ))
          = ((m : ℚ) + N) * (502 * (m : ℚ)) * unitRoundoff := by ring
      rw [h3]
      have h4 : ((m : ℚ) + N) * (502 * (m : ℚ)) * unitRoundoff
          ≤ 2 * 10 ^ 6 * (502 * 10 ^ 6) * unitRoundoff :=
        mul_le_mul_of_nonneg_right h2 (le_of_lt hu0)
      have h5 : (2 : ℚ) * 10 ^ 6 * (502 * 10 ^ 6) * unitRoundoff < 1 := by
        norm_num [unitRoundoff]
      linarith
    have h6 : 0 ≤ (N : ℚ) * unitRoundoff * ((m : ℚ) * unitRoundoff) := by positivity
    nlinarith
  have hstep : (1 - 1 / (502 * (m : ℚ))) * (1 + unitRoundoff) ^ m
        * (1 - (m : ℚ) * unitRoundoff)
      < (1 - (N : ℚ) * unitRoundoff) * (1 - (m : ℚ) * unitRoundoff) := by
    calc (1 - 1 / (502 * (m : ℚ))) * (1 + unitRoundoff) ^ m * (1 - (m : ℚ) * unitRoundoff)
        = (1 - 1 / (502 * (m : ℚ)))
            * ((1 + unitRoundoff) ^ m * (1 - (m : ℚ) * unitRoundoff)) := by ring
      _ ≤ (1 - 1 / (502 * (m : ℚ))) * 1 := mul_le_mul_of_nonneg_left hP2 hc0
      _ = 1 - 1 / (502 * (m : ℚ)) := mul_one _
      _ < (1 - (N : ℚ) * unitRoundoff) * (1 - (m : ℚ) * unitRoundoff) := hkey
  exact lt_of_lt_of_le (lt_of_mul_lt_mul_right hstep (le_of_lt hau)) hb1

theorem clusterMean_fl_ge {fl : ℚ → ℚ} (h : RoundsToNearest fl) (first : ℚ)
    (more : List ℚ) (lo : ℚ) (N : ℕ) (hlo : 0 ≤ lo) (hN : (first :: more).length ≤ N)
    (hall : ∀ y ∈ first :: more, lo ≤ y) :
    lo * (1 - unitRoundoff) ^ N ≤ clusterMean_fl fl (first :: more) := by
  have hu0 := unitRoundoff_pos
  have hu1 := unitRoundoff_lt_one
  have hm0 : 0 ≤ 1 - unitRoundoff := by linarith
  have hm1 : 1 - unitRoundoff ≤ 1 := by linarith
  obtain ⟨m1, -⟩ := clusterMean_fl_bounds h first more (fun y hy => le_trans hlo (hall y hy))
  have hlen : (0 : ℚ) < ((first :: more).length : ℚ) := by
    have : 0 < (first :: more).length := by simp
    exact_mod_cast this
  have a1 : lo ≤ (first :: more).sum / (first :: more).length := by
    rw [le_div_iff₀ hlen]
    have := List.card_nsmul_le_sum (first :: more) lo hall
    rw [nsmul_eq_mul] at this
    linarith
  refine le_trans ?_ m1
  exact mul_le_mul a1 (pow_le_pow_of_le_one hm0 hm1 hN) (pow_nonneg hm0 N) (le_trans hlo a1)

theorem clusterMean_fl_lt_next {fl : ℚ → ℚ} (h : RoundsToNearest fl) (first : ℚ)
    (more : List ℚ) (x : ℚ) (N : ℕ) (hf : 0 < first) (hN : (first :: more).length ≤ N)
    (hN6 : N ≤ 10 ^ 6) (hge : ∀ y ∈ first :: more, first ≤ y)
    (hle : ∀ y ∈ first :: more, y ≤ x) (hx : first * (1 + 1 / 501) ≤ x) :
    clusterMean_fl fl (first :: more) < x * (1 - unitRoundoff) ^ N := by
  have hx0 : 0 < x := by nlinarith
  obtain ⟨-, m2⟩ := clusterMean_fl_bounds h first more
    (fun y hy => le_trans (le_of_lt hf) (hge y hy))
  have hm : 1 ≤ (first :: more).length := by simp
  have hlen : (0 : ℚ) < ((first :: more).length : ℚ) := by exact_mod_cast hm
  have hsum : (first :: more).sum ≤ x * (((first :: more).length : ℚ) - 1 / 502) := by
    have h1 := List.sum_le_card_nsmul more x (fun y hy => hle y (List.mem_cons_of_mem _ hy))
    rw [nsmul_eq_mul] at h1
    rw [List.sum_cons, List.length_cons]
    push_cast
    have h2 : first ≤ x * (501 / 502) := by linarith
    linarith
  have hmean : (first :: more).sum / (first :: more).length
      ≤ x * (1 - 1 / (502 * ((first :: more).length : ℚ))) := by
    rw [div_le_iff₀ hlen]
    have : x * (1 - 1 / (502 * ((first :: more).length : ℚ))) * ((first :: more).length : ℚ)
        = x * (((first :: more).length : ℚ) - 1 / 502) := by
      field_simp
      ring
    rw [this]
    exact hsum
  have hgap := clusterMean_gap (first :: more).length N hm hN hN6
  calc clusterMean_fl fl (first :: more)
      ≤ (first :: more).sum / (first :: more).length
          * (1 + unitRoundoff) ^ (first :: more).length := m2
    _ ≤ x * (1 - 1 / (502 * ((first :: more).length : ℚ)))
          * (1 + unitRoundoff) ^ (first :: more).length :=
        mul_le_mul_of_nonneg_right hmean (pow_nonneg (by linarith [unitRoundoff_pos]) _)
    _ = x * ((1 - 1 / (502 * ((first :: more).length : ℚ)))
          * (1 + unitRoundoff) ^ (first :: more).length) := by ring
    _ < x * (1 - unitRoundoff) ^ N := mul_lt_mul_of_pos_left hgap hx0

theorem clusterLoop_fl_sorted {fl : ℚ → ℚ} (h : RoundsToNearest fl) (N : ℕ)
    (hN6 : N ≤ 10 ^ 6) :
    ∀ (rest clusters : List ℚ) (first : ℚ) (more : List ℚ),
      0 < first →
      (∀ y ∈ first :: more, first ≤ y) →
      List.Sorted (fun a b : ℚ => a ≤ b) rest →
      (∀ y ∈ first :: more, ∀ z ∈ rest, y ≤ z) →
      List.Sorted (fun a b : ℚ => a < b) clusters →
      (∀ c ∈ clusters, c < first * (1 - unitRoundoff) ^ N) →
      (first :: more).length + rest.length ≤ N →
      List.Sorted (fun a b : ℚ => a < b)
        (clusterLoop_fl fl (fl (1 / 500)) clusters (first :: more) rest) := by
  have hu0 := unitRoundoff_pos
  have hu1 := unitRoundoff_lt_one
  have hm0 : 0 ≤ 1 - unitRoundoff := by linarith
  intro rest
  induction rest with
  | nil =>
    intro clusters first more hfirst hcur _ _ hsorted hlt hN
    have hge := clusterMean_fl_ge h first more first N (le_of_lt hfirst)
      (by simpa using hN) hcur
    simp only [clusterLoop_fl]
    rw [List.Sorted, List.pairwise_append]
    refine ⟨hsorted, List.pairwise_singleton _ _, ?_⟩
    intro a ha b hb
    rw [List.mem_singleton.mp hb]
    exact lt_of_lt_of_le (hlt a ha) hge
  | cons x r ih =>
    intro clusters first more hfirst hcur hrs hle hsorted hlt hN
    have hxr := List.sorted_cons.mp hrs
    have hfx : first ≤ x := hle first (List.mem_cons_self _ _) x (List.mem_cons_self _ _)
    have hx0 : 0 < x := lt_of_lt_of_le hfirst hfx
    simp only [List.length_cons] at hN
    simp only [clusterLoop_fl, List.headD_cons,
      cluster_test_fl_eq fl x first _ (ne_of_gt hfirst), decide_eq_true_eq]
    split_ifs with htest
    · have key := ih clusters first (more ++ [x]) hfirst
        (by
          intro y hy
          rcases List.mem_cons.mp hy with rfl | hy
          · exact le_refl _
          · rcases List.mem_append.mp hy with hy | hy
            · exact hcur y (List.mem_cons_of_mem _ hy)
            · rw [List.mem_singleton.mp hy]
              exact hfx)
        hxr.2
        (by
          intro y hy z hz
          rcases List.mem_cons.mp hy with rfl | hy
          · exact hle _ (List.mem_cons_self _ _) z (List.mem_cons_of_mem _ hz)
          · rcases List.mem_append.mp hy with hy | hy
            · exact hle y (List.mem_cons_of_mem _ hy) z (List.mem_cons_of_mem _ hz)
            · rw [List.mem_singleton.mp hy]
              exact hxr.1 z hz)
        hsorted hlt
        (by simp only [List.length_cons, List.length_append, List.length_nil]; omega)
      rw [List.cons_append]
      exact key
    · have hxge := cluster_test_fl_fails h x first hfirst hfx htest
      have hlen : (first :: more).length ≤ N := by
        simp only [List.length_cons]
        omega
      have hmge := clusterMean_fl_ge h first more first N (le_of_lt hfirst) hlen hcur
      have hmlt := clusterMean_fl_lt_next h first more x N hfirst hlen hN6 hcur
        (fun y hy => hle y hy x (List.mem_cons_self _ _)) hxge
      exact ih (clusters ++ [clusterMean_fl fl (first :: more)]) x [] hx0
        (by
          intro y hy
          rw [List.mem_singleton.mp hy])
        hxr.2
        (by
          intro y hy z hz
          rw [List.mem_singleton.mp hy]
          exact hxr.1 z hz)
        (by
          rw [List.Sorted, List.pairwise_append]
          refine ⟨hsorted, List.pairwise_singleton _ _, ?_⟩
          intro a ha b hb
          rw [List.mem_singleton.mp hb]
          exact lt_of_lt_of_le (hlt a ha) hmge)
        (by
          intro c hc
          rcases List.mem_append.mp hc with hc | hc
          · exact lt_of_lt_of_le (hlt c hc)
              (mul_le_mul_of_nonneg_right hfx (pow_nonneg hm0 N))
          · rw [List.mem_singleton.mp hc]
            exact hmlt)
        (by rw [List.length_singleton]; omega)

theorem clusterLevels_fl_props {fl : ℚ → ℚ} (h : RoundsToNearest fl) (levels : List ℚ)
    (hne : levels ≠ []) (hpos : ∀ x ∈ levels, 0 < x) :
    clusterLevels_fl fl levels ≠ [] ∧
      (clusterLevels_fl fl levels).length ≤ levels.length ∧
      (∀ c ∈ clusterLevels_fl fl levels,
        jsMin levels * (1 - unitRoundoff) ^ levels.length ≤ c ∧
          c ≤ jsMax levels * (1 + unitRoundoff) ^ levels.length) ∧
      (levels.length ≤ 10 ^ 6 →
        List.Sorted (fun a b : ℚ => a < b) (clusterLevels_fl fl levels)) := by
  have hlen0 : levels.length ≠ 0 := fun h => hne (List.length_eq_zero.mp h)
  have hmem : ∀ x, x ∈ levels.insertionSort (fun a b => a ≤ b) ↔ x ∈ levels :=
    fun x => List.mem_insertionSort _
  have hsorted : List.Sorted (fun a b : ℚ => a ≤ b)
      (levels.insertionSort (fun a b => a ≤ b)) := List.sorted_insertionSort _ _
  have hlen := List.length_insertionSort (fun a b : ℚ => a ≤ b) levels
  have hmin0 : 0 ≤ jsMin levels := le_of_lt (hpos _ (jsMin_mem hne))
  unfold clusterLevels_fl clusterLevelsWith_fl
  rw [if_neg hlen0]
  cases hso : levels.insertionSort (fun a b => a ≤ b) with
  | nil =>
    rw [hso] at hlen
    exact absurd hlen.symm hlen0
  | cons a rest =>
    rw [hso] at hmem hsorted hlen
    have ha : 0 < a := hpos a ((hmem a).mp (List.mem_cons_self _ _))
    have hs := List.sorted_cons.mp hsorted
    have hlen2 : [a].length + rest.length ≤ levels.length := by
      simp only [List.length_cons, List.length_nil] at hlen ⊢
      omega
    have key := clusterLoop_fl_bounds h (fl (1 / 500)) (jsMin levels) (jsMax levels)
      levels.length hmin0 rest [] a [] hlen2 (by simp)
      (by
        intro y hy
        rw [List.mem_singleton.mp hy]
        have := (hmem a).mp (List.mem_cons_self _ _)
        exact ⟨jsMin_le this, le_jsMax this⟩)
      (by
        intro z hz
        have := (hmem z).mp (List.mem_cons_of_mem _ hz)
        exact ⟨jsMin_le this, le_jsMax this⟩)
    simp only [List.headD_cons, List.tail_cons]
    refine ⟨key.1, ?_, key.2.2, ?_⟩
    · have h3 := key.2.1
      simp only [List.length_nil, List.length_cons] at h3 hlen
      omega
    · intro hN6
      exact clusterLoop_fl_sorted h levels.length hN6 rest [] a [] ha
        (by
          intro y hy
          rw [List.mem_singleton.mp hy])
        hs.2
        (by
          intro y hy z hz
          rw [List.mem_singleton.mp hy]
          exact hs.1 z hz)
        List.sorted_nil (by simp) hlen2

theorem clusterMean_fl_id (cluster : List ℚ) :
    clusterMean_fl id cluster = clusterMean cluster := by
  cases cluster with
  | nil => simp [clusterMean_fl, clusterMean, jsReduceSum_fl, jsSum]
  | cons x rest =>
    simp only [clusterMean_fl, clusterMean, jsReduceSum_fl, jsSum, id, List.foldl_cons,
      zero_add]

theorem clusterLoop_fl_id (threshold : ℚ) :
    ∀ (rest clusters current : List ℚ),
      clusterLoop_fl id threshold clusters current rest
        = clusterLoop threshold clusters current rest := by
  have hr : ∀ x : JSNum, x.round id = x := by
    intro x
    cases x <;> rfl
  intro rest
  induction rest with
  | nil => intro clusters current; simp [clusterLoop_fl, clusterLoop, clusterMean_fl_id]
  | cons x r ih =>
    intro clusters current
    simp only [clusterLoop_fl, clusterLoop, clusterMean_fl_id, hr, id, ih]

theorem clusterLevels_fl_id (levels : List ℚ) :
    clusterLevels_fl id levels = clusterLevels levels := by
  simp only [clusterLevels_fl, clusterLevelsWith_fl, clusterLevels, clusterLevelsWith,
    clusterLoop_fl_id, id]

/-- C40 (counterexample): in double arithmetic three equal levels `60123.45` cluster to
the single value `60123.44999999999`, one unit in the last place (`2^-37`) below the
minimum of the list, and three equal levels `0.1` cluster to `0.10000000000000002`,
`2^-56` above the maximum. -/
theorem clusterLevels_fl_bounds_counterexample :
    clusterLevels_fl roundDouble (List.replicate 3 (roundDouble (6012345 / 100)))
        = [roundDouble (6012345 / 100) - 1 / 2 ^ 37] ∧
      roundDouble (6012345 / 100) - 1 / 2 ^ 37
        < jsMin (List.replicate 3 (roundDouble (6012345 / 100))) ∧
      clusterLevels_fl roundDouble (List.replicate 3 (roundDouble (1 / 10)))
        = [roundDouble (1 / 10) + 1 / 2 ^ 56] ∧
      jsMax (List.replicate 3 (roundDouble (1 / 10))) < roundDouble (1 / 10) + 1 / 2 ^ 56 := by
  decide!

/-- C40 (amended): for every non-empty list `L` of positive price levels,
`clusterLevels(L)` in double arithmetic is non-empty and no longer than `L`, and every
returned cluster value lies between the minimum and the maximum of `L` up to the
rounding of the mean: at least `min * (1 - 2^-53) ^ n` and at most
`max * (1 + 2^-53) ^ n` for `n` the length of `L`; for lists of at most a million levels
the result is strictly increasing; for the empty list it is the empty list. -/
theorem clusterLevels_fl_sorted_bounded (first : ℚ) (rest : List ℚ)
    (hpos : ∀ x ∈ first :: rest, 0 < x) :
    clusterLevels_fl roundDouble (first :: rest) ≠ [] ∧
      (clusterLevels_fl roundDouble (first :: rest)).length ≤ (first :: rest).length ∧
      (∀ c ∈ clusterLevels_fl roundDouble (first :: rest),
        jsMin (first :: rest) * (1 - unitRoundoff) ^ (first :: rest).length ≤ c ∧
          c ≤ jsMax (first :: rest) * (1 + unitRoundoff) ^ (first :: rest).length) ∧
      ((first :: rest).length ≤ 10 ^ 6 →
        List.Sorted (fun a b : ℚ => a < b) (clusterLevels_fl roundDouble (first :: rest))) ∧
      clusterLevels_fl roundDouble [] = [] := by
  obtain ⟨h1, h2, h3, h4⟩ := clusterLevels_fl_props roundDouble_roundsToNearest
    (first :: rest) (List.cons_ne_nil _ _) hpos
  exact ⟨h1, h2, h3, h4, rfl⟩

/-- Witness for C40 (amended): the levels `[1002, 1000, 1001]`, which cluster to
`[1000.5, 1002]`. -/
theorem clusterLevels_fl_sorted_bounded_witness :
    (∀ x ∈ (1002 : ℚ) :: [1000, 1001], 0 < x) ∧
      clusterLevels_fl roundDouble ((1002 : ℚ) :: [1000, 1001]) = [2001 / 2, 1002] ∧
      (clusterLevels_fl roundDouble ((1002 : ℚ) :: [1000, 1001]) ≠ [] ∧
        (clusterLevels_fl roundDouble ((1002 : ℚ) :: [1000, 1001])).length
          ≤ ((1002 : ℚ) :: [1000, 1001]).length ∧
        (∀ c ∈ clusterLevels_fl roundDouble ((1002 : ℚ) :: [1000, 1001]),
          jsMin ((1002 : ℚ) :: [1000, 1001])
              * (1 - unitRoundoff) ^ ((1002 : ℚ) :: [1000, 1001]).length ≤ c ∧
            c ≤ jsMax ((1002 : ℚ) :: [1000, 1001])
              * (1 + unitRoundoff) ^ ((1002 : ℚ) :: [1000, 1001]).length) ∧
        (((1002 : ℚ) :: [1000, 1001]).length ≤ 10 ^ 6 →
          List.Sorted (fun a b : ℚ => a < b)
            (clusterLevels_fl roundDouble ((1002 : ℚ) :: [1000, 1001]))) ∧
        clusterLevels_fl roundDouble [] = []) :=
  ⟨by norm_num, by decide!, clusterLevels_fl_sorted_bounded 1002 [1000, 1001] (by norm_num)⟩

/-! ### A flat series in rounded arithmetic -/

theorem calculateSMA_fl_id (data : List ℚ) (period : ℕ) :
    calculateSMA_fl id data period = calculateSMA data period := rfl

theorem priceChanges_fl_replicate {fl : ℚ → ℚ} (h : RoundsToNearest fl) (n : ℕ) (c : ℚ) :
    priceChanges_fl fl (List.replicate n c) = List.replicate (n - 1) 0 := by
  induction n with
  | zero => simp [priceChanges_fl]
  | succ m ih =>
    cases m with
    | zero => simp [priceChanges_fl]
    | succ k =>
      simp only [List.replicate_succ] at ih ⊢
      rw [priceChanges_fl, ih, sub_self, h.zero]
      simp [List.replicate_succ]

theorem rsiOfWindow_fl_all_zero {fl : ℚ → ℚ} (h : RoundsToNearest fl) (window : List ℚ)
    (period : ℕ) (hz : ∀ c ∈ window, c = 0) : rsiOfWindow_fl fl window period = 0 := by
  have hw : ∀ c ∈ window, 0 ≤ c := fun c hc => le_of_eq (hz c hc).symm
  have hf : (window.filter fun c => c > 0) = [] := by
    rw [List.filter_eq_nil_iff]
    intro c hc
    simp [hz c hc]
  rw [rsiOfWindow_fl_zero_loss h window period hw]
  simp only [rsiGains_fl, hf, jsSum_fl, List.foldl_nil, zero_div, h.zero, add_zero, h.one,
    div_one, h.hundred, sub_self]

theorem calculateRSI_fl_replicate {fl : ℚ → ℚ} (h : RoundsToNearest fl) (n : ℕ) (c : ℚ)
    (period : ℕ) :
    calculateRSI_fl fl (List.replicate n c) period = List.replicate (n - 1 - period) 0 := by
  rw [List.eq_replicate_iff]
  refine ⟨by simp [calculateRSI_fl_length, priceChanges_fl_replicate h], ?_⟩
  intro v hv
  simp only [calculateRSI_fl, List.mem_map, List.mem_range] at hv
  obtain ⟨j, -, rfl⟩ := hv
  apply rsiOfWindow_fl_all_zero h
  intro x hx
  have hx2 := mem_jsSlice hx
  rw [priceChanges_fl_replicate h] at hx2
  exact List.eq_of_mem_replicate hx2

theorem calculateSMA_fl_replicate (fl : ℚ → ℚ) (n period : ℕ) (c : ℚ) (hp : 1 ≤ period) :
    calculateSMA_fl fl (List.replicate n c) period
      = List.replicate (n - (period - 1))
          (fl (jsSum_fl fl (List.replicate period c) / period)) := by
  rw [List.eq_replicate_iff]
  refine ⟨by simp [calculateSMA_fl], ?_⟩
  intro b hb
  simp only [calculateSMA_fl, List.mem_map, List.mem_range, List.length_replicate] at hb
  obtain ⟨j, hj, rfl⟩ := hb
  have hmin : min (period - 1 + j + 1 - (period - 1 + j + 1 - period))
      (n - (period - 1 + j + 1 - period)) = period := by omega
  rw [jsSlice_replicate, hmin]

theorem volumeRatio_fl_replicate {fl : ℚ → ℚ} (h : RoundsToNearest fl) (w : ℚ) (hw : 0 < w)
    (n : ℕ) (hn : 20 ≤ n) :
    ∃ r, volumeRatio_fl fl (List.replicate n w) = JSNum.fin r ∧ 7 / 10 ≤ r ∧ r ≤ 3 / 2 := by
  have hu0 := unitRoundoff_pos
  have hu1 := unitRoundoff_lt_one
  have hm0 : 0 ≤ 1 - unitRoundoff := by linarith
  have hM0 : 0 ≤ 1 + unitRoundoff := by linarith
  obtain ⟨m, rfl⟩ : ∃ m, n = m + 20 := ⟨n - 20, by omega⟩
  have e1 : m + 20 - (20 - 1) = m + 1 := by omega
  have hlast : lastNumber (List.replicate (m + 20) w) = JSNum.fin w :=
    lastNumber_replicate (m + 19) w
  obtain ⟨s1, s2⟩ := foldl_fl_bounds h (List.replicate 20 w) 0 0 0 (le_refl _) (by simp)
    (by simp) (fun y hy => by rw [List.eq_of_mem_replicate hy]; exact le_of_lt hw)
  simp only [zero_add, List.sum_replicate, List.length_replicate, nsmul_eq_mul] at s1 s2
  have hS0 : 0 ≤ jsSum_fl fl (List.replicate 20 w) / ((20 : ℕ) : ℚ) := by
    apply div_nonneg _ (by norm_num)
    exact le_trans (mul_nonneg (by positivity) (pow_nonneg hm0 _)) s1
  have a1 : w * (1 - unitRoundoff) ^ 21
      ≤ fl (jsSum_fl fl (List.replicate 20 w) / ((20 : ℕ) : ℚ)) := by
    refine le_trans ?_ (h.lower hS0)
    rw [pow_succ, ← mul_assoc]
    apply mul_le_mul_of_nonneg_right _ hm0
    rw [le_div_iff₀ (by norm_num)]
    unfold jsSum_fl
    push_cast at s1 ⊢
    linarith
  have a2 : fl (jsSum_fl fl (List.replicate 20 w) / ((20 : ℕ) : ℚ))
      ≤ w * (1 + unitRoundoff) ^ 21 := by
    refine le_trans (h.upper hS0) ?_
    rw [pow_succ, ← mul_assoc]
    apply mul_le_mul_of_nonneg_right _ hM0
    rw [div_le_iff₀ (by norm_num)]
    unfold jsSum_fl
    push_cast at s2 ⊢
    linarith
  have hlo21 : (9 : ℚ) / 10 ≤ (1 - unitRoundoff) ^ 21 := by norm_num [unitRoundoff]
  have hhi21 : (1 + unitRoundoff) ^ 21 ≤ (11 : ℚ) / 10 := by norm_num [unitRoundoff]
  have hA0 : 0 < fl (jsSum_fl fl (List.replicate 20 w) / ((20 : ℕ) : ℚ)) := by
    refine lt_of_lt_of_le ?_ a1
    exact mul_pos hw (by linarith)
  have hq0 : 0 ≤ w / fl (jsSum_fl fl (List.replicate 20 w) / ((20 : ℕ) : ℚ)) :=
    div_nonneg (le_of_lt hw) (le_of_lt hA0)
  have q1 : (10 : ℚ) / 11 ≤ w / fl (jsSum_fl fl (List.replicate 20 w) / ((20 : ℕ) : ℚ)) := by
    rw [div_le_div_iff₀ (by norm_num) hA0]
    have := le_trans a2 (mul_le_mul_of_nonneg_left hhi21 (le_of_lt hw))
    linarith
  have q2 : w / fl (jsSum_fl fl (List.replicate 20 w) / ((20 : ℕ) : ℚ)) ≤ (10 : ℚ) / 9 := by
    rw [div_le_div_iff₀ hA0 (by norm_num)]
    have := le_trans (mul_le_mul_of_nonneg_left hlo21 (le_of_lt hw)) a1
    linarith
  refine ⟨fl (w / fl (jsSum_fl fl (List.replicate 20 w) / ((20 : ℕ) : ℚ))), ?_, ?_, ?_⟩
  · have hg : (List.replicate (m + 1)
        (fl (jsSum_fl fl (List.replicate 20 w) / ((20 : ℕ) : ℚ)))).getLast?
        = some (fl (jsSum_fl fl (List.replicate 20 w) / ((20 : ℕ) : ℚ))) := by
      rw [List.getLast?_eq_getLast _ (by simp)]
      exact congrArg some (List.getLast_replicate _)
    simp only [volumeRatio_fl, hlast, calculateSMA_fl_replicate fl _ 20 w (by decide), e1, hg,
      jsOr, if_neg (ne_of_gt hA0), JSNum.div_fin _ _ (ne_of_gt hA0), JSNum.round]
  · have h1 := h.lower hq0
    have hh : (9 : ℚ) / 10 ≤ 1 - unitRoundoff := by norm_num [unitRoundoff]
    have h2 : (10 : ℚ) / 11 * (9 / 10)
        ≤ w / fl (jsSum_fl fl (List.replicate 20 w) / ((20 : ℕ) : ℚ)) * (1 - unitRoundoff) :=
      mul_le_mul q1 hh (by norm_num) hq0
    linarith
  · have h1 := h.upper hq0
    have hh : 1 + unitRoundoff ≤ (11 : ℚ) / 10 := by norm_num [unitRoundoff]
    have h2 : w / fl (jsSum_fl fl (List.replicate 20 w) / ((20 : ℕ) : ℚ)) * (1 + unitRoundoff)
        ≤ (10 : ℚ) / 9 * (11 / 10) :=
      mul_le_mul q2 hh hM0 (by norm_num)
    linarith

/-! ### Confidence on a flat series -/

theorem scoreTrend_strength_flat (currentPrice : JSNum) (ind : Indicators)
    (patterns : PatternReport) (marketStructure : MarketStructure) (r : ℚ)
    (hrsi : ind.rsi = JSNum.fin 0) (hvr : Indicators.volumeRatio ind = JSNum.fin r)
    (hr1 : 7 / 10 ≤ r) (hr2 : r ≤ 3 / 2)
    (hbull : patterns.bullishPatterns = 0) (hbear : patterns.bearishPatterns = 3) :
    (scoreTrend currentPrice ind patterns marketStructure).2 = 4 := by
  have h1 : (JSNum.fin r).gt (JSNum.fin (3 / 2)) = false := by
    simp [JSNum.gt, JSNum.lt, hr2]
  have h2 : (JSNum.fin r).lt (JSNum.fin (7 / 10)) = false := by
    simp [JSNum.lt, hr1]
  have h3 : (JSNum.fin 0).lt (JSNum.fin 30) = true := by
    simp [JSNum.lt]
  unfold scoreTrend
  simp only [pair_match_eq, ite_pair_snd, ite_pair_fst, hrsi, hvr, h1, h2, h3, hbull, hbear]
  norm_num

theorem computeConfidence_flat (s : Int) (patterns : PatternReport)
    (hbull : patterns.bullishPatterns = 0) (hbear : patterns.bearishPatterns = 3) :
    computeConfidence s 4 patterns = 63 + min (|s| * 3) 30 := by
  have habs : 0 ≤ |s| := abs_nonneg s
  simp only [computeConfidence, hbull, hbear]
  norm_num
  omega

theorem generateOptimizedPositions_nil_iff (currentPrice : JSNum)
    (futurePrices : List LinePoint) (indicators : Indicators) (trend : TrendLabel)
    (positions : List Position)
    (h : generateOptimizedPositions currentPrice futurePrices indicators trend
      = some positions) :
    (positions = [] ↔ trend = TrendLabel.neutral) ∧ positions.length ≤ 1 := by
  unfold generateOptimizedPositions at h
  cases trend with
  | bullish =>
    simp only [if_true] at h
    cases hl : futurePrices.getLast? with
    | none => simp [hl] at h
    | some lp =>
      simp only [hl] at h
      have := (Option.some.inj h).symm
      rw [this]
      simp
  | bearish =>
    simp only [if_neg (by decide : ¬ TrendLabel.bearish = TrendLabel.bullish), if_true] at h
    cases hl : futurePrices.getLast? with
    | none => simp [hl] at h
    | some lp =>
      simp only [hl] at h
      have := (Option.some.inj h).symm
      rw [this]
      simp
  | neutral =>
    simp only [if_neg (by decide : ¬ TrendLabel.neutral = TrendLabel.bullish),
      if_neg (by decide : ¬ TrendLabel.neutral = TrendLabel.bearish)] at h
    have := (Option.some.inj h).symm
    rw [this]
    simp

theorem generateUltimatePredictionFull_flat (random : ℕ → ℚ) (toFixed : JSNum → ℕ → String)
    (currentTimeframe : String) (data : List Candle) (v : ℚ) (hv : 0 < v)
    (hlen : data.length = 250)
    (hflat : ∀ c ∈ data, c.open_ = v ∧ c.high = v ∧ c.low = v ∧ c.close = v)
    (ind : Indicators) (r : ℚ) (fibonacci : Option FibonacciLevels) (smartMoney : SmartMoney)
    (hrsi : ind.rsi = JSNum.fin 0) (hvr : Indicators.volumeRatio ind = JSNum.fin r)
    (hr1 : 7 / 10 ≤ r) (hr2 : r ≤ 3 / 2) :
    ∃ p, generateUltimatePredictionFull random toFixed currentTimeframe data ind
        (detectAdvancedPatterns data) (analyzeAdvancedMarketStructure data) fibonacci
        smartMoney = some p ∧
      p.confidence = 63 + min (|(scoreTrend (JSNum.fin v) ind (detectAdvancedPatterns data)
        (analyzeAdvancedMarketStructure data)).1| * 3) 30 ∧
      63 ≤ p.confidence ∧ p.confidence ≤ 93 ∧
      (p.positions = [] ↔ p.trend = TrendLabel.neutral) ∧ p.positions.length ≤ 1 := by
  have hpat := detectAdvancedPatterns_flat data v hv (by omega) hflat
  have hne : data ≠ [] := by
    intro h0
    rw [h0] at hlen
    simp at hlen
  have hsplit := List.dropLast_append_getLast hne
  have hclose : (data.getLast hne).close = v := (hflat _ (List.getLast_mem hne)).2.2.2
  obtain ⟨p, hp, -, hc, -, -, hpos⟩ := generateUltimatePredictionFull_fields random toFixed
    currentTimeframe data.dropLast (data.getLast hne) ind (detectAdvancedPatterns data)
    (analyzeAdvancedMarketStructure data) fibonacci smartMoney
  rw [hsplit] at hp
  rw [hclose] at hc
  have hs := scoreTrend_strength_flat (JSNum.fin v) ind (detectAdvancedPatterns data)
    (analyzeAdvancedMarketStructure data) r hrsi hvr hr1 hr2 (by rw [hpat]) (by rw [hpat])
  rw [hs, computeConfidence_flat _ _ (by rw [hpat]) (by rw [hpat])] at hc
  have habs : 0 ≤ |(scoreTrend (JSNum.fin v) ind (detectAdvancedPatterns data)
      (analyzeAdvancedMarketStructure data)).1| := abs_nonneg _
  obtain ⟨hp1, hp2⟩ := generateOptimizedPositions_nil_iff _ _ _ _ _ hpos
  refine ⟨p, hp, hc, ?_, ?_, hp1, hp2⟩
  · rw [hc]
    omega
  · rw [hc]
    omega

/-- C23 (amended): for a flat series of 250 candles whose open, high, low and close are
all the same positive value `v` and whose volume is a positive constant `w`:
whatever values the moving averages, the MACD and the Bollinger bands take (they depend
on how the double arithmetic rounds), as long as the RSI is 0 and the volume ratio lies
between 0.7 and 1.5, the prediction has confidence `63 + min(3 * |trendScore|, 30)`,
which lies between 63 and 93 and is never the floor 30, and its positions list is empty
exactly when the trend is neutral (otherwise it holds one position).  The indicators
computed from the series have RSI 0 and a volume ratio between 0.7 and 1.5, in exact
and in double arithmetic alike.  The pipeline returns such a prediction for every
random source (and a square root with `sqrt 0 = 0`). -/
theorem analysisPipeline_flat_confidence (random : ℕ → ℚ) (toFixed : JSNum → ℕ → String)
    (sqrt : ℚ → ℚ) (hsqrt : sqrt 0 = 0) (currentTimeframe : String)
    (data : List Candle) (v w : ℚ) (hv : 0 < v) (hw : 0 < w) (hlen : data.length = 250)
    (hflat : ∀ c ∈ data, c.open_ = v ∧ c.high = v ∧ c.low = v ∧ c.close = v)
    (hvol : ∀ c ∈ data, c.volume = some w) :
    (∀ (ind : Indicators) (r : ℚ) (fibonacci : Option FibonacciLevels)
        (smartMoney : SmartMoney),
      ind.rsi = JSNum.fin 0 → Indicators.volumeRatio ind = JSNum.fin r →
      7 / 10 ≤ r → r ≤ 3 / 2 →
      ∃ p, generateUltimatePredictionFull random toFixed currentTimeframe data ind
          (detectAdvancedPatterns data) (analyzeAdvancedMarketStructure data) fibonacci
          smartMoney = some p ∧
        p.confidence = 63 + min (|(scoreTrend (JSNum.fin v) ind (detectAdvancedPatterns data)
          (analyzeAdvancedMarketStructure data)).1| * 3) 30 ∧
        63 ≤ p.confidence ∧ p.confidence ≤ 93 ∧
        (p.positions = [] ↔ p.trend = TrendLabel.neutral) ∧ p.positions.length ≤ 1) ∧
    (∃ ind r, calculateAdvancedIndicators sqrt data = some ind ∧ ind.rsi = JSNum.fin 0 ∧
      Indicators.volumeRatio ind = JSNum.fin r ∧ 7 / 10 ≤ r ∧ r ≤ 3 / 2) ∧
    lastNumber (calculateRSI_fl roundDouble (data.map fun c => c.close) 14) = JSNum.fin 0 ∧
    (∃ r, volumeRatio_fl roundDouble (data.map fun c => jsOr c.volume 0) = JSNum.fin r ∧
      7 / 10 ≤ r ∧ r ≤ 3 / 2) ∧
    (∃ p, analysisPipeline random toFixed sqrt currentTimeframe data = some p ∧
      63 ≤ p.confidence ∧ p.confidence ≤ 93 ∧ p.confidence ≠ 30 ∧
      (p.positions = [] ↔ p.trend = TrendLabel.neutral) ∧ p.positions.length ≤ 1) := by
  obtain ⟨ind, hind, -, -, -, -, hrsi, -, -, hvr, -⟩ :=
    calculateAdvancedIndicators_flat sqrt hsqrt data v w hv hlen hflat hvol
  rw [if_neg (ne_of_gt hw)] at hvr
  have hcloses : data.map (fun c => c.close) = List.replicate 250 v := by
    rw [map_eq_replicate_of_forall _ _ v (fun c hc => (hflat c hc).2.2.2), hlen]
  have hvolumes : data.map (fun c => jsOr c.volume 0) = List.replicate 250 w := by
    rw [map_eq_replicate_of_forall _ _ w, hlen]
    intro c hc
    rw [hvol c hc]
    simp [jsOr, ne_of_gt hw]
  refine ⟨fun ind r fibonacci smartMoney h1 h2 h3 h4 =>
    generateUltimatePredictionFull_flat random toFixed currentTimeframe data v hv hlen hflat
      ind r fibonacci smartMoney h1 h2 h3 h4,
    ⟨ind, 1, hind, hrsi, hvr, by norm_num, by norm_num⟩, ?_, ?_, ?_⟩
  · rw [hcloses, calculateRSI_fl_replicate roundDouble_roundsToNearest]
    exact lastNumber_replicate 234 0
  · rw [hvolumes]
    exact volumeRatio_fl_replicate roundDouble_roundsToNearest w hw 250 (by decide)
  obtain ⟨p, hp, -, c1, c2, hp1, hp2⟩ := generateUltimatePredictionFull_flat random toFixed
    currentTimeframe data v hv hlen hflat ind 1 (calculateFibonacciLevels data)
    (detectSmartMoneyConcepts data) hrsi hvr (by norm_num) (by norm_num)
  exact ⟨p, by simp only [analysisPipeline, hind, hp], c1, c2, by omega, hp1, hp2⟩

/-- Witness for C23 (amended): 250 copies of `flatVolumeCandle` (price 100, volume 5) on
the 5m timeframe. -/
theorem analysisPipeline_flat_confidence_witness :
    (fun _ : ℚ => (0 : ℚ)) 0 = 0 ∧ (0 : ℚ) < 100 ∧ (0 : ℚ) < 5 ∧
      (List.replicate 250 flatVolumeCandle).length = 250 ∧
      (∀ c ∈ List.replicate 250 flatVolumeCandle,
        c.open_ = 100 ∧ c.high = 100 ∧ c.low = 100 ∧ c.close = 100) ∧
      (∀ c ∈ List.replicate 250 flatVolumeCandle, c.volume = some 5) ∧
      (∀ (ind : Indicators) (r : ℚ) (fibonacci : Option FibonacciLevels)
          (smartMoney : SmartMoney),
        ind.rsi = JSNum.fin 0 → Indicators.volumeRatio ind = JSNum.fin r →
        7 / 10 ≤ r → r ≤ 3 / 2 →
        ∃ p, generateUltimatePredictionFull (fun i => (i : ℚ) / 13) (fun _ _ => "") "5m"
            (List.replicate 250 flatVolumeCandle) ind
            (detectAdvancedPatterns (List.replicate 250 flatVolumeCandle))
            (analyzeAdvancedMarketStructure (List.replicate 250 flatVolumeCandle)) fibonacci
            smartMoney = some p ∧
          p.confidence = 63 + min (|(scoreTrend (JSNum.fin 100) ind
            (detectAdvancedPatterns (List.replicate 250 flatVolumeCandle))
            (analyzeAdvancedMarketStructure (List.replicate 250 flatVolumeCandle))).1| * 3) 30 ∧
          63 ≤ p.confidence ∧ p.confidence ≤ 93 ∧
          (p.positions = [] ↔ p.trend = TrendLabel.neutral) ∧ p.positions.length ≤ 1) ∧
      (∃ ind r, calculateAdvancedIndicators (fun _ => 0) (List.replicate 250 flatVolumeCandle)
          = some ind ∧ ind.rsi = JSNum.fin 0 ∧ Indicators.volumeRatio ind = JSNum.fin r ∧
        7 / 10 ≤ r ∧ r ≤ 3 / 2) ∧
      lastNumber (calculateRSI_fl roundDouble
        ((List.replicate 250 flatVolumeCandle).map fun c => c.close) 14) = JSNum.fin 0 ∧
      (∃ r, volumeRatio_fl roundDouble
          ((List.replicate 250 flatVolumeCandle).map fun c => jsOr c.volume 0) = JSNum.fin r ∧
        7 / 10 ≤ r ∧ r ≤ 3 / 2) ∧
      (∃ p, analysisPipeline (fun i => (i : ℚ) / 13) (fun _ _ => "") (fun _ => 0) "5m"
          (List.replicate 250 flatVolumeCandle) = some p ∧
        63 ≤ p.confidence ∧ p.confidence ≤ 93 ∧ p.confidence ≠ 30 ∧
        (p.positions = [] ↔ p.trend = TrendLabel.neutral) ∧ p.positions.length ≤ 1) := by
  have hflat : ∀ c ∈ List.replicate 250 flatVolumeCandle,
      c.open_ = 100 ∧ c.high = 100 ∧ c.low = 100 ∧ c.close = 100 := by
    intro c hc
    rw [List.eq_of_mem_replicate hc]
    exact ⟨rfl, rfl, rfl, rfl⟩
  have hvol : ∀ c ∈ List.replicate 250 flatVolumeCandle, c.volume = some 5 := by
    intro c hc
    rw [List.eq_of_mem_replicate hc]
    rfl
  exact ⟨rfl, by norm_num, by norm_num, List.length_replicate _ _, hflat, hvol,
    analysisPipeline_flat_confidence (fun i => (i : ℚ) / 13) (fun _ _ => "") (fun _ => 0)
      rfl "5m" (List.replicate 250 flatVolumeCandle) 100 5 (by norm_num) (by norm_num)
      (List.length_replicate _ _) hflat hvol⟩

end BTCUSD
